import Mathlib

/-!
# SpiNNaker PDP2: packet queues, packet routing, scoreboards and tick advance

A shallow embedding of the communication routines of the sum core
(`c_code/comms_s.c`), the threshold core (`c_code/comms_t.c`), the weight core
(`process_w.c`) and the input core (`c_code/process_i.c`, `c_code/input.c`),
with the constants of `c_code/mlp_params.h`.

Conventions of the embedding.

* A C `uint` is a `Nat`; every operation that can leave the 32-bit range is
  followed by `uint` (reduction modulo `2 ^ 32`).
* Signed fixed-point values are `Int`; a cast to a signed type of `w` bits is
  `to_signed w`.
* A C array is a total map from indices to values.
* Every routine maps a state to a new state and the list of the calls it made,
  in program order (`Event`).  Calls into the SpiNNaker API only appear in that
  list.  A routine of this program whose body is in a file that is not part of
  these sources also appears in the list, and its effect on the state is given
  by a parameter `env`.
* A loop `while (!spin1_send_mc_packet (...));` is recorded as the one send
  that the router accepts.
* Flags that the code only sets to `TRUE` or `FALSE` are `Bool`.
* `#ifdef DEBUG` code is guarded by the field `DEBUG` of `Defines`; `TRACE`
  and `PROFILE` code only prints and is left out.
* Macros used by the code that `mlp_params.h` does not define are fields of
  `Defines`.
-/

namespace PDP2

/-! ## Machine arithmetic -/

/-- Value of a C `uint` expression: reduction modulo `2 ^ 32`. -/
def uint (n : Nat) : Nat := n % 2 ^ 32

/-- Subtraction of two `uint` values, `a - b` in C.  The constant is the left
operand of the sum, so that the sum does not reduce when `a` is a variable. -/
def uint_sub (a b : Nat) : Nat := ((2 ^ 32 - b % 2 ^ 32) + a) % 2 ^ 32

/-- Bitwise complement of a `uint`, `~m` in C. -/
def uint_not (m : Nat) : Nat := (2 ^ 32 - 1) ^^^ (m % 2 ^ 32)

/-- Cast of an integer value to a signed two-complement type of `w` bits. -/
def to_signed (w : Nat) (x : Int) : Int :=
  (x + 2 ^ (w - 1)) % 2 ^ w - 2 ^ (w - 1)

/-! ## Constants of `mlp_params.h` -/

def SPINN_STEEPEST_UPDATE : Nat := 0
def SPINN_MOMENTUM_UPDATE : Nat := 1
def SPINN_DOUGSMOMENTUM_UPDATE : Nat := 2

def SPINN_NET_CONT : Nat := 3

def SPINN_FORWARD : Nat := 0
/-- In C: `(!SPINN_FORWARD)`. -/
def SPINN_BACKPROP : Nat := 1

def SPINN_W_INIT_TICK : Nat := 0
def SPINN_S_INIT_TICK : Nat := 1
def SPINN_I_INIT_TICK : Nat := 1
def SPINN_T_INIT_TICK : Nat := 1
def SPINN_WB_END_TICK : Nat := 1
def SPINN_SB_END_TICK : Nat := 1
def SPINN_IB_END_TICK : Nat := 1
def SPINN_TB_END_TICK : Nat := 1

def SPINN_SYNC_KEY : Nat := 0x00001000
def SPINN_LDST_KEY : Nat := 0x00002000
def SPINN_LDSA_KEY : Nat := 0x00003000
def SPINN_LDSR_KEY : Nat := 0x00002800
def SPINN_STPC_KEY : Nat := 0x00003200
def SPINN_STOP_KEY : Nat := 0x00003a00

def SPINN_TYPE_MASK : Nat := 0x00003a00

def SPINN_PHASE_SHIFT : Nat := 11
def SPINN_PHASE_MASK : Nat := 1 <<< SPINN_PHASE_SHIFT
def SPINN_COLOUR_SHIFT : Nat := 10
def SPINN_COLOUR_MASK : Nat := 1 <<< SPINN_COLOUR_SHIFT
def SPINN_COLOUR_KEY : Nat := SPINN_COLOUR_MASK

def SPINN_OUTPUT_MASK : Nat := 0x000000ff
def SPINN_NET_MASK : Nat := 0x000000ff
def SPINN_DELTA_MASK : Nat := 0x000000ff
def SPINN_ERROR_MASK : Nat := 0x000000ff
def SPINN_STPD_MASK : Nat := 0x000000ff

def SPINN_THLD_PQ_LEN : Nat := 256
def SPINN_WEIGHT_PQ_LEN : Nat := 512
def SPINN_SUM_PQ_LEN : Nat := 512
def SPINN_INPUT_PQ_LEN : Nat := 512

def SPINN_UPDT_WEIGHT_P : Int := 1
def SPINN_WF_PROCESS_P : Int := 2
def SPINN_WB_PROCESS_P : Int := 2
def SPINN_S_PROCESS_P : Int := 2
def SPINN_TB_TICK_P : Int := 1
def SPINN_TF_TICK_P : Int := 1
def SPINN_TF_PROCESS_P : Int := 2
def SPINN_SEND_STOP_P : Int := 1

def SPINN_NO_ERROR : Nat := 0
def SPINN_MEM_UNAVAIL : Nat := 1
def SPINN_QUEUE_FULL : Nat := 2
def SPINN_TIMEOUT_EXIT : Nat := 3
def SPINN_UNXPD_PKT : Nat := 4

/-- Build switches, and the macros and type widths that the code uses but
`mlp_params.h` does not define (they come from headers that are not part of
these sources). -/
structure Defines where
  DEBUG : Bool
  DEBUG_THRDS : Bool
  SPINN_USE_COUNTER_SB : Bool
  SPINN_DATA_KEY : Nat
  SPINN_STPN_KEY : Nat
  SPINN_SGEN_KEY : Nat
  SPINN_DLRV_KEY : Nat
  SPINN_THRD_STOP : Nat
  SPINN_THRD_SYNC : Nat
  SPINN_THRD_LDSA : Nat
  SPINN_SF_THRDS : Nat
  SPINN_DONE_P : Int
  SPINN_STPD_SHIFT : Nat
  SPINN_RESTART : Nat
  SPINN_ACTIV_SHIFT : Nat
  SPINN_WEIGHT_SHIFT : Nat
  SPINN_NET_SHIFT : Nat
  SPINN_DELTA_SHIFT : Nat
  SPINN_LONG_DELTA_SHIFT : Nat
  SPINN_ERROR_SHIFT : Nat
  SPINN_FPREAL_SHIFT : Nat
  SPINN_SHORT_WEIGHT_MAX : Int
  SPINN_SHORT_WEIGHT_MIN : Int
  SPINN_SHORT_WEIGHT_POS_DELTA : Int
  SPINN_SHORT_WEIGHT_NEG_DELTA : Int
  lds_bits : Nat
  error_bits : Nat
  long_error_bits : Nat
  delta_bits : Nat
  long_delta_bits : Nat
  net_bits : Nat
  weight_bits : Nat
  short_weight_bits : Nat
  long_wchange_bits : Nat
  long_net_bits : Nat
  SPINN_LONG_FPREAL_SHIFT : Nat
  SPINN_NET_MAX : Int
  SPINN_NET_MIN : Int

/-! ## Packets, queues and the record of calls -/

structure packet_t where
  key : Nat
  payload : Nat
deriving DecidableEq, Repr

structure pkt_queue_t where
  head : Nat
  tail : Nat
  queue : Nat → packet_t

/-- Routines that can be handed to `spin1_schedule_callback`. -/
inductive Callback where
  | s_processQueue
  | stage_done
  | tb_advance_tick
  | tf_advance_tick
  | tf_send_stop
  | tf_process
  | wf_process
  | wb_process
deriving DecidableEq, Repr

/-- Routines of this program that are called here and defined in files that are
not part of these sources. -/
inductive Outside where
  | sf_process (key payload : Nat)
  | sb_process (key payload : Nat)
  | sf_advance_tick
  | sb_advance_tick
  | stage_done (ec key : Nat)
  | tick_init (restart unused : Nat)
  | done (ec : Nat)
deriving DecidableEq, Repr

/-- Routines of these sources whose calls are recorded. -/
inductive Routine where
  | i_advance_example
  | if_advance_event
  | restore_nets (tick : Nat)
deriving DecidableEq, Repr

/-- Packet handlers the sum core router can select. -/
inductive Handler where
  | sf_process (key payload : Nat)
  | sb_process (key payload : Nat)
  | s_lds_packet (payload : Nat)
  | s_stop_packet (key : Nat)
  | s_net_stop_packet (key : Nat)
  | s_sync_packet
  | s_sgen_packet
  | s_dlrv_packet
deriving DecidableEq, Repr

/-- One entry of the record of calls.  `enqueued` and `dequeued` mark the
places where a packet is written to and read from a queue; `handler` marks the
call of a packet handler by a router; `invoke` marks the call of a routine of
these sources by another one; `clear_s_active` marks the place where
`s_processQueue` stores FALSE in `s_active`. -/
inductive Event where
  | int_disable
  | mode_restore
  | schedule (cb : Callback) (arg0 arg1 : Nat) (priority : Int)
  | send_mc_packet (key payload : Nat) (with_payload : Bool)
  | spin1_stop
  | spin1_exit (ec : Nat)
  | call (r : Outside)
  | enqueued (key payload : Nat)
  | dequeued (key payload : Nat)
  | handler (h : Handler)
  | invoke (r : Routine)
  | clear_s_active
deriving DecidableEq, Repr

/-- Packets written to a queue, in order. -/
def enqueued_pkts : List Event → List (Nat × Nat)
  | [] => []
  | Event.enqueued k p :: t => (k, p) :: enqueued_pkts t
  | _ :: t => enqueued_pkts t

/-- Packets read from a queue, in order. -/
def dequeued_pkts : List Event → List (Nat × Nat)
  | [] => []
  | Event.dequeued k p :: t => (k, p) :: dequeued_pkts t
  | _ :: t => dequeued_pkts t

/-- Handlers called by a router, in order. -/
def handler_calls : List Event → List Handler
  | [] => []
  | Event.handler h :: t => h :: handler_calls t
  | _ :: t => handler_calls t

/-! ## Sum core (`comms_s.c`) -/

/-- Fields of `scfg` read by `comms_s.c`. -/
structure s_conf_t where
  num_units : Nat
  sync_expected : Nat
  lds_expected : Nat
  is_first_group : Bool
  is_tree_root : Bool

/-- Fields of `xcfg` read by `comms_s.c` and `process_i.c`. -/
structure stage_conf_t where
  update_function : Nat
  num_examples : Nat
  training : Bool

/-- Global variables of the sum core read or written by `comms_s.c`. -/
structure SumCore where
  s_pkt_queue : pkt_queue_t
  s_active : Bool
  tick_stop : Nat
  net_stop : Nat
  net_stop_rdy : Bool
  sf_thrds_pend : Nat
  sb_thrds_pend : Nat
  sb_thrds_init : Nat
  s_sync_arrived : Nat
  s_lds_part : Int
  s_lds_arrived : Nat
  s_nets : Nat → Int
  sf_arrived : Nat → Nat
  sf_done : Nat
  phase : Nat
  tick : Nat
  example_cnt : Nat
  bpsKey : Nat
  ldsKey : Nat
  pkt_recv : Nat
  pkt_sent : Nat
  spk_recv : Nat
  spk_sent : Nat
  stp_recv : Nat
  stn_recv : Nat
  lds_recv : Nat
  lds_sent : Nat
  dlr_recv : Nat
  wrng_sth : Nat
  wrng_cth : Nat

/-- Call of a routine defined outside these sources: the call is recorded and
the state becomes what `env` says. -/
def call_outside {σ : Type} (env : Outside → σ → σ) (r : Outside) (s : σ) :
    σ × List Event :=
  (env r s, [Event.call r])

/-- Code of `s_receivePacket`: enqueue received packet. -/
def s_receivePacket (D : Defines) (env : Outside → SumCore → SumCore)
    (key payload : Nat) (s : SumCore) : SumCore × List Event :=
  let s := if D.DEBUG then { s with pkt_recv := uint (s.pkt_recv + 1) } else s
  -- queue packet - if space available
  let new_tail := uint (s.s_pkt_queue.tail + 1) % SPINN_SUM_PQ_LEN
  if new_tail = s.s_pkt_queue.head then
    -- report queue full error
    call_outside env (Outside.stage_done SPINN_QUEUE_FULL 0) s
  else
    -- if not full enqueue packet,
    let q := s.s_pkt_queue
    let s := { s with s_pkt_queue :=
      { q with queue := Function.update q.queue q.tail ⟨key, payload⟩,
               tail := new_tail } }
    -- and schedule processing thread -- if not active already
    if s.s_active = false then
      ({ s with s_active := true },
        [Event.enqueued key payload,
         Event.schedule Callback.s_processQueue 0 0 SPINN_S_PROCESS_P])
    else
      (s, [Event.enqueued key payload])

/-- Code of `s_stop_packet`: process a tick stop packet. -/
def s_stop_packet (D : Defines) (env : Outside → SumCore → SumCore)
    (key : Nat) (s : SumCore) : SumCore × List Event :=
  let s := if D.DEBUG then { s with stp_recv := uint (s.stp_recv + 1) } else s
  -- tick stop decision arrived,
  let s := { s with tick_stop := key &&& SPINN_STPD_MASK }
  -- access thread semaphore with interrupts disabled,
  let s := if D.DEBUG && D.DEBUG_THRDS then
      (if s.sf_thrds_pend &&& D.SPINN_THRD_STOP = 0
        then { s with wrng_sth := uint (s.wrng_sth + 1) } else s)
    else s
  -- and check if all other threads done
  if s.sf_thrds_pend = D.SPINN_THRD_STOP then
    -- if done initialise semaphore, restore interrupts and advance tick
    let r := call_outside env Outside.sf_advance_tick
      { s with sf_thrds_pend := D.SPINN_SF_THRDS }
    (r.1, [Event.int_disable, Event.mode_restore] ++ r.2)
  else
    -- if not done report processing thread done,
    ({ s with sf_thrds_pend := s.sf_thrds_pend &&& uint_not D.SPINN_THRD_STOP },
      [Event.int_disable, Event.mode_restore])

/-- Code of `s_net_stop_packet`: process a network stop packet. -/
def s_net_stop_packet (D : Defines) (key : Nat) (s : SumCore) :
    SumCore × List Event :=
  let s := if D.DEBUG then { s with stn_recv := uint (s.stn_recv + 1) } else s
  -- network stop decision arrived,
  let s := { s with net_stop := key &&& SPINN_STPD_MASK }
  -- and check if ready for network stop decision
  if s.net_stop_rdy then
    -- clear flag,
    let s := { s with net_stop_rdy := false }
    -- and decide what to do
    if s.net_stop ≠ 0 then
      -- finish stage and report no error
      (s, [Event.int_disable, Event.mode_restore,
           Event.schedule Callback.stage_done SPINN_NO_ERROR 0 D.SPINN_DONE_P])
    else
      (s, [Event.int_disable, Event.mode_restore])
  else
    -- flag ready for net_stop decision,
    ({ s with net_stop_rdy := true }, [Event.int_disable, Event.mode_restore])

/-- Code of `s_sync_packet`: process a backprop synchronisation packet. -/
def s_sync_packet (D : Defines) (env : Outside → SumCore → SumCore)
    (s : SumCore) : SumCore × List Event :=
  let s := if D.DEBUG then { s with spk_recv := uint (s.spk_recv + 1) } else s
  -- advance tick
  call_outside env Outside.sb_advance_tick s

/-- Code of `s_sgen_packet`: process a backprop synchronisation generation
packet. -/
def s_sgen_packet (D : Defines) (env : Outside → SumCore → SumCore)
    (scfg : s_conf_t) (xcfg : stage_conf_t) (s : SumCore) :
    SumCore × List Event :=
  let s := if D.DEBUG then { s with spk_recv := uint (s.spk_recv + 1) } else s
  -- update count of sync packets,
  let s := { s with s_sync_arrived := uint (s.s_sync_arrived + 1) }
  -- and check if all expected packets arrived
  if s.s_sync_arrived = scfg.sync_expected then
    -- prepare for next synchronisation,
    let s := { s with s_sync_arrived := 0 }
    -- and check if all other threads done
    if s.sb_thrds_pend = D.SPINN_THRD_SYNC then
      -- initialise semaphore,
      let s := { s with sb_thrds_pend := s.sb_thrds_init }
      -- wait for the partial link delta sums at the end of the epoch
      let s :=
        if xcfg.update_function = SPINN_DOUGSMOMENTUM_UPDATE
            ∧ s.example_cnt = uint_sub xcfg.num_examples 1
            ∧ s.tick = SPINN_SB_END_TICK + 1 then
          { s with sb_thrds_pend := s.sb_thrds_init ||| D.SPINN_THRD_LDSA }
        else s
      -- send sync packet to allow next tick to start,
      let r1 : SumCore × List Event :=
        if scfg.is_tree_root then
          ((if D.DEBUG then
              { s with pkt_sent := uint (s.pkt_sent + 1),
                       spk_sent := uint (s.spk_sent + 1) }
            else s),
           [Event.send_mc_packet s.bpsKey 0 false])
        else (s, [])
      -- and advance tick
      let r2 : SumCore × List Event :=
        if scfg.is_first_group && scfg.is_tree_root then
          call_outside env Outside.sb_advance_tick r1.1
        else (r1.1, [])
      (r2.1, [Event.int_disable, Event.mode_restore] ++ r1.2 ++ r2.2)
    else
      -- report sync thread done,
      ({ s with sb_thrds_pend := s.sb_thrds_pend &&& uint_not D.SPINN_THRD_SYNC },
        [Event.int_disable, Event.mode_restore])
  else (s, [])

/-- Code of `s_lds_packet`: accumulate the received partial link delta sums. -/
def s_lds_packet (D : Defines) (env : Outside → SumCore → SumCore)
    (scfg : s_conf_t) (payload : Nat) (s : SumCore) : SumCore × List Event :=
  let s := if D.DEBUG then { s with lds_recv := uint (s.lds_recv + 1) } else s
  -- add the received value to the total so far,
  let part := to_signed D.lds_bits (s.s_lds_part + to_signed D.lds_bits payload)
  let s := { s with s_lds_part := part }
  -- increment the count of partial link delta sums arrived,
  let s := { s with s_lds_arrived := uint (s.s_lds_arrived + 1) }
  -- check whether all the partial sums have arrived
  if s.s_lds_arrived = scfg.lds_expected then
    -- broadcast (first subgroup) or relay (all others) lds value
    let e1 := Event.send_mc_packet s.ldsKey (s.s_lds_part % 2 ^ 32).toNat true
    let s := if D.DEBUG then
        { s with pkt_sent := uint (s.pkt_sent + 1),
                 lds_sent := uint (s.lds_sent + 1) }
      else s
    -- prepare for next epoch
    let s := { s with s_lds_part := 0, s_lds_arrived := 0 }
    -- access thread semaphore with interrupts disabled
    let s := if D.DEBUG && D.DEBUG_THRDS then
        (if s.sb_thrds_pend &&& D.SPINN_THRD_LDSA = 0
          then { s with wrng_cth := uint (s.wrng_cth + 1) } else s)
      else s
    -- check if all other threads done
    if s.sb_thrds_pend = D.SPINN_THRD_LDSA then
      -- initialise semaphore,
      let s := { s with sb_thrds_pend := s.sb_thrds_init }
      -- send sync packet to allow next tick to start,
      let r1 : SumCore × List Event :=
        if scfg.is_tree_root then
          ((if D.DEBUG then
              { s with pkt_sent := uint (s.pkt_sent + 1),
                       spk_sent := uint (s.spk_sent + 1) }
            else s),
           [Event.send_mc_packet s.bpsKey 0 false])
        else (s, [])
      -- and advance tick
      let r2 := call_outside env Outside.sb_advance_tick r1.1
      (r2.1, [e1, Event.int_disable, Event.mode_restore] ++ r1.2 ++ r2.2)
    else
      -- report processing thread done,
      ({ s with sb_thrds_pend := s.sb_thrds_pend &&& uint_not D.SPINN_THRD_LDSA },
        [e1, Event.int_disable, Event.mode_restore])
  else (s, [])

/-- Code of `s_dlrv_packet`: process a deadlock recovery packet. -/
def s_dlrv_packet (D : Defines) (env : Outside → SumCore → SumCore)
    (scfg : s_conf_t) (s : SumCore) : SumCore × List Event :=
  let s := if D.DEBUG then { s with dlr_recv := uint (s.dlr_recv + 1) } else s
  -- restart tick
  if s.phase = SPINN_FORWARD then
    -- initialise thread semaphore,
    let s := { s with sf_thrds_pend := D.SPINN_SF_THRDS }
    -- and initialise nets and scoreboards
    let s := (List.range scfg.num_units).foldl
      (fun (s : SumCore) (i : Nat) =>
        { s with s_nets := Function.update s.s_nets i 0,
                 sf_arrived := Function.update s.sf_arrived i 0 }) s
    ({ s with sf_done := 0 }, [])
  else
    -- report timeout error
    call_outside env (Outside.stage_done SPINN_TIMEOUT_EXIT 0) s

/-- Code of `s_processQueue`, the routing of one dequeued packet (the chain of
tests on `pkt_type`). -/
def s_processQueue_route (D : Defines) (env : Outside → SumCore → SumCore)
    (scfg : s_conf_t) (xcfg : stage_conf_t) (key payload : Nat) (s : SumCore) :
    SumCore × List Event :=
  let pkt_type := key &&& SPINN_TYPE_MASK
  -- process data packet,
  if pkt_type = D.SPINN_DATA_KEY then
    -- check packet phase and process accordingly
    let ph := (key &&& SPINN_PHASE_MASK) >>> SPINN_PHASE_SHIFT
    if ph = SPINN_FORWARD then
      -- process FORWARD phase packet
      (env (Outside.sf_process key payload) s,
        [Event.handler (Handler.sf_process key payload)])
    else
      -- process BACKPROP phase packet
      (env (Outside.sb_process key payload) s,
        [Event.handler (Handler.sb_process key payload)])
  -- or process LDS packet,
  else if pkt_type = SPINN_LDSA_KEY then
    let r := s_lds_packet D env scfg payload s
    (r.1, Event.handler (Handler.s_lds_packet payload) :: r.2)
  -- or process stop packet,
  else if pkt_type = SPINN_STOP_KEY then
    let r := s_stop_packet D env key s
    (r.1, Event.handler (Handler.s_stop_packet key) :: r.2)
  -- or process network stop packet,
  else if pkt_type = D.SPINN_STPN_KEY then
    let r := s_net_stop_packet D key s
    (r.1, Event.handler (Handler.s_net_stop_packet key) :: r.2)
  -- or process backprop synchronisation packet,
  else if pkt_type = SPINN_SYNC_KEY then
    let r := s_sync_packet D env s
    (r.1, Event.handler Handler.s_sync_packet :: r.2)
  -- or process backprop synchronisation generation packet,
  else if pkt_type = D.SPINN_SGEN_KEY then
    let r := s_sgen_packet D env scfg xcfg s
    (r.1, Event.handler Handler.s_sgen_packet :: r.2)
  -- or process deadlock recovery packet,
  else if pkt_type = D.SPINN_DLRV_KEY then
    let r := s_dlrv_packet D env scfg s
    (r.1, Event.handler Handler.s_dlrv_packet :: r.2)
  -- or report unknown packet type,
  else if D.DEBUG then
    call_outside env (Outside.stage_done SPINN_UNXPD_PKT key) s
  else (s, [])

/-- Code of `s_processQueue`, one pass through the body of the loop: dequeue
the packet at `head`, restore interrupts, route the packet, disable interrupts
again. -/
def s_processQueue_step (D : Defines) (env : Outside → SumCore → SumCore)
    (scfg : s_conf_t) (xcfg : stage_conf_t) (s : SumCore) :
    SumCore × List Event :=
  -- if not empty dequeue packet,
  let q := s.s_pkt_queue
  let key := (q.queue q.head).key
  let payload := (q.queue q.head).payload
  let s := { s with s_pkt_queue :=
    { q with head := uint (q.head + 1) % SPINN_SUM_PQ_LEN } }
  -- restore interrupts after queue access, and route
  let r := s_processQueue_route D env scfg xcfg key payload s
  -- and access queue with interrupts disabled
  (r.1, [Event.dequeued key payload, Event.mode_restore] ++ r.2
          ++ [Event.int_disable])

/-- Code of `s_processQueue`, the loop `while (head != tail)`, run for at most
`fuel` passes; `none` when the loop has not finished by then. -/
def s_processQueue_loop (D : Defines) (env : Outside → SumCore → SumCore)
    (scfg : s_conf_t) (xcfg : stage_conf_t) :
    Nat → SumCore → Option (SumCore × List Event)
  | 0, s => if s.s_pkt_queue.head ≠ s.s_pkt_queue.tail then none else some (s, [])
  | fuel + 1, s =>
    if s.s_pkt_queue.head ≠ s.s_pkt_queue.tail then
      let r := s_processQueue_step D env scfg xcfg s
      match s_processQueue_loop D env scfg xcfg fuel r.1 with
      | none => none
      | some r2 => some (r2.1, r.2 ++ r2.2)
    else some (s, [])

/-- Code of `s_processQueue`: process packet queue until empty. -/
def s_processQueue (D : Defines) (env : Outside → SumCore → SumCore)
    (scfg : s_conf_t) (xcfg : stage_conf_t) (fuel : Nat) (s : SumCore) :
    Option (SumCore × List Event) :=
  -- access queue with interrupts disabled, process until queue empty,
  match s_processQueue_loop D env scfg xcfg fuel s with
  | none => none
  | some r =>
    -- flag going to sleep, and restore interrupts
    some ({ r.1 with s_active := false },
      [Event.int_disable] ++ r.2 ++ [Event.clear_s_active, Event.mode_restore])

/-! ## Test data -/

/-- A set of values for the macros that `mlp_params.h` leaves undefined; the
shifts are those of the fixed-point formats named in the comments of
`process_w.c` (s0.15 activations, s3.12 weights, s8.23 deltas, s36.27 long
deltas, s16.15 errors). -/
def D0 : Defines :=
  { DEBUG := false, DEBUG_THRDS := false, SPINN_USE_COUNTER_SB := false,
    SPINN_DATA_KEY := 0, SPINN_STPN_KEY := 0x3200, SPINN_SGEN_KEY := 0x2000,
    SPINN_DLRV_KEY := 0x2200,
    SPINN_THRD_STOP := 2, SPINN_THRD_SYNC := 2, SPINN_THRD_LDSA := 4,
    SPINN_SF_THRDS := 3, SPINN_DONE_P := 0, SPINN_STPD_SHIFT := 0,
    SPINN_RESTART := 1,
    SPINN_ACTIV_SHIFT := 15, SPINN_WEIGHT_SHIFT := 12, SPINN_NET_SHIFT := 23,
    SPINN_DELTA_SHIFT := 23, SPINN_LONG_DELTA_SHIFT := 27,
    SPINN_ERROR_SHIFT := 15, SPINN_FPREAL_SHIFT := 16,
    SPINN_SHORT_WEIGHT_MAX := 32767, SPINN_SHORT_WEIGHT_MIN := -32767,
    SPINN_SHORT_WEIGHT_POS_DELTA := 1, SPINN_SHORT_WEIGHT_NEG_DELTA := -1,
    lds_bits := 64, error_bits := 32, long_error_bits := 64, delta_bits := 32,
    long_delta_bits := 64, net_bits := 32, weight_bits := 32,
    short_weight_bits := 16, long_wchange_bits := 64, long_net_bits := 64,
    SPINN_LONG_FPREAL_SHIFT := 16, SPINN_NET_MAX := 255 * 2 ^ 23,
    SPINN_NET_MIN := -(255 * 2 ^ 23) }

/-- The same values in a `DEBUG` build. -/
def D0_debug : Defines := { D0 with DEBUG := true }

/-- Routines outside these sources that leave the state alone. -/
def env0 {σ : Type} : Outside → σ → σ := fun _ s => s

def scfg0 : s_conf_t :=
  { num_units := 2, sync_expected := 3, lds_expected := 2,
    is_first_group := true, is_tree_root := true }

def xcfg0 : stage_conf_t :=
  { update_function := 0, num_examples := 4, training := true }

/-- A sum core at rest: empty queue at index 0, all counters zero. -/
def sum0 : SumCore :=
  { s_pkt_queue := { head := 0, tail := 0, queue := fun _ => ⟨0, 0⟩ },
    s_active := false, tick_stop := 0, net_stop := 0, net_stop_rdy := false,
    sf_thrds_pend := 3, sb_thrds_pend := 2, sb_thrds_init := 2,
    s_sync_arrived := 0, s_lds_part := 0, s_lds_arrived := 0,
    s_nets := fun _ => 0, sf_arrived := fun _ => 0, sf_done := 0,
    phase := 0, tick := 1, example_cnt := 0, bpsKey := 0x1000, ldsKey := 0x3000,
    pkt_recv := 0, pkt_sent := 0, spk_recv := 0, spk_sent := 0, stp_recv := 0,
    stn_recv := 0, lds_recv := 0, lds_sent := 0, dlr_recv := 0, wrng_sth := 0,
    wrng_cth := 0 }

/-- A sum core whose queue is full: `head = 0`, `tail = 511`. -/
def sum_full : SumCore :=
  { sum0 with s_pkt_queue := { head := 0, tail := 511, queue := fun i => ⟨i, i⟩ },
              s_active := true }

/-! ## Frame conditions on the routines outside these sources -/

/-- The routines outside these sources do not touch the packet queue. -/
def keeps_queue (env : Outside → SumCore → SumCore) : Prop :=
  ∀ r s, (env r s).s_pkt_queue = s.s_pkt_queue

/-- The routines outside these sources do not touch `s_active`. -/
def keeps_active (env : Outside → SumCore → SumCore) : Prop :=
  ∀ r s, (env r s).s_active = s.s_active

/-! ## Interleavings of packet arrivals and drain passes -/

/-- Packets waiting in a sum core queue, oldest first: the entries at `head`,
`head + 1`, ... (modulo the queue length) up to `tail`. -/
def pending (q : pkt_queue_t) : List (Nat × Nat) :=
  (List.range ((q.tail + SPINN_SUM_PQ_LEN - q.head) % SPINN_SUM_PQ_LEN)).map
    (fun i => ((q.queue ((q.head + i) % SPINN_SUM_PQ_LEN)).key,
               (q.queue ((q.head + i) % SPINN_SUM_PQ_LEN)).payload))

/-- One action on the sum core queue: the arrival of a packet (interrupt), or
one turn of the drain task, at the test of its loop. -/
inductive QueueOp where
  | receive (key payload : Nat)
  | drain_one
deriving DecidableEq, Repr

/-- Run a sequence of arrivals and drain turns.  A drain turn on a non-empty
queue is one pass of the loop of `s_processQueue`; on an empty queue the loop
ends and `s_active` is cleared. -/
def run_queue_ops (D : Defines) (env : Outside → SumCore → SumCore)
    (scfg : s_conf_t) (xcfg : stage_conf_t) :
    List QueueOp → SumCore → SumCore × List Event
  | [], s => (s, [])
  | QueueOp.receive k p :: ops, s =>
    let r := s_receivePacket D env k p s
    let r2 := run_queue_ops D env scfg xcfg ops r.1
    (r2.1, r.2 ++ r2.2)
  | QueueOp.drain_one :: ops, s =>
    let r : SumCore × List Event :=
      if s.s_pkt_queue.head ≠ s.s_pkt_queue.tail then
        s_processQueue_step D env scfg xcfg s
      else ({ s with s_active := false }, [])
    let r2 := run_queue_ops D env scfg xcfg ops r.1
    (r2.1, r.2 ++ r2.2)

/-- Deliver a list of packets to `s_receivePacket`, one after the other. -/
def receive_all (D : Defines) (env : Outside → SumCore → SumCore) :
    List (Nat × Nat) → SumCore → SumCore × List Event
  | [], s => (s, [])
  | kp :: rest, s =>
    let r := s_receivePacket D env kp.1 kp.2 s
    let r2 := receive_all D env rest r.1
    (r2.1, r.2 ++ r2.2)

/-- Number of times the callback `cb` was handed to `spin1_schedule_callback`
in a record of calls. -/
def count_scheduled (cb : Callback) : List Event → Nat
  | [] => 0
  | Event.schedule c _ _ _ :: t =>
    (if c = cb then 1 else 0) + count_scheduled cb t
  | _ :: t => count_scheduled cb t

/-- The type field of `key` is one of the seven type keys that
`s_processQueue` tests for. -/
def recognised (D : Defines) (key : Nat) : Bool :=
  decide (key &&& SPINN_TYPE_MASK = D.SPINN_DATA_KEY
    ∨ key &&& SPINN_TYPE_MASK = SPINN_LDSA_KEY
    ∨ key &&& SPINN_TYPE_MASK = SPINN_STOP_KEY
    ∨ key &&& SPINN_TYPE_MASK = D.SPINN_STPN_KEY
    ∨ key &&& SPINN_TYPE_MASK = SPINN_SYNC_KEY
    ∨ key &&& SPINN_TYPE_MASK = D.SPINN_SGEN_KEY
    ∨ key &&& SPINN_TYPE_MASK = D.SPINN_DLRV_KEY)

/-- A sum core with the single packet `(key, payload)` waiting at `head = 0`. -/
def sum_with (key payload : Nat) : SumCore :=
  { sum0 with
    s_pkt_queue := { head := 0, tail := 1, queue := fun _ => ⟨key, payload⟩ },
    s_active := true }

/-- Run `s_sgen_packet` `k` times in a row. -/
def s_sgen_packets (D : Defines) (env : Outside → SumCore → SumCore)
    (scfg : s_conf_t) (xcfg : stage_conf_t) : Nat → SumCore → SumCore × List Event
  | 0, s => (s, [])
  | k + 1, s =>
    let r := s_sgen_packets D env scfg xcfg k s
    let r2 := s_sgen_packet D env scfg xcfg r.1
    (r2.1, r.2 ++ r2.2)

/-- The routines outside these sources do not touch `s_sync_arrived`. -/
def keeps_sync_arrived (env : Outside → SumCore → SumCore) : Prop :=
  ∀ r s, (env r s).s_sync_arrived = s.s_sync_arrived

/-! ## Threshold core (`comms_t.c`) -/

/-- Fields of `tcfg` read by `comms_t.c`. -/
structure t_conf_t where
  b_all_arrived : Nat
  is_last_output_group : Bool

/-- Global variables of the threshold core read or written by `comms_t.c`.
`t_errors bank inx` is `t_errors[bank][inx]`. -/
structure ThresholdCore where
  t_net_pkt_q : pkt_queue_t
  t_active : Bool
  t_errors : Nat → Nat → Int
  tb_comms : Nat
  tb_arrived : Nat
  tb_thrds_done : Nat
  tick_stop : Nat
  tf_thrds_done : Nat
  tf_thrds_init : Nat
  tf_stop_done : Nat
  tf_stop_init : Nat
  phase : Nat
  pkt_recv : Nat
  recv_bkp : Nat
  stp_recv : Nat
  wrng_phs : Nat
  recv_fwd : Nat

/-- Code of `t_backpropPacket`: process a BACKPROP phase packet.  The shift
`1 << inx` is taken in 32 bits, so it is 0 for `inx ≥ 32`. -/
def t_backpropPacket (D : Defines) (tcfg : t_conf_t) (key payload : Nat)
    (s : ThresholdCore) : ThresholdCore × List Event :=
  let s := if D.DEBUG then
      { s with pkt_recv := uint (s.pkt_recv + 1),
               recv_bkp := uint (s.recv_bkp + 1),
               wrng_phs := if s.phase = SPINN_FORWARD then uint (s.wrng_phs + 1)
                 else s.wrng_phs }
    else s
  -- get error index: mask out phase, core and block data,
  let inx := key &&& SPINN_ERROR_MASK
  -- store received error,
  let bank := Function.update (s.t_errors s.tb_comms) inx
    (to_signed D.error_bits payload)
  let s := { s with t_errors := Function.update s.t_errors s.tb_comms bank }
  -- and update scoreboard,
  let s := if D.SPINN_USE_COUNTER_SB = false then
      { s with tb_arrived := s.tb_arrived ||| uint (1 <<< inx) }
    else { s with tb_arrived := uint (s.tb_arrived + 1) }
  -- if all expected errors have arrived may move to next tick
  if s.tb_arrived = tcfg.b_all_arrived then
    -- initialize arrival scoreboard for next tick,
    let s := { s with tb_arrived := 0 }
    -- update pointer to received errors,
    let s := { s with tb_comms := uint_sub 1 s.tb_comms }
    -- and check if other threads are done,
    if s.tb_thrds_done = 0 then
      -- if done initialize synchronization semaphore, and advance tick
      ({ s with tb_thrds_done := 1 },
        [Event.schedule Callback.tb_advance_tick 0 0 SPINN_TB_TICK_P])
    else
      -- if not done report comms thread done
      ({ s with tb_thrds_done := uint_sub s.tb_thrds_done 1 }, [])
  else (s, [])

/-! ## Weight core (`process_w.c`) -/

/-- Fields of `wcfg` read by `process_w.c`. -/
structure w_conf_t where
  num_rows : Nat
  num_cols : Nat
  learningRate : Int
  b_all_arrived : Nat

/-- Fields of `mlpc` read by `process_w.c`. -/
structure global_conf_t where
  net_type : Nat
  training : Bool
  num_epochs : Nat
  num_examples : Nat

/-- Global variables of the weight core read or written by `process_w.c`.
Two-dimensional arrays take the row index first.  `w_example` is the global
`example`. -/
structure WeightCore where
  w_weights : Nat → Nat → Int
  w_wchanges : Nat → Nat → Int
  w_outputs : Nat → Nat → Int
  w_output_history : Nat → Int
  w_link_deltas : Nat → Nat → Int
  w_errors : Nat → Int
  w_delta_pkt_q : pkt_queue_t
  w_delta_dt : Int
  wf_procs : Nat
  wf_thrds_done : Nat
  wf_sync_key : Nat
  wb_active : Bool
  wb_arrived : Nat
  wb_sync_key : Nat
  fwdKey : Nat
  bkpKey : Nat
  epoch : Nat
  w_example : Nat
  evt : Nat
  num_events : Nat
  phase : Nat
  num_ticks : Nat
  tick : Nat
  tick_stop : Nat
  pkt_sent : Nat
  sent_fwd : Nat
  sent_bkp : Nat
  spk_sent : Nat
  wght_ups : Nat
  tot_tick : Nat

/-- Code of `restore_outputs`: restores the output of the specified unit for
the requested tick. -/
def restore_outputs (wcfg : w_conf_t) (inx tick : Nat) (s : WeightCore) :
    WeightCore :=
  let v := s.w_output_history (uint (uint (tick * wcfg.num_rows) + inx))
  { s with w_outputs := Function.update s.w_outputs 0 (Function.update (s.w_outputs 0) inx v) }

/-- Code of `w_update_weights`, the update of the weight in row `i` and column
`j` (the body of the inner loop). -/
def w_update_weight (D : Defines) (wcfg : w_conf_t) (mlpc : global_conf_t)
    (i j : Nat) (s : WeightCore) : WeightCore :=
  -- do not update weights that are 0 -- indicates no connection!
  if s.w_weights i j ≠ 0 then
    -- scale the link derivatives
    let scaled := to_signed D.long_delta_bits
      (to_signed D.long_delta_bits
          (s.w_link_deltas i j * to_signed D.long_delta_bits s.w_delta_dt)
        >>> D.SPINN_FPREAL_SHIFT)
    let s := if mlpc.net_type = SPINN_NET_CONT then
        { s with w_link_deltas :=
            Function.update s.w_link_deltas i (Function.update (s.w_link_deltas i) j scaled) }
      else s
    -- compute weight change,
    let change_tmp := to_signed D.long_wchange_bits
      (to_signed D.long_wchange_bits (-wcfg.learningRate)
        * to_signed D.long_wchange_bits (s.w_link_deltas i j))
    -- round off,
    let change_tmp := to_signed D.long_wchange_bits
      (change_tmp + to_signed D.long_wchange_bits (to_signed 32
        ((1 <<< (D.SPINN_ACTIV_SHIFT + D.SPINN_LONG_DELTA_SHIFT
                  - D.SPINN_WEIGHT_SHIFT - 1) : Nat) : Int)))
    -- and adjust decimal point position
    let change := to_signed D.long_wchange_bits
      (change_tmp >>> (D.SPINN_ACTIV_SHIFT + D.SPINN_LONG_DELTA_SHIFT
                        - D.SPINN_WEIGHT_SHIFT))
    let wch := Function.update s.w_wchanges i (Function.update (s.w_wchanges i) j change)
    let s := { s with w_wchanges := wch }
    -- compute new weight
    let temp := to_signed D.weight_bits
      (to_signed D.weight_bits (s.w_weights i j)
        + to_signed D.weight_bits (s.w_wchanges i j))
    let set_weight := fun (w : Int) =>
      { s with w_weights :=
          Function.update s.w_weights i (Function.update (s.w_weights i) j w) }
    -- saturate new weight,
    if temp ≥ to_signed D.weight_bits D.SPINN_SHORT_WEIGHT_MAX then
      set_weight (to_signed D.short_weight_bits D.SPINN_SHORT_WEIGHT_MAX)
    else if temp ≤ to_signed D.weight_bits D.SPINN_SHORT_WEIGHT_MIN then
      set_weight (to_signed D.short_weight_bits D.SPINN_SHORT_WEIGHT_MIN)
    -- and avoid (new weight == 0) -- indicates no connection!
    else if temp = 0 then
      if s.w_weights i j > 0 then
        set_weight (to_signed D.short_weight_bits D.SPINN_SHORT_WEIGHT_POS_DELTA)
      else
        set_weight (to_signed D.short_weight_bits D.SPINN_SHORT_WEIGHT_NEG_DELTA)
    else
      set_weight (to_signed D.short_weight_bits temp)
  else s

/-- Code of `w_update_weights`: perform a weight update (columns in the outer
loop, rows in the inner loop).  `SPINN_WEIGHT_HISTORY` is `FALSE`. -/
def w_update_weights (D : Defines) (wcfg : w_conf_t) (mlpc : global_conf_t)
    (s : WeightCore) : WeightCore :=
  let s := if D.DEBUG then { s with wght_ups := uint (s.wght_ups + 1) } else s
  (List.range wcfg.num_cols).foldl
    (fun (s : WeightCore) (j : Nat) =>
      (List.range wcfg.num_rows).foldl
        (fun (s : WeightCore) (i : Nat) => w_update_weight D wcfg mlpc i j s) s) s

/-- Code of `w_switch_to_fw`: switch from BACKPROP to FORWARD phase. -/
def w_switch_to_fw (s : WeightCore) : WeightCore :=
  { s with phase := SPINN_FORWARD }

/-- Code of `w_advance_example`: update the example at the end of a simulation
tick.  `ex_num_events e` is `ex[e].num_events`. -/
def w_advance_example (D : Defines) (wcfg : w_conf_t) (mlpc : global_conf_t)
    (ex_num_events : Nat → Nat) (s : WeightCore) : WeightCore × List Event :=
  let finish := fun (s : WeightCore) =>
    -- start from first event for next example,
    let s := { s with evt := 0, num_events := ex_num_events s.w_example }
    -- and send sync packet to allow unit outputs to be sent
    ((if D.DEBUG then { s with spk_sent := uint (s.spk_sent + 1) } else s),
      [Event.send_mc_packet s.wf_sync_key 0 false])
  -- check if done with examples
  let s := { s with w_example := uint (s.w_example + 1) }
  if s.w_example ≥ mlpc.num_examples then
    -- if training update weights at end of epoch
    let s := if mlpc.training then w_update_weights D wcfg mlpc s else s
    -- check if done with epochs
    let s := { s with epoch := uint (s.epoch + 1) }
    if s.epoch ≥ mlpc.num_epochs then
      -- if done then finish
      (s, [Event.spin1_stop])
    else
      -- if not start from first example again,
      let s := { s with w_example := 0 }
      -- and, if training, initialize weight changes
      let s := if mlpc.training then
          (List.range wcfg.num_rows).foldl
            (fun (s : WeightCore) (i : Nat) =>
              (List.range wcfg.num_cols).foldl
                (fun (s : WeightCore) (j : Nat) =>
                  { s with
                    w_wchanges :=
                      Function.update s.w_wchanges i (Function.update (s.w_wchanges i) j 0),
                    w_link_deltas :=
                      Function.update s.w_link_deltas i
                        (Function.update (s.w_link_deltas i) j 0) }) s) s
        else s
      finish s
  else finish s

/-- Code of `wb_advance_tick`: BACKPROP phase, advance the simulation tick. -/
def wb_advance_tick (D : Defines) (wcfg : w_conf_t) (mlpc : global_conf_t)
    (ex_num_events : Nat → Nat) (s : WeightCore) : WeightCore × List Event :=
  let s := if D.DEBUG then { s with tot_tick := uint (s.tot_tick + 1) } else s
  -- change packet key colour,
  let s := { s with bkpKey := s.bkpKey ^^^ SPINN_COLOUR_KEY }
  -- and check if end of example's BACKPROP phase
  if s.tick = SPINN_WB_END_TICK then
    -- initialize tick for next example
    let s := { s with tick := SPINN_W_INIT_TICK }
    -- go to FORWARD phase,
    let s := w_switch_to_fw s
    -- and move to next example
    w_advance_example D wcfg mlpc ex_num_events s
  else
    -- if not decrement tick, and trigger computation
    ({ s with tick := uint_sub s.tick 1 },
      [Event.schedule Callback.wb_process 0 0 SPINN_WB_PROCESS_P])

/-- Code of `wb_process`, the work on row `i` for delta `delta` of unit `inx`
(the body of the loop over the rows). -/
def wb_process_row (D : Defines) (wcfg : w_conf_t) (inx : Nat) (delta : Int)
    (r : WeightCore × List Event) (i : Nat) : WeightCore × List Event :=
  -- restore output of previous tick,
  let s := restore_outputs wcfg i (uint_sub r.1.tick 1) r.1
  -- compute link derivatives,
  let ld := to_signed D.long_delta_bits
    (to_signed D.long_delta_bits (s.w_outputs 0 i)
      * to_signed D.long_delta_bits delta)
    >>> (D.SPINN_ACTIV_SHIFT + D.SPINN_DELTA_SHIFT - D.SPINN_LONG_DELTA_SHIFT)
  let ld_sum := to_signed D.long_delta_bits (s.w_link_deltas i inx + ld)
  let lds := Function.update s.w_link_deltas i (Function.update (s.w_link_deltas i) inx ld_sum)
  let s := { s with w_link_deltas := lds }
  -- partially compute error dot products,
  let ep := to_signed D.error_bits
    (to_signed D.long_error_bits
        (to_signed D.long_error_bits (s.w_weights i inx)
          * to_signed D.long_error_bits delta)
      >>> (D.SPINN_WEIGHT_SHIFT + D.SPINN_DELTA_SHIFT - D.SPINN_ERROR_SHIFT))
  let err_sum := to_signed D.error_bits (s.w_errors i + ep)
  let s := { s with w_errors := Function.update s.w_errors i err_sum }
  -- check if done with all deltas
  if s.wb_arrived = wcfg.b_all_arrived then
    -- send computed error dot product,
    let e := Event.send_mc_packet (s.bkpKey ||| i) (s.w_errors i % 2 ^ 32).toNat true
    let s := if D.DEBUG then
        { s with pkt_sent := uint (s.pkt_sent + 1),
                 sent_bkp := uint (s.sent_bkp + 1) }
      else s
    -- and initialize error for next tick
    ({ s with w_errors := Function.update s.w_errors i 0 }, r.2 ++ [e])
  else (s, r.2)

/-- Code of `wb_process`, the handling of a dequeued delta packet: mask the
index out of the key, mark the scoreboard, update every row, and advance the
tick when all deltas have arrived. -/
def wb_process_packet (D : Defines) (wcfg : w_conf_t) (mlpc : global_conf_t)
    (ex_num_events : Nat → Nat) (key payload : Nat) (s : WeightCore) :
    WeightCore × List Event :=
  let delta := to_signed D.delta_bits payload
  -- get delta index: mask out phase, core and block data,
  let inx := key &&& SPINN_DELTA_MASK
  -- update scoreboard,
  let s := if D.SPINN_USE_COUNTER_SB = false then
      { s with wb_arrived := s.wb_arrived ||| uint (1 <<< inx) }
    else { s with wb_arrived := uint (s.wb_arrived + 1) }
  -- partially compute error dot products,
  let r := (List.range wcfg.num_rows).foldl (wb_process_row D wcfg inx delta) (s, [])
  -- if done with all deltas advance tick
  let r2 : WeightCore × List Event :=
    if r.1.wb_arrived = wcfg.b_all_arrived then
      -- initialize arrival scoreboard for next tick,
      wb_advance_tick D wcfg mlpc ex_num_events { r.1 with wb_arrived := 0 }
    else (r.1, [])
  (r2.1, r.2 ++ r2.2)

/-- Code of `wb_process`, one pass through the body of the loop over the
queue: dequeue the packet at `head`, restore interrupts, handle the packet,
disable interrupts again. -/
def wb_process_step (D : Defines) (wcfg : w_conf_t) (mlpc : global_conf_t)
    (ex_num_events : Nat → Nat) (s : WeightCore) : WeightCore × List Event :=
  -- if not empty dequeue packet,
  let q := s.w_delta_pkt_q
  let key := (q.queue q.head).key
  let payload := (q.queue q.head).payload
  let s := { s with w_delta_pkt_q :=
    { q with head := uint (q.head + 1) % SPINN_WEIGHT_PQ_LEN } }
  -- restore interrupts after queue access, and handle the packet
  let r := wb_process_packet D wcfg mlpc ex_num_events key payload s
  -- access queue with interrupts disabled
  (r.1, [Event.dequeued key payload, Event.mode_restore] ++ r.2
          ++ [Event.int_disable])

/-- Code of `wb_process`, the loop `while (head != tail)`, run for at most
`fuel` passes; `none` when the loop has not finished by then. -/
def wb_process_loop (D : Defines) (wcfg : w_conf_t) (mlpc : global_conf_t)
    (ex_num_events : Nat → Nat) : Nat → WeightCore → Option (WeightCore × List Event)
  | 0, s =>
    if s.w_delta_pkt_q.head ≠ s.w_delta_pkt_q.tail then none else some (s, [])
  | fuel + 1, s =>
    if s.w_delta_pkt_q.head ≠ s.w_delta_pkt_q.tail then
      let r := wb_process_step D wcfg mlpc ex_num_events s
      match wb_process_loop D wcfg mlpc ex_num_events fuel r.1 with
      | none => none
      | some r2 => some (r2.1, r.2 ++ r2.2)
    else some (s, [])

/-- Code of `wb_process`: process BACKPROP phase, compute partial products
(weight * delta). -/
def wb_process (D : Defines) (wcfg : w_conf_t) (mlpc : global_conf_t)
    (ex_num_events : Nat → Nat) (fuel : Nat) (s : WeightCore) :
    Option (WeightCore × List Event) :=
  -- process delta packet queue, access queue with interrupts disabled
  match wb_process_loop D wcfg mlpc ex_num_events fuel s with
  | none => none
  | some r =>
    -- when done, flag that going to sleep, restore interrupts and leave
    some ({ r.1 with wb_active := false },
      [Event.int_disable] ++ r.2 ++ [Event.mode_restore])

/-! ## Test data for the threshold and weight cores -/

def tcfg0 : t_conf_t := { b_all_arrived := 0xb, is_last_output_group := false }

/-- A threshold core at the start of a BACKPROP tick. -/
def thr0 : ThresholdCore :=
  { t_net_pkt_q := { head := 0, tail := 0, queue := fun _ => ⟨0, 0⟩ },
    t_active := false, recv_fwd := 0,
    t_errors := fun _ _ => 0, tb_comms := 0, tb_arrived := 0, tb_thrds_done := 1,
    tick_stop := 0, tf_thrds_done := 1, tf_thrds_init := 1, tf_stop_done := 1,
    tf_stop_init := 1, phase := 1, pkt_recv := 0, recv_bkp := 0, stp_recv := 0,
    wrng_phs := 0 }

def wcfg0 : w_conf_t :=
  { num_rows := 2, num_cols := 4, learningRate := 3277, b_all_arrived := 0xb }

def mlpc0 : global_conf_t :=
  { net_type := 0, training := true, num_epochs := 2, num_examples := 2 }

/-- A weight core in a BACKPROP tick, colour bit of `bkpKey` clear, with the
packet `(key, payload)` waiting at `head = 0`; all weights are `0x1000`. -/
def wgt_with (key payload : Nat) : WeightCore :=
  { w_weights := fun _ _ => 0x1000, w_wchanges := fun _ _ => 0,
    w_outputs := fun _ _ => 0, w_output_history := fun _ => 0x4000,
    w_link_deltas := fun _ _ => 0, w_errors := fun _ => 0,
    w_delta_pkt_q := { head := 0, tail := 1, queue := fun _ => ⟨key, payload⟩ },
    w_delta_dt := 0, wf_procs := 0, wf_thrds_done := 0, wf_sync_key := 0x1000,
    wb_active := true, wb_arrived := 0, wb_sync_key := 0x1800, fwdKey := 0,
    bkpKey := 0x800, epoch := 0, w_example := 0, evt := 0, num_events := 1,
    phase := 1, num_ticks := 3, tick := 3, tick_stop := 0, pkt_sent := 0,
    sent_fwd := 0, sent_bkp := 0, spk_sent := 0, wght_ups := 0, tot_tick := 0 }

/-! ## Sum core rendezvous on `sb_thrds_pend` -/

/-- The final `s_sgen_packet` of a tick followed by the final `s_lds_packet`. -/
def sgen_then_lds (D : Defines) (env : Outside → SumCore → SumCore)
    (scfg : s_conf_t) (xcfg : stage_conf_t) (payload : Nat) (s : SumCore) :
    SumCore × List Event :=
  let r1 := s_sgen_packet D env scfg xcfg s
  let r2 := s_lds_packet D env scfg payload r1.1
  (r2.1, r1.2 ++ r2.2)

/-- The final `s_lds_packet` of a tick followed by the final `s_sgen_packet`. -/
def lds_then_sgen (D : Defines) (env : Outside → SumCore → SumCore)
    (scfg : s_conf_t) (xcfg : stage_conf_t) (payload : Nat) (s : SumCore) :
    SumCore × List Event :=
  let r1 := s_lds_packet D env scfg payload s
  let r2 := s_sgen_packet D env scfg xcfg r1.1
  (r2.1, r1.2 ++ r2.2)

/-- The test of `s_sgen_packet` for the end of an epoch under Doug's momentum:
the partial link delta sums are awaited in the next tick. -/
def awaits_lds (xcfg : stage_conf_t) (s : SumCore) : Prop :=
  xcfg.update_function = SPINN_DOUGSMOMENTUM_UPDATE
    ∧ s.example_cnt = uint_sub xcfg.num_examples 1
    ∧ s.tick = SPINN_SB_END_TICK + 1

instance (xcfg : stage_conf_t) (s : SumCore) : Decidable (awaits_lds xcfg s) := by
  unfold awaits_lds
  exact inferInstance

/-- A sum core configuration that expects a single sync generation packet. -/
def scfg_one : s_conf_t := { scfg0 with sync_expected := 1 }

/-- A sum core configuration that is not the root of the first group. -/
def scfg_inner : s_conf_t := { scfg0 with is_first_group := false }

/-- A stage configuration with Doug's momentum. -/
def xcfg_doug : stage_conf_t :=
  { xcfg0 with update_function := SPINN_DOUGSMOMENTUM_UPDATE }

/-- A sum core waiting for the last sync generation packet and the last partial
link delta sum of a tick: both threads pending. -/
def sum_rdv : SumCore :=
  { sum0 with sb_thrds_pend := 6, s_sync_arrived := 2, s_lds_arrived := 1 }

/-- The same on the last example of an epoch, about to move to tick 1. -/
def sum_rdv_last : SumCore := { sum_rdv with example_cnt := 3, tick := 2 }

/-- A sum core at the start of a tick whose backprop semaphore waits for the
partial link delta sums only (`sb_thrds_pend = SPINN_THRD_LDSA`). -/
def sum_lds_last : SumCore := { sum0 with sb_thrds_pend := 4 }

/-- A sum core on which STOP is the last pending thread of the FORWARD
semaphore. -/
def sum_stop_last : SumCore := { sum0 with sf_thrds_pend := 2 }

/-- A sum core on the last example of an epoch, about to move to tick 1,
waiting for the last sync generation packet with SYNC the last pending
thread. -/
def sum_sync_last : SumCore := { sum_rdv_last with sb_thrds_pend := 2 }

/-! ## Threshold core: stop decision and scoreboard runs -/

/-- Code of `t_stopPacket`: process a stop final decision packet. -/
def t_stopPacket (D : Defines) (key payload : Nat) (s : ThresholdCore) :
    ThresholdCore × List Event :=
  let _unused := payload
  let s := if D.DEBUG then { s with stp_recv := uint (s.stp_recv + 1) } else s
  -- STOP decision arrived
  let s := { s with tick_stop := (key &&& SPINN_STPD_MASK) >>> D.SPINN_STPD_SHIFT }
  -- check if all threads done
  if s.tf_thrds_done = 0 then
    -- initialize semaphore and advance tick
    ({ s with tf_thrds_done := s.tf_thrds_init },
      [Event.schedule Callback.tf_advance_tick 0 0 SPINN_TF_TICK_P])
  else
    -- if not done report processing thread done
    ({ s with tf_thrds_done := uint_sub s.tf_thrds_done 1 }, [])

/-- Code of `t_chainPacket`: process a stop decision chain packet. -/
def t_chainPacket (D : Defines) (tcfg : t_conf_t) (key payload : Nat)
    (s : ThresholdCore) : ThresholdCore × List Event :=
  let _unused := (key, payload)
  let s := if D.DEBUG then { s with stp_recv := uint (s.stp_recv + 1) } else s
  -- STOP daisy chain partial decision arrived
  if s.tf_stop_done = 0 then
    -- initialize semaphore,
    let s := { s with tf_stop_done := s.tf_stop_init }
    -- send stop criterion packet,
    let e := Event.schedule Callback.tf_send_stop 0 0 SPINN_SEND_STOP_P
    -- and check if all threads done -- last group does not get a decision!
    if tcfg.is_last_output_group then
      if s.tf_thrds_done = 0 then
        -- initialize semaphore, and advance tick
        ({ s with tf_thrds_done := s.tf_thrds_init },
          [e, Event.schedule Callback.tf_advance_tick 0 0 SPINN_TF_TICK_P])
      else
        -- if not done report stop thread done
        ({ s with tf_thrds_done := uint_sub s.tf_thrds_done 1 }, [e])
    else (s, [e])
  else
    -- if not done report processing thread done
    ({ s with tf_stop_done := uint_sub s.tf_stop_done 1 }, [])

/-- Deliver a list of BACKPROP packets to `t_backpropPacket`, one after the
other. -/
def t_backpropPackets (D : Defines) (tcfg : t_conf_t) :
    List (Nat × Nat) → ThresholdCore → ThresholdCore × List Event
  | [], s => (s, [])
  | kp :: rest, s =>
    let r := t_backpropPacket D tcfg kp.1 kp.2 s
    let r2 := t_backpropPackets D tcfg rest r.1
    (r2.1, r.2 ++ r2.2)

/-- The bitmask scoreboard value with the bits of the unit indices of the given
packets set. -/
def index_mask : List (Nat × Nat) → Nat
  | [] => 0
  | kp :: rest => (1 <<< (kp.1 &&& SPINN_ERROR_MASK)) ||| index_mask rest

/-- The part of `t_backpropPacket` before the test of the scoreboard: count
the packet (`DEBUG`), store the error, mark the scoreboard. -/
def tb_store (D : Defines) (s : ThresholdCore) (kp : Nat × Nat) : ThresholdCore :=
  let s := if D.DEBUG then
      { s with pkt_recv := uint (s.pkt_recv + 1),
               recv_bkp := uint (s.recv_bkp + 1),
               wrng_phs := if s.phase = SPINN_FORWARD then uint (s.wrng_phs + 1)
                 else s.wrng_phs }
    else s
  let inx := kp.1 &&& SPINN_ERROR_MASK
  let bank := Function.update (s.t_errors s.tb_comms) inx
    (to_signed D.error_bits kp.2)
  let s := { s with t_errors := Function.update s.t_errors s.tb_comms bank }
  if D.SPINN_USE_COUNTER_SB = false then
    { s with tb_arrived := s.tb_arrived ||| uint (1 <<< inx) }
  else { s with tb_arrived := uint (s.tb_arrived + 1) }

/-- The part of `t_backpropPacket` after a successful test of the scoreboard:
reset the scoreboard, flip `tb_comms`, signal the semaphore. -/
def tb_complete (s : ThresholdCore) : ThresholdCore × List Event :=
  let s := { s with tb_arrived := 0 }
  let s := { s with tb_comms := uint_sub 1 s.tb_comms }
  if s.tb_thrds_done = 0 then
    ({ s with tb_thrds_done := 1 },
      [Event.schedule Callback.tb_advance_tick 0 0 SPINN_TB_TICK_P])
  else
    ({ s with tb_thrds_done := uint_sub s.tb_thrds_done 1 }, [])

/-- Configuration of a threshold core in the last output group. -/
def tcfg_last : t_conf_t := { tcfg0 with is_last_output_group := true }

/-- Threshold cores with the stop chain complete (`tf_stop_done = 0`): with all
other threads done, and with one thread pending. -/
def thr_chain_done : ThresholdCore := { thr0 with tf_stop_done := 0, tf_thrds_done := 0 }

def thr_chain_pend : ThresholdCore := { thr0 with tf_stop_done := 0, tf_thrds_done := 1 }

/-! ## Input core (`process_i.c`, `input.c`) -/

/-- Fields of `ncfg` read by `process_i.c`. -/
structure network_conf_t where
  global_max_ticks : Nat

/-- Fields of `icfg` read by `process_i.c`. -/
structure i_conf_t where
  output_grp : Bool
  input_grp : Bool
  num_units : Nat
  in_integr_en : Bool
  in_integr_dt : Int
  initNets : Int

/-- Field of `*es` read by `process_i.c`. -/
structure mlp_set_t where
  num_examples : Nat

/-- Fields of an entry of `ex` read by `process_i.c`. -/
structure mlp_example_t where
  num_events : Nat
  ev_idx : Nat

/-- Field of an entry of `ev` read by `process_i.c`. -/
structure mlp_event_t where
  it_idx : Nat

/-- The configuration of an input core: the configuration structures and the
example data in SDRAM, none of which the routines below write. -/
structure InputConf where
  ncfg : network_conf_t
  icfg : i_conf_t
  xcfg : stage_conf_t
  es : mlp_set_t
  ex : Nat → mlp_example_t
  ev : Nat → mlp_event_t

/-- Global variables of the input core read or written by `process_i.c` and by
`timeout` in `input.c`.  `i_example` is the global `example` of `input.c`. -/
structure InputCore where
  epoch : Nat
  i_example : Nat
  example_inx : Nat
  example_cnt : Nat
  train_cnt : Nat
  test_cnt : Nat
  evt : Nat
  num_events : Nat
  event_idx : Nat
  tick : Nat
  tick_stop : Nat
  phase : Nat
  net_stop_rdy : Bool
  net_stop : Nat
  i_it_idx : Nat
  i_nets : Nat → Int
  i_deltas : Nat → Int
  i_net_history : Nat → Int
  i_last_integr_net : Nat → Int
  i_last_integr_delta : Nat → Int
  i_last_integr_net_dlrv : Nat → Int
  i_last_integr_delta_dlrv : Nat → Int
  dlrv : Bool
  to_epoch : Nat
  to_example : Nat
  to_tick : Nat

/-- Code of `restore_nets`: restores all unit nets for the requested tick. -/
def restore_nets (C : InputConf) (tick : Nat) (s : InputCore) : InputCore :=
  (List.range C.icfg.num_units).foldl
    (fun (s : InputCore) (inx : Nat) =>
      let net := s.i_net_history (uint (uint (tick * C.icfg.num_units) + inx))
      { s with i_nets := Function.update s.i_nets inx net }) s

/-- Code of `i_advance_example`: update example at the end of a (FORWARD or
BACKPROP) tick. -/
def i_advance_example (D : Defines) (C : InputConf) (s : InputCore) :
    InputCore × List Event :=
  -- point to next example in the set - wrap around if at the end,
  let s := { s with example_inx := uint (s.example_inx + 1) }
  let s := if s.example_inx ≥ C.es.num_examples then { s with example_inx := 0 } else s
  -- check if done with examples,
  let s := { s with example_cnt := uint (s.example_cnt + 1) }
  let r : InputCore × List Event :=
    if s.example_cnt ≥ C.xcfg.num_examples then
      -- prepare for next epoch,
      let s := { s with epoch := uint (s.epoch + 1) }
      -- record the last example presented
      let s := if C.xcfg.training then { s with train_cnt := s.example_inx }
        else { s with test_cnt := s.example_inx }
      -- access network stop flag with interrupts disabled,
      let r1 : InputCore × List Event :=
        -- check if network stop decision ready,
        if s.net_stop_rdy then
          -- clear flag,
          let s := { s with net_stop_rdy := false }
          -- and decide what to do
          if s.net_stop ≠ 0 then
            -- finish stage and report no error
            (s, [Event.int_disable, Event.mode_restore,
                 Event.schedule Callback.stage_done SPINN_NO_ERROR 0 D.SPINN_DONE_P])
          else
            (s, [Event.int_disable, Event.mode_restore])
        else
          -- flag ready for net_stop decision,
          ({ s with net_stop_rdy := true }, [Event.int_disable, Event.mode_restore])
      -- and reset example count for next epoch
      ({ r1.1 with example_cnt := 0 }, r1.2)
    else (s, [])
  let s := r.1
  -- start from first event for next example,
  let s := { s with evt := 0,
                    num_events := (C.ex s.example_inx).num_events,
                    event_idx := (C.ex s.example_inx).ev_idx }
  -- and initialise event input and target indices - if input or output group
  let s := if C.icfg.input_grp || C.icfg.output_grp then
      { s with i_it_idx := uint ((C.ev s.event_idx).it_idx * C.icfg.num_units) }
    else s
  -- if the input INTEGRATOR is used reset the array of last values
  let s := if C.icfg.in_integr_en then
      (List.range C.icfg.num_units).foldl
        (fun (s : InputCore) (i : Nat) =>
          let net := to_signed D.long_net_bits C.icfg.initNets
          { s with i_last_integr_net := Function.update s.i_last_integr_net i net,
                   i_last_integr_delta := Function.update s.i_last_integr_delta i 0 }) s
    else s
  (s, r.2)

/-- Code of `if_advance_event`: FORWARD phase, update the event at the end of a
simulation tick. -/
def if_advance_event (D : Defines) (C : InputConf) (s : InputCore) :
    InputCore × List Event :=
  -- check if done with example's FORWARD phase
  let s := { s with evt := uint (s.evt + 1) }
  if s.evt ≥ s.num_events ∨ s.tick = uint_sub C.ncfg.global_max_ticks 1 then
    -- and check if in training mode
    if C.xcfg.training then
      -- move on to BACKPROP phase
      ({ s with phase := SPINN_BACKPROP }, [])
    else
      -- if not training, initialise ticks for the next example
      let s := { s with tick := SPINN_I_INIT_TICK }
      -- then move to next example
      let r := i_advance_example D C s
      (r.1, Event.invoke Routine.i_advance_example :: r.2)
  else
    -- if input or output group update input/target index
    let s := if C.icfg.input_grp || C.icfg.output_grp then
        { s with i_it_idx := uint (s.i_it_idx + C.icfg.num_units) }
      else s
    -- and increment tick
    ({ s with tick := uint (s.tick + 1) }, [])

/-- The argument `!SPINN_RESTART` of `tick_init`. -/
def not_restart (D : Defines) : Nat := if D.SPINN_RESTART = 0 then 1 else 0

/-- Code of `if_advance_tick`: FORWARD phase, the tick has been completed,
move to the next tick. -/
def if_advance_tick (D : Defines) (env : Outside → InputCore → InputCore)
    (C : InputConf) (s : InputCore) : InputCore × List Event :=
  -- prepare to start tick,
  let r0 := call_outside env (Outside.tick_init (not_restart D) 0) s
  -- and check if end of event
  if r0.1.tick_stop ≠ 0 then
    let r := if_advance_event D C r0.1
    (r.1, r0.2 ++ Event.invoke Routine.if_advance_event :: r.2)
  else
    -- if not done increment tick
    ({ r0.1 with tick := uint (r0.1.tick + 1) }, r0.2)

/-- Code of `ib_advance_tick`: BACKPROP phase, the tick has been completed,
move to the next tick. -/
def ib_advance_tick (D : Defines) (env : Outside → InputCore → InputCore)
    (C : InputConf) (s : InputCore) : InputCore × List Event :=
  -- prepare to start tick,
  let r0 := call_outside env (Outside.tick_init (not_restart D) 0) s
  -- and check if end of BACKPROP phase
  if r0.1.tick = SPINN_IB_END_TICK then
    -- initialise the tick count
    let s := { r0.1 with tick := SPINN_I_INIT_TICK }
    -- switch to FORWARD phase,
    let s := { s with phase := SPINN_FORWARD }
    -- and move to next example
    let r := i_advance_example D C s
    (r.1, r0.2 ++ Event.invoke Routine.i_advance_example :: r.2)
  else
    -- if not done decrement tick,
    let s := { r0.1 with tick := uint_sub r0.1.tick 1 }
    -- and restore nets
    (restore_nets C s.tick s, r0.2 ++ [Event.invoke (Routine.restore_nets s.tick)])

/-! ## Network stop rendezvous across the two sides in the sources

The sources hold the packet side of the rendezvous on `net_stop_rdy` for the
sum core (`s_net_stop_packet`) and the example side for the input core
(`i_advance_example`); each acts on the globals `net_stop_rdy` and `net_stop`
of its core.  To run one side after the other, the two globals are carried
over from the state of the one to the state of the other. -/

/-- The input core state with `net_stop_rdy` and `net_stop` as the packet side
left them. -/
def net_stop_to_input (s : SumCore) (c : InputCore) : InputCore :=
  { c with net_stop_rdy := s.net_stop_rdy, net_stop := s.net_stop }

/-- The sum core state with `net_stop_rdy` and `net_stop` as the example side
left them. -/
def net_stop_to_sum (c : InputCore) (s : SumCore) : SumCore :=
  { s with net_stop_rdy := c.net_stop_rdy, net_stop := c.net_stop }

/-! ## Test data for the input core -/

def icfg0 : i_conf_t :=
  { output_grp := false, input_grp := true, num_units := 3, in_integr_en := true,
    in_integr_dt := 0x8000, initNets := 0 }

/-- An input core configuration: training, 4 examples of 2 events each, at most
10 ticks. -/
def C0 : InputConf :=
  { ncfg := { global_max_ticks := 10 }, icfg := icfg0, xcfg := xcfg0,
    es := { num_examples := 4 },
    ex := fun i => { num_events := 2, ev_idx := 2 * i },
    ev := fun i => { it_idx := i } }

/-- The same configuration when not training. -/
def C0_test : InputConf := { C0 with xcfg := { xcfg0 with training := false } }

/-- An input core in the FORWARD phase at tick 9, the last tick below the
ceiling of `C0`, on the first event of the last example of an epoch, with no
stop decision. -/
def inp0 : InputCore :=
  { epoch := 0, i_example := 3, example_inx := 3, example_cnt := 3, train_cnt := 0,
    test_cnt := 0, evt := 0, num_events := 2, event_idx := 6, tick := 9,
    tick_stop := 0, phase := 0, net_stop_rdy := false, net_stop := 0, i_it_idx := 18,
    i_nets := fun _ => 0, i_deltas := fun _ => 0,
    i_net_history := fun i => (i : Int) + 100,
    i_last_integr_net := fun _ => 5, i_last_integr_delta := fun _ => 5,
    i_last_integr_net_dlrv := fun _ => 0, i_last_integr_delta_dlrv := fun _ => 0,
    dlrv := false, to_epoch := 0, to_example := 0, to_tick := 0 }

/-- The same with the stop decision of the tick set. -/
def inp_stop : InputCore := { inp0 with tick_stop := 1 }

/-- An input core in the BACKPROP phase at tick 4, and at the end tick 1. -/
def inp_back : InputCore := { inp0 with phase := 1, tick := 4 }

def inp_back_end : InputCore := { inp0 with phase := 1, tick := 1 }

/-! ## Parts of `i_advance_example`

The three consecutive parts of the body of `i_advance_example`, as functions of
their own: properties of the routine are proved part by part. -/

/-- First part of `i_advance_example`: point to next example in the set - wrap
around if at the end. -/
def i_next_example (C : InputConf) (s : InputCore) : InputCore :=
  let s := { s with example_inx := uint (s.example_inx + 1) }
  if s.example_inx ≥ C.es.num_examples then { s with example_inx := 0 } else s

/-- Second part of `i_advance_example`: check if done with examples. -/
def i_next_epoch (D : Defines) (C : InputConf) (s : InputCore) :
    InputCore × List Event :=
  let s := { s with example_cnt := uint (s.example_cnt + 1) }
  if s.example_cnt ≥ C.xcfg.num_examples then
    let s := { s with epoch := uint (s.epoch + 1) }
    let s := if C.xcfg.training then { s with train_cnt := s.example_inx }
      else { s with test_cnt := s.example_inx }
    let r1 : InputCore × List Event :=
      if s.net_stop_rdy then
        let s := { s with net_stop_rdy := false }
        if s.net_stop ≠ 0 then
          (s, [Event.int_disable, Event.mode_restore,
               Event.schedule Callback.stage_done SPINN_NO_ERROR 0 D.SPINN_DONE_P])
        else
          (s, [Event.int_disable, Event.mode_restore])
      else
        ({ s with net_stop_rdy := true }, [Event.int_disable, Event.mode_restore])
    ({ r1.1 with example_cnt := 0 }, r1.2)
  else (s, [])

/-- Third part of `i_advance_example`: start from first event for next
example. -/
def i_first_event (D : Defines) (C : InputConf) (s : InputCore) : InputCore :=
  let s := { s with evt := 0,
                    num_events := (C.ex s.example_inx).num_events,
                    event_idx := (C.ex s.example_inx).ev_idx }
  let s := if C.icfg.input_grp || C.icfg.output_grp then
      { s with i_it_idx := uint ((C.ev s.event_idx).it_idx * C.icfg.num_units) }
    else s
  if C.icfg.in_integr_en then
    (List.range C.icfg.num_units).foldl
      (fun (s : InputCore) (i : Nat) =>
        let net := to_signed D.long_net_bits C.icfg.initNets
        { s with i_last_integr_net := Function.update s.i_last_integr_net i net,
                 i_last_integr_delta := Function.update s.i_last_integr_delta i 0 }) s
  else s

/-! ## Watchdog, input integrator and net history (`input.c`, `process_i.c`) -/

/-- Code of `timeout`: timer callback: check that there has been progress in
execution. -/
def timeout (env : Outside → InputCore → InputCore) (s : InputCore) :
    InputCore × List Event :=
  -- check if progress has been made
  if s.to_epoch = s.epoch ∧ s.to_example = s.i_example ∧ s.to_tick = s.tick then
    -- report timeout error
    call_outside env (Outside.done SPINN_TIMEOUT_EXIT) s
  else
    -- update checked variables
    ({ s with to_epoch := s.epoch, to_example := s.i_example, to_tick := s.tick }, [])

/-- Code of `in_integr`: input INTEGRATOR element.  `long_fpreal` is taken to
have the width of `long_net_t`; the shift right of a negative product is the
arithmetic one. -/
def in_integr (D : Defines) (C : InputConf) (inx : Nat) (s : InputCore) : InputCore :=
  -- use stored value if in deadlock recovery
  let last_net :=
    if s.dlrv then s.i_last_integr_net_dlrv inx else s.i_last_integr_net inx
  -- remember last value in case of deadlock recovery
  let s := if s.dlrv then s else
    let last := s.i_last_integr_net inx
    { s with i_last_integr_net_dlrv := Function.update s.i_last_integr_net_dlrv inx last }
  let desired_net := s.i_nets inx
  let dt := to_signed D.long_net_bits C.icfg.in_integr_dt
  -- compute the new value of the net as indicated by lens
  let diff := to_signed D.long_net_bits (desired_net - last_net)
  let prod := to_signed D.long_net_bits (dt * diff)
  let net := to_signed D.long_net_bits (last_net + (prod >>> D.SPINN_LONG_FPREAL_SHIFT))
  -- saturate the value computed and assign it to the nets variable
  let net_max := to_signed D.long_net_bits D.SPINN_NET_MAX
  let net_min := to_signed D.long_net_bits D.SPINN_NET_MIN
  let out := if net > net_max then net_max else if net < net_min then net_min else net
  let s := { s with i_nets := Function.update s.i_nets inx out }
  -- store the outcome of the computation for the next tick
  let stored := s.i_nets inx
  { s with i_last_integr_net := Function.update s.i_last_integr_net inx stored }

/-- A replay of `in_integr (inx)` under deadlock recovery: `dlrv` is set and the
net `x` has been received again into `i_nets[inx]`. -/
def in_integr_replay (D : Defines) (C : InputConf) (inx : Nat) (x : Int)
    (s : InputCore) : InputCore :=
  in_integr D C inx { s with dlrv := true, i_nets := Function.update s.i_nets inx x }

/-- Code of `store_net`: stores unit net received for the current tick. -/
def store_net (C : InputConf) (inx : Nat) (s : InputCore) : InputCore :=
  let idx := uint (uint (s.tick * C.icfg.num_units) + inx)
  { s with i_net_history := Function.update s.i_net_history idx (s.i_nets inx) }

/-- Code of `restore_net`: restores unit net for the requested tick. -/
def restore_net (C : InputConf) (inx tick : Nat) (s : InputCore) : InputCore :=
  let net := s.i_net_history (uint (uint (tick * C.icfg.num_units) + inx))
  { s with i_nets := Function.update s.i_nets inx net }

/-- A later execution of `store_net`: at tick `x.1`, for unit `x.2.1`, whose net
is then `x.2.2`. -/
def store_net_at (C : InputConf) (s : InputCore) (x : Nat × Nat × Int) : InputCore :=
  store_net C x.2.1 { s with tick := x.1, i_nets := Function.update s.i_nets x.2.1 x.2.2 }

/-! ## Partial link delta sums on the sum core -/

/-- Deliver a list of payloads to `s_lds_packet`, one after the other. -/
def s_lds_packets (D : Defines) (env : Outside → SumCore → SumCore)
    (scfg : s_conf_t) : List Nat → SumCore → SumCore × List Event
  | [], s => (s, [])
  | p :: rest, s =>
    let r := s_lds_packet D env scfg p s
    let r2 := s_lds_packets D env scfg rest r.1
    (r2.1, r.2 ++ r2.2)

/-- Packets sent with `spin1_send_mc_packet`, in order: key, payload and
whether the payload is sent. -/
def sent_packets : List Event → List (Nat × Nat × Bool)
  | [] => []
  | Event.send_mc_packet k p w :: t => (k, p, w) :: sent_packets t
  | _ :: t => sent_packets t

/-- The sum of the payloads of a list of packets in `lds_t` arithmetic, as the
`uint` payload of a packet. -/
def lds_total (D : Defines) (l : List Nat) : Nat :=
  ((to_signed D.lds_bits (l.map (fun (p : Nat) => (p : Int))).sum) % 2 ^ 32).toNat

/-! ## Test data for the claims on the end of a tick -/

/-- A sum core in the FORWARD phase in the middle of a tick: scoreboards part
filled, one packet in the queue. -/
def sum_mid : SumCore :=
  { sum0 with s_pkt_queue := { head := 0, tail := 1, queue := fun _ => ⟨5, 6⟩ },
              s_sync_arrived := 2, s_lds_arrived := 1, sf_done := 1,
              s_nets := fun _ => 9, sf_arrived := fun _ => 1, sf_thrds_pend := 1 }

/-- A sum core in the BACKPROP phase. -/
def sum_back : SumCore := { sum_mid with phase := 1 }

/-- An input core whose watchdog sample is the current triple, and one that has
made progress since the sample. -/
def inp_stalled : InputCore :=
  { inp0 with epoch := 2, i_example := 3, tick := 9, to_epoch := 2, to_example := 3,
              to_tick := 9 }

def inp_progress : InputCore := { inp_stalled with to_tick := 8 }

/-- An input core configuration with 65536 units, and an input core at tick
65536, where `tick * icfg.num_units` is `2 ^ 32`. -/
def C_wide : InputConf := { C0 with icfg := { icfg0 with num_units := 65536 } }

def inp_wide : InputCore :=
  { inp0 with tick := 65536, i_nets := fun _ => 7 }

/-- Every example has two events. -/
def ex_events0 : Nat → Nat := fun _ => 2

/-- A weight core on the last example of the first epoch, with weight changes
and link deltas accumulated. -/
def wgt_last : WeightCore :=
  { wgt_with 0 0 with w_example := 1, w_wchanges := fun _ _ => 5,
                      w_link_deltas := fun _ _ => 6 }

/-! ## Threshold core: the FORWARD packet queue and the stop semaphore -/

/-- Code of `t_forwardPacket`: enqueue FORWARD phase packet for later
processing. -/
def t_forwardPacket (D : Defines) (key payload : Nat) (s : ThresholdCore) :
    ThresholdCore × List Event :=
  let s := if D.DEBUG then
      { s with pkt_recv := uint (s.pkt_recv + 1),
               recv_fwd := uint (s.recv_fwd + 1),
               wrng_phs := if s.phase = SPINN_BACKPROP then uint (s.wrng_phs + 1)
                 else s.wrng_phs }
    else s
  -- check if space in FORWARD packet queue,
  let new_tail := uint (s.t_net_pkt_q.tail + 1) % SPINN_THLD_PQ_LEN
  if new_tail = s.t_net_pkt_q.head then
    -- if queue full exit and report failure
    (s, [Event.spin1_exit SPINN_QUEUE_FULL])
  else
    -- if not full queue packet,
    let q := s.t_net_pkt_q
    let s := { s with t_net_pkt_q :=
      { q with queue := Function.update q.queue q.tail ⟨key, payload⟩,
               tail := new_tail } }
    -- and schedule processing thread
    -- if in FORWARD phase and not active already
    if s.phase = SPINN_FORWARD ∧ s.t_active = false then
      ({ s with t_active := true },
        [Event.enqueued key payload,
         Event.schedule Callback.tf_process 0 0 SPINN_TF_PROCESS_P])
    else
      (s, [Event.enqueued key payload])

/-- Deliver a list of stop packets to `t_stopPacket`, one after the other. -/
def t_stopPackets (D : Defines) :
    List (Nat × Nat) → ThresholdCore → ThresholdCore × List Event
  | [], s => (s, [])
  | kp :: rest, s =>
    let r := t_stopPacket D kp.1 kp.2 s
    let r2 := t_stopPackets D rest r.1
    (r2.1, r.2 ++ r2.2)

/-- A threshold core in the FORWARD phase with an empty queue, and threshold
cores in the BACKPROP phase with one free entry and with a full queue
(`head = 0`, `tail = 255`). -/
def thr_fwd : ThresholdCore := { thr0 with phase := 0 }

def thr_back_room : ThresholdCore :=
  { thr0 with t_net_pkt_q := { head := 0, tail := 254, queue := fun i => ⟨i, i⟩ } }

def thr_full : ThresholdCore :=
  { thr0 with t_net_pkt_q := { head := 0, tail := 255, queue := fun i => ⟨i, i⟩ } }

/-- A threshold core whose forward semaphore waits for three signals. -/
def thr_sem : ThresholdCore := { thr0 with tf_thrds_done := 2, tf_thrds_init := 2 }

/-! ## Weight core: the FORWARD tick and runs of ticks and examples -/

/-- Code of `w_switch_to_bp`: switch from FORWARD to BACKPROP phase. -/
def w_switch_to_bp (s : WeightCore) : WeightCore × List Event :=
  -- move to new BACKPROP phase, and trigger BACKPROP computation
  ({ s with phase := SPINN_BACKPROP },
    [Event.schedule Callback.wb_process 0 0 SPINN_WB_PROCESS_P])

/-- Code of `wf_advance_event`: FORWARD phase, update the event at the end of
a simulation tick. -/
def wf_advance_event (D : Defines) (wcfg : w_conf_t) (mlpc : global_conf_t)
    (ex_num_events : Nat → Nat) (s : WeightCore) : WeightCore × List Event :=
  -- check if done with events -- end of example's FORWARD phase
  let s := { s with evt := uint (s.evt + 1) }
  if s.evt ≥ s.num_events then
    -- initialize synchronization semaphore with interrupts disabled,
    let s := { s with wf_thrds_done := 0 }
    -- initialize crit for next example,
    let s := { s with tick_stop := 0 }
    -- and check if in training mode
    if mlpc.training then
      -- if training, save number of ticks, then do BACKPROP phase
      let s := { s with num_ticks := s.tick }
      let r := w_switch_to_bp s
      (r.1, [Event.int_disable, Event.mode_restore] ++ r.2)
    else
      -- if not training initialize tick for next example,
      let s := { s with tick := SPINN_W_INIT_TICK }
      -- and move to next example
      let r := w_advance_example D wcfg mlpc ex_num_events s
      (r.1, [Event.int_disable, Event.mode_restore] ++ r.2)
  else
    -- if not increment tick,
    let s := { s with tick := uint (s.tick + 1) }
    let s := if D.DEBUG then { s with tot_tick := uint (s.tot_tick + 1) } else s
    -- change packet key colour,
    let s := { s with fwdKey := s.fwdKey ^^^ SPINN_COLOUR_KEY }
    -- and trigger computation
    (s, [Event.schedule Callback.wf_process 0 0 SPINN_WF_PROCESS_P])

/-- Code of `wf_advance_tick`: FORWARD phase, once the processing is completed
and all the units have been processed, advance the simulation tick. -/
def wf_advance_tick (D : Defines) (wcfg : w_conf_t) (mlpc : global_conf_t)
    (ex_num_events : Nat → Nat) (s : WeightCore) : WeightCore × List Event :=
  -- update pointer to processing unit outputs,
  let s := { s with wf_procs := uint_sub 1 s.wf_procs }
  -- check if end of example's FORWARD phase
  if s.tick_stop ≠ 0 then
    wf_advance_event D wcfg mlpc ex_num_events s
  else
    -- if not increment tick,
    let s := { s with tick := uint (s.tick + 1) }
    let s := if D.DEBUG then { s with tot_tick := uint (s.tot_tick + 1) } else s
    -- change packet key colour,
    let s := { s with fwdKey := s.fwdKey ^^^ SPINN_COLOUR_KEY }
    -- and trigger computation
    (s, [Event.schedule Callback.wf_process 0 0 SPINN_WF_PROCESS_P])

/-- Deliver a list of delta packets to the packet handling of `wb_process`,
one after the other. -/
def wb_process_packets (D : Defines) (wcfg : w_conf_t) (mlpc : global_conf_t)
    (ex_num_events : Nat → Nat) :
    List (Nat × Nat) → WeightCore → WeightCore × List Event
  | [], s => (s, [])
  | kp :: rest, s =>
    let r := wb_process_packet D wcfg mlpc ex_num_events kp.1 kp.2 s
    let r2 := wb_process_packets D wcfg mlpc ex_num_events rest r.1
    (r2.1, r.2 ++ r2.2)

/-- The bitmask scoreboard value with the bits of the unit indices of the given
delta packets set. -/
def delta_index_mask : List (Nat × Nat) → Nat
  | [] => 0
  | kp :: rest => (1 <<< (kp.1 &&& SPINN_DELTA_MASK)) ||| delta_index_mask rest

/-- The term that `wb_process` adds to `w_errors[i]` for the delta packet `kp`:
`(error_t) (((long_error_t) w_weights[i][inx] * (long_error_t) delta)
>> (SPINN_WEIGHT_SHIFT + SPINN_DELTA_SHIFT - SPINN_ERROR_SHIFT))`. -/
def wb_error_term (D : Defines) (w : Nat → Nat → Int) (i : Nat) (kp : Nat × Nat) :
    Int :=
  to_signed D.error_bits
    (to_signed D.long_error_bits
        (to_signed D.long_error_bits (w i (kp.1 &&& SPINN_DELTA_MASK))
          * to_signed D.long_error_bits (to_signed D.delta_bits kp.2))
      >>> (D.SPINN_WEIGHT_SHIFT + D.SPINN_DELTA_SHIFT - D.SPINN_ERROR_SHIFT))

/-- The sum of the error terms of a list of delta packets for row `i` in
`error_t` arithmetic, as the `uint` payload of a packet. -/
def wb_error_total (D : Defines) (w : Nat → Nat → Int) (i : Nat)
    (l : List (Nat × Nat)) : Nat :=
  ((to_signed D.error_bits (l.map (wb_error_term D w i)).sum) % 2 ^ 32).toNat

/-- Run of `n` calls of `wb_advance_tick`, one after the other. -/
def wb_advance_ticks (D : Defines) (wcfg : w_conf_t) (mlpc : global_conf_t)
    (ex_num_events : Nat → Nat) : Nat → WeightCore → WeightCore × List Event
  | 0, s => (s, [])
  | n + 1, s =>
    let r := wb_advance_ticks D wcfg mlpc ex_num_events n s
    let r2 := wb_advance_tick D wcfg mlpc ex_num_events r.1
    (r2.1, r.2 ++ r2.2)

/-- Run of `n` calls of `w_advance_example`, one after the other. -/
def w_advance_examples (D : Defines) (wcfg : w_conf_t) (mlpc : global_conf_t)
    (ex_num_events : Nat → Nat) : Nat → WeightCore → WeightCore × List Event
  | 0, s => (s, [])
  | n + 1, s =>
    let r := w_advance_examples D wcfg mlpc ex_num_events n s
    let r2 := w_advance_example D wcfg mlpc ex_num_events r.1
    (r2.1, r.2 ++ r2.2)

/-- A call of `w_advance_example` from `s` reaches the call of
`w_update_weights`: the example counter reaches `mlpc.num_examples` in training
mode. -/
def w_updates_weights (mlpc : global_conf_t) (s : WeightCore) : Bool :=
  mlpc.training && decide (uint (s.w_example + 1) ≥ mlpc.num_examples)

/-- Number of calls of `w_update_weights` in a run of `n` calls of
`w_advance_example`. -/
def w_update_calls (D : Defines) (wcfg : w_conf_t) (mlpc : global_conf_t)
    (ex_num_events : Nat → Nat) (n : Nat) (s : WeightCore) : Nat :=
  ((List.range n).filter (fun k =>
    w_updates_weights mlpc (w_advance_examples D wcfg mlpc ex_num_events k s).1)).length

/-- Number of calls of `spin1_stop` in a record of calls. -/
def count_stops : List Event → Nat
  | [] => 0
  | Event.spin1_stop :: t => 1 + count_stops t
  | _ :: t => count_stops t

/-- A weight core at the start of a run, in the FORWARD phase. -/
def wgt_start : WeightCore := { wgt_with 0 0 with phase := 0, tick := 1 }

/-- A weight core whose weights are the column index minus one: column 0 is
negative, column 1 is not connected. -/
def wgt_mixed : WeightCore :=
  { wgt_with 0 0 with w_weights := fun _ j => (j : Int) - 1,
                      w_link_deltas := fun _ _ => 2 ^ 30 }

/-! ## Sum core: the critical section of `s_processQueue` -/

/-- The scoreboard update of `wb_process` for the delta of unit `inx`: the bit
of the unit is set, or the count is incremented. -/
def wb_mark (D : Defines) (arrived inx : Nat) : Nat :=
  if D.SPINN_USE_COUNTER_SB = false then arrived ||| uint (1 <<< inx)
  else uint (arrived + 1)

/-- The scoreboard after the deltas of a list of packets. -/
def wb_marks (D : Defines) (l : List (Nat × Nat)) (arrived : Nat) : Nat :=
  l.foldl (fun (a : Nat) (kp : Nat × Nat) => wb_mark D a (kp.1 &&& SPINN_DELTA_MASK))
    arrived

/-- The value of `w_errors[i]` after the deltas of a list of packets have been
added to `acc`, one by one, in `error_t` arithmetic. -/
def wb_error_acc (D : Defines) (w : Nat → Nat → Int) (i : Nat)
    (l : List (Nat × Nat)) (acc : Int) : Int :=
  l.foldl (fun (a : Int) (kp : Nat × Nat) =>
    to_signed D.error_bits (a + wb_error_term D w i kp)) acc

/-- Code of `w_update_weights`, the value of `temp` for the weight in row `i`
and column `j`: the weight plus its new weight change, in `weight_t`. -/
def w_update_temp (D : Defines) (wcfg : w_conf_t) (mlpc : global_conf_t)
    (i j : Nat) (s : WeightCore) : Int :=
  -- scale the link derivatives
  let ld := if mlpc.net_type = SPINN_NET_CONT then
      to_signed D.long_delta_bits
        (to_signed D.long_delta_bits
            (s.w_link_deltas i j * to_signed D.long_delta_bits s.w_delta_dt)
          >>> D.SPINN_FPREAL_SHIFT)
    else s.w_link_deltas i j
  -- compute weight change,
  let change_tmp := to_signed D.long_wchange_bits
    (to_signed D.long_wchange_bits (-wcfg.learningRate)
      * to_signed D.long_wchange_bits ld)
  -- round off,
  let change_tmp := to_signed D.long_wchange_bits
    (change_tmp + to_signed D.long_wchange_bits (to_signed 32
      ((1 <<< (D.SPINN_ACTIV_SHIFT + D.SPINN_LONG_DELTA_SHIFT
                - D.SPINN_WEIGHT_SHIFT - 1) : Nat) : Int)))
  -- and adjust decimal point position
  let change := to_signed D.long_wchange_bits
    (change_tmp >>> (D.SPINN_ACTIV_SHIFT + D.SPINN_LONG_DELTA_SHIFT
                      - D.SPINN_WEIGHT_SHIFT))
  -- compute new weight
  to_signed D.weight_bits
    (to_signed D.weight_bits (s.w_weights i j) + to_signed D.weight_bits change)

/-- Code of `w_update_weights`, the saturation of the new weight `temp` of a
connection whose weight was `old`. -/
def w_saturate (D : Defines) (old temp : Int) : Int :=
  -- saturate new weight,
  if temp ≥ to_signed D.weight_bits D.SPINN_SHORT_WEIGHT_MAX then
    to_signed D.short_weight_bits D.SPINN_SHORT_WEIGHT_MAX
  else if temp ≤ to_signed D.weight_bits D.SPINN_SHORT_WEIGHT_MIN then
    to_signed D.short_weight_bits D.SPINN_SHORT_WEIGHT_MIN
  -- and avoid (new weight == 0) -- indicates no connection!
  else if temp = 0 then
    if old > 0 then to_signed D.short_weight_bits D.SPINN_SHORT_WEIGHT_POS_DELTA
    else to_signed D.short_weight_bits D.SPINN_SHORT_WEIGHT_NEG_DELTA
  else to_signed D.short_weight_bits temp

/-- The term that `wb_process` adds to `w_link_deltas[i][inx]` for a delta
packet with the given payload: `((long_delta_t) w_outputs[0][i] *
(long_delta_t) delta) >> (SPINN_ACTIV_SHIFT + SPINN_DELTA_SHIFT -
SPINN_LONG_DELTA_SHIFT)`, with the output of unit `i` restored from the
history of the previous tick. -/
def wb_link_term (D : Defines) (wcfg : w_conf_t) (s : WeightCore) (i payload : Nat) :
    Int :=
  to_signed D.long_delta_bits
    (to_signed D.long_delta_bits
        (s.w_output_history (uint (uint (uint_sub s.tick 1 * wcfg.num_rows) + i)))
      * to_signed D.long_delta_bits (to_signed D.delta_bits payload))
    >>> (D.SPINN_ACTIV_SHIFT + D.SPINN_DELTA_SHIFT - D.SPINN_LONG_DELTA_SHIFT)

/-! # Properties -/

/-! ## Arithmetic lemmas -/

theorem uint_mod_queue_len (n : Nat) : uint n % 512 = n % 512 := by
  unfold uint
  exact Nat.mod_mod_of_dvd n (by norm_num)

/-! ## Sum core packet queue -/

/-- C1: when `(tail + 1) mod SPINN_SUM_PQ_LEN = head`, `s_receivePacket` makes
exactly one call, `stage_done (SPINN_QUEUE_FULL, 0)` (so it schedules nothing),
and the state it hands to `stage_done` has the same queue (head, tail and every
stored packet) and the same `s_active` as on entry; when `stage_done` leaves
those alone they are unchanged on return. -/
theorem C1_s_receivePacket_full (D : Defines) (env : Outside → SumCore → SumCore)
    (key payload : Nat) (s : SumCore)
    (hfull : (s.s_pkt_queue.tail + 1) % SPINN_SUM_PQ_LEN = s.s_pkt_queue.head) :
    (s_receivePacket D env key payload s).2
        = [Event.call (Outside.stage_done SPINN_QUEUE_FULL 0)]
    ∧ (∃ s0, (s_receivePacket D env key payload s).1
          = env (Outside.stage_done SPINN_QUEUE_FULL 0) s0
        ∧ s0.s_pkt_queue = s.s_pkt_queue ∧ s0.s_active = s.s_active)
    ∧ (keeps_queue env → keeps_active env →
        (s_receivePacket D env key payload s).1.s_pkt_queue = s.s_pkt_queue
        ∧ (s_receivePacket D env key payload s).1.s_active = s.s_active) := by
  have h : uint (s.s_pkt_queue.tail + 1) % SPINN_SUM_PQ_LEN = s.s_pkt_queue.head := by
    rw [← hfull]; exact uint_mod_queue_len _
  cases hD : D.DEBUG <;>
    simp [s_receivePacket, call_outside, hD, h, keeps_queue, keeps_active] <;>
    first
    | exact ⟨⟨s, rfl, rfl, rfl⟩, fun hq ha => ⟨hq _ _, ha _ _⟩⟩
    | exact ⟨⟨_, rfl, rfl, rfl⟩, fun hq ha => ⟨by rw [hq], by rw [ha]⟩⟩

/-- C1 at a full queue (`head = 0`, `tail = 511`). -/
theorem C1_s_receivePacket_full_witness :
    (s_receivePacket D0 env0 7 9 sum_full).2
        = [Event.call (Outside.stage_done SPINN_QUEUE_FULL 0)]
    ∧ (∃ s0, (s_receivePacket D0 env0 7 9 sum_full).1
          = env0 (Outside.stage_done SPINN_QUEUE_FULL 0) s0
        ∧ s0.s_pkt_queue = sum_full.s_pkt_queue ∧ s0.s_active = sum_full.s_active)
    ∧ (keeps_queue env0 → keeps_active env0 →
        (s_receivePacket D0 env0 7 9 sum_full).1.s_pkt_queue = sum_full.s_pkt_queue
        ∧ (s_receivePacket D0 env0 7 9 sum_full).1.s_active = sum_full.s_active) :=
  C1_s_receivePacket_full D0 env0 7 9 sum_full (by decide)

theorem enqueued_pkts_append (a b : List Event) :
    enqueued_pkts (a ++ b) = enqueued_pkts a ++ enqueued_pkts b := by
  induction a with
  | nil => rfl
  | cons e t ih => cases e <;> simp [enqueued_pkts, ih]

theorem dequeued_pkts_append (a b : List Event) :
    dequeued_pkts (a ++ b) = dequeued_pkts a ++ dequeued_pkts b := by
  induction a with
  | nil => rfl
  | cons e t ih => cases e <;> simp [dequeued_pkts, ih]

theorem handler_calls_append (a b : List Event) :
    handler_calls (a ++ b) = handler_calls a ++ handler_calls b := by
  induction a with
  | nil => rfl
  | cons e t ih => cases e <;> simp [handler_calls, ih]

/-- An enqueue on a queue that is not full appends the packet to the waiting
packets. -/
theorem pending_enqueue (q : pkt_queue_t) (k p : Nat)
    (hh : q.head < 512) (ht : q.tail < 512)
    (hnf : (q.tail + 1) % 512 ≠ q.head) :
    pending { q with queue := Function.update q.queue q.tail ⟨k, p⟩,
                     tail := (q.tail + 1) % 512 }
      = pending q ++ [(k, p)] := by
  have hn : ((q.tail + 1) % 512 + 512 - q.head) % 512
      = (q.tail + 512 - q.head) % 512 + 1 := by omega
  simp only [pending, SPINN_SUM_PQ_LEN, hn, List.range_succ, List.map_append,
    List.map_cons, List.map_nil]
  congr 1
  · apply List.map_congr_left
    intro i hi
    have hi2 : i < (q.tail + 512 - q.head) % 512 := List.mem_range.mp hi
    have hne : (q.head + i) % 512 ≠ q.tail := by omega
    simp [Function.update_noteq hne]
  · have he : (q.head + (q.tail + 512 - q.head) % 512) % 512 = q.tail := by omega
    rw [he, Function.update_same]

/-- On a non-empty queue the packet at `head` is the oldest waiting packet, and
advancing `head` leaves the others waiting in the same order. -/
theorem pending_dequeue (q : pkt_queue_t)
    (hh : q.head < 512) (ht : q.tail < 512) (hne : q.head ≠ q.tail) :
    pending q = ((q.queue q.head).key, (q.queue q.head).payload)
      :: pending { q with head := (q.head + 1) % 512 } := by
  have hn : (q.tail + 512 - q.head) % 512
      = (q.tail + 512 - (q.head + 1) % 512) % 512 + 1 := by omega
  simp only [pending, SPINN_SUM_PQ_LEN]
  rw [hn, List.range_succ_eq_map, List.map_cons, List.map_map]
  congr 1
  · simp [Nat.mod_eq_of_lt hh]
  · apply List.map_congr_left
    intro i _
    have he : (q.head + (i + 1)) % 512 = ((q.head + 1) % 512 + i) % 512 := by omega
    simp only [Function.comp, Nat.succ_eq_add_one, he]

/-! ## The handlers leave the queue alone -/

theorem dlrv_loop_queue (l : List Nat) (s : SumCore) :
    (l.foldl (fun (s : SumCore) (i : Nat) =>
        { s with s_nets := Function.update s.s_nets i 0,
                 sf_arrived := Function.update s.sf_arrived i 0 }) s).s_pkt_queue
      = s.s_pkt_queue := by
  induction l generalizing s with
  | nil => rfl
  | cons i t ih => simp only [List.foldl_cons]; rw [ih]

theorem s_lds_packet_queue (D : Defines) (env : Outside → SumCore → SumCore)
    (scfg : s_conf_t) (payload : Nat) (s : SumCore) (henv : keeps_queue env) :
    (s_lds_packet D env scfg payload s).1.s_pkt_queue = s.s_pkt_queue := by
  unfold s_lds_packet call_outside
  simp only []
  split_ifs <;> simp [henv _ _]

theorem s_stop_packet_queue (D : Defines) (env : Outside → SumCore → SumCore)
    (key : Nat) (s : SumCore) (henv : keeps_queue env) :
    (s_stop_packet D env key s).1.s_pkt_queue = s.s_pkt_queue := by
  unfold s_stop_packet call_outside
  simp only []
  split_ifs <;> simp [henv _ _]

theorem s_net_stop_packet_queue (D : Defines) (key : Nat) (s : SumCore) :
    (s_net_stop_packet D key s).1.s_pkt_queue = s.s_pkt_queue := by
  unfold s_net_stop_packet
  simp only []
  split_ifs <;> simp

theorem s_sync_packet_queue (D : Defines) (env : Outside → SumCore → SumCore)
    (s : SumCore) (henv : keeps_queue env) :
    (s_sync_packet D env s).1.s_pkt_queue = s.s_pkt_queue := by
  unfold s_sync_packet call_outside
  simp only []
  split_ifs <;> simp [henv _ _]

theorem s_sgen_packet_queue (D : Defines) (env : Outside → SumCore → SumCore)
    (scfg : s_conf_t) (xcfg : stage_conf_t) (s : SumCore) (henv : keeps_queue env) :
    (s_sgen_packet D env scfg xcfg s).1.s_pkt_queue = s.s_pkt_queue := by
  unfold s_sgen_packet call_outside
  simp only []
  split_ifs <;> simp [henv _ _]

theorem s_dlrv_packet_queue (D : Defines) (env : Outside → SumCore → SumCore)
    (scfg : s_conf_t) (s : SumCore) (henv : keeps_queue env) :
    (s_dlrv_packet D env scfg s).1.s_pkt_queue = s.s_pkt_queue := by
  unfold s_dlrv_packet call_outside
  simp only []
  split_ifs <;> simp [henv _ _, dlrv_loop_queue]

/-! ## The handlers record no queue access and no handler call of their own -/

theorem s_lds_packet_events (D : Defines) (env : Outside → SumCore → SumCore)
    (scfg : s_conf_t) (payload : Nat) (s : SumCore) :
    enqueued_pkts (s_lds_packet D env scfg payload s).2 = []
    ∧ dequeued_pkts (s_lds_packet D env scfg payload s).2 = []
    ∧ handler_calls (s_lds_packet D env scfg payload s).2 = [] := by
  unfold s_lds_packet call_outside
  simp only []
  split_ifs <;> simp [enqueued_pkts, dequeued_pkts, handler_calls]

theorem s_stop_packet_events (D : Defines) (env : Outside → SumCore → SumCore)
    (key : Nat) (s : SumCore) :
    enqueued_pkts (s_stop_packet D env key s).2 = []
    ∧ dequeued_pkts (s_stop_packet D env key s).2 = []
    ∧ handler_calls (s_stop_packet D env key s).2 = [] := by
  unfold s_stop_packet call_outside
  simp only []
  split_ifs <;> simp [enqueued_pkts, dequeued_pkts, handler_calls]

theorem s_net_stop_packet_events (D : Defines) (key : Nat) (s : SumCore) :
    enqueued_pkts (s_net_stop_packet D key s).2 = []
    ∧ dequeued_pkts (s_net_stop_packet D key s).2 = []
    ∧ handler_calls (s_net_stop_packet D key s).2 = [] := by
  unfold s_net_stop_packet
  simp only []
  split_ifs <;> simp [enqueued_pkts, dequeued_pkts, handler_calls]

theorem s_sync_packet_events (D : Defines) (env : Outside → SumCore → SumCore)
    (s : SumCore) :
    enqueued_pkts (s_sync_packet D env s).2 = []
    ∧ dequeued_pkts (s_sync_packet D env s).2 = []
    ∧ handler_calls (s_sync_packet D env s).2 = [] := by
  unfold s_sync_packet call_outside
  simp [enqueued_pkts, dequeued_pkts, handler_calls]

theorem s_sgen_packet_events (D : Defines) (env : Outside → SumCore → SumCore)
    (scfg : s_conf_t) (xcfg : stage_conf_t) (s : SumCore) :
    enqueued_pkts (s_sgen_packet D env scfg xcfg s).2 = []
    ∧ dequeued_pkts (s_sgen_packet D env scfg xcfg s).2 = []
    ∧ handler_calls (s_sgen_packet D env scfg xcfg s).2 = [] := by
  unfold s_sgen_packet call_outside
  simp only []
  split_ifs <;> simp [enqueued_pkts, dequeued_pkts, handler_calls]

theorem s_dlrv_packet_events (D : Defines) (env : Outside → SumCore → SumCore)
    (scfg : s_conf_t) (s : SumCore) :
    enqueued_pkts (s_dlrv_packet D env scfg s).2 = []
    ∧ dequeued_pkts (s_dlrv_packet D env scfg s).2 = []
    ∧ handler_calls (s_dlrv_packet D env scfg s).2 = [] := by
  unfold s_dlrv_packet call_outside
  simp only []
  split_ifs <;> simp [enqueued_pkts, dequeued_pkts, handler_calls]

/-- Routing a packet leaves the queue alone when the routines outside these
sources do. -/
theorem s_processQueue_route_queue (D : Defines) (env : Outside → SumCore → SumCore)
    (scfg : s_conf_t) (xcfg : stage_conf_t) (key payload : Nat) (s : SumCore)
    (henv : keeps_queue env) :
    (s_processQueue_route D env scfg xcfg key payload s).1.s_pkt_queue
      = s.s_pkt_queue := by
  unfold s_processQueue_route call_outside
  simp only []
  split_ifs <;>
    simp [henv _ _, s_lds_packet_queue, s_stop_packet_queue, s_net_stop_packet_queue,
      s_sync_packet_queue, s_sgen_packet_queue, s_dlrv_packet_queue, henv]

/-- Routing a packet records no queue access and at most one handler call. -/
theorem s_processQueue_route_events (D : Defines) (env : Outside → SumCore → SumCore)
    (scfg : s_conf_t) (xcfg : stage_conf_t) (key payload : Nat) (s : SumCore) :
    enqueued_pkts (s_processQueue_route D env scfg xcfg key payload s).2 = []
    ∧ dequeued_pkts (s_processQueue_route D env scfg xcfg key payload s).2 = []
    ∧ (handler_calls (s_processQueue_route D env scfg xcfg key payload s).2).length
        ≤ 1 := by
  unfold s_processQueue_route call_outside
  simp only []
  split_ifs <;>
    simp [enqueued_pkts, dequeued_pkts, handler_calls, s_lds_packet_events,
      s_stop_packet_events, s_net_stop_packet_events, s_sync_packet_events,
      s_sgen_packet_events, s_dlrv_packet_events]

/-- One pass of the drain loop on a well-formed, non-empty queue removes the
oldest waiting packet and records it as dequeued. -/
theorem s_processQueue_step_pending (D : Defines) (env : Outside → SumCore → SumCore)
    (scfg : s_conf_t) (xcfg : stage_conf_t) (s : SumCore) (henv : keeps_queue env)
    (hh : s.s_pkt_queue.head < 512) (ht : s.s_pkt_queue.tail < 512)
    (hne : s.s_pkt_queue.head ≠ s.s_pkt_queue.tail) :
    pending s.s_pkt_queue
        = dequeued_pkts (s_processQueue_step D env scfg xcfg s).2
          ++ pending (s_processQueue_step D env scfg xcfg s).1.s_pkt_queue
    ∧ enqueued_pkts (s_processQueue_step D env scfg xcfg s).2 = []
    ∧ (dequeued_pkts (s_processQueue_step D env scfg xcfg s).2).length = 1
    ∧ (s_processQueue_step D env scfg xcfg s).1.s_pkt_queue
        = { s.s_pkt_queue with head := (s.s_pkt_queue.head + 1) % 512 } := by
  have hev := s_processQueue_route_events D env scfg xcfg
    (s.s_pkt_queue.queue s.s_pkt_queue.head).key
    (s.s_pkt_queue.queue s.s_pkt_queue.head).payload
    { s with s_pkt_queue :=
      { s.s_pkt_queue with head := uint (s.s_pkt_queue.head + 1) % SPINN_SUM_PQ_LEN } }
  have hq := s_processQueue_route_queue D env scfg xcfg
    (s.s_pkt_queue.queue s.s_pkt_queue.head).key
    (s.s_pkt_queue.queue s.s_pkt_queue.head).payload
    { s with s_pkt_queue :=
      { s.s_pkt_queue with head := uint (s.s_pkt_queue.head + 1) % SPINN_SUM_PQ_LEN } }
    henv
  simp only [SPINN_SUM_PQ_LEN, uint_mod_queue_len] at hev hq
  simp only [s_processQueue_step, enqueued_pkts_append, dequeued_pkts_append,
    SPINN_SUM_PQ_LEN, uint_mod_queue_len]
  rw [hev.1, hev.2.1, hq]
  simp only [enqueued_pkts, dequeued_pkts, List.append_nil, List.nil_append,
    List.cons_append, List.length_singleton, true_and, and_true]
  exact pending_dequeue s.s_pkt_queue hh ht hne

/-- An arrival on a well-formed queue: the packets recorded as enqueued are
exactly those added to the waiting packets; nothing is dequeued. -/
theorem s_receivePacket_pending (D : Defines) (env : Outside → SumCore → SumCore)
    (key payload : Nat) (s : SumCore) (henv : keeps_queue env)
    (hh : s.s_pkt_queue.head < 512) (ht : s.s_pkt_queue.tail < 512) :
    pending s.s_pkt_queue ++ enqueued_pkts (s_receivePacket D env key payload s).2
        = pending (s_receivePacket D env key payload s).1.s_pkt_queue
    ∧ dequeued_pkts (s_receivePacket D env key payload s).2 = []
    ∧ (s_receivePacket D env key payload s).1.s_pkt_queue.head < 512
    ∧ (s_receivePacket D env key payload s).1.s_pkt_queue.tail < 512 := by
  have hlt : (s.s_pkt_queue.tail + 1) % 512 < 512 := Nat.mod_lt _ (by norm_num)
  by_cases hfull : (s.s_pkt_queue.tail + 1) % 512 = s.s_pkt_queue.head
  · cases hD : D.DEBUG <;>
      simp [s_receivePacket, call_outside, hD, hfull, henv _ _, SPINN_SUM_PQ_LEN,
        uint_mod_queue_len, enqueued_pkts, dequeued_pkts, hh, ht]
  · have hp := pending_enqueue s.s_pkt_queue key payload hh ht hfull
    cases hD : D.DEBUG <;> cases ha : s.s_active <;>
      simp [s_receivePacket, call_outside, hD, ha, hfull, SPINN_SUM_PQ_LEN,
        uint_mod_queue_len, enqueued_pkts, dequeued_pkts, hh, hlt, hp]

/-- Invariant of every interleaving: the packets waiting at the start followed
by the packets enqueued since are the packets dequeued since followed by the
packets still waiting. -/
theorem run_queue_ops_pending (D : Defines) (env : Outside → SumCore → SumCore)
    (scfg : s_conf_t) (xcfg : stage_conf_t) (henv : keeps_queue env)
    (ops : List QueueOp) :
    ∀ s : SumCore, s.s_pkt_queue.head < 512 → s.s_pkt_queue.tail < 512 →
      pending s.s_pkt_queue ++ enqueued_pkts (run_queue_ops D env scfg xcfg ops s).2
        = dequeued_pkts (run_queue_ops D env scfg xcfg ops s).2
          ++ pending (run_queue_ops D env scfg xcfg ops s).1.s_pkt_queue := by
  induction ops with
  | nil => intro s _ _; simp [run_queue_ops, enqueued_pkts, dequeued_pkts]
  | cons op ops ih =>
    intro s hh ht
    cases op with
    | receive k p =>
      obtain ⟨h1, h2, h3, h4⟩ := s_receivePacket_pending D env k p s henv hh ht
      have h := ih (s_receivePacket D env k p s).1 h3 h4
      simp only [run_queue_ops, enqueued_pkts_append, dequeued_pkts_append, h2,
        List.nil_append]
      rw [← List.append_assoc, h1, h]
    | drain_one =>
      by_cases hne : s.s_pkt_queue.head = s.s_pkt_queue.tail
      · have h := ih { s with s_active := false } hh ht
        simp only [run_queue_ops, hne, ne_eq, not_true_eq_false, if_false,
          List.nil_append]
        exact h
      · obtain ⟨h1, h2, _, h4⟩ :=
          s_processQueue_step_pending D env scfg xcfg s henv hh ht hne
        have hh2 : (s_processQueue_step D env scfg xcfg s).1.s_pkt_queue.head < 512 := by
          rw [h4]; exact Nat.mod_lt _ (by norm_num)
        have ht2 : (s_processQueue_step D env scfg xcfg s).1.s_pkt_queue.tail < 512 := by
          rw [h4]; exact ht
        have h := ih (s_processQueue_step D env scfg xcfg s).1 hh2 ht2
        simp only [run_queue_ops, hne, ne_eq, not_false_eq_true, if_true,
          enqueued_pkts_append, dequeued_pkts_append, h2, List.nil_append]
        rw [h1, List.append_assoc, h, List.append_assoc]

/-- C2: from an empty sum core queue (`head = tail`, an index of the array),
and with routines outside these sources that leave the queue alone, after every
interleaving of `s_receivePacket` calls and single drain passes of
`s_processQueue` the dequeued (key, payload) pairs are a leading segment of the
successfully enqueued pairs, and so never outnumber them. -/
theorem C2_fifo_order (D : Defines) (env : Outside → SumCore → SumCore)
    (scfg : s_conf_t) (xcfg : stage_conf_t) (henv : keeps_queue env)
    (ops : List QueueOp) (s : SumCore)
    (hempty : s.s_pkt_queue.head = s.s_pkt_queue.tail)
    (hidx : s.s_pkt_queue.head < SPINN_SUM_PQ_LEN) :
    dequeued_pkts (run_queue_ops D env scfg xcfg ops s).2
        <+: enqueued_pkts (run_queue_ops D env scfg xcfg ops s).2
    ∧ (dequeued_pkts (run_queue_ops D env scfg xcfg ops s).2).length
        ≤ (enqueued_pkts (run_queue_ops D env scfg xcfg ops s).2).length := by
  have hh : s.s_pkt_queue.head < 512 := hidx
  have ht : s.s_pkt_queue.tail < 512 := hempty ▸ hh
  have h := run_queue_ops_pending D env scfg xcfg henv ops s hh ht
  have h0 : pending s.s_pkt_queue = [] := by
    simp [pending, SPINN_SUM_PQ_LEN, hempty]
  rw [h0, List.nil_append] at h
  have hp : dequeued_pkts (run_queue_ops D env scfg xcfg ops s).2
      <+: enqueued_pkts (run_queue_ops D env scfg xcfg ops s).2 := ⟨_, h.symm⟩
  exact ⟨hp, hp.length_le⟩

/-- C2 on a run with three arrivals and three drain passes, the second on an
empty queue. -/
theorem C2_fifo_order_witness :
    dequeued_pkts (run_queue_ops D0 env0 scfg0 xcfg0
        [QueueOp.receive 1 10, QueueOp.drain_one, QueueOp.drain_one,
         QueueOp.receive 2 20, QueueOp.receive 0x1001 30, QueueOp.drain_one] sum0).2
      <+: enqueued_pkts (run_queue_ops D0 env0 scfg0 xcfg0
        [QueueOp.receive 1 10, QueueOp.drain_one, QueueOp.drain_one,
         QueueOp.receive 2 20, QueueOp.receive 0x1001 30, QueueOp.drain_one] sum0).2
    ∧ (dequeued_pkts (run_queue_ops D0 env0 scfg0 xcfg0
        [QueueOp.receive 1 10, QueueOp.drain_one, QueueOp.drain_one,
         QueueOp.receive 2 20, QueueOp.receive 0x1001 30, QueueOp.drain_one] sum0).2).length
      ≤ (enqueued_pkts (run_queue_ops D0 env0 scfg0 xcfg0
        [QueueOp.receive 1 10, QueueOp.drain_one, QueueOp.drain_one,
         QueueOp.receive 2 20, QueueOp.receive 0x1001 30, QueueOp.drain_one] sum0).2).length :=
  C2_fifo_order D0 env0 scfg0 xcfg0 (fun _ _ => rfl) _ sum0 rfl (by decide)

/-- An arrival on a queue that is not full stores the packet at `tail`,
advances `tail`, records the packet as enqueued and reports nothing. -/
theorem s_receivePacket_stores (D : Defines) (env : Outside → SumCore → SumCore)
    (key payload : Nat) (s : SumCore)
    (hnf : (s.s_pkt_queue.tail + 1) % 512 ≠ s.s_pkt_queue.head) :
    (s_receivePacket D env key payload s).1.s_pkt_queue
        = { s.s_pkt_queue with
            queue := Function.update s.s_pkt_queue.queue s.s_pkt_queue.tail ⟨key, payload⟩,
            tail := (s.s_pkt_queue.tail + 1) % 512 }
    ∧ enqueued_pkts (s_receivePacket D env key payload s).2 = [(key, payload)]
    ∧ Event.call (Outside.stage_done SPINN_QUEUE_FULL 0)
        ∉ (s_receivePacket D env key payload s).2 := by
  cases hD : D.DEBUG <;> cases ha : s.s_active <;>
    simp [s_receivePacket, call_outside, hD, ha, hnf, SPINN_SUM_PQ_LEN,
      uint_mod_queue_len, enqueued_pkts]

/-- Arrivals that fit into the free space of the queue are all stored, in
order, and none is reported as lost. -/
theorem receive_all_fits (D : Defines) (env : Outside → SumCore → SumCore)
    (pkts : List (Nat × Nat)) :
    ∀ s : SumCore, s.s_pkt_queue.head < 512 → s.s_pkt_queue.tail < 512 →
      (s.s_pkt_queue.tail + 512 - s.s_pkt_queue.head) % 512 + pkts.length ≤ 511 →
      enqueued_pkts (receive_all D env pkts s).2 = pkts
      ∧ Event.call (Outside.stage_done SPINN_QUEUE_FULL 0) ∉ (receive_all D env pkts s).2
      ∧ pending (receive_all D env pkts s).1.s_pkt_queue = pending s.s_pkt_queue ++ pkts
      ∧ (receive_all D env pkts s).1.s_pkt_queue.head = s.s_pkt_queue.head
      ∧ (receive_all D env pkts s).1.s_pkt_queue.tail < 512
      ∧ ((receive_all D env pkts s).1.s_pkt_queue.tail + 512
            - (receive_all D env pkts s).1.s_pkt_queue.head) % 512
          = (s.s_pkt_queue.tail + 512 - s.s_pkt_queue.head) % 512 + pkts.length := by
  induction pkts with
  | nil => intro s _ ht _; simp [receive_all, enqueued_pkts, ht]
  | cons kp rest ih =>
    intro s hh ht hfit
    simp only [List.length_cons] at hfit
    have hnf : (s.s_pkt_queue.tail + 1) % 512 ≠ s.s_pkt_queue.head := by omega
    obtain ⟨hq, he, hc⟩ := s_receivePacket_stores D env kp.1 kp.2 s hnf
    have hp := pending_enqueue s.s_pkt_queue kp.1 kp.2 hh ht hnf
    rw [← hq] at hp
    have hh1 : (s_receivePacket D env kp.1 kp.2 s).1.s_pkt_queue.head
        = s.s_pkt_queue.head := by rw [hq]
    have ht1 : (s_receivePacket D env kp.1 kp.2 s).1.s_pkt_queue.tail
        = (s.s_pkt_queue.tail + 1) % 512 := by rw [hq]
    have hfit1 : ((s_receivePacket D env kp.1 kp.2 s).1.s_pkt_queue.tail + 512
          - (s_receivePacket D env kp.1 kp.2 s).1.s_pkt_queue.head) % 512
        + rest.length ≤ 511 := by rw [hh1, ht1]; omega
    obtain ⟨i1, i2, i3, i4, i5, i6⟩ :=
      ih (s_receivePacket D env kp.1 kp.2 s).1 (by rw [hh1]; exact hh)
        (by rw [ht1]; omega) hfit1
    simp only [receive_all, enqueued_pkts_append, he, i1, i3, hp, i4, hh1,
      List.mem_append, List.length_cons]
    refine ⟨by simp, ?_, by simp, trivial, i5, ?_⟩
    · rintro (h | h)
      · exact hc h
      · exact i2 h
    · rw [i4, hh1, ht1] at i6
      omega

/-- The drain loop does nothing (returns at once, with no call recorded)
exactly on a queue with `head = tail`. -/
theorem s_processQueue_loop_idle_iff (D : Defines) (env : Outside → SumCore → SumCore)
    (scfg : s_conf_t) (xcfg : stage_conf_t) (fuel : Nat) (s : SumCore) :
    (∃ s1, s_processQueue_loop D env scfg xcfg fuel s = some (s1, []))
      ↔ s.s_pkt_queue.head = s.s_pkt_queue.tail := by
  constructor
  · rintro ⟨s1, h⟩
    by_contra hne
    cases fuel with
    | zero => simp [s_processQueue_loop, hne] at h
    | succ n =>
      simp only [s_processQueue_loop, ne_eq, hne, not_false_eq_true, if_true] at h
      cases hl : s_processQueue_loop D env scfg xcfg n
          (s_processQueue_step D env scfg xcfg s).1 with
      | none => rw [hl] at h; simp at h
      | some r2 => rw [hl] at h; simp [s_processQueue_step] at h
  · intro h
    refine ⟨s, ?_⟩
    cases fuel <;> simp [s_processQueue_loop, h]

/-- The only call `s_receivePacket` makes is the report of a full queue exactly
when `(tail + 1) mod 512 = head`. -/
theorem s_receivePacket_report_iff (D : Defines) (env : Outside → SumCore → SumCore)
    (key payload : Nat) (s : SumCore) :
    (s_receivePacket D env key payload s).2
        = [Event.call (Outside.stage_done SPINN_QUEUE_FULL 0)]
      ↔ (s.s_pkt_queue.tail + 1) % SPINN_SUM_PQ_LEN = s.s_pkt_queue.head := by
  by_cases hfull : (s.s_pkt_queue.tail + 1) % 512 = s.s_pkt_queue.head
  · cases hD : D.DEBUG <;>
      simp [s_receivePacket, call_outside, hD, hfull, SPINN_SUM_PQ_LEN,
        uint_mod_queue_len]
  · cases hD : D.DEBUG <;> cases ha : s.s_active <;>
      simp [s_receivePacket, call_outside, hD, ha, hfull, SPINN_SUM_PQ_LEN,
        uint_mod_queue_len]

/-- C3: from an empty sum core queue (`head = tail`, an index of the array) and
with no dequeue in between, the first `SPINN_SUM_PQ_LEN - 1 = 511` calls of
`s_receivePacket` all store their packet (in arrival order, none reported as
lost) and the next call reports `SPINN_QUEUE_FULL`.  In every state
`s_receivePacket` takes the queue for full exactly when
`(tail + 1) mod 512 = head`, and the drain loop takes it for empty exactly when
`head = tail`. -/
theorem C3_queue_capacity (D : Defines) (env : Outside → SumCore → SumCore)
    (scfg : s_conf_t) (xcfg : stage_conf_t) (s : SumCore)
    (hempty : s.s_pkt_queue.head = s.s_pkt_queue.tail)
    (hidx : s.s_pkt_queue.head < SPINN_SUM_PQ_LEN)
    (pkts : List (Nat × Nat)) (hlen : pkts.length = SPINN_SUM_PQ_LEN - 1)
    (key payload : Nat) :
    enqueued_pkts (receive_all D env pkts s).2 = pkts
    ∧ Event.call (Outside.stage_done SPINN_QUEUE_FULL 0) ∉ (receive_all D env pkts s).2
    ∧ pending (receive_all D env pkts s).1.s_pkt_queue = pkts
    ∧ (s_receivePacket D env key payload (receive_all D env pkts s).1).2
        = [Event.call (Outside.stage_done SPINN_QUEUE_FULL 0)]
    ∧ (∀ (st : SumCore) (k p : Nat),
        (s_receivePacket D env k p st).2
            = [Event.call (Outside.stage_done SPINN_QUEUE_FULL 0)]
          ↔ (st.s_pkt_queue.tail + 1) % SPINN_SUM_PQ_LEN = st.s_pkt_queue.head)
    ∧ (∀ (st : SumCore) (fuel : Nat),
        (∃ s1, s_processQueue_loop D env scfg xcfg fuel st = some (s1, []))
          ↔ st.s_pkt_queue.head = st.s_pkt_queue.tail) := by
  have hh : s.s_pkt_queue.head < 512 := hidx
  have ht : s.s_pkt_queue.tail < 512 := hempty ▸ hh
  have hl : pkts.length = 511 := hlen
  have h0 : pending s.s_pkt_queue = [] := by
    simp [pending, SPINN_SUM_PQ_LEN, hempty]
  obtain ⟨h1, h2, h3, h4, h5, h6⟩ :=
    receive_all_fits D env pkts s hh ht (by rw [hempty, hl]; omega)
  rw [h0, List.nil_append] at h3
  refine ⟨h1, h2, h3, ?_, fun st k p => s_receivePacket_report_iff D env k p st,
    fun st fuel => s_processQueue_loop_idle_iff D env scfg xcfg fuel st⟩
  rw [s_receivePacket_report_iff]
  rw [h4] at h6 ⊢
  rw [hl] at h6
  simp only [SPINN_SUM_PQ_LEN]
  omega

/-- C3 for 511 arrivals at the queue of `sum0`. -/
theorem C3_queue_capacity_witness :
    enqueued_pkts (receive_all D0 env0 (List.replicate 511 (5, 6)) sum0).2
        = List.replicate 511 (5, 6)
    ∧ Event.call (Outside.stage_done SPINN_QUEUE_FULL 0)
        ∉ (receive_all D0 env0 (List.replicate 511 (5, 6)) sum0).2
    ∧ pending (receive_all D0 env0 (List.replicate 511 (5, 6)) sum0).1.s_pkt_queue
        = List.replicate 511 (5, 6)
    ∧ (s_receivePacket D0 env0 7 8
          (receive_all D0 env0 (List.replicate 511 (5, 6)) sum0).1).2
        = [Event.call (Outside.stage_done SPINN_QUEUE_FULL 0)]
    ∧ (∀ (st : SumCore) (k p : Nat),
        (s_receivePacket D0 env0 k p st).2
            = [Event.call (Outside.stage_done SPINN_QUEUE_FULL 0)]
          ↔ (st.s_pkt_queue.tail + 1) % SPINN_SUM_PQ_LEN = st.s_pkt_queue.head)
    ∧ (∀ (st : SumCore) (fuel : Nat),
        (∃ s1, s_processQueue_loop D0 env0 scfg0 xcfg0 fuel st = some (s1, []))
          ↔ st.s_pkt_queue.head = st.s_pkt_queue.tail) :=
  C3_queue_capacity D0 env0 scfg0 xcfg0 sum0 rfl (by decide)
    (List.replicate 511 (5, 6)) (List.length_replicate 511 (5, 6)) 7 8

theorem count_scheduled_append (cb : Callback) (a b : List Event) :
    count_scheduled cb (a ++ b) = count_scheduled cb a + count_scheduled cb b := by
  induction a with
  | nil => simp [count_scheduled]
  | cons e t ih => cases e <;> simp [count_scheduled, ih, Nat.add_assoc]

/-- One arrival schedules the drain task at most once, and only when
`s_active` was clear; afterwards `s_active` is clear only if it was clear
before and nothing was scheduled. -/
theorem s_receivePacket_schedules (D : Defines) (env : Outside → SumCore → SumCore)
    (key payload : Nat) (s : SumCore) (henv : keeps_active env) :
    count_scheduled Callback.s_processQueue (s_receivePacket D env key payload s).2
        + (if (s_receivePacket D env key payload s).1.s_active then 0 else 1)
      ≤ (if s.s_active then 0 else 1) := by
  by_cases hfull : uint (s.s_pkt_queue.tail + 1) % SPINN_SUM_PQ_LEN = s.s_pkt_queue.head
  · cases hD : D.DEBUG <;> cases ha : s.s_active <;>
      simp [s_receivePacket, call_outside, hD, ha, hfull, henv _ _, count_scheduled]
  · cases hD : D.DEBUG <;> cases ha : s.s_active <;>
      simp [s_receivePacket, call_outside, hD, ha, hfull, count_scheduled]

theorem receive_all_schedules (D : Defines) (env : Outside → SumCore → SumCore)
    (henv : keeps_active env) (pkts : List (Nat × Nat)) :
    ∀ s : SumCore,
      count_scheduled Callback.s_processQueue (receive_all D env pkts s).2
        ≤ (if s.s_active then 0 else 1) := by
  induction pkts with
  | nil => intro s; simp [receive_all, count_scheduled]
  | cons kp rest ih =>
    intro s
    have h1 := s_receivePacket_schedules D env kp.1 kp.2 s henv
    have h2 := ih (s_receivePacket D env kp.1 kp.2 s).1
    simp only [receive_all, count_scheduled_append]
    omega

/-- C4: on a successful enqueue (queue not full) `s_receivePacket` schedules
`s_processQueue` if and only if `s_active` was FALSE on entry, and `s_active`
is TRUE on exit; over any run of packet arrivals with no drain in between
(from any state, `stage_done` leaving `s_active` alone) `s_processQueue` is
scheduled at most once. -/
theorem C4_schedule_once (D : Defines) (env : Outside → SumCore → SumCore)
    (key payload : Nat) (s : SumCore)
    (hnf : (s.s_pkt_queue.tail + 1) % SPINN_SUM_PQ_LEN ≠ s.s_pkt_queue.head)
    (henv : keeps_active env) (pkts : List (Nat × Nat)) (s2 : SumCore) :
    (Event.schedule Callback.s_processQueue 0 0 SPINN_S_PROCESS_P
          ∈ (s_receivePacket D env key payload s).2
        ↔ s.s_active = false)
    ∧ count_scheduled Callback.s_processQueue (s_receivePacket D env key payload s).2
        = (if s.s_active then 0 else 1)
    ∧ (s_receivePacket D env key payload s).1.s_active = true
    ∧ count_scheduled Callback.s_processQueue (receive_all D env pkts s2).2 ≤ 1 := by
  have hnf2 : (s.s_pkt_queue.tail + 1) % 512 ≠ s.s_pkt_queue.head := hnf
  have hrun := receive_all_schedules D env henv pkts s2
  have hle : (if s2.s_active = true then 0 else 1) ≤ 1 := by split <;> omega
  refine ⟨?_, ?_, ?_, le_trans hrun hle⟩ <;>
    cases hD : D.DEBUG <;> cases ha : s.s_active <;>
      simp [s_receivePacket, hD, ha, hnf2, SPINN_SUM_PQ_LEN, uint_mod_queue_len,
        count_scheduled]

/-- C4 for an arrival at the idle sum core `sum0` and a run of four arrivals. -/
theorem C4_schedule_once_witness :
    (Event.schedule Callback.s_processQueue 0 0 SPINN_S_PROCESS_P
          ∈ (s_receivePacket D0 env0 1 2 sum0).2
        ↔ sum0.s_active = false)
    ∧ count_scheduled Callback.s_processQueue (s_receivePacket D0 env0 1 2 sum0).2
        = (if sum0.s_active then 0 else 1)
    ∧ (s_receivePacket D0 env0 1 2 sum0).1.s_active = true
    ∧ count_scheduled Callback.s_processQueue
        (receive_all D0 env0 [(1, 2), (3, 4), (5, 6), (7, 8)] sum0).2 ≤ 1 :=
  C4_schedule_once D0 env0 1 2 sum0 (by decide) (fun _ _ => rfl)
    [(1, 2), (3, 4), (5, 6), (7, 8)] sum0

/-! ## Draining the queue -/

/-- Routing a packet calls exactly one handler when its type is one of the
seven tested for, and none otherwise. -/
theorem s_processQueue_route_handlers (D : Defines) (env : Outside → SumCore → SumCore)
    (scfg : s_conf_t) (xcfg : stage_conf_t) (key payload : Nat) (s : SumCore) :
    (handler_calls (s_processQueue_route D env scfg xcfg key payload s).2).length
      = (if recognised D key then 1 else 0) := by
  unfold s_processQueue_route call_outside recognised
  simp only []
  split_ifs <;>
    simp_all [handler_calls, s_lds_packet_events, s_stop_packet_events,
      s_net_stop_packet_events, s_sync_packet_events, s_sgen_packet_events,
      s_dlrv_packet_events]

/-- The drain loop on a well-formed queue with `n` waiting packets finishes
within `n` passes: it dequeues the waiting packets in order, calls one handler
for each packet of a recognised type, and ends with `head = tail`. -/
theorem s_processQueue_loop_drains (D : Defines) (env : Outside → SumCore → SumCore)
    (scfg : s_conf_t) (xcfg : stage_conf_t) (henv : keeps_queue env) (n : Nat) :
    ∀ (s : SumCore) (fuel : Nat),
      s.s_pkt_queue.head < 512 → s.s_pkt_queue.tail < 512 →
      (s.s_pkt_queue.tail + 512 - s.s_pkt_queue.head) % 512 = n → n ≤ fuel →
      ∃ s1 tr, s_processQueue_loop D env scfg xcfg fuel s = some (s1, tr)
        ∧ dequeued_pkts tr = pending s.s_pkt_queue
        ∧ (handler_calls tr).length
            = ((pending s.s_pkt_queue).filter (fun kp => recognised D kp.1)).length
        ∧ s1.s_pkt_queue.head = s1.s_pkt_queue.tail
        ∧ s1.s_pkt_queue.tail = s.s_pkt_queue.tail := by
  induction n with
  | zero =>
    intro s fuel hh ht hn _
    have he : s.s_pkt_queue.head = s.s_pkt_queue.tail := by omega
    have h0 : pending s.s_pkt_queue = [] := by
      simp [pending, SPINN_SUM_PQ_LEN, he]
    refine ⟨s, [], ?_, ?_, ?_, he, rfl⟩
    · cases fuel <;> simp [s_processQueue_loop, he]
    · rw [h0]; rfl
    · rw [h0]; rfl
  | succ n ih =>
    intro s fuel hh ht hn hfuel
    have hne : s.s_pkt_queue.head ≠ s.s_pkt_queue.tail := by
      intro he; rw [he] at hn; omega
    obtain ⟨f, rfl⟩ : ∃ f, fuel = f + 1 := ⟨fuel - 1, by omega⟩
    obtain ⟨h1, _, _, h4⟩ :=
      s_processQueue_step_pending D env scfg xcfg s henv hh ht hne
    have hpd := pending_dequeue s.s_pkt_queue hh ht hne
    rw [← h4] at hpd
    have hhc : handler_calls (s_processQueue_step D env scfg xcfg s).2
        = handler_calls (s_processQueue_route D env scfg xcfg
            (s.s_pkt_queue.queue s.s_pkt_queue.head).key
            (s.s_pkt_queue.queue s.s_pkt_queue.head).payload
            { s with s_pkt_queue := { s.s_pkt_queue with
                head := uint (s.s_pkt_queue.head + 1) % SPINN_SUM_PQ_LEN } }).2 := by
      simp [s_processQueue_step, handler_calls_append, handler_calls]
    have hcount := s_processQueue_route_handlers D env scfg xcfg
      (s.s_pkt_queue.queue s.s_pkt_queue.head).key
      (s.s_pkt_queue.queue s.s_pkt_queue.head).payload
      { s with s_pkt_queue := { s.s_pkt_queue with
          head := uint (s.s_pkt_queue.head + 1) % SPINN_SUM_PQ_LEN } }
    rw [← hhc] at hcount
    have hh2 : (s_processQueue_step D env scfg xcfg s).1.s_pkt_queue.head < 512 := by
      rw [h4]; exact Nat.mod_lt _ (by norm_num)
    have ht2 : (s_processQueue_step D env scfg xcfg s).1.s_pkt_queue.tail
        = s.s_pkt_queue.tail := by rw [h4]
    have hn2 : ((s_processQueue_step D env scfg xcfg s).1.s_pkt_queue.tail + 512
        - (s_processQueue_step D env scfg xcfg s).1.s_pkt_queue.head) % 512 = n := by
      rw [h4]; simp only []; omega
    obtain ⟨s1, tr, e1, e2, e3, e4, e5⟩ :=
      ih (s_processQueue_step D env scfg xcfg s).1 f hh2 (by rw [ht2]; exact ht) hn2
        (by omega)
    refine ⟨s1, (s_processQueue_step D env scfg xcfg s).2 ++ tr, ?_, ?_, ?_, e4,
      by rw [e5, ht2]⟩
    · simp only [s_processQueue_loop, ne_eq, hne, not_false_eq_true, if_true, e1]
    · rw [dequeued_pkts_append, e2, ← h1]
    · rw [handler_calls_append, List.length_append, e3, hcount, hpd]
      simp only [List.filter_cons]
      split <;> simp [Nat.add_comm]

/-- C5 (as stated) fails: the queue of `sum_with 0x2803 42` holds one packet,
`(tail - head) mod 512 = 1`, whose type field `0x2800` (`SPINN_LDSR_KEY`) is
none of the types that `s_processQueue` tests for.  The routine returns after
one pass of its loop, in which it dequeues the packet and calls no handler:
there are 0 handler dispatches, not 1. -/
theorem C5_unknown_packet_not_dispatched :
    (sum_with 0x2803 42).s_pkt_queue.head < SPINN_SUM_PQ_LEN
    ∧ (sum_with 0x2803 42).s_pkt_queue.tail < SPINN_SUM_PQ_LEN
    ∧ ((sum_with 0x2803 42).s_pkt_queue.tail + SPINN_SUM_PQ_LEN
          - (sum_with 0x2803 42).s_pkt_queue.head) % SPINN_SUM_PQ_LEN = 1
    ∧ 0x2803 &&& SPINN_TYPE_MASK = SPINN_LDSR_KEY
    ∧ recognised D0 0x2803 = false
    ∧ (s_processQueue D0 env0 scfg0 xcfg0 1 (sum_with 0x2803 42)).map (fun r => r.2)
        = some [Event.int_disable, Event.dequeued 0x2803 42, Event.mode_restore,
            Event.int_disable, Event.clear_s_active, Event.mode_restore]
    ∧ (s_processQueue D0 env0 scfg0 xcfg0 1 (sum_with 0x2803 42)).map
          (fun r => handler_calls r.2)
        = some [] := by
  decide

/-- C5 (amended): for every sum core queue state with `head, tail < 512`, and
with routines outside these sources that leave the queue alone,
`s_processQueue` returns (any fuel of at least `(tail - head) mod 512` passes
is enough) after exactly `(tail - head) mod 512` passes of its loop, which
dequeue the waiting packets in order; the number of handler calls is the number
of waiting packets whose type is one of the seven types tested for, hence at
most `(tail - head) mod 512`, and equal to it when every waiting packet has
such a type; and it leaves `head = tail` and `s_active = FALSE`. -/
theorem C5_drain_terminates (D : Defines) (env : Outside → SumCore → SumCore)
    (scfg : s_conf_t) (xcfg : stage_conf_t) (henv : keeps_queue env) (s : SumCore)
    (hh : s.s_pkt_queue.head < SPINN_SUM_PQ_LEN)
    (ht : s.s_pkt_queue.tail < SPINN_SUM_PQ_LEN) (fuel : Nat)
    (hfuel : (s.s_pkt_queue.tail + SPINN_SUM_PQ_LEN - s.s_pkt_queue.head)
        % SPINN_SUM_PQ_LEN ≤ fuel) :
    ∃ s1 tr, s_processQueue D env scfg xcfg fuel s = some (s1, tr)
      ∧ (dequeued_pkts tr).length
          = (s.s_pkt_queue.tail + SPINN_SUM_PQ_LEN - s.s_pkt_queue.head)
              % SPINN_SUM_PQ_LEN
      ∧ dequeued_pkts tr = pending s.s_pkt_queue
      ∧ (handler_calls tr).length
          = ((pending s.s_pkt_queue).filter (fun kp => recognised D kp.1)).length
      ∧ (handler_calls tr).length
          ≤ (s.s_pkt_queue.tail + SPINN_SUM_PQ_LEN - s.s_pkt_queue.head)
              % SPINN_SUM_PQ_LEN
      ∧ ((∀ kp ∈ pending s.s_pkt_queue, recognised D kp.1 = true) →
          (handler_calls tr).length
            = (s.s_pkt_queue.tail + SPINN_SUM_PQ_LEN - s.s_pkt_queue.head)
                % SPINN_SUM_PQ_LEN)
      ∧ s1.s_pkt_queue.head = s1.s_pkt_queue.tail
      ∧ s1.s_active = false := by
  obtain ⟨s1, tr, e1, e2, e3, e4, _⟩ :=
    s_processQueue_loop_drains D env scfg xcfg henv _ s fuel hh ht rfl hfuel
  have hlen : (pending s.s_pkt_queue).length
      = (s.s_pkt_queue.tail + SPINN_SUM_PQ_LEN - s.s_pkt_queue.head)
          % SPINN_SUM_PQ_LEN := by
    simp [pending]
  have hd : dequeued_pkts
        ([Event.int_disable] ++ tr ++ [Event.clear_s_active, Event.mode_restore])
      = dequeued_pkts tr := by
    rw [dequeued_pkts_append, dequeued_pkts_append]
    simp [dequeued_pkts]
  have hc : handler_calls
        ([Event.int_disable] ++ tr ++ [Event.clear_s_active, Event.mode_restore])
      = handler_calls tr := by
    rw [handler_calls_append, handler_calls_append]
    simp [handler_calls]
  refine ⟨{ s1 with s_active := false },
    [Event.int_disable] ++ tr ++ [Event.clear_s_active, Event.mode_restore],
    ?_, ?_, ?_, ?_, ?_, ?_, e4, rfl⟩
  · simp only [s_processQueue, e1]
  · rw [hd, e2, hlen]
  · rw [hd, e2]
  · rw [hc, e3]
  · rw [hc, e3, ← hlen]
    exact List.length_filter_le _ _
  · intro hall
    rw [hc, e3, ← hlen, List.filter_eq_self.mpr hall]

/-- C5 (amended) for the queue of `sum_full`, which holds 511 packets. -/
theorem C5_drain_terminates_witness :
    ∃ s1 tr, s_processQueue D0 env0 scfg0 xcfg0 600 sum_full = some (s1, tr)
      ∧ (dequeued_pkts tr).length
          = (sum_full.s_pkt_queue.tail + SPINN_SUM_PQ_LEN - sum_full.s_pkt_queue.head)
              % SPINN_SUM_PQ_LEN
      ∧ dequeued_pkts tr = pending sum_full.s_pkt_queue
      ∧ (handler_calls tr).length
          = ((pending sum_full.s_pkt_queue).filter
              (fun kp => recognised D0 kp.1)).length
      ∧ (handler_calls tr).length
          ≤ (sum_full.s_pkt_queue.tail + SPINN_SUM_PQ_LEN - sum_full.s_pkt_queue.head)
              % SPINN_SUM_PQ_LEN
      ∧ ((∀ kp ∈ pending sum_full.s_pkt_queue, recognised D0 kp.1 = true) →
          (handler_calls tr).length
            = (sum_full.s_pkt_queue.tail + SPINN_SUM_PQ_LEN
                - sum_full.s_pkt_queue.head) % SPINN_SUM_PQ_LEN)
      ∧ s1.s_pkt_queue.head = s1.s_pkt_queue.tail
      ∧ s1.s_active = false :=
  C5_drain_terminates D0 env0 scfg0 xcfg0 (fun _ _ => rfl) sum_full
    (by decide) (by decide) 600 (by decide)

/-! ## Routing -/

/-- C7: in a pass of the loop of `s_processQueue` that dequeues a packet whose
type field matches none of the seven type keys tested for: a build without
`DEBUG` calls no handler, makes no call besides restoring and disabling
interrupts, and changes nothing in the state except `head`, which moves past
the packet; a `DEBUG` build calls no handler either and reports
`stage_done (SPINN_UNXPD_PKT, key)`. -/
theorem C7_unknown_packet (D : Defines) (env : Outside → SumCore → SumCore)
    (scfg : s_conf_t) (xcfg : stage_conf_t) (s : SumCore)
    (hunk : recognised D (s.s_pkt_queue.queue s.s_pkt_queue.head).key = false) :
    handler_calls (s_processQueue_step D env scfg xcfg s).2 = []
    ∧ (D.DEBUG = false →
        s_processQueue_step D env scfg xcfg s
          = ({ s with s_pkt_queue := { s.s_pkt_queue with
                head := (s.s_pkt_queue.head + 1) % SPINN_SUM_PQ_LEN } },
             [Event.dequeued (s.s_pkt_queue.queue s.s_pkt_queue.head).key
                (s.s_pkt_queue.queue s.s_pkt_queue.head).payload,
              Event.mode_restore, Event.int_disable]))
    ∧ (D.DEBUG = true →
        s_processQueue_step D env scfg xcfg s
          = (env (Outside.stage_done SPINN_UNXPD_PKT
                (s.s_pkt_queue.queue s.s_pkt_queue.head).key)
              { s with s_pkt_queue := { s.s_pkt_queue with
                head := (s.s_pkt_queue.head + 1) % SPINN_SUM_PQ_LEN } },
             [Event.dequeued (s.s_pkt_queue.queue s.s_pkt_queue.head).key
                (s.s_pkt_queue.queue s.s_pkt_queue.head).payload,
              Event.mode_restore,
              Event.call (Outside.stage_done SPINN_UNXPD_PKT
                (s.s_pkt_queue.queue s.s_pkt_queue.head).key),
              Event.int_disable])) := by
  simp only [recognised, decide_eq_false_iff_not, not_or] at hunk
  obtain ⟨h1, h2, h3, h4, h5, h6, h7⟩ := hunk
  cases hD : D.DEBUG <;>
    simp [s_processQueue_step, s_processQueue_route, call_outside, h1, h2, h3,
      h4, h5, h6, h7, hD, handler_calls, SPINN_SUM_PQ_LEN, uint_mod_queue_len]

/-- C7 for a packet with type field `0x200`, without and with `DEBUG`. -/
theorem C7_unknown_packet_witness :
    (handler_calls (s_processQueue_step D0 env0 scfg0 xcfg0 (sum_with 0x205 9)).2 = []
      ∧ (D0.DEBUG = false →
        s_processQueue_step D0 env0 scfg0 xcfg0 (sum_with 0x205 9)
          = ({ sum_with 0x205 9 with s_pkt_queue := { (sum_with 0x205 9).s_pkt_queue with
                head := ((sum_with 0x205 9).s_pkt_queue.head + 1) % SPINN_SUM_PQ_LEN } },
             [Event.dequeued 0x205 9, Event.mode_restore, Event.int_disable]))
      ∧ (D0.DEBUG = true →
        s_processQueue_step D0 env0 scfg0 xcfg0 (sum_with 0x205 9)
          = (env0 (Outside.stage_done SPINN_UNXPD_PKT 0x205)
              { sum_with 0x205 9 with s_pkt_queue := { (sum_with 0x205 9).s_pkt_queue with
                head := ((sum_with 0x205 9).s_pkt_queue.head + 1) % SPINN_SUM_PQ_LEN } },
             [Event.dequeued 0x205 9, Event.mode_restore,
              Event.call (Outside.stage_done SPINN_UNXPD_PKT 0x205),
              Event.int_disable])))
    ∧ (s_processQueue_step D0_debug env0 scfg0 xcfg0 (sum_with 0x205 9)).2
        = [Event.dequeued 0x205 9, Event.mode_restore,
           Event.call (Outside.stage_done SPINN_UNXPD_PKT 0x205),
           Event.int_disable] :=
  ⟨C7_unknown_packet D0 env0 scfg0 xcfg0 (sum_with 0x205 9) (by decide),
   congrArg Prod.snd
    ((C7_unknown_packet D0_debug env0 scfg0 xcfg0 (sum_with 0x205 9) (by decide)).2.2
      rfl)⟩

/-! ## Key layout -/

/-- Flipping bits of a key outside a mask does not change the masked field. -/
theorem xor_and_of_disjoint (key m M : Nat) (h : m &&& M = 0) :
    (key ^^^ m) &&& M = key &&& M := by
  rw [Nat.and_xor_distrib_right, h, Nat.xor_zero]

/-- C8 (as stated) fails: `SPINN_TYPE_MASK = 0x3a00` contains the phase bit, so
the type and phase masks are not disjoint, and flipping the phase bit of the
key `SPINN_SYNC_KEY` changes the type decoded by `key & SPINN_TYPE_MASK`. -/
theorem C8_type_phase_overlap :
    ¬ (SPINN_TYPE_MASK &&& SPINN_PHASE_MASK = 0)
    ∧ ¬ ((SPINN_SYNC_KEY ^^^ SPINN_PHASE_MASK) &&& SPINN_TYPE_MASK
          = SPINN_SYNC_KEY &&& SPINN_TYPE_MASK) := by
  decide

/-- C8 (amended): the type mask contains the phase mask and is disjoint from
the colour mask and from the 8-bit index masks; the phase mask, the colour mask
and the index masks are pairwise disjoint.  For every key, flipping the colour
bit changes neither `key & SPINN_TYPE_MASK` nor the index `key & 0xff`;
flipping the phase bit leaves the index and the colour bit unchanged and flips
bit 11 of `key & SPINN_TYPE_MASK`. -/
theorem C8_key_fields :
    SPINN_TYPE_MASK &&& SPINN_PHASE_MASK = SPINN_PHASE_MASK
    ∧ SPINN_TYPE_MASK &&& SPINN_COLOUR_MASK = 0
    ∧ SPINN_TYPE_MASK &&& SPINN_NET_MASK = 0
    ∧ SPINN_TYPE_MASK &&& SPINN_DELTA_MASK = 0
    ∧ SPINN_TYPE_MASK &&& SPINN_ERROR_MASK = 0
    ∧ SPINN_PHASE_MASK &&& SPINN_COLOUR_MASK = 0
    ∧ SPINN_PHASE_MASK &&& SPINN_NET_MASK = 0
    ∧ SPINN_PHASE_MASK &&& SPINN_DELTA_MASK = 0
    ∧ SPINN_PHASE_MASK &&& SPINN_ERROR_MASK = 0
    ∧ SPINN_COLOUR_MASK &&& SPINN_NET_MASK = 0
    ∧ SPINN_COLOUR_MASK &&& SPINN_DELTA_MASK = 0
    ∧ SPINN_COLOUR_MASK &&& SPINN_ERROR_MASK = 0
    ∧ ∀ key : Nat,
        (key ^^^ SPINN_COLOUR_MASK) &&& SPINN_TYPE_MASK = key &&& SPINN_TYPE_MASK
        ∧ (key ^^^ SPINN_COLOUR_MASK) &&& 0xff = key &&& 0xff
        ∧ (key ^^^ SPINN_PHASE_MASK) &&& 0xff = key &&& 0xff
        ∧ (key ^^^ SPINN_PHASE_MASK) &&& SPINN_COLOUR_MASK = key &&& SPINN_COLOUR_MASK
        ∧ (key ^^^ SPINN_PHASE_MASK) &&& SPINN_TYPE_MASK
            = (key &&& SPINN_TYPE_MASK) ^^^ SPINN_PHASE_MASK := by
  refine ⟨by decide, by decide, by decide, by decide, by decide, by decide,
    by decide, by decide, by decide, by decide, by decide, by decide, ?_⟩
  intro key
  refine ⟨xor_and_of_disjoint key _ _ (by decide),
    xor_and_of_disjoint key _ _ (by decide),
    xor_and_of_disjoint key _ _ (by decide),
    xor_and_of_disjoint key _ _ (by decide), ?_⟩
  rw [Nat.and_xor_distrib_right]
  congr 1

/-! ## Sync generation scoreboard -/

/-- While fewer than `sync_expected` packets have arrived, `s_sgen_packet`
calls leave the state as it was except for the counter (and `spk_recv`,
incremented at each call in a `DEBUG` build) and make no call at all. -/
theorem s_sgen_packets_counting (D : Defines) (env : Outside → SumCore → SumCore)
    (scfg : s_conf_t) (xcfg : stage_conf_t) (s : SumCore)
    (hN32 : scfg.sync_expected < 2 ^ 32) (h0 : s.s_sync_arrived = 0) (k : Nat)
    (hk : k < scfg.sync_expected) :
    s_sgen_packets D env scfg xcfg k s
      = ({ s with s_sync_arrived := k,
                  spk_recv := if D.DEBUG then (fun x => uint (x + 1))^[k] s.spk_recv
                    else s.spk_recv },
         []) := by
  induction k with
  | zero =>
    cases s
    simp only [] at h0
    subst h0
    simp [s_sgen_packets]
  | succ k ih =>
    have hk1 : uint (k + 1) = k + 1 := by unfold uint; omega
    have hne : ¬ (k + 1 = scfg.sync_expected) := by omega
    rw [s_sgen_packets, ih (by omega)]
    cases hD : D.DEBUG <;>
      simp [s_sgen_packet, hD, hk1, hne, Function.iterate_succ_apply']

/-- C10: for `N = scfg.sync_expected` with `1 ≤ N` (a `uint`), from
`s_sync_arrived = 0`: after any `k < N` calls of `s_sgen_packet` the state is
the initial one with `s_sync_arrived = k` (and `spk_recv` counted up in a
`DEBUG` build) and no call has been made (no semaphore access, no packet, no
tick advance); the `N`-th call resets `s_sync_arrived` to 0 and evaluates the
semaphore `sb_thrds_pend` in one critical section, the only one in the `N`
calls: when SYNC is not the last pending thread the call just clears the
`SPINN_THRD_SYNC` bit, and otherwise it re-arms the semaphore. -/
theorem C10_sgen_scoreboard (D : Defines) (env : Outside → SumCore → SumCore)
    (scfg : s_conf_t) (xcfg : stage_conf_t) (s : SumCore)
    (hN : 1 ≤ scfg.sync_expected) (hN32 : scfg.sync_expected < 2 ^ 32)
    (h0 : s.s_sync_arrived = 0) (henv : keeps_sync_arrived env) :
    (∀ k, k < scfg.sync_expected →
      s_sgen_packets D env scfg xcfg k s
        = ({ s with s_sync_arrived := k,
                    spk_recv := if D.DEBUG then (fun x => uint (x + 1))^[k] s.spk_recv
                      else s.spk_recv },
           []))
    ∧ (s_sgen_packets D env scfg xcfg scfg.sync_expected s).1.s_sync_arrived = 0
    ∧ (s_sgen_packets D env scfg xcfg scfg.sync_expected s).2.count Event.int_disable = 1
    ∧ (s_sgen_packets D env scfg xcfg scfg.sync_expected s).2.count Event.mode_restore = 1
    ∧ (s_sgen_packets D env scfg xcfg scfg.sync_expected s).2.take 2
        = [Event.int_disable, Event.mode_restore]
    ∧ (s.sb_thrds_pend ≠ D.SPINN_THRD_SYNC →
        (s_sgen_packets D env scfg xcfg scfg.sync_expected s).2
            = [Event.int_disable, Event.mode_restore]
        ∧ (s_sgen_packets D env scfg xcfg scfg.sync_expected s).1.sb_thrds_pend
            = s.sb_thrds_pend &&& uint_not D.SPINN_THRD_SYNC)
    ∧ (s.sb_thrds_pend = D.SPINN_THRD_SYNC →
        (s_sgen_packets D env scfg xcfg scfg.sync_expected s).2
            = [Event.int_disable, Event.mode_restore]
              ++ (if scfg.is_tree_root then [Event.send_mc_packet s.bpsKey 0 false]
                  else [])
              ++ (if scfg.is_first_group && scfg.is_tree_root
                  then [Event.call Outside.sb_advance_tick] else [])) := by
  refine ⟨fun k hk => s_sgen_packets_counting D env scfg xcfg s hN32 h0 k hk, ?_⟩
  obtain ⟨n, hn⟩ : ∃ n, scfg.sync_expected = n + 1 :=
    ⟨scfg.sync_expected - 1, by omega⟩
  have hc := s_sgen_packets_counting D env scfg xcfg s hN32 h0 n (by omega)
  have hn1 : uint (n + 1) = n + 1 := by unfold uint; omega
  rw [hn, s_sgen_packets, hc]
  by_cases hp : s.sb_thrds_pend = D.SPINN_THRD_SYNC
  · cases hD : D.DEBUG <;> cases hr : scfg.is_tree_root <;>
      cases hf : scfg.is_first_group <;>
      simp [s_sgen_packet, call_outside, hD, hr, hf, hn1, hn, hp, henv _ _] <;>
      split_ifs <;> simp [henv _ _]
  · cases hD : D.DEBUG <;>
      simp [s_sgen_packet, call_outside, hD, hn1, hn, hp]

/-- C10 for `sync_expected = 3` on the sum core `sum0`. -/
theorem C10_sgen_scoreboard_witness :
    (∀ k, k < scfg0.sync_expected →
      s_sgen_packets D0 env0 scfg0 xcfg0 k sum0
        = ({ sum0 with
              s_sync_arrived := k,
              spk_recv := if D0.DEBUG then (fun x => uint (x + 1))^[k] sum0.spk_recv
                else sum0.spk_recv },
           []))
    ∧ (s_sgen_packets D0 env0 scfg0 xcfg0 scfg0.sync_expected sum0).1.s_sync_arrived = 0
    ∧ (s_sgen_packets D0 env0 scfg0 xcfg0 scfg0.sync_expected sum0).2.count
        Event.int_disable = 1
    ∧ (s_sgen_packets D0 env0 scfg0 xcfg0 scfg0.sync_expected sum0).2.count
        Event.mode_restore = 1
    ∧ (s_sgen_packets D0 env0 scfg0 xcfg0 scfg0.sync_expected sum0).2.take 2
        = [Event.int_disable, Event.mode_restore]
    ∧ (sum0.sb_thrds_pend ≠ D0.SPINN_THRD_SYNC →
        (s_sgen_packets D0 env0 scfg0 xcfg0 scfg0.sync_expected sum0).2
            = [Event.int_disable, Event.mode_restore]
        ∧ (s_sgen_packets D0 env0 scfg0 xcfg0 scfg0.sync_expected sum0).1.sb_thrds_pend
            = sum0.sb_thrds_pend &&& uint_not D0.SPINN_THRD_SYNC)
    ∧ (sum0.sb_thrds_pend = D0.SPINN_THRD_SYNC →
        (s_sgen_packets D0 env0 scfg0 xcfg0 scfg0.sync_expected sum0).2
            = [Event.int_disable, Event.mode_restore]
              ++ (if scfg0.is_tree_root then [Event.send_mc_packet sum0.bpsKey 0 false]
                  else [])
              ++ (if scfg0.is_first_group && scfg0.is_tree_root
                  then [Event.call Outside.sb_advance_tick] else [])) :=
  C10_sgen_scoreboard D0 env0 scfg0 xcfg0 sum0 (by decide) (by decide) rfl
    (fun _ _ => rfl)

/-! ## Colour bit -/

theorem wb_process_row_arrived (D : Defines) (wcfg : w_conf_t) (inx : Nat) (delta : Int)
    (r : WeightCore × List Event) (i : Nat) :
    (wb_process_row D wcfg inx delta r i).1.wb_arrived = r.1.wb_arrived := by
  unfold wb_process_row restore_outputs
  simp only []
  split_ifs <;> rfl

theorem wb_process_rows_arrived (D : Defines) (wcfg : w_conf_t) (inx : Nat) (delta : Int)
    (l : List Nat) (r : WeightCore × List Event) :
    (l.foldl (wb_process_row D wcfg inx delta) r).1.wb_arrived = r.1.wb_arrived := by
  induction l generalizing r with
  | nil => rfl
  | cons i t ih => rw [List.foldl_cons, ih, wb_process_row_arrived]

theorem w_update_weight_arrived (D : Defines) (wcfg : w_conf_t) (mlpc : global_conf_t)
    (i j : Nat) (s : WeightCore) :
    (w_update_weight D wcfg mlpc i j s).wb_arrived = s.wb_arrived := by
  unfold w_update_weight
  simp only []
  split_ifs <;> rfl

theorem w_update_weights_arrived (D : Defines) (wcfg : w_conf_t) (mlpc : global_conf_t)
    (s : WeightCore) :
    (w_update_weights D wcfg mlpc s).wb_arrived = s.wb_arrived := by
  have inner : ∀ (l : List Nat) (j : Nat) (s : WeightCore),
      (l.foldl (fun (s : WeightCore) (i : Nat) => w_update_weight D wcfg mlpc i j s)
        s).wb_arrived = s.wb_arrived := by
    intro l j
    induction l with
    | nil => intro s; rfl
    | cons i t ih => intro s; rw [List.foldl_cons, ih, w_update_weight_arrived]
  have outer : ∀ (l : List Nat) (s : WeightCore),
      (l.foldl (fun (s : WeightCore) (j : Nat) =>
          (List.range wcfg.num_rows).foldl
            (fun (s : WeightCore) (i : Nat) => w_update_weight D wcfg mlpc i j s) s)
        s).wb_arrived = s.wb_arrived := by
    intro l
    induction l with
    | nil => intro s; rfl
    | cons j t ih => intro s; rw [List.foldl_cons, ih, inner]
  unfold w_update_weights
  simp only []
  rw [outer]
  split_ifs <;> rfl

theorem w_advance_example_arrived (D : Defines) (wcfg : w_conf_t) (mlpc : global_conf_t)
    (ex_num_events : Nat → Nat) (s : WeightCore) :
    (w_advance_example D wcfg mlpc ex_num_events s).1.wb_arrived = s.wb_arrived := by
  have inner : ∀ (l : List Nat) (i : Nat) (s : WeightCore),
      (l.foldl (fun (s : WeightCore) (j : Nat) =>
          { s with
            w_wchanges :=
              Function.update s.w_wchanges i (Function.update (s.w_wchanges i) j 0),
            w_link_deltas :=
              Function.update s.w_link_deltas i
                (Function.update (s.w_link_deltas i) j 0) }) s).wb_arrived
        = s.wb_arrived := by
    intro l i
    induction l with
    | nil => intro s; rfl
    | cons j t ih => intro s; rw [List.foldl_cons, ih]
  have outer : ∀ (l : List Nat) (s : WeightCore),
      (l.foldl (fun (s : WeightCore) (i : Nat) =>
          (List.range wcfg.num_cols).foldl (fun (s : WeightCore) (j : Nat) =>
            { s with
              w_wchanges :=
                Function.update s.w_wchanges i (Function.update (s.w_wchanges i) j 0),
              w_link_deltas :=
                Function.update s.w_link_deltas i
                  (Function.update (s.w_link_deltas i) j 0) }) s) s).wb_arrived
        = s.wb_arrived := by
    intro l
    induction l with
    | nil => intro s; rfl
    | cons i t ih => intro s; rw [List.foldl_cons, ih, inner]
  unfold w_advance_example
  simp only []
  split_ifs <;> simp [outer, w_update_weights_arrived]

theorem wb_advance_tick_arrived (D : Defines) (wcfg : w_conf_t) (mlpc : global_conf_t)
    (ex_num_events : Nat → Nat) (s : WeightCore) :
    (wb_advance_tick D wcfg mlpc ex_num_events s).1.wb_arrived = s.wb_arrived := by
  unfold wb_advance_tick w_switch_to_fw
  simp only []
  split_ifs <;> simp [w_advance_example_arrived]

theorem t_backpropPacket_arrived (D : Defines) (tcfg : t_conf_t) (key payload : Nat)
    (s : ThresholdCore) :
    (t_backpropPacket D tcfg key payload s).1.tb_arrived
        = (if (if D.SPINN_USE_COUNTER_SB = false
                then s.tb_arrived ||| uint (1 <<< (key &&& SPINN_ERROR_MASK))
                else uint (s.tb_arrived + 1)) = tcfg.b_all_arrived
            then 0
            else (if D.SPINN_USE_COUNTER_SB = false
                then s.tb_arrived ||| uint (1 <<< (key &&& SPINN_ERROR_MASK))
                else uint (s.tb_arrived + 1))) := by
  cases hC : D.SPINN_USE_COUNTER_SB <;> cases hDbg : D.DEBUG <;>
    simp only [t_backpropPacket, hC, hDbg, if_true, if_false, Bool.false_eq_true,
      Bool.true_eq_false] <;>
    split_ifs <;> rfl

theorem t_backpropPacket_stored (D : Defines) (tcfg : t_conf_t) (key payload : Nat)
    (s : ThresholdCore) :
    (t_backpropPacket D tcfg key payload s).1.t_errors s.tb_comms
          (key &&& SPINN_ERROR_MASK)
        = to_signed D.error_bits payload := by
  cases hC : D.SPINN_USE_COUNTER_SB <;> cases hDbg : D.DEBUG <;>
    simp only [t_backpropPacket, hC, hDbg, if_true, if_false, Bool.false_eq_true,
      Bool.true_eq_false] <;>
    split_ifs <;> simp

/-! ## Duplicate sync generation packets -/

/-- The call of `s_sgen_packet` that brings the count to `sync_expected` resets
`s_sync_arrived` and runs exactly one critical section on the semaphore. -/
theorem s_sgen_packets_fires (D : Defines) (env : Outside → SumCore → SumCore)
    (scfg : s_conf_t) (xcfg : stage_conf_t) (s : SumCore)
    (hN : 1 ≤ scfg.sync_expected) (hN32 : scfg.sync_expected < 2 ^ 32)
    (h0 : s.s_sync_arrived = 0) (henv : keeps_sync_arrived env) :
    (s_sgen_packets D env scfg xcfg scfg.sync_expected s).1.s_sync_arrived = 0
    ∧ (s_sgen_packets D env scfg xcfg scfg.sync_expected s).2.count Event.int_disable
        = 1 := by
  obtain ⟨n, hn⟩ : ∃ n, scfg.sync_expected = n + 1 :=
    ⟨scfg.sync_expected - 1, by omega⟩
  have hc := s_sgen_packets_counting D env scfg xcfg s hN32 h0 n (by omega)
  have hn1 : uint (n + 1) = n + 1 := by unfold uint; omega
  rw [hn, s_sgen_packets, hc]
  by_cases hp : s.sb_thrds_pend = D.SPINN_THRD_SYNC
  · cases hD : D.DEBUG <;> cases hr : scfg.is_tree_root <;>
      cases hf : scfg.is_first_group <;>
      simp [s_sgen_packet, call_outside, hD, hr, hf, hn1, hn, hp, henv _ _] <;>
      split_ifs <;> simp [henv _ _]
  · cases hD : D.DEBUG <;>
      simp [s_sgen_packet, call_outside, hD, hn1, hn, hp]

/-- With at least two packets expected, `s_sgen_packet` on a scoreboard at 0
only counts. -/
theorem s_sgen_packet_first (D : Defines) (env : Outside → SumCore → SumCore)
    (scfg : s_conf_t) (xcfg : stage_conf_t) (t : SumCore)
    (hN : 2 ≤ scfg.sync_expected) (h0 : t.s_sync_arrived = 0) :
    (s_sgen_packet D env scfg xcfg t).2 = []
    ∧ (s_sgen_packet D env scfg xcfg t).1.s_sync_arrived = 1
    ∧ (s_sgen_packet D env scfg xcfg t).1.sb_thrds_pend = t.sb_thrds_pend := by
  have h1 : uint (0 + 1) = 1 := by decide
  have hne : ¬ (1 = scfg.sync_expected) := by omega
  cases hD : D.DEBUG <;> simp [s_sgen_packet, hD, h0, h1, hne]

/-- C11 (as stated) fails for `N = 1`: with `scfg.sync_expected = 1` the first
`s_sgen_packet` fires the completion and resets the scoreboard, and one further
call fires it again (two critical sections on the semaphore in two calls). -/
theorem C11_duplicate_refires_when_one_expected :
    (s_sgen_packets D0 env0 scfg_one xcfg0 1 sum0).1.s_sync_arrived = 0
    ∧ (s_sgen_packets D0 env0 scfg_one xcfg0 1 sum0).2.count Event.int_disable = 1
    ∧ (s_sgen_packet D0 env0 scfg_one xcfg0
        (s_sgen_packets D0 env0 scfg_one xcfg0 1 sum0).1).2 ≠ []
    ∧ (s_sgen_packets D0 env0 scfg_one xcfg0 2 sum0).2.count Event.int_disable = 2 := by
  decide

/-- C11 (amended): for `N = scfg.sync_expected` (a `uint`, `1 ≤ N`), after the
`N`-th `s_sgen_packet` of a tick has fired the completion action and reset the
scoreboard: when `2 ≤ N`, one further (duplicate) `s_sgen_packet` does not fire
the completion action again: it makes no call, leaves `s_sync_arrived` at 1
and `sb_thrds_pend` as it was, so the `N + 1` calls hold one critical section;
when `N = 1`, the duplicate completes the scoreboard itself and fires the
completion action again, so the two calls hold two critical sections. -/
theorem C11_duplicate_sgen (D : Defines) (env : Outside → SumCore → SumCore)
    (scfg : s_conf_t) (xcfg : stage_conf_t) (s : SumCore)
    (hN : 1 ≤ scfg.sync_expected) (hN32 : scfg.sync_expected < 2 ^ 32)
    (h0 : s.s_sync_arrived = 0) (henv : keeps_sync_arrived env) :
    (2 ≤ scfg.sync_expected →
      (s_sgen_packet D env scfg xcfg
          (s_sgen_packets D env scfg xcfg scfg.sync_expected s).1).2 = []
      ∧ (s_sgen_packet D env scfg xcfg
          (s_sgen_packets D env scfg xcfg scfg.sync_expected s).1).1.s_sync_arrived = 1
      ∧ (s_sgen_packet D env scfg xcfg
          (s_sgen_packets D env scfg xcfg scfg.sync_expected s).1).1.sb_thrds_pend
          = (s_sgen_packets D env scfg xcfg scfg.sync_expected s).1.sb_thrds_pend
      ∧ (s_sgen_packets D env scfg xcfg (scfg.sync_expected + 1) s).2.count
          Event.int_disable = 1)
    ∧ (scfg.sync_expected = 1 →
      (s_sgen_packet D env scfg xcfg
          (s_sgen_packets D env scfg xcfg scfg.sync_expected s).1).2.count
          Event.int_disable = 1
      ∧ (s_sgen_packet D env scfg xcfg
          (s_sgen_packets D env scfg xcfg scfg.sync_expected s).1).1.s_sync_arrived = 0
      ∧ (s_sgen_packets D env scfg xcfg (scfg.sync_expected + 1) s).2.count
          Event.int_disable = 2) := by
  obtain ⟨hz, hc⟩ := s_sgen_packets_fires D env scfg xcfg s hN hN32 h0 henv
  refine ⟨fun h2 => ?_, fun h1 => ?_⟩
  · obtain ⟨h1, h2, h3⟩ := s_sgen_packet_first D env scfg xcfg
      (s_sgen_packets D env scfg xcfg scfg.sync_expected s).1 h2 hz
    refine ⟨h1, h2, h3, ?_⟩
    rw [s_sgen_packets]
    simp only [List.count_append, hc, h1, List.count_nil]
  · obtain ⟨gz, gc⟩ := s_sgen_packets_fires D env scfg xcfg
      (s_sgen_packets D env scfg xcfg scfg.sync_expected s).1 hN hN32 hz henv
    have e1 : ∀ t : SumCore, s_sgen_packets D env scfg xcfg scfg.sync_expected t
        = s_sgen_packet D env scfg xcfg t := by
      intro t
      rw [h1]
      rfl
    rw [e1 (s_sgen_packets D env scfg xcfg scfg.sync_expected s).1] at gz gc
    refine ⟨gc, gz, ?_⟩
    rw [s_sgen_packets]
    simp only [List.count_append, hc, gc]

/-- C11 (amended) for `sync_expected = 3` and for `sync_expected = 1` on the sum
core `sum0`. -/
theorem C11_duplicate_sgen_witness :
    ((s_sgen_packet D0 env0 scfg0 xcfg0
        (s_sgen_packets D0 env0 scfg0 xcfg0 scfg0.sync_expected sum0).1).2 = []
    ∧ (s_sgen_packet D0 env0 scfg0 xcfg0
        (s_sgen_packets D0 env0 scfg0 xcfg0 scfg0.sync_expected sum0).1).1.s_sync_arrived
        = 1
    ∧ (s_sgen_packet D0 env0 scfg0 xcfg0
        (s_sgen_packets D0 env0 scfg0 xcfg0 scfg0.sync_expected sum0).1).1.sb_thrds_pend
        = (s_sgen_packets D0 env0 scfg0 xcfg0 scfg0.sync_expected sum0).1.sb_thrds_pend
    ∧ (s_sgen_packets D0 env0 scfg0 xcfg0 (scfg0.sync_expected + 1) sum0).2.count
        Event.int_disable = 1)
    ∧ ((s_sgen_packet D0 env0 scfg_one xcfg0
        (s_sgen_packets D0 env0 scfg_one xcfg0 scfg_one.sync_expected sum0).1).2.count
        Event.int_disable = 1
    ∧ (s_sgen_packet D0 env0 scfg_one xcfg0
        (s_sgen_packets D0 env0 scfg_one xcfg0 scfg_one.sync_expected
          sum0).1).1.s_sync_arrived = 0
    ∧ (s_sgen_packets D0 env0 scfg_one xcfg0 (scfg_one.sync_expected + 1) sum0).2.count
        Event.int_disable = 2) :=
  ⟨(C11_duplicate_sgen D0 env0 scfg0 xcfg0 sum0 (by decide) (by decide) rfl
      (fun _ _ => rfl)).1 (by decide),
   (C11_duplicate_sgen D0 env0 scfg_one xcfg0 sum0 (by decide) (by decide) rfl
      (fun _ _ => rfl)).2 rfl⟩

/-! ## Semaphore arithmetic -/

theorem uint_not_testBit (m i : Nat) (hi : i < 32) :
    (uint_not m).testBit i = !m.testBit i := by
  unfold uint_not
  rw [Nat.testBit_xor, Nat.testBit_two_pow_sub_one, Nat.testBit_mod_two_pow]
  simp [hi]

/-- Clearing a thread bit with `pend &= ~thread` clears the bits of `thread`
and leaves every other bit of the 32-bit word as it was. -/
theorem and_uint_not_testBit (pend m i : Nat) (hi : i < 32) :
    (pend &&& uint_not m).testBit i = (pend.testBit i && !m.testBit i) := by
  rw [Nat.testBit_and, uint_not_testBit m i hi]

/-- C13: `s_stop_packet (key)` stores `tick_stop = key & SPINN_STPD_MASK`.
When `sf_thrds_pend == SPINN_THRD_STOP` it sets `sf_thrds_pend` to
`SPINN_SF_THRDS` and then calls `sf_advance_tick`, once (its only call besides
the critical section).  Otherwise it calls nothing else, and `sf_thrds_pend`
becomes `sf_thrds_pend & ~SPINN_THRD_STOP`: the bits of `SPINN_THRD_STOP` are
cleared and every other bit is unchanged. -/
theorem C13_s_stop_packet (D : Defines) (env : Outside → SumCore → SumCore)
    (key : Nat) (s : SumCore) :
    (s.sf_thrds_pend = D.SPINN_THRD_STOP →
      (s_stop_packet D env key s).2
          = [Event.int_disable, Event.mode_restore, Event.call Outside.sf_advance_tick]
      ∧ ∃ s0, (s_stop_packet D env key s).1 = env Outside.sf_advance_tick s0
          ∧ s0.tick_stop = key &&& SPINN_STPD_MASK
          ∧ s0.sf_thrds_pend = D.SPINN_SF_THRDS)
    ∧ (s.sf_thrds_pend ≠ D.SPINN_THRD_STOP →
      (s_stop_packet D env key s).2 = [Event.int_disable, Event.mode_restore]
      ∧ (s_stop_packet D env key s).1.tick_stop = key &&& SPINN_STPD_MASK
      ∧ (s_stop_packet D env key s).1.sf_thrds_pend
          = s.sf_thrds_pend &&& uint_not D.SPINN_THRD_STOP
      ∧ ∀ i, i < 32 →
          (s_stop_packet D env key s).1.sf_thrds_pend.testBit i
            = (s.sf_thrds_pend.testBit i && !D.SPINN_THRD_STOP.testBit i)) := by
  constructor
  · intro hp
    unfold s_stop_packet call_outside
    simp only []
    split_ifs <;> exact ⟨rfl, _, rfl, rfl, rfl⟩
  · intro hp
    have hbits : ∀ i, i < 32 →
        (s.sf_thrds_pend &&& uint_not D.SPINN_THRD_STOP).testBit i
          = (s.sf_thrds_pend.testBit i && !D.SPINN_THRD_STOP.testBit i) :=
      fun i hi => and_uint_not_testBit _ _ i hi
    unfold s_stop_packet call_outside
    simp only []
    split_ifs <;> exact ⟨rfl, rfl, rfl, hbits⟩

/-- C13 on `sum_stop_last`, where STOP is the last pending thread, and on
`sum0`, where another thread is pending too. -/
theorem C13_s_stop_packet_witness :
    ((s_stop_packet D0 env0 0x3a01 sum_stop_last).2
        = [Event.int_disable, Event.mode_restore, Event.call Outside.sf_advance_tick]
      ∧ ∃ s0, (s_stop_packet D0 env0 0x3a01 sum_stop_last).1
            = env0 Outside.sf_advance_tick s0
          ∧ s0.tick_stop = 0x3a01 &&& SPINN_STPD_MASK
          ∧ s0.sf_thrds_pend = D0.SPINN_SF_THRDS)
    ∧ ((s_stop_packet D0 env0 0x3a01 sum0).2 = [Event.int_disable, Event.mode_restore]
      ∧ (s_stop_packet D0 env0 0x3a01 sum0).1.tick_stop = 0x3a01 &&& SPINN_STPD_MASK
      ∧ (s_stop_packet D0 env0 0x3a01 sum0).1.sf_thrds_pend
          = sum0.sf_thrds_pend &&& uint_not D0.SPINN_THRD_STOP
      ∧ ∀ i, i < 32 →
          (s_stop_packet D0 env0 0x3a01 sum0).1.sf_thrds_pend.testBit i
            = (sum0.sf_thrds_pend.testBit i && !D0.SPINN_THRD_STOP.testBit i)) :=
  ⟨(C13_s_stop_packet D0 env0 0x3a01 sum_stop_last).1 rfl,
   (C13_s_stop_packet D0 env0 0x3a01 sum0).2 (by decide)⟩

/-- C15: when `s_sgen_packet` completes its scoreboard and finds
`sb_thrds_pend == SPINN_THRD_SYNC`, the semaphore it leaves (and hands to
`sb_advance_tick` on the root of the first group) is
`sb_thrds_init | SPINN_THRD_LDSA` when
`xcfg.update_function == SPINN_DOUGSMOMENTUM_UPDATE` and
`example_cnt == xcfg.num_examples - 1` (a `uint` difference) and
`tick == SPINN_SB_END_TICK + 1 = 2`, and exactly `sb_thrds_init` in every other
case. -/
theorem C15_semaphore_rearm (D : Defines) (env : Outside → SumCore → SumCore)
    (scfg : s_conf_t) (xcfg : stage_conf_t) (s : SumCore)
    (hcount : uint (s.s_sync_arrived + 1) = scfg.sync_expected)
    (hlast : s.sb_thrds_pend = D.SPINN_THRD_SYNC) :
    SPINN_SB_END_TICK + 1 = 2
    ∧ ∃ s0, (s_sgen_packet D env scfg xcfg s).1
          = (if (scfg.is_first_group && scfg.is_tree_root) = true
              then env Outside.sb_advance_tick s0 else s0)
        ∧ s0.sb_thrds_pend
          = (if xcfg.update_function = SPINN_DOUGSMOMENTUM_UPDATE
                ∧ s.example_cnt = uint_sub xcfg.num_examples 1
                ∧ s.tick = SPINN_SB_END_TICK + 1
              then s.sb_thrds_init ||| D.SPINN_THRD_LDSA
              else s.sb_thrds_init) := by
  refine ⟨rfl, ?_⟩
  by_cases hm : xcfg.update_function = SPINN_DOUGSMOMENTUM_UPDATE
      ∧ s.example_cnt = uint_sub xcfg.num_examples 1
      ∧ s.tick = SPINN_SB_END_TICK + 1
  · cases hD : D.DEBUG <;> cases hr : scfg.is_tree_root <;>
      cases hf : scfg.is_first_group <;>
      simp only [s_sgen_packet, call_outside, hD, hr, hf, hcount, hlast, hm,
        and_self, if_true, if_false, Bool.and_self, Bool.and_false, Bool.false_and,
        Bool.false_eq_true] <;>
      exact ⟨_, rfl, rfl⟩
  · cases hD : D.DEBUG <;> cases hr : scfg.is_tree_root <;>
      cases hf : scfg.is_first_group <;>
      simp only [s_sgen_packet, call_outside, hD, hr, hf, hcount, hlast, hm,
        and_self, if_true, if_false, Bool.and_self, Bool.and_false, Bool.false_and,
        Bool.false_eq_true] <;>
      exact ⟨_, rfl, rfl⟩

/-- C15 on the last example of an epoch with Doug's momentum (`sum_rdv_last`
with SYNC last pending), and with the steepest descent update. -/
theorem C15_semaphore_rearm_witness :
    (SPINN_SB_END_TICK + 1 = 2
      ∧ ∃ s0, (s_sgen_packet D0 env0 scfg0 xcfg_doug sum_sync_last).1
          = (if (scfg0.is_first_group && scfg0.is_tree_root) = true
              then env0 Outside.sb_advance_tick s0 else s0)
        ∧ s0.sb_thrds_pend
          = (if xcfg_doug.update_function = SPINN_DOUGSMOMENTUM_UPDATE
                ∧ sum_sync_last.example_cnt = uint_sub xcfg_doug.num_examples 1
                ∧ sum_sync_last.tick = SPINN_SB_END_TICK + 1
              then sum_sync_last.sb_thrds_init ||| D0.SPINN_THRD_LDSA
              else sum_sync_last.sb_thrds_init))
    ∧ (s_sgen_packet D0 env0 scfg0 xcfg_doug sum_sync_last).1.sb_thrds_pend = 6
    ∧ (s_sgen_packet D0 env0 scfg0 xcfg0 sum_sync_last).1.sb_thrds_pend = 2 :=
  ⟨C15_semaphore_rearm D0 env0 scfg0 xcfg_doug sum_sync_last rfl rfl,
   by decide, by decide⟩

/-! ## Rendezvous of the SYNC and LDSA threads -/

theorem disjoint_testBit (a b : Nat) (h : a &&& b = 0) (i : Nat) :
    (a.testBit i && b.testBit i) = false := by
  rw [← Nat.testBit_and, h, Nat.zero_testBit]

theorem or_ne_left_of_disjoint (a b : Nat) (h : a &&& b = 0) (hb : b ≠ 0) :
    a ||| b ≠ a := by
  intro he
  apply hb
  apply Nat.eq_of_testBit_eq
  intro i
  have h1 := disjoint_testBit a b h i
  have h2 := congrArg (fun x => x.testBit i) he
  simp only [Nat.testBit_or] at h2
  rw [Nat.zero_testBit]
  cases ha : a.testBit i <;> cases hbi : b.testBit i <;> simp_all

theorem or_and_right_self (a b : Nat) : (a ||| b) &&& b = b := by
  apply Nat.eq_of_testBit_eq
  intro i
  simp only [Nat.testBit_and, Nat.testBit_or]
  cases a.testBit i <;> cases b.testBit i <;> rfl

theorem testBit_high (b i : Nat) (hb : b < 2 ^ 32) (hi : 32 ≤ i) :
    b.testBit i = false :=
  Nat.testBit_eq_false_of_lt (lt_of_lt_of_le hb (Nat.pow_le_pow_right (by norm_num) hi))

/-- Clearing one of two disjoint thread bits leaves the other. -/
theorem or_and_uint_not_left (a b : Nat) (h : a &&& b = 0) (hb : b < 2 ^ 32) :
    (a ||| b) &&& uint_not a = b := by
  apply Nat.eq_of_testBit_eq
  intro i
  have h1 := disjoint_testBit a b h i
  by_cases hi : i < 32
  · rw [and_uint_not_testBit _ _ i hi, Nat.testBit_or]
    cases ha : a.testBit i <;> cases hbi : b.testBit i <;> simp_all
  · have hbi := testBit_high b i hb (by omega)
    unfold uint_not
    simp only [Nat.testBit_and, Nat.testBit_or, Nat.testBit_xor,
      Nat.testBit_two_pow_sub_one, Nat.testBit_mod_two_pow, hi, hbi]
    simp

theorem or_and_uint_not_right (a b : Nat) (h : a &&& b = 0) (ha : a < 2 ^ 32) :
    (a ||| b) &&& uint_not b = a := by
  rw [Nat.or_comm]
  exact or_and_uint_not_left b a (by rw [Nat.and_comm]; exact h) ha

/-- The two orders of the final packets when the end-of-epoch test of
`s_sgen_packet` holds. -/
theorem rendezvous_awaiting (D : Defines) (env : Outside → SumCore → SumCore)
    (scfg : s_conf_t) (xcfg : stage_conf_t) (payload : Nat) (s : SumCore)
    (hdisj : D.SPINN_THRD_SYNC &&& D.SPINN_THRD_LDSA = 0)
    (hS : D.SPINN_THRD_SYNC ≠ 0) (hL : D.SPINN_THRD_LDSA ≠ 0)
    (hS32 : D.SPINN_THRD_SYNC < 2 ^ 32) (hL32 : D.SPINN_THRD_LDSA < 2 ^ 32)
    (hpend : s.sb_thrds_pend = D.SPINN_THRD_SYNC ||| D.SPINN_THRD_LDSA)
    (hsync : uint (s.s_sync_arrived + 1) = scfg.sync_expected)
    (hlds : uint (s.s_lds_arrived + 1) = scfg.lds_expected)
    (hm : awaits_lds xcfg s) :
    (sgen_then_lds D env scfg xcfg payload s).2.count
        (Event.call Outside.sb_advance_tick) = 1
    ∧ (lds_then_sgen D env scfg xcfg payload s).2.count
        (Event.call Outside.sb_advance_tick)
        = (if (scfg.is_first_group && scfg.is_tree_root) = true then 1 else 0)
    ∧ ∃ sA sB,
        (sgen_then_lds D env scfg xcfg payload s).1 = env Outside.sb_advance_tick sA
        ∧ (lds_then_sgen D env scfg xcfg payload s).1
            = (if (scfg.is_first_group && scfg.is_tree_root) = true
                then env Outside.sb_advance_tick sB else sB)
        ∧ sA.sb_thrds_pend = s.sb_thrds_init
        ∧ sB.sb_thrds_pend = s.sb_thrds_init ||| D.SPINN_THRD_LDSA := by
  have h1 : D.SPINN_THRD_SYNC ||| D.SPINN_THRD_LDSA ≠ D.SPINN_THRD_SYNC :=
    or_ne_left_of_disjoint _ _ hdisj hL
  have h2 : D.SPINN_THRD_SYNC ||| D.SPINN_THRD_LDSA ≠ D.SPINN_THRD_LDSA := by
    rw [Nat.or_comm]
    exact or_ne_left_of_disjoint _ _ (by rw [Nat.and_comm]; exact hdisj) hS
  have h3 := or_and_uint_not_left _ _ hdisj hL32
  have h4 := or_and_uint_not_right _ _ hdisj hS32
  have h5 := or_and_right_self D.SPINN_THRD_SYNC D.SPINN_THRD_LDSA
  have h6 : D.SPINN_THRD_LDSA &&& D.SPINN_THRD_LDSA = D.SPINN_THRD_LDSA := Nat.and_self _
  unfold awaits_lds at hm
  cases hD : D.DEBUG <;> cases hT : D.DEBUG_THRDS <;> cases hr : scfg.is_tree_root <;>
    cases hf : scfg.is_first_group <;>
    simp only [sgen_then_lds, lds_then_sgen, s_sgen_packet, s_lds_packet,
      call_outside, hD, hT, hr, hf, hpend, hsync, hlds, h1, h2, h3, h4, h5, h6, hL,
      hm, and_self, if_true, if_false, Bool.and_self, Bool.and_false,
      Bool.false_and, Bool.false_eq_true, Bool.and_true, Bool.true_and] <;>
    refine ⟨by simp, by simp, _, _, rfl, rfl, rfl, rfl⟩

/-- The two orders of the final packets when the end-of-epoch test of
`s_sgen_packet` fails: the state before the tick advance is the same. -/
theorem rendezvous_plain (D : Defines) (env : Outside → SumCore → SumCore)
    (scfg : s_conf_t) (xcfg : stage_conf_t) (payload : Nat) (s : SumCore)
    (hdisj : D.SPINN_THRD_SYNC &&& D.SPINN_THRD_LDSA = 0)
    (hS : D.SPINN_THRD_SYNC ≠ 0) (hL : D.SPINN_THRD_LDSA ≠ 0)
    (hS32 : D.SPINN_THRD_SYNC < 2 ^ 32) (hL32 : D.SPINN_THRD_LDSA < 2 ^ 32)
    (hpend : s.sb_thrds_pend = D.SPINN_THRD_SYNC ||| D.SPINN_THRD_LDSA)
    (hsync : uint (s.s_sync_arrived + 1) = scfg.sync_expected)
    (hlds : uint (s.s_lds_arrived + 1) = scfg.lds_expected)
    (hm : ¬ awaits_lds xcfg s) :
    (sgen_then_lds D env scfg xcfg payload s).2.count
        (Event.call Outside.sb_advance_tick) = 1
    ∧ (lds_then_sgen D env scfg xcfg payload s).2.count
        (Event.call Outside.sb_advance_tick)
        = (if (scfg.is_first_group && scfg.is_tree_root) = true then 1 else 0)
    ∧ ∃ sA,
        (sgen_then_lds D env scfg xcfg payload s).1 = env Outside.sb_advance_tick sA
        ∧ (lds_then_sgen D env scfg xcfg payload s).1
            = (if (scfg.is_first_group && scfg.is_tree_root) = true
                then env Outside.sb_advance_tick sA else sA)
        ∧ sA.sb_thrds_pend = s.sb_thrds_init := by
  have h1 : D.SPINN_THRD_SYNC ||| D.SPINN_THRD_LDSA ≠ D.SPINN_THRD_SYNC :=
    or_ne_left_of_disjoint _ _ hdisj hL
  have h2 : D.SPINN_THRD_SYNC ||| D.SPINN_THRD_LDSA ≠ D.SPINN_THRD_LDSA := by
    rw [Nat.or_comm]
    exact or_ne_left_of_disjoint _ _ (by rw [Nat.and_comm]; exact hdisj) hS
  have h3 := or_and_uint_not_left _ _ hdisj hL32
  have h4 := or_and_uint_not_right _ _ hdisj hS32
  have h5 := or_and_right_self D.SPINN_THRD_SYNC D.SPINN_THRD_LDSA
  have h6 : D.SPINN_THRD_LDSA &&& D.SPINN_THRD_LDSA = D.SPINN_THRD_LDSA := Nat.and_self _
  unfold awaits_lds at hm
  cases hD : D.DEBUG <;> cases hT : D.DEBUG_THRDS <;> cases hr : scfg.is_tree_root <;>
    cases hf : scfg.is_first_group <;>
    simp only [sgen_then_lds, lds_then_sgen, s_sgen_packet, s_lds_packet,
      call_outside, hD, hT, hr, hf, hpend, hsync, hlds, h1, h2, h3, h4, h5, h6, hL,
      hm, and_self, if_true, if_false, Bool.and_self, Bool.and_false,
      Bool.false_and, Bool.false_eq_true, Bool.and_true, Bool.true_and] <;>
    refine ⟨by simp, by simp, _, rfl, rfl, rfl⟩

/-- C14 (as stated) fails.  On a sum core that is not the root of the first
group, with both threads pending and both scoreboards one arrival short, the
final `s_sgen_packet` followed by the final `s_lds_packet` calls
`sb_advance_tick` once, but the other order does not call it at all.  On the
root of the first group, at the end of an epoch with Doug's momentum, the two
orders leave different semaphores (`sb_thrds_init = 2` against
`sb_thrds_init | SPINN_THRD_LDSA = 6`). -/
theorem C14_order_matters :
    sum_rdv.sb_thrds_pend = D0.SPINN_THRD_SYNC ||| D0.SPINN_THRD_LDSA
    ∧ sum_rdv.s_sync_arrived + 1 = scfg_inner.sync_expected
    ∧ sum_rdv.s_lds_arrived + 1 = scfg_inner.lds_expected
    ∧ (sgen_then_lds D0 env0 scfg_inner xcfg0 7 sum_rdv).2.count
        (Event.call Outside.sb_advance_tick) = 1
    ∧ (lds_then_sgen D0 env0 scfg_inner xcfg0 7 sum_rdv).2.count
        (Event.call Outside.sb_advance_tick) = 0
    ∧ (sgen_then_lds D0 env0 scfg0 xcfg_doug 7 sum_rdv_last).1.sb_thrds_pend = 2
    ∧ (lds_then_sgen D0 env0 scfg0 xcfg_doug 7 sum_rdv_last).1.sb_thrds_pend = 6 := by
  decide

/-- C14 (amended): with `sb_thrds_pend == SPINN_THRD_SYNC | SPINN_THRD_LDSA`
(two disjoint, non-empty sets of bits of a `uint`) and both scoreboards one
arrival short.  The final `s_sgen_packet` followed by the final `s_lds_packet`
calls `sb_advance_tick` exactly once for every `scfg`, on a state with
`sb_thrds_pend = sb_thrds_init`.  The other order calls `sb_advance_tick`
exactly once when `scfg.is_first_group` and `scfg.is_tree_root`, and not at all
otherwise; it leaves `sb_thrds_pend = sb_thrds_init`, or
`sb_thrds_init | SPINN_THRD_LDSA` when the end-of-epoch test of `s_sgen_packet`
holds.  When that test fails the two orders reach the same state before the
tick advance, so on the root of the first group they end in the same state. -/
theorem C14_rendezvous (D : Defines) (env : Outside → SumCore → SumCore)
    (scfg : s_conf_t) (xcfg : stage_conf_t) (payload : Nat) (s : SumCore)
    (hdisj : D.SPINN_THRD_SYNC &&& D.SPINN_THRD_LDSA = 0)
    (hS : D.SPINN_THRD_SYNC ≠ 0) (hL : D.SPINN_THRD_LDSA ≠ 0)
    (hS32 : D.SPINN_THRD_SYNC < 2 ^ 32) (hL32 : D.SPINN_THRD_LDSA < 2 ^ 32)
    (hpend : s.sb_thrds_pend = D.SPINN_THRD_SYNC ||| D.SPINN_THRD_LDSA)
    (hsync : uint (s.s_sync_arrived + 1) = scfg.sync_expected)
    (hlds : uint (s.s_lds_arrived + 1) = scfg.lds_expected) :
    (sgen_then_lds D env scfg xcfg payload s).2.count
        (Event.call Outside.sb_advance_tick) = 1
    ∧ (lds_then_sgen D env scfg xcfg payload s).2.count
        (Event.call Outside.sb_advance_tick)
        = (if (scfg.is_first_group && scfg.is_tree_root) = true then 1 else 0)
    ∧ (∃ sA sB,
        (sgen_then_lds D env scfg xcfg payload s).1 = env Outside.sb_advance_tick sA
        ∧ (lds_then_sgen D env scfg xcfg payload s).1
            = (if (scfg.is_first_group && scfg.is_tree_root) = true
                then env Outside.sb_advance_tick sB else sB)
        ∧ sA.sb_thrds_pend = s.sb_thrds_init
        ∧ sB.sb_thrds_pend
            = (if awaits_lds xcfg s then s.sb_thrds_init ||| D.SPINN_THRD_LDSA
                else s.sb_thrds_init)
        ∧ (¬ awaits_lds xcfg s → sA = sB))
    ∧ (¬ awaits_lds xcfg s → scfg.is_first_group = true → scfg.is_tree_root = true →
        (sgen_then_lds D env scfg xcfg payload s).1
          = (lds_then_sgen D env scfg xcfg payload s).1) := by
  by_cases hm : awaits_lds xcfg s
  · obtain ⟨c1, c2, sA, sB, e1, e2, e3, e4⟩ :=
      rendezvous_awaiting D env scfg xcfg payload s hdisj hS hL hS32 hL32 hpend hsync
        hlds hm
    refine ⟨c1, c2, ⟨sA, sB, e1, e2, e3, ?_, fun h => absurd hm h⟩,
      fun h => absurd hm h⟩
    rw [if_pos hm]
    exact e4
  · obtain ⟨c1, c2, sA, e1, e2, e3⟩ :=
      rendezvous_plain D env scfg xcfg payload s hdisj hS hL hS32 hL32 hpend hsync
        hlds hm
    refine ⟨c1, c2, ⟨sA, sA, e1, e2, e3, ?_, fun _ => rfl⟩, ?_⟩
    · rw [if_neg hm]
      exact e3
    · intro _ hf hr
      rw [e1, e2, hf, hr]
      rfl

/-- C14 (amended) on the root of the first group (`scfg0`, `sum_rdv`). -/
theorem C14_rendezvous_witness :
    (sgen_then_lds D0 env0 scfg0 xcfg0 7 sum_rdv).2.count
        (Event.call Outside.sb_advance_tick) = 1
    ∧ (lds_then_sgen D0 env0 scfg0 xcfg0 7 sum_rdv).2.count
        (Event.call Outside.sb_advance_tick)
        = (if (scfg0.is_first_group && scfg0.is_tree_root) = true then 1 else 0)
    ∧ (∃ sA sB,
        (sgen_then_lds D0 env0 scfg0 xcfg0 7 sum_rdv).1 = env0 Outside.sb_advance_tick sA
        ∧ (lds_then_sgen D0 env0 scfg0 xcfg0 7 sum_rdv).1
            = (if (scfg0.is_first_group && scfg0.is_tree_root) = true
                then env0 Outside.sb_advance_tick sB else sB)
        ∧ sA.sb_thrds_pend = sum_rdv.sb_thrds_init
        ∧ sB.sb_thrds_pend
            = (if awaits_lds xcfg0 sum_rdv
                then sum_rdv.sb_thrds_init ||| D0.SPINN_THRD_LDSA
                else sum_rdv.sb_thrds_init)
        ∧ (¬ awaits_lds xcfg0 sum_rdv → sA = sB))
    ∧ (¬ awaits_lds xcfg0 sum_rdv → scfg0.is_first_group = true →
        scfg0.is_tree_root = true →
        (sgen_then_lds D0 env0 scfg0 xcfg0 7 sum_rdv).1
          = (lds_then_sgen D0 env0 scfg0 xcfg0 7 sum_rdv).1) :=
  C14_rendezvous D0 env0 scfg0 xcfg0 7 sum_rdv (by decide) (by decide) (by decide)
    (by decide) (by decide) (by decide) (by decide) (by decide)

/-! ## Stop chain on the threshold core -/

/-- C16: on a threshold core with `tcfg.is_last_output_group` false,
`t_chainPacket` never changes `tf_thrds_done` and never schedules
`tf_advance_tick`.  On the last output group, the `t_chainPacket` call that
completes the chain (`tf_stop_done == 0`) signals the stop thread itself: with
`tf_thrds_done == 0` it re-arms `tf_thrds_done` to `tf_thrds_init` and
schedules `tf_advance_tick`, otherwise it decrements `tf_thrds_done`; a call
that does not complete the chain leaves `tf_thrds_done` alone.  `t_stopPacket`
signals the stop thread in the same way on every core. -/
theorem C16_chain_packet (D : Defines) (tcfg : t_conf_t) (key payload : Nat)
    (s : ThresholdCore) :
    (tcfg.is_last_output_group = false →
      (t_chainPacket D tcfg key payload s).1.tf_thrds_done = s.tf_thrds_done
      ∧ count_scheduled Callback.tf_advance_tick (t_chainPacket D tcfg key payload s).2
          = 0)
    ∧ (tcfg.is_last_output_group = true → s.tf_stop_done = 0 →
        (s.tf_thrds_done = 0 →
          (t_chainPacket D tcfg key payload s).1.tf_thrds_done = s.tf_thrds_init
          ∧ (t_chainPacket D tcfg key payload s).2
              = [Event.schedule Callback.tf_send_stop 0 0 SPINN_SEND_STOP_P,
                 Event.schedule Callback.tf_advance_tick 0 0 SPINN_TF_TICK_P])
        ∧ (s.tf_thrds_done ≠ 0 →
          (t_chainPacket D tcfg key payload s).1.tf_thrds_done
              = uint_sub s.tf_thrds_done 1
          ∧ (t_chainPacket D tcfg key payload s).2
              = [Event.schedule Callback.tf_send_stop 0 0 SPINN_SEND_STOP_P]))
    ∧ (s.tf_stop_done ≠ 0 →
        (t_chainPacket D tcfg key payload s).1.tf_thrds_done = s.tf_thrds_done
        ∧ (t_chainPacket D tcfg key payload s).2 = [])
    ∧ (s.tf_thrds_done = 0 →
        (t_stopPacket D key payload s).1.tf_thrds_done = s.tf_thrds_init
        ∧ (t_stopPacket D key payload s).2
            = [Event.schedule Callback.tf_advance_tick 0 0 SPINN_TF_TICK_P])
    ∧ (s.tf_thrds_done ≠ 0 →
        (t_stopPacket D key payload s).1.tf_thrds_done = uint_sub s.tf_thrds_done 1
        ∧ (t_stopPacket D key payload s).2 = []) := by
  refine ⟨?_, ?_, ?_, ?_, ?_⟩
  · intro hl
    cases hD : D.DEBUG <;> by_cases hc : s.tf_stop_done = 0 <;>
      simp only [t_chainPacket, hD, hl, hc, if_true, if_false, Bool.false_eq_true] <;>
      exact ⟨trivial, rfl⟩
  · intro hl hc
    constructor
    · intro ht
      cases hD : D.DEBUG <;>
        simp only [t_chainPacket, hD, hl, hc, ht, if_true, if_false, Bool.false_eq_true,
          and_self]
    · intro ht
      cases hD : D.DEBUG <;>
        simp only [t_chainPacket, hD, hl, hc, ht, if_true, if_false, Bool.false_eq_true,
          and_self]
  · intro hc
    cases hD : D.DEBUG <;>
      simp only [t_chainPacket, hD, hc, if_true, if_false, Bool.false_eq_true, and_self]
  · intro ht
    cases hD : D.DEBUG <;>
      simp only [t_stopPacket, hD, ht, if_true, if_false, Bool.false_eq_true, and_self]
  · intro ht
    cases hD : D.DEBUG <;>
      simp only [t_stopPacket, hD, ht, if_true, if_false, Bool.false_eq_true, and_self]

/-- C16 on a core outside the last output group (`tcfg0`), and on the last
output group with the chain complete and the other threads done
(`thr_chain_done`) or not (`thr_chain_pend`). -/
theorem C16_chain_packet_witness :
    ((t_chainPacket D0 tcfg0 1 2 thr_chain_done).1.tf_thrds_done
        = thr_chain_done.tf_thrds_done
      ∧ count_scheduled Callback.tf_advance_tick
          (t_chainPacket D0 tcfg0 1 2 thr_chain_done).2 = 0)
    ∧ ((t_chainPacket D0 tcfg_last 1 2 thr_chain_done).1.tf_thrds_done
        = thr_chain_done.tf_thrds_init
      ∧ (t_chainPacket D0 tcfg_last 1 2 thr_chain_done).2
          = [Event.schedule Callback.tf_send_stop 0 0 SPINN_SEND_STOP_P,
             Event.schedule Callback.tf_advance_tick 0 0 SPINN_TF_TICK_P])
    ∧ ((t_chainPacket D0 tcfg_last 1 2 thr_chain_pend).1.tf_thrds_done
        = uint_sub thr_chain_pend.tf_thrds_done 1
      ∧ (t_chainPacket D0 tcfg_last 1 2 thr_chain_pend).2
          = [Event.schedule Callback.tf_send_stop 0 0 SPINN_SEND_STOP_P])
    ∧ ((t_stopPacket D0 1 2 thr_chain_done).1.tf_thrds_done
        = thr_chain_done.tf_thrds_init
      ∧ (t_stopPacket D0 1 2 thr_chain_done).2
          = [Event.schedule Callback.tf_advance_tick 0 0 SPINN_TF_TICK_P]) :=
  ⟨(C16_chain_packet D0 tcfg0 1 2 thr_chain_done).1 rfl,
   ((C16_chain_packet D0 tcfg_last 1 2 thr_chain_done).2.1 rfl rfl).1 rfl,
   ((C16_chain_packet D0 tcfg_last 1 2 thr_chain_pend).2.1 rfl rfl).2 (by decide),
   (C16_chain_packet D0 tcfg_last 1 2 thr_chain_done).2.2.2.1 rfl⟩

/-! ## Bitmask scoreboard of the threshold core -/

/-- `t_backpropPacket` is the store and mark of `tb_store`, followed by
`tb_complete` when the scoreboard has reached `tcfg.b_all_arrived`. -/
theorem t_backpropPacket_eq (D : Defines) (tcfg : t_conf_t) (key payload : Nat)
    (s : ThresholdCore) :
    t_backpropPacket D tcfg key payload s
      = if (tb_store D s (key, payload)).tb_arrived = tcfg.b_all_arrived
          then tb_complete (tb_store D s (key, payload))
          else (tb_store D s (key, payload), []) := by
  cases hC : D.SPINN_USE_COUNTER_SB <;> cases hD : D.DEBUG <;>
    simp only [t_backpropPacket, tb_store, tb_complete, hC, hD, if_true, if_false,
      Bool.false_eq_true, Bool.true_eq_false]

theorem testBit_index_mask (l : List (Nat × Nat)) (i : Nat) :
    (index_mask l).testBit i
      = decide (i ∈ l.map (fun kp => kp.1 &&& SPINN_ERROR_MASK)) := by
  induction l with
  | nil => simp [index_mask]
  | cons kp rest ih =>
    simp only [index_mask, Nat.testBit_or, ih, Nat.one_shiftLeft, Nat.testBit_two_pow,
      List.map_cons, List.mem_cons]
    by_cases h1 : kp.1 &&& SPINN_ERROR_MASK = i
    · simp [h1]
    · have h2 : ¬ (i = kp.1 &&& SPINN_ERROR_MASK) := fun h => h1 h.symm
      simp [h1, h2]

theorem index_mask_perm (l1 l2 : List (Nat × Nat)) (h : l1.Perm l2) :
    index_mask l1 = index_mask l2 := by
  apply Nat.eq_of_testBit_eq
  intro i
  rw [testBit_index_mask, testBit_index_mask]
  have hp := (h.map (fun kp => kp.1 &&& SPINN_ERROR_MASK)).mem_iff (a := i)
  simp only [hp]

theorem uint_one_shiftLeft (i : Nat) (hi : i < 32) : uint (1 <<< i) = 1 <<< i := by
  unfold uint
  rw [Nat.one_shiftLeft]
  exact Nat.mod_eq_of_lt (Nat.pow_lt_pow_right (by norm_num) hi)

/-- With the bitmask scoreboard, `tb_store` for a unit index below 32 sets the
bit of that index and leaves `tb_comms` and the semaphore alone. -/
theorem tb_store_fields (D : Defines) (s : ThresholdCore) (kp : Nat × Nat)
    (hsb : D.SPINN_USE_COUNTER_SB = false) (hi : kp.1 &&& SPINN_ERROR_MASK < 32) :
    (tb_store D s kp).tb_arrived
        = s.tb_arrived ||| (1 <<< (kp.1 &&& SPINN_ERROR_MASK))
    ∧ (tb_store D s kp).tb_comms = s.tb_comms
    ∧ (tb_store D s kp).tb_thrds_done = s.tb_thrds_done
    ∧ (tb_store D s kp).t_errors
        = Function.update s.t_errors s.tb_comms
            (Function.update (s.t_errors s.tb_comms) (kp.1 &&& SPINN_ERROR_MASK)
              (to_signed D.error_bits kp.2)) := by
  cases hD : D.DEBUG <;>
    simp only [tb_store, hsb, hD, if_true, if_false, Bool.false_eq_true,
      uint_one_shiftLeft _ hi, and_self]

theorem tb_stores_fields (D : Defines) (hsb : D.SPINN_USE_COUNTER_SB = false)
    (l : List (Nat × Nat)) :
    ∀ s : ThresholdCore, (∀ kp ∈ l, kp.1 &&& SPINN_ERROR_MASK < 32) →
      (l.foldl (tb_store D) s).tb_arrived = s.tb_arrived ||| index_mask l
      ∧ (l.foldl (tb_store D) s).tb_comms = s.tb_comms
      ∧ (l.foldl (tb_store D) s).tb_thrds_done = s.tb_thrds_done := by
  induction l with
  | nil => intro s _; simp [index_mask]
  | cons kp rest ih =>
    intro s hlt
    obtain ⟨a1, a2, a3, _⟩ := tb_store_fields D s kp hsb (hlt kp (List.mem_cons_self _ _))
    obtain ⟨b1, b2, b3⟩ := ih (tb_store D s kp)
      (fun x hx => hlt x (List.mem_cons_of_mem _ hx))
    simp only [List.foldl_cons, b1, b2, b3, a1, a2, a3, index_mask, Nat.or_assoc,
      and_self]

/-- While an expected unit index is still missing from the scoreboard, the
packets are only stored: no completion happens. -/
theorem t_backpropPackets_pending (D : Defines) (tcfg : t_conf_t)
    (hsb : D.SPINN_USE_COUNTER_SB = false) (i0 : Nat)
    (hexp : tcfg.b_all_arrived.testBit i0 = true) (l : List (Nat × Nat)) :
    ∀ s : ThresholdCore, (∀ kp ∈ l, kp.1 &&& SPINN_ERROR_MASK < 32) →
      s.tb_arrived.testBit i0 = false →
      i0 ∉ l.map (fun kp => kp.1 &&& SPINN_ERROR_MASK) →
      t_backpropPackets D tcfg l s = (l.foldl (tb_store D) s, []) := by
  induction l with
  | nil => intro s _ _ _; rfl
  | cons kp rest ih =>
    intro s hlt h0 hni
    simp only [List.map_cons, List.mem_cons, not_or] at hni
    obtain ⟨a1, _, _, _⟩ := tb_store_fields D s kp hsb (hlt kp (List.mem_cons_self _ _))
    have hbit : (tb_store D s kp).tb_arrived.testBit i0 = false := by
      rw [a1, Nat.testBit_or, h0, Nat.one_shiftLeft, Nat.testBit_two_pow]
      have : ¬ (kp.1 &&& SPINN_ERROR_MASK = i0) := fun h => hni.1 h.symm
      simp [this]
    have hne : (tb_store D s kp).tb_arrived ≠ tcfg.b_all_arrived := by
      intro he
      rw [he, hexp] at hbit
      exact Bool.noConfusion hbit
    have hrest := ih (tb_store D s kp) (fun x hx => hlt x (List.mem_cons_of_mem _ hx))
      hbit hni.2
    simp only [t_backpropPackets, t_backpropPacket_eq, hne, if_false, hrest,
      List.foldl_cons, List.nil_append]

/-- When the packets still to come are exactly the missing unit indices, one
packet each, the completion happens on the last packet. -/
theorem t_backpropPackets_complete (D : Defines) (tcfg : t_conf_t)
    (hsb : D.SPINN_USE_COUNTER_SB = false) (l : List (Nat × Nat)) :
    ∀ s : ThresholdCore, l ≠ [] → (∀ kp ∈ l, kp.1 &&& SPINN_ERROR_MASK < 32) →
      (l.map (fun kp => kp.1 &&& SPINN_ERROR_MASK)).Nodup →
      (∀ kp ∈ l, s.tb_arrived.testBit (kp.1 &&& SPINN_ERROR_MASK) = false) →
      tcfg.b_all_arrived = s.tb_arrived ||| index_mask l →
      t_backpropPackets D tcfg l s = tb_complete (l.foldl (tb_store D) s) := by
  induction l with
  | nil => intro s h; exact absurd rfl h
  | cons kp rest ih =>
    intro s _ hlt hnd hdis hall
    obtain ⟨a1, _, _, _⟩ := tb_store_fields D s kp hsb (hlt kp (List.mem_cons_self _ _))
    rw [List.map_cons, List.nodup_cons] at hnd
    cases rest with
    | nil =>
      have he : (tb_store D s kp).tb_arrived = tcfg.b_all_arrived := by
        rw [a1, hall]; simp [index_mask]
      simp only [t_backpropPackets, t_backpropPacket_eq, he, if_true, List.foldl_cons,
        List.foldl_nil, List.append_nil]
    | cons kp2 rest2 =>
      have hk2 : (tb_store D s kp).tb_arrived.testBit (kp2.1 &&& SPINN_ERROR_MASK)
          = false := by
        rw [a1, Nat.testBit_or, hdis kp2 (by simp), Nat.one_shiftLeft,
          Nat.testBit_two_pow]
        have : ¬ (kp.1 &&& SPINN_ERROR_MASK = kp2.1 &&& SPINN_ERROR_MASK) := by
          intro h
          apply hnd.1
          rw [h]
          simp
        simp [this]
      have hexp : tcfg.b_all_arrived.testBit (kp2.1 &&& SPINN_ERROR_MASK) = true := by
        rw [hall, Nat.testBit_or, testBit_index_mask]
        simp
      have hne : (tb_store D s kp).tb_arrived ≠ tcfg.b_all_arrived := by
        intro he
        rw [he, hexp] at hk2
        exact Bool.noConfusion hk2
      have hdis2 : ∀ x ∈ kp2 :: rest2,
          (tb_store D s kp).tb_arrived.testBit (x.1 &&& SPINN_ERROR_MASK) = false := by
        intro x hx
        rw [a1, Nat.testBit_or, hdis x (List.mem_cons_of_mem _ hx), Nat.one_shiftLeft,
          Nat.testBit_two_pow]
        have : ¬ (kp.1 &&& SPINN_ERROR_MASK = x.1 &&& SPINN_ERROR_MASK) := by
          intro h
          apply hnd.1
          rw [h]
          exact List.mem_map_of_mem _ hx
        simp [this]
      have hall2 : tcfg.b_all_arrived
          = (tb_store D s kp).tb_arrived ||| index_mask (kp2 :: rest2) := by
        rw [a1, hall, Nat.or_assoc]
        rfl
      have hrest := ih (tb_store D s kp) (by simp)
        (fun x hx => hlt x (List.mem_cons_of_mem _ hx)) hnd.2 hdis2 hall2
      have h1 : t_backpropPacket D tcfg kp.1 kp.2 s = (tb_store D s kp, []) := by
        rw [t_backpropPacket_eq]
        exact if_neg hne
      show ((t_backpropPackets D tcfg (kp2 :: rest2)
              (t_backpropPacket D tcfg kp.1 kp.2 s).1).1,
            (t_backpropPacket D tcfg kp.1 kp.2 s).2
              ++ (t_backpropPackets D tcfg (kp2 :: rest2)
                  (t_backpropPacket D tcfg kp.1 kp.2 s).1).2) = _
      rw [h1, hrest]
      rfl

/-- Storing two packets for different unit indices gives the same state in
either order. -/
theorem tb_store_comm (D : Defines) (hsb : D.SPINN_USE_COUNTER_SB = false)
    (z : ThresholdCore) (x y : Nat × Nat)
    (hne : x.1 &&& SPINN_ERROR_MASK ≠ y.1 &&& SPINN_ERROR_MASK) :
    tb_store D (tb_store D z x) y = tb_store D (tb_store D z y) x := by
  have hu := Function.update_comm hne (to_signed D.error_bits x.2)
    (to_signed D.error_bits y.2) (z.t_errors z.tb_comms)
  cases hD : D.DEBUG <;>
    simp only [tb_store, hsb, hD, if_true, if_false, Bool.false_eq_true,
      Function.update_same, Function.update_idem, hu, Nat.or_assoc,
      Nat.or_comm (uint (1 <<< (x.1 &&& SPINN_ERROR_MASK)))
        (uint (1 <<< (y.1 &&& SPINN_ERROR_MASK)))]

/-- The state after storing one packet per unit index does not depend on the
order of the packets. -/
theorem tb_stores_perm (D : Defines) (hsb : D.SPINN_USE_COUNTER_SB = false)
    (l1 l2 : List (Nat × Nat)) (hp : l1.Perm l2)
    (hnd : (l1.map (fun kp => kp.1 &&& SPINN_ERROR_MASK)).Nodup) (s : ThresholdCore) :
    l1.foldl (tb_store D) s = l2.foldl (tb_store D) s := by
  apply hp.foldl_eq'
  intro x hx y hy z
  by_cases he : x.1 &&& SPINN_ERROR_MASK = y.1 &&& SPINN_ERROR_MASK
  · have hxy : x = y := List.inj_on_of_nodup_map hnd hx hy he
    rw [hxy]
  · exact tb_store_comm D hsb z x y he

/-- After storing one packet per unit index, the error stored for a unit is
the payload of its packet. -/
theorem tb_stores_value (D : Defines) (hsb : D.SPINN_USE_COUNTER_SB = false)
    (l : List (Nat × Nat)) :
    ∀ s : ThresholdCore, (∀ kp ∈ l, kp.1 &&& SPINN_ERROR_MASK < 32) →
      (l.map (fun kp => kp.1 &&& SPINN_ERROR_MASK)).Nodup →
      (∀ i, i ∉ l.map (fun kp => kp.1 &&& SPINN_ERROR_MASK) →
        (l.foldl (tb_store D) s).t_errors s.tb_comms i = s.t_errors s.tb_comms i)
      ∧ ∀ p ∈ l, (l.foldl (tb_store D) s).t_errors s.tb_comms
          (p.1 &&& SPINN_ERROR_MASK) = to_signed D.error_bits p.2 := by
  induction l with
  | nil => intro s _ _; simp
  | cons kp rest ih =>
    intro s hlt hnd
    rw [List.map_cons, List.nodup_cons] at hnd
    obtain ⟨_, a2, _, a4⟩ := tb_store_fields D s kp hsb (hlt kp (List.mem_cons_self _ _))
    obtain ⟨b1, b2⟩ := ih (tb_store D s kp)
      (fun x hx => hlt x (List.mem_cons_of_mem _ hx)) hnd.2
    rw [a2] at b1 b2
    constructor
    · intro i hi
      simp only [List.map_cons, List.mem_cons, not_or] at hi
      rw [List.foldl_cons, b1 i hi.2, a4, Function.update_same,
        Function.update_noteq hi.1]
    · intro p hp
      rcases List.mem_cons.mp hp with h | h
      · rw [h, List.foldl_cons, b1 _ hnd.1, a4, Function.update_same,
          Function.update_same]
      · rw [List.foldl_cons]
        exact b2 p h

theorem tb_complete_fields (t : ThresholdCore) :
    (tb_complete t).1.tb_arrived = 0
    ∧ (tb_complete t).1.tb_comms = uint_sub 1 t.tb_comms
    ∧ (tb_complete t).1.t_errors = t.t_errors
    ∧ (t.tb_thrds_done = 0 →
        (tb_complete t).1.tb_thrds_done = 1
        ∧ (tb_complete t).2
            = [Event.schedule Callback.tb_advance_tick 0 0 SPINN_TB_TICK_P])
    ∧ (t.tb_thrds_done ≠ 0 →
        (tb_complete t).1.tb_thrds_done = uint_sub t.tb_thrds_done 1
        ∧ (tb_complete t).2 = []) := by
  unfold tb_complete
  simp only []
  split_ifs <;> simp_all

/-- C12: `t_backpropPacket` with the bitmask scoreboard, from `tb_arrived = 0`,
with `tcfg.b_all_arrived` the bitmask of the unit indices (all below 32, all
different) of the `k ≥ 1` packets `pkts`, delivered in the order of the list
(any order, since the list is arbitrary).  After fewer than `k` packets nothing
is scheduled, `tb_comms` and the semaphore are unchanged and the scoreboard
holds the bits of the packets so far; the `k`-th packet resets `tb_arrived`,
flips `tb_comms` and signals the semaphore (it schedules `tb_advance_tick` when
`tb_thrds_done` is 0 and decrements `tb_thrds_done` otherwise).  Any other
order `pkts'` of the same packets gives the same final state and calls, and the
error stored for each unit is the payload of its packet. -/
theorem C12_scoreboard_any_order (D : Defines) (tcfg : t_conf_t) (s : ThresholdCore)
    (pkts pkts' : List (Nat × Nat))
    (hsb : D.SPINN_USE_COUNTER_SB = false) (h0 : s.tb_arrived = 0) (hk : pkts ≠ [])
    (hlt : ∀ kp ∈ pkts, kp.1 &&& SPINN_ERROR_MASK < 32)
    (hnd : (pkts.map (fun kp => kp.1 &&& SPINN_ERROR_MASK)).Nodup)
    (hall : tcfg.b_all_arrived = index_mask pkts) (hperm : pkts'.Perm pkts) :
    (∀ j, j < pkts.length →
      (t_backpropPackets D tcfg (pkts.take j) s).2 = []
      ∧ (t_backpropPackets D tcfg (pkts.take j) s).1.tb_comms = s.tb_comms
      ∧ (t_backpropPackets D tcfg (pkts.take j) s).1.tb_thrds_done = s.tb_thrds_done
      ∧ (t_backpropPackets D tcfg (pkts.take j) s).1.tb_arrived
          = index_mask (pkts.take j))
    ∧ (t_backpropPackets D tcfg pkts s).1.tb_arrived = 0
    ∧ (t_backpropPackets D tcfg pkts s).1.tb_comms = uint_sub 1 s.tb_comms
    ∧ (s.tb_thrds_done = 0 →
        (t_backpropPackets D tcfg pkts s).1.tb_thrds_done = 1
        ∧ (t_backpropPackets D tcfg pkts s).2
            = [Event.schedule Callback.tb_advance_tick 0 0 SPINN_TB_TICK_P])
    ∧ (s.tb_thrds_done ≠ 0 →
        (t_backpropPackets D tcfg pkts s).1.tb_thrds_done = uint_sub s.tb_thrds_done 1
        ∧ (t_backpropPackets D tcfg pkts s).2 = [])
    ∧ t_backpropPackets D tcfg pkts' s = t_backpropPackets D tcfg pkts s
    ∧ ∀ p ∈ pkts, (t_backpropPackets D tcfg pkts s).1.t_errors s.tb_comms
        (p.1 &&& SPINN_ERROR_MASK) = to_signed D.error_bits p.2 := by
  have hz : ∀ kp ∈ pkts, s.tb_arrived.testBit (kp.1 &&& SPINN_ERROR_MASK) = false := by
    intro kp _; rw [h0, Nat.zero_testBit]
  have hall0 : tcfg.b_all_arrived = s.tb_arrived ||| index_mask pkts := by
    rw [h0, Nat.zero_or]; exact hall
  have hrun := t_backpropPackets_complete D tcfg hsb pkts s hk hlt hnd hz hall0
  obtain ⟨f1, f2, f3⟩ := tb_stores_fields D hsb pkts s hlt
  obtain ⟨c1, c2, c3, c4, c5⟩ := tb_complete_fields (pkts.foldl (tb_store D) s)
  rw [f2] at c2
  rw [f3] at c4 c5
  refine ⟨?_, ?_, ?_, ?_, ?_, ?_, ?_⟩
  · intro j hj
    have hsplit : pkts.take j ++ pkts.drop j = pkts := List.take_append_drop j pkts
    have hdrop : pkts.drop j = pkts[j] :: pkts.drop (j + 1) := List.drop_eq_getElem_cons hj
    have hmem : pkts[j] ∈ pkts := List.getElem_mem hj
    have hnd2 := hnd
    rw [← hsplit, hdrop, List.map_append, List.map_cons] at hnd2
    have hni : pkts[j].1 &&& SPINN_ERROR_MASK
        ∉ (pkts.take j).map (fun kp => kp.1 &&& SPINN_ERROR_MASK) := by
      intro hin
      exact (List.nodup_append.mp hnd2).2.2 hin (List.mem_cons_self _ _)
    have hexp : tcfg.b_all_arrived.testBit (pkts[j].1 &&& SPINN_ERROR_MASK) = true := by
      rw [hall, testBit_index_mask]
      exact decide_eq_true (List.mem_map_of_mem _ hmem)
    have hlt2 : ∀ kp ∈ pkts.take j, kp.1 &&& SPINN_ERROR_MASK < 32 :=
      fun kp hkp => hlt kp (List.mem_of_mem_take hkp)
    have hpre := t_backpropPackets_pending D tcfg hsb _ hexp (pkts.take j) s hlt2
      (by rw [h0, Nat.zero_testBit]) hni
    obtain ⟨g1, g2, g3⟩ := tb_stores_fields D hsb (pkts.take j) s hlt2
    rw [hpre]
    refine ⟨rfl, g2, g3, ?_⟩
    show (List.foldl (tb_store D) s (pkts.take j)).tb_arrived = _
    rw [g1, h0, Nat.zero_or]
  · rw [hrun]; exact c1
  · rw [hrun]; exact c2
  · rw [hrun]; exact c4
  · rw [hrun]; exact c5
  · have hnd' : (pkts'.map (fun kp => kp.1 &&& SPINN_ERROR_MASK)).Nodup :=
      (hperm.map _).nodup_iff.mpr hnd
    have hrun' := t_backpropPackets_complete D tcfg hsb pkts' s
      (fun h => hk (by rw [h] at hperm; exact hperm.symm.eq_nil))
      (fun kp hkp => hlt kp (hperm.subset hkp)) hnd'
      (fun kp _ => by rw [h0, Nat.zero_testBit])
      (by rw [h0, Nat.zero_or, hall]; exact (index_mask_perm _ _ hperm).symm)
    rw [hrun', hrun, tb_stores_perm D hsb pkts' pkts hperm hnd' s]
  · intro p hp
    rw [hrun, c3]
    exact (tb_stores_value D hsb pkts s hlt hnd).2 p hp

/-- C12 for the units 3, 0 and 1 (`b_all_arrived = 0xb`), delivered in that
order and in the order 1, 3, 0. -/
theorem C12_scoreboard_any_order_witness :
    (∀ j, j < [(0x803, 30), (0x800, 10), (0x801, 20)].length →
      (t_backpropPackets D0 tcfg0 ([(0x803, 30), (0x800, 10), (0x801, 20)].take j)
          thr0).2 = []
      ∧ (t_backpropPackets D0 tcfg0 ([(0x803, 30), (0x800, 10), (0x801, 20)].take j)
          thr0).1.tb_comms = thr0.tb_comms
      ∧ (t_backpropPackets D0 tcfg0 ([(0x803, 30), (0x800, 10), (0x801, 20)].take j)
          thr0).1.tb_thrds_done = thr0.tb_thrds_done
      ∧ (t_backpropPackets D0 tcfg0 ([(0x803, 30), (0x800, 10), (0x801, 20)].take j)
          thr0).1.tb_arrived
          = index_mask ([(0x803, 30), (0x800, 10), (0x801, 20)].take j))
    ∧ (t_backpropPackets D0 tcfg0 [(0x803, 30), (0x800, 10), (0x801, 20)]
        thr0).1.tb_arrived = 0
    ∧ (t_backpropPackets D0 tcfg0 [(0x803, 30), (0x800, 10), (0x801, 20)]
        thr0).1.tb_comms = uint_sub 1 thr0.tb_comms
    ∧ (thr0.tb_thrds_done = 0 →
        (t_backpropPackets D0 tcfg0 [(0x803, 30), (0x800, 10), (0x801, 20)]
            thr0).1.tb_thrds_done = 1
        ∧ (t_backpropPackets D0 tcfg0 [(0x803, 30), (0x800, 10), (0x801, 20)] thr0).2
            = [Event.schedule Callback.tb_advance_tick 0 0 SPINN_TB_TICK_P])
    ∧ (thr0.tb_thrds_done ≠ 0 →
        (t_backpropPackets D0 tcfg0 [(0x803, 30), (0x800, 10), (0x801, 20)]
            thr0).1.tb_thrds_done = uint_sub thr0.tb_thrds_done 1
        ∧ (t_backpropPackets D0 tcfg0 [(0x803, 30), (0x800, 10), (0x801, 20)] thr0).2
            = [])
    ∧ t_backpropPackets D0 tcfg0 [(0x801, 20), (0x803, 30), (0x800, 10)] thr0
        = t_backpropPackets D0 tcfg0 [(0x803, 30), (0x800, 10), (0x801, 20)] thr0
    ∧ ∀ p ∈ ([(0x803, 30), (0x800, 10), (0x801, 20)] : List (Nat × Nat)),
        (t_backpropPackets D0 tcfg0 [(0x803, 30), (0x800, 10), (0x801, 20)]
          thr0).1.t_errors thr0.tb_comms (p.1 &&& SPINN_ERROR_MASK)
          = to_signed D0.error_bits p.2 :=
  C12_scoreboard_any_order D0 tcfg0 thr0 [(0x803, 30), (0x800, 10), (0x801, 20)]
    [(0x801, 20), (0x803, 30), (0x800, 10)] rfl rfl (by decide) (by decide) (by decide)
    (by decide) (by decide)

/-! ## Input core: example advance -/

/-- A fold whose steps all leave the observation `p` alone leaves it alone. -/
theorem foldl_frame {σ ι α : Type} (p : σ → α) (f : σ → ι → σ)
    (h : ∀ s i, p (f s i) = p s) (l : List ι) (s : σ) : p (l.foldl f s) = p s := by
  induction l generalizing s with
  | nil => rfl
  | cons a t ih => rw [List.foldl_cons, ih, h]

/-- The routine `i_advance_example` is its three parts, one after the other. -/
theorem i_advance_example_parts (D : Defines) (C : InputConf) (s : InputCore) :
    i_advance_example D C s
      = (i_first_event D C (i_next_epoch D C (i_next_example C s)).1,
         (i_next_epoch D C (i_next_example C s)).2) := rfl

theorem i_next_example_eq (C : InputConf) (s : InputCore) :
    i_next_example C s
      = { s with example_inx :=
            if uint (s.example_inx + 1) ≥ C.es.num_examples then 0
            else uint (s.example_inx + 1) } := by
  unfold i_next_example
  simp only []
  split_ifs <;> rfl

theorem i_next_epoch_continue (D : Defines) (C : InputConf) (s : InputCore)
    (h : ¬ uint (s.example_cnt + 1) ≥ C.xcfg.num_examples) :
    i_next_epoch D C s = ({ s with example_cnt := uint (s.example_cnt + 1) }, []) := by
  unfold i_next_epoch
  simp only []
  rw [if_neg h]

theorem i_next_epoch_done (D : Defines) (C : InputConf) (s : InputCore)
    (h : uint (s.example_cnt + 1) ≥ C.xcfg.num_examples) :
    i_next_epoch D C s
      = ({ s with example_cnt := 0, epoch := uint (s.epoch + 1),
                  train_cnt := if C.xcfg.training then s.example_inx else s.train_cnt,
                  test_cnt := if C.xcfg.training then s.test_cnt else s.example_inx,
                  net_stop_rdy := !s.net_stop_rdy },
         Event.int_disable :: Event.mode_restore ::
           (if s.net_stop_rdy = true ∧ s.net_stop ≠ 0 then
              [Event.schedule Callback.stage_done SPINN_NO_ERROR 0 D.SPINN_DONE_P]
            else [])) := by
  unfold i_next_epoch
  simp only []
  rw [if_pos h]
  cases ht : C.xcfg.training <;> cases hr : s.net_stop_rdy <;>
    by_cases hn : s.net_stop = 0 <;>
    simp only [hn, hr, ne_eq, not_true_eq_false, not_false_eq_true, if_true, if_false,
      Bool.false_eq_true, false_and, true_and, and_false, and_true, Bool.not_true,
      Bool.not_false]

/-- The third part of `i_advance_example` writes `evt`, `num_events`,
`event_idx`, `i_it_idx` and the integrator arrays only. -/
theorem i_first_event_frame {α : Type} (D : Defines) (C : InputConf) (p : InputCore → α)
    (h : ∀ (s : InputCore) a b c d e f,
      p { s with evt := a, num_events := b, event_idx := c, i_it_idx := d,
                 i_last_integr_net := e, i_last_integr_delta := f } = p s)
    (s : InputCore) : p (i_first_event D C s) = p s := by
  have hfold : ∀ (t : InputCore), p ((List.range C.icfg.num_units).foldl
      (fun (s : InputCore) (i : Nat) =>
        { s with i_last_integr_net := Function.update s.i_last_integr_net i
                   (to_signed D.long_net_bits C.icfg.initNets),
                 i_last_integr_delta := Function.update s.i_last_integr_delta i 0 }) t)
      = p t := by
    intro t
    apply foldl_frame
    intro s i
    exact h s s.evt s.num_events s.event_idx s.i_it_idx _ _
  cases hi : C.icfg.in_integr_en <;> cases hg : (C.icfg.input_grp || C.icfg.output_grp) <;>
    simp only [i_first_event, hi, hg, if_true, if_false, Bool.false_eq_true] <;>
    first
    | exact h s _ _ _ _ _ _
    | exact (hfold _).trans (h s _ _ _ _ _ _)

theorem i_first_event_fields (D : Defines) (C : InputConf) (s : InputCore) :
    (i_first_event D C s).evt = 0
    ∧ (i_first_event D C s).num_events = (C.ex s.example_inx).num_events
    ∧ (i_first_event D C s).event_idx = (C.ex s.example_inx).ev_idx := by
  have key : ∀ (t : InputCore), ((List.range C.icfg.num_units).foldl
      (fun (s : InputCore) (i : Nat) =>
        { s with i_last_integr_net := Function.update s.i_last_integr_net i
                   (to_signed D.long_net_bits C.icfg.initNets),
                 i_last_integr_delta := Function.update s.i_last_integr_delta i 0 }) t).evt
        = t.evt
      ∧ ((List.range C.icfg.num_units).foldl
      (fun (s : InputCore) (i : Nat) =>
        { s with i_last_integr_net := Function.update s.i_last_integr_net i
                   (to_signed D.long_net_bits C.icfg.initNets),
                 i_last_integr_delta := Function.update s.i_last_integr_delta i 0 })
        t).num_events = t.num_events
      ∧ ((List.range C.icfg.num_units).foldl
      (fun (s : InputCore) (i : Nat) =>
        { s with i_last_integr_net := Function.update s.i_last_integr_net i
                   (to_signed D.long_net_bits C.icfg.initNets),
                 i_last_integr_delta := Function.update s.i_last_integr_delta i 0 })
        t).event_idx = t.event_idx :=
    fun t => ⟨by apply foldl_frame; intro _ _; rfl, by apply foldl_frame; intro _ _; rfl,
      by apply foldl_frame; intro _ _; rfl⟩
  cases hi : C.icfg.in_integr_en <;> cases hg : (C.icfg.input_grp || C.icfg.output_grp) <;>
    simp only [i_first_event, hi, hg, if_true, if_false, Bool.false_eq_true, key, and_self]
/-- Fields that the third part of `i_advance_example` does not write are, after
the routine, as the first two parts left them. -/
theorem i_advance_example_frame {α : Type} (D : Defines) (C : InputConf)
    (p : InputCore → α)
    (h : ∀ (s : InputCore) a b c d e f,
      p { s with evt := a, num_events := b, event_idx := c, i_it_idx := d,
                 i_last_integr_net := e, i_last_integr_delta := f } = p s)
    (s : InputCore) :
    p (i_advance_example D C s).1 = p (i_next_epoch D C (i_next_example C s)).1 := by
  rw [i_advance_example_parts]
  exact i_first_event_frame D C p h _

theorem i_next_epoch_frame (D : Defines) (C : InputConf) (s : InputCore) :
    (i_next_epoch D C s).1.tick = s.tick
    ∧ (i_next_epoch D C s).1.phase = s.phase
    ∧ (i_next_epoch D C s).1.net_stop = s.net_stop
    ∧ (i_next_epoch D C s).1.example_inx = s.example_inx := by
  by_cases h : uint (s.example_cnt + 1) ≥ C.xcfg.num_examples
  · rw [i_next_epoch_done D C s h]
    exact ⟨rfl, rfl, rfl, rfl⟩
  · rw [i_next_epoch_continue D C s h]
    exact ⟨rfl, rfl, rfl, rfl⟩

/-- The routine `i_advance_example` leaves `tick`, `phase` and `net_stop` as
they were. -/
theorem i_advance_example_keeps (D : Defines) (C : InputConf) (s : InputCore) :
    (i_advance_example D C s).1.tick = s.tick
    ∧ (i_advance_example D C s).1.phase = s.phase
    ∧ (i_advance_example D C s).1.net_stop = s.net_stop := by
  obtain ⟨h1, h2, h3, _⟩ := i_next_epoch_frame D C (i_next_example C s)
  refine ⟨?_, ?_, ?_⟩
  · rw [i_advance_example_frame D C InputCore.tick (fun _ _ _ _ _ _ _ => rfl), h1,
      i_next_example_eq]
  · rw [i_advance_example_frame D C InputCore.phase (fun _ _ _ _ _ _ _ => rfl), h2,
      i_next_example_eq]
  · rw [i_advance_example_frame D C InputCore.net_stop (fun _ _ _ _ _ _ _ => rfl), h3,
      i_next_example_eq]

/-- The routine `i_advance_example` calls none of the recorded routines. -/
theorem i_advance_example_no_invoke (D : Defines) (C : InputConf) (s : InputCore)
    (r : Routine) : (i_advance_example D C s).2.count (Event.invoke r) = 0 := by
  rw [i_advance_example_parts]
  show (i_next_epoch D C (i_next_example C s)).2.count (Event.invoke r) = 0
  by_cases h : uint ((i_next_example C s).example_cnt + 1) ≥ C.xcfg.num_examples
  · rw [i_next_epoch_done D C _ h]
    simp only []
    split_ifs <;> simp
  · rw [i_next_epoch_continue D C _ h]
    rfl

/-- C21: for every state with `example_inx < es->num_examples` (a `uint`),
`i_advance_example` sets `example_inx` to
`(example_inx + 1) mod es->num_examples`, resets `evt` to 0 and loads
`num_events` and `event_idx` from `ex[example_inx]` for the new `example_inx`.
When `example_cnt + 1 >= xcfg.num_examples` (the increment taken in `uint`
arithmetic) it increments `epoch` by one (in `uint` arithmetic) and resets
`example_cnt` to 0; otherwise it increments `example_cnt` and leaves `epoch`
unchanged. -/
theorem C21_i_advance_example (D : Defines) (C : InputConf) (s : InputCore)
    (hN32 : C.es.num_examples < 2 ^ 32) (hinx : s.example_inx < C.es.num_examples) :
    (i_advance_example D C s).1.example_inx = (s.example_inx + 1) % C.es.num_examples
    ∧ (i_advance_example D C s).1.evt = 0
    ∧ (i_advance_example D C s).1.num_events
        = (C.ex (i_advance_example D C s).1.example_inx).num_events
    ∧ (i_advance_example D C s).1.event_idx
        = (C.ex (i_advance_example D C s).1.example_inx).ev_idx
    ∧ (uint (s.example_cnt + 1) ≥ C.xcfg.num_examples →
        (i_advance_example D C s).1.epoch = uint (s.epoch + 1)
        ∧ (i_advance_example D C s).1.example_cnt = 0)
    ∧ (¬ uint (s.example_cnt + 1) ≥ C.xcfg.num_examples →
        (i_advance_example D C s).1.epoch = s.epoch
        ∧ (i_advance_example D C s).1.example_cnt = uint (s.example_cnt + 1)) := by
  have hu : uint (s.example_inx + 1) = s.example_inx + 1 := by unfold uint; omega
  have hx : (i_advance_example D C s).1.example_inx
      = (s.example_inx + 1) % C.es.num_examples := by
    rw [i_advance_example_frame D C InputCore.example_inx (fun _ _ _ _ _ _ _ => rfl),
      (i_next_epoch_frame D C _).2.2.2, i_next_example_eq]
    simp only [hu]
    split_ifs with h
    · have : s.example_inx + 1 = C.es.num_examples := by omega
      rw [this, Nat.mod_self]
    · rw [Nat.mod_eq_of_lt (by omega)]
  have hf := i_first_event_fields D C (i_next_epoch D C (i_next_example C s)).1
  have hx2 : (i_next_epoch D C (i_next_example C s)).1.example_inx
      = (i_advance_example D C s).1.example_inx := by
    rw [i_advance_example_frame D C InputCore.example_inx (fun _ _ _ _ _ _ _ => rfl)]
  rw [hx2] at hf
  refine ⟨hx, ?_, ?_, ?_, ?_, ?_⟩
  · rw [i_advance_example_parts]; exact hf.1
  · rw [i_advance_example_parts]; exact hf.2.1
  · rw [i_advance_example_parts]; exact hf.2.2
  · intro h
    have h2 : uint ((i_next_example C s).example_cnt + 1) ≥ C.xcfg.num_examples := by
      rw [i_next_example_eq]; exact h
    rw [i_advance_example_frame D C InputCore.epoch (fun _ _ _ _ _ _ _ => rfl),
      i_advance_example_frame D C InputCore.example_cnt (fun _ _ _ _ _ _ _ => rfl),
      i_next_epoch_done D C _ h2, i_next_example_eq]
    exact ⟨rfl, rfl⟩
  · intro h
    have h2 : ¬ uint ((i_next_example C s).example_cnt + 1) ≥ C.xcfg.num_examples := by
      rw [i_next_example_eq]; exact h
    rw [i_advance_example_frame D C InputCore.epoch (fun _ _ _ _ _ _ _ => rfl),
      i_advance_example_frame D C InputCore.example_cnt (fun _ _ _ _ _ _ _ => rfl),
      i_next_epoch_continue D C _ h2, i_next_example_eq]
    exact ⟨rfl, rfl⟩

/-- C21 on the last example of an epoch of four examples (`inp0`): the index
wraps from 3 to 0 and the epoch ends. -/
theorem C21_i_advance_example_witness :
    (i_advance_example D0 C0 inp0).1.example_inx = (inp0.example_inx + 1) % C0.es.num_examples
    ∧ (i_advance_example D0 C0 inp0).1.evt = 0
    ∧ (i_advance_example D0 C0 inp0).1.num_events
        = (C0.ex (i_advance_example D0 C0 inp0).1.example_inx).num_events
    ∧ (i_advance_example D0 C0 inp0).1.event_idx
        = (C0.ex (i_advance_example D0 C0 inp0).1.example_inx).ev_idx
    ∧ (uint (inp0.example_cnt + 1) ≥ C0.xcfg.num_examples →
        (i_advance_example D0 C0 inp0).1.epoch = uint (inp0.epoch + 1)
        ∧ (i_advance_example D0 C0 inp0).1.example_cnt = 0)
    ∧ (¬ uint (inp0.example_cnt + 1) ≥ C0.xcfg.num_examples →
        (i_advance_example D0 C0 inp0).1.epoch = inp0.epoch
        ∧ (i_advance_example D0 C0 inp0).1.example_cnt = uint (inp0.example_cnt + 1)) :=
  C21_i_advance_example D0 C0 inp0 (by decide) (by decide)
/-! ## Input core: tick advance -/

/-- The three cases of `if_advance_event`. -/
theorem if_advance_event_cases (D : Defines) (C : InputConf) (s : InputCore) :
    ((uint (s.evt + 1) ≥ s.num_events ∨ s.tick = uint_sub C.ncfg.global_max_ticks 1) →
      (C.xcfg.training = true →
        if_advance_event D C s
          = ({ s with evt := uint (s.evt + 1), phase := SPINN_BACKPROP }, []))
      ∧ (C.xcfg.training = false →
        (if_advance_event D C s).1.tick = SPINN_I_INIT_TICK
        ∧ (if_advance_event D C s).1.phase = s.phase
        ∧ (if_advance_event D C s).2.count (Event.invoke Routine.i_advance_example) = 1
        ∧ (if_advance_event D C s).1
            = (i_advance_example D C
                { s with evt := uint (s.evt + 1), tick := SPINN_I_INIT_TICK }).1))
    ∧ (¬ (uint (s.evt + 1) ≥ s.num_events ∨ s.tick = uint_sub C.ncfg.global_max_ticks 1) →
        if_advance_event D C s
          = ({ s with evt := uint (s.evt + 1), tick := uint (s.tick + 1),
                      i_it_idx := if (C.icfg.input_grp || C.icfg.output_grp) = true
                        then uint (s.i_it_idx + C.icfg.num_units) else s.i_it_idx },
             [])) := by
  refine ⟨fun hc => ⟨fun ht => ?_, fun ht => ?_⟩, fun hc => ?_⟩
  · unfold if_advance_event
    simp only []
    rw [if_pos hc, if_pos ht]
  · have e : if_advance_event D C s
        = ((i_advance_example D C
              { s with evt := uint (s.evt + 1), tick := SPINN_I_INIT_TICK }).1,
           Event.invoke Routine.i_advance_example ::
             (i_advance_example D C
              { s with evt := uint (s.evt + 1), tick := SPINN_I_INIT_TICK }).2) := by
      unfold if_advance_event
      simp only []
      rw [if_pos hc, if_neg (by rw [ht]; exact Bool.false_ne_true)]
    rw [e]
    obtain ⟨k1, k2, _⟩ := i_advance_example_keeps D C
      { s with evt := uint (s.evt + 1), tick := SPINN_I_INIT_TICK }
    refine ⟨k1, k2, ?_, rfl⟩
    rw [List.count_cons_self, i_advance_example_no_invoke]
  · unfold if_advance_event
    simp only []
    rw [if_neg hc]
    split_ifs <;> rfl

/-- C19: when `if_advance_event` finds the events of the example exhausted
(`evt + 1 >= num_events`, with the increment of `evt` in `uint` arithmetic) or
`tick == ncfg.global_max_ticks - 1` (a `uint` difference), then in training
mode it sets `phase` to `SPINN_BACKPROP` and leaves `tick` (and everything but
`evt`) unchanged, and otherwise it sets `tick` to `SPINN_I_INIT_TICK`, keeps
the phase and calls `i_advance_example` exactly once, on the state with the new
`evt` and `tick`.  When neither condition holds it increments `evt` and `tick`
by one, keeps the phase and everything else, and adds `icfg.num_units` to
`i_it_idx` exactly when the core belongs to an input or output group. -/
theorem C19_if_advance_event (D : Defines) (C : InputConf) (s : InputCore) :
    ((uint (s.evt + 1) ≥ s.num_events ∨ s.tick = uint_sub C.ncfg.global_max_ticks 1) →
      (C.xcfg.training = true →
        if_advance_event D C s
          = ({ s with evt := uint (s.evt + 1), phase := SPINN_BACKPROP }, []))
      ∧ (C.xcfg.training = false →
        (if_advance_event D C s).1.tick = SPINN_I_INIT_TICK
        ∧ (if_advance_event D C s).1.phase = s.phase
        ∧ (if_advance_event D C s).2.count (Event.invoke Routine.i_advance_example) = 1
        ∧ (if_advance_event D C s).1
            = (i_advance_example D C
                { s with evt := uint (s.evt + 1), tick := SPINN_I_INIT_TICK }).1))
    ∧ (¬ (uint (s.evt + 1) ≥ s.num_events ∨ s.tick = uint_sub C.ncfg.global_max_ticks 1) →
        if_advance_event D C s
          = ({ s with evt := uint (s.evt + 1), tick := uint (s.tick + 1),
                      i_it_idx := if (C.icfg.input_grp || C.icfg.output_grp) = true
                        then uint (s.i_it_idx + C.icfg.num_units) else s.i_it_idx },
             [])) :=
  if_advance_event_cases D C s

/-- C19 on a training core at the tick ceiling (`C0`, `inp0`), on a core that
is not training (`C0_test`), and below the ceiling (`inp_back`, tick 4). -/
theorem C19_if_advance_event_witness :
    if_advance_event D0 C0 inp0
        = ({ inp0 with evt := uint (inp0.evt + 1), phase := SPINN_BACKPROP }, [])
    ∧ ((if_advance_event D0 C0_test inp0).1.tick = SPINN_I_INIT_TICK
        ∧ (if_advance_event D0 C0_test inp0).1.phase = inp0.phase
        ∧ (if_advance_event D0 C0_test inp0).2.count
            (Event.invoke Routine.i_advance_example) = 1
        ∧ (if_advance_event D0 C0_test inp0).1
            = (i_advance_example D0 C0_test
                { inp0 with evt := uint (inp0.evt + 1), tick := SPINN_I_INIT_TICK }).1)
    ∧ if_advance_event D0 C0 inp_back
        = ({ inp_back with evt := uint (inp_back.evt + 1),
                           tick := uint (inp_back.tick + 1),
                           i_it_idx := if (C0.icfg.input_grp || C0.icfg.output_grp) = true
                             then uint (inp_back.i_it_idx + C0.icfg.num_units)
                             else inp_back.i_it_idx },
           []) :=
  ⟨((C19_if_advance_event D0 C0 inp0).1 (by decide)).1 rfl,
   ((C19_if_advance_event D0 C0_test inp0).1 (by decide)).2 rfl,
   (C19_if_advance_event D0 C0 inp_back).2 (by decide)⟩

/-- C18 (as stated) fails: at `tick == ncfg.global_max_ticks - 1` (tick 9 of at
most 10) with no stop decision (`tick_stop == 0`), `if_advance_tick` increments
`tick` to 10. -/
theorem C18_tick_passes_ceiling :
    inp0.tick = uint_sub C0.ncfg.global_max_ticks 1
    ∧ inp0.tick_stop = 0
    ∧ (if_advance_tick D0 env0 C0 inp0).1.tick = inp0.tick + 1 := by
  decide

/-- C18 (amended): at `tick == ncfg.global_max_ticks - 1` (read after
`tick_init`), `if_advance_tick` does not increment `tick` when the stop
decision is set (`tick_stop != 0`): in training mode `tick` is unchanged and
the phase becomes `SPINN_BACKPROP`, otherwise `tick` becomes
`SPINN_I_INIT_TICK`.  With `tick_stop == 0` it increments `tick`. -/
theorem C18_tick_ceiling (D : Defines) (env : Outside → InputCore → InputCore)
    (C : InputConf) (s : InputCore)
    (hceil : (env (Outside.tick_init (not_restart D) 0) s).tick
      = uint_sub C.ncfg.global_max_ticks 1) :
    ((env (Outside.tick_init (not_restart D) 0) s).tick_stop ≠ 0 →
      (C.xcfg.training = true →
        (if_advance_tick D env C s).1.tick
            = (env (Outside.tick_init (not_restart D) 0) s).tick
        ∧ (if_advance_tick D env C s).1.phase = SPINN_BACKPROP)
      ∧ (C.xcfg.training = false →
        (if_advance_tick D env C s).1.tick = SPINN_I_INIT_TICK))
    ∧ ((env (Outside.tick_init (not_restart D) 0) s).tick_stop = 0 →
        (if_advance_tick D env C s).1.tick
          = uint ((env (Outside.tick_init (not_restart D) 0) s).tick + 1)) := by
  obtain ⟨hA, _⟩ := if_advance_event_cases D C (env (Outside.tick_init (not_restart D) 0) s)
  refine ⟨fun hs => ⟨fun ht => ?_, fun ht => ?_⟩, fun hs => ?_⟩
  · have e : (if_advance_tick D env C s).1
        = (if_advance_event D C (env (Outside.tick_init (not_restart D) 0) s)).1 := by
      unfold if_advance_tick call_outside
      simp only []
      rw [if_pos hs]
    rw [e, ((hA (Or.inr hceil)).1 ht)]
    exact ⟨rfl, rfl⟩
  · have e : (if_advance_tick D env C s).1
        = (if_advance_event D C (env (Outside.tick_init (not_restart D) 0) s)).1 := by
      unfold if_advance_tick call_outside
      simp only []
      rw [if_pos hs]
    rw [e]
    exact ((hA (Or.inr hceil)).2 ht).1
  · unfold if_advance_tick call_outside
    simp only []
    rw [if_neg (not_not.mpr hs)]
/-- C18 (amended) on a training core at tick 9 of at most 10 with the stop
decision set (`inp_stop`): the tick stays 9 and the phase becomes BACKPROP. -/
theorem C18_tick_ceiling_witness :
    (if_advance_tick D0 env0 C0 inp_stop).1.tick = inp_stop.tick
    ∧ (if_advance_tick D0 env0 C0 inp_stop).1.phase = SPINN_BACKPROP :=
  ((C18_tick_ceiling D0 env0 C0 inp_stop (by decide)).1 (by decide)).1 rfl

/-- C29: with `tick_stop == 0` (read after `tick_init`), `if_advance_tick`
increments `tick` by one (in `uint` arithmetic) and leaves everything else as
`tick_init` left it, in particular `phase`, `evt`, `num_events`, `event_idx`,
`i_it_idx` and the example and epoch counters, and it calls nothing besides
`tick_init`.  With `tick_stop != 0` it does not write `tick` itself: it calls
`if_advance_event`, once, on the state that `tick_init` left, and the result is
the result of that call. -/
theorem C29_if_advance_tick_frame (D : Defines) (env : Outside → InputCore → InputCore)
    (C : InputConf) (s : InputCore) :
    ((env (Outside.tick_init (not_restart D) 0) s).tick_stop = 0 →
      if_advance_tick D env C s
        = ({ env (Outside.tick_init (not_restart D) 0) s with
               tick := uint ((env (Outside.tick_init (not_restart D) 0) s).tick + 1) },
           [Event.call (Outside.tick_init (not_restart D) 0)])
      ∧ (if_advance_tick D env C s).1.phase
          = (env (Outside.tick_init (not_restart D) 0) s).phase
      ∧ (if_advance_tick D env C s).1.evt
          = (env (Outside.tick_init (not_restart D) 0) s).evt
      ∧ (if_advance_tick D env C s).1.num_events
          = (env (Outside.tick_init (not_restart D) 0) s).num_events
      ∧ (if_advance_tick D env C s).1.event_idx
          = (env (Outside.tick_init (not_restart D) 0) s).event_idx
      ∧ (if_advance_tick D env C s).1.i_it_idx
          = (env (Outside.tick_init (not_restart D) 0) s).i_it_idx
      ∧ (if_advance_tick D env C s).1.example_inx
          = (env (Outside.tick_init (not_restart D) 0) s).example_inx
      ∧ (if_advance_tick D env C s).1.example_cnt
          = (env (Outside.tick_init (not_restart D) 0) s).example_cnt
      ∧ (if_advance_tick D env C s).1.epoch
          = (env (Outside.tick_init (not_restart D) 0) s).epoch)
    ∧ ((env (Outside.tick_init (not_restart D) 0) s).tick_stop ≠ 0 →
      if_advance_tick D env C s
        = ((if_advance_event D C (env (Outside.tick_init (not_restart D) 0) s)).1,
           Event.call (Outside.tick_init (not_restart D) 0) ::
             Event.invoke Routine.if_advance_event ::
             (if_advance_event D C (env (Outside.tick_init (not_restart D) 0) s)).2)) := by
  refine ⟨fun hs => ?_, fun hs => ?_⟩
  · have e : if_advance_tick D env C s
        = ({ env (Outside.tick_init (not_restart D) 0) s with
               tick := uint ((env (Outside.tick_init (not_restart D) 0) s).tick + 1) },
           [Event.call (Outside.tick_init (not_restart D) 0)]) := by
      unfold if_advance_tick call_outside
      simp only []
      rw [if_neg (not_not.mpr hs)]
    rw [e]
    exact ⟨rfl, rfl, rfl, rfl, rfl, rfl, rfl, rfl, rfl⟩
  · unfold if_advance_tick call_outside
    simp only []
    rw [if_pos hs]
    rfl

/-- C29 on an input core without the stop decision (`inp_back`, tick 4) and
with it (`inp_stop`). -/
theorem C29_if_advance_tick_frame_witness :
    (if_advance_tick D0 env0 C0 inp_back
        = ({ env0 (Outside.tick_init (not_restart D0) 0) inp_back with
               tick := uint ((env0 (Outside.tick_init (not_restart D0) 0) inp_back).tick
                 + 1) },
           [Event.call (Outside.tick_init (not_restart D0) 0)])
      ∧ (if_advance_tick D0 env0 C0 inp_back).1.phase
          = (env0 (Outside.tick_init (not_restart D0) 0) inp_back).phase
      ∧ (if_advance_tick D0 env0 C0 inp_back).1.evt
          = (env0 (Outside.tick_init (not_restart D0) 0) inp_back).evt
      ∧ (if_advance_tick D0 env0 C0 inp_back).1.num_events
          = (env0 (Outside.tick_init (not_restart D0) 0) inp_back).num_events
      ∧ (if_advance_tick D0 env0 C0 inp_back).1.event_idx
          = (env0 (Outside.tick_init (not_restart D0) 0) inp_back).event_idx
      ∧ (if_advance_tick D0 env0 C0 inp_back).1.i_it_idx
          = (env0 (Outside.tick_init (not_restart D0) 0) inp_back).i_it_idx
      ∧ (if_advance_tick D0 env0 C0 inp_back).1.example_inx
          = (env0 (Outside.tick_init (not_restart D0) 0) inp_back).example_inx
      ∧ (if_advance_tick D0 env0 C0 inp_back).1.example_cnt
          = (env0 (Outside.tick_init (not_restart D0) 0) inp_back).example_cnt
      ∧ (if_advance_tick D0 env0 C0 inp_back).1.epoch
          = (env0 (Outside.tick_init (not_restart D0) 0) inp_back).epoch)
    ∧ if_advance_tick D0 env0 C0 inp_stop
        = ((if_advance_event D0 C0
              (env0 (Outside.tick_init (not_restart D0) 0) inp_stop)).1,
           Event.call (Outside.tick_init (not_restart D0) 0) ::
             Event.invoke Routine.if_advance_event ::
             (if_advance_event D0 C0
               (env0 (Outside.tick_init (not_restart D0) 0) inp_stop)).2) :=
  ⟨(C29_if_advance_tick_frame D0 env0 C0 inp_back).1 rfl,
   (C29_if_advance_tick_frame D0 env0 C0 inp_stop).2 (by decide)⟩

/-! ## Net history of the input core -/

/-- The loop of `restore_nets`, after `n` rounds: the nets below `n` hold the
history entries of the tick, nothing else has changed. -/
theorem restore_nets_loop (C : InputConf) (tick : Nat) (s : InputCore) (n : Nat) :
    (List.range n).foldl
      (fun (s : InputCore) (inx : Nat) =>
        let net := s.i_net_history (uint (uint (tick * C.icfg.num_units) + inx))
        { s with i_nets := Function.update s.i_nets inx net }) s
      = { s with i_nets := fun j =>
            if j < n then s.i_net_history (uint (uint (tick * C.icfg.num_units) + j))
            else s.i_nets j } := by
  induction n with
  | zero =>
    cases s
    simp
  | succ n ih =>
    rw [List.range_succ, List.foldl_append, ih]
    simp only [List.foldl_cons, List.foldl_nil, InputCore.mk.injEq, true_and, and_true]
    funext j
    by_cases hj : j = n
    · subst hj
      simp
    · have : j < n + 1 ↔ j < n := by omega
      simp [Function.update, hj, this]

theorem restore_nets_eq (C : InputConf) (tick : Nat) (s : InputCore) :
    restore_nets C tick s
      = { s with i_nets := fun j =>
            if j < C.icfg.num_units
              then s.i_net_history (uint (uint (tick * C.icfg.num_units) + j))
            else s.i_nets j } :=
  restore_nets_loop C tick s C.icfg.num_units

/-- C20: when `tick == SPINN_IB_END_TICK` (read after `tick_init`),
`ib_advance_tick` sets `tick` to `SPINN_I_INIT_TICK`, switches `phase` to
`SPINN_FORWARD` and calls `i_advance_example` exactly once, on that state.
Otherwise it decrements `tick` by one (a `uint` subtraction), keeps the phase
and the net history, and makes `i_nets[inx]` equal to
`i_net_history[tick' * icfg.num_units + inx]` (the index in `uint` arithmetic)
for every `inx < icfg.num_units`, where `tick'` is the decremented tick. -/
theorem C20_ib_advance_tick (D : Defines) (env : Outside → InputCore → InputCore)
    (C : InputConf) (s : InputCore) :
    ((env (Outside.tick_init (not_restart D) 0) s).tick = SPINN_IB_END_TICK →
      (ib_advance_tick D env C s).1.tick = SPINN_I_INIT_TICK
      ∧ (ib_advance_tick D env C s).1.phase = SPINN_FORWARD
      ∧ (ib_advance_tick D env C s).2.count (Event.invoke Routine.i_advance_example) = 1
      ∧ (ib_advance_tick D env C s).1
          = (i_advance_example D C
              { env (Outside.tick_init (not_restart D) 0) s with
                  tick := SPINN_I_INIT_TICK, phase := SPINN_FORWARD }).1)
    ∧ ((env (Outside.tick_init (not_restart D) 0) s).tick ≠ SPINN_IB_END_TICK →
      (ib_advance_tick D env C s).1.tick
          = uint_sub (env (Outside.tick_init (not_restart D) 0) s).tick 1
      ∧ (ib_advance_tick D env C s).1.phase
          = (env (Outside.tick_init (not_restart D) 0) s).phase
      ∧ (ib_advance_tick D env C s).1.i_net_history
          = (env (Outside.tick_init (not_restart D) 0) s).i_net_history
      ∧ ∀ inx, inx < C.icfg.num_units →
          (ib_advance_tick D env C s).1.i_nets inx
            = (ib_advance_tick D env C s).1.i_net_history
                (uint (uint ((ib_advance_tick D env C s).1.tick * C.icfg.num_units)
                  + inx))) := by
  refine ⟨fun ht => ?_, fun ht => ?_⟩
  · have e : ib_advance_tick D env C s
        = ((i_advance_example D C
              { env (Outside.tick_init (not_restart D) 0) s with
                  tick := SPINN_I_INIT_TICK, phase := SPINN_FORWARD }).1,
           Event.call (Outside.tick_init (not_restart D) 0) ::
             Event.invoke Routine.i_advance_example ::
             (i_advance_example D C
              { env (Outside.tick_init (not_restart D) 0) s with
                  tick := SPINN_I_INIT_TICK, phase := SPINN_FORWARD }).2) := by
      unfold ib_advance_tick call_outside
      simp only []
      rw [if_pos ht]
      rfl
    rw [e]
    obtain ⟨k1, k2, _⟩ := i_advance_example_keeps D C
      { env (Outside.tick_init (not_restart D) 0) s with
          tick := SPINN_I_INIT_TICK, phase := SPINN_FORWARD }
    refine ⟨k1, k2, ?_, rfl⟩
    rw [List.count_cons_of_ne (by simp), List.count_cons_self,
      i_advance_example_no_invoke]
  · have e : (ib_advance_tick D env C s).1
        = restore_nets C (uint_sub (env (Outside.tick_init (not_restart D) 0) s).tick 1)
            { env (Outside.tick_init (not_restart D) 0) s with
                tick := uint_sub (env (Outside.tick_init (not_restart D) 0) s).tick 1 } := by
      unfold ib_advance_tick call_outside
      simp only []
      rw [if_neg ht]
    rw [e, restore_nets_eq]
    refine ⟨rfl, rfl, rfl, ?_⟩
    intro inx hinx
    simp only [hinx, if_true]

/-- C20 at the end tick of the BACKPROP phase (`inp_back_end`) and at tick 4
(`inp_back`). -/
theorem C20_ib_advance_tick_witness :
    ((ib_advance_tick D0 env0 C0 inp_back_end).1.tick = SPINN_I_INIT_TICK
      ∧ (ib_advance_tick D0 env0 C0 inp_back_end).1.phase = SPINN_FORWARD
      ∧ (ib_advance_tick D0 env0 C0 inp_back_end).2.count
          (Event.invoke Routine.i_advance_example) = 1
      ∧ (ib_advance_tick D0 env0 C0 inp_back_end).1
          = (i_advance_example D0 C0
              { env0 (Outside.tick_init (not_restart D0) 0) inp_back_end with
                  tick := SPINN_I_INIT_TICK, phase := SPINN_FORWARD }).1)
    ∧ ((ib_advance_tick D0 env0 C0 inp_back).1.tick
          = uint_sub (env0 (Outside.tick_init (not_restart D0) 0) inp_back).tick 1
      ∧ (ib_advance_tick D0 env0 C0 inp_back).1.phase
          = (env0 (Outside.tick_init (not_restart D0) 0) inp_back).phase
      ∧ (ib_advance_tick D0 env0 C0 inp_back).1.i_net_history
          = (env0 (Outside.tick_init (not_restart D0) 0) inp_back).i_net_history
      ∧ ∀ inx, inx < C0.icfg.num_units →
          (ib_advance_tick D0 env0 C0 inp_back).1.i_nets inx
            = (ib_advance_tick D0 env0 C0 inp_back).1.i_net_history
                (uint (uint ((ib_advance_tick D0 env0 C0 inp_back).1.tick
                  * C0.icfg.num_units) + inx))) :=
  ⟨(C20_ib_advance_tick D0 env0 C0 inp_back_end).1 rfl,
   (C20_ib_advance_tick D0 env0 C0 inp_back).2 (by decide)⟩

/-! ## Network stop rendezvous -/

/-- The packet side of the rendezvous on `net_stop_rdy`: `s_net_stop_packet`
stores the decision and flips the flag; it schedules `stage_done` when the flag
was set and the decision is to stop. -/
theorem s_net_stop_packet_rendezvous (D : Defines) (key : Nat) (s : SumCore) :
    (s_net_stop_packet D key s).1.net_stop_rdy = !s.net_stop_rdy
    ∧ (s_net_stop_packet D key s).1.net_stop = key &&& SPINN_STPD_MASK
    ∧ (s_net_stop_packet D key s).2
        = Event.int_disable :: Event.mode_restore ::
            (if s.net_stop_rdy = true ∧ key &&& SPINN_STPD_MASK ≠ 0 then
              [Event.schedule Callback.stage_done SPINN_NO_ERROR 0 D.SPINN_DONE_P]
            else []) := by
  cases hD : D.DEBUG <;> cases hr : s.net_stop_rdy <;>
    by_cases hn : key &&& SPINN_STPD_MASK = 0 <;>
    simp only [s_net_stop_packet, hD, hr, hn, ne_eq, not_true_eq_false,
      not_false_eq_true, if_true, if_false, Bool.false_eq_true, false_and, true_and,
      and_false, and_true, Bool.not_true, Bool.not_false, and_self]

/-- The example side of the rendezvous on `net_stop_rdy`: at the end of an
epoch `i_advance_example` flips the flag; it schedules `stage_done` when the
flag was set and the decision is to stop. -/
theorem i_advance_example_rendezvous (D : Defines) (C : InputConf) (c : InputCore)
    (hend : uint (c.example_cnt + 1) ≥ C.xcfg.num_examples) :
    (i_advance_example D C c).1.net_stop_rdy = !c.net_stop_rdy
    ∧ (i_advance_example D C c).2
        = Event.int_disable :: Event.mode_restore ::
            (if c.net_stop_rdy = true ∧ c.net_stop ≠ 0 then
              [Event.schedule Callback.stage_done SPINN_NO_ERROR 0 D.SPINN_DONE_P]
            else []) := by
  have h2 : uint ((i_next_example C c).example_cnt + 1) ≥ C.xcfg.num_examples := by
    rw [i_next_example_eq]; exact hend
  constructor
  · rw [i_advance_example_frame D C InputCore.net_stop_rdy (fun _ _ _ _ _ _ _ => rfl),
      i_next_epoch_done D C _ h2, i_next_example_eq]
  · rw [i_advance_example_parts]
    show (i_next_epoch D C (i_next_example C c)).2 = _
    rw [i_next_epoch_done D C _ h2, i_next_example_eq]

/-- C17 (as stated) fails: when the network stop packet carries the decision
not to stop (`key & SPINN_STPD_MASK == 0`), the second of the two events clears
`net_stop_rdy` and does not schedule `stage_done`, in either order. -/
theorem C17_second_event_without_stage_done :
    sum0.net_stop_rdy = false
    ∧ inp0.net_stop_rdy = false
    ∧ (s_net_stop_packet D0 0x3200 sum0).1.net_stop_rdy = true
    ∧ (i_advance_example D0 C0
        (net_stop_to_input (s_net_stop_packet D0 0x3200 sum0).1 inp0)).1.net_stop_rdy
        = false
    ∧ count_scheduled Callback.stage_done
        (i_advance_example D0 C0
          (net_stop_to_input (s_net_stop_packet D0 0x3200 sum0).1 inp0)).2 = 0
    ∧ (i_advance_example D0 C0 inp0).1.net_stop_rdy = true
    ∧ (s_net_stop_packet D0 0x3200
        (net_stop_to_sum (i_advance_example D0 C0 inp0).1 sum0)).1.net_stop_rdy = false
    ∧ count_scheduled Callback.stage_done
        (s_net_stop_packet D0 0x3200
          (net_stop_to_sum (i_advance_example D0 C0 inp0).1 sum0)).2 = 0 := by
  decide

/-- C17 (amended): starting with `net_stop_rdy` FALSE, of the two events
"network stop packet received" (`s_net_stop_packet`) and "local examples
exhausted" (the end-of-epoch branch of `i_advance_example`), whichever occurs
first only sets `net_stop_rdy` to TRUE and schedules nothing, and whichever
occurs second clears `net_stop_rdy` and schedules `stage_done` with
`SPINN_NO_ERROR` exactly when the decision carried by the packet,
`key & SPINN_STPD_MASK`, is not zero, in either order. -/
theorem C17_net_stop_rendezvous (D : Defines) (C : InputConf) (key : Nat)
    (s : SumCore) (c : InputCore)
    (hs : s.net_stop_rdy = false) (hc : c.net_stop_rdy = false)
    (hend : uint (c.example_cnt + 1) ≥ C.xcfg.num_examples) :
    ((s_net_stop_packet D key s).1.net_stop_rdy = true
      ∧ (s_net_stop_packet D key s).2 = [Event.int_disable, Event.mode_restore]
      ∧ (i_advance_example D C
          (net_stop_to_input (s_net_stop_packet D key s).1 c)).1.net_stop_rdy = false
      ∧ (i_advance_example D C (net_stop_to_input (s_net_stop_packet D key s).1 c)).2
          = Event.int_disable :: Event.mode_restore ::
              (if key &&& SPINN_STPD_MASK ≠ 0 then
                [Event.schedule Callback.stage_done SPINN_NO_ERROR 0 D.SPINN_DONE_P]
              else []))
    ∧ ((i_advance_example D C c).1.net_stop_rdy = true
      ∧ (i_advance_example D C c).2 = [Event.int_disable, Event.mode_restore]
      ∧ (s_net_stop_packet D key
          (net_stop_to_sum (i_advance_example D C c).1 s)).1.net_stop_rdy = false
      ∧ (s_net_stop_packet D key (net_stop_to_sum (i_advance_example D C c).1 s)).2
          = Event.int_disable :: Event.mode_restore ::
              (if key &&& SPINN_STPD_MASK ≠ 0 then
                [Event.schedule Callback.stage_done SPINN_NO_ERROR 0 D.SPINN_DONE_P]
              else [])) := by
  obtain ⟨p1, p2, p3⟩ := s_net_stop_packet_rendezvous D key s
  obtain ⟨q1, q2⟩ := i_advance_example_rendezvous D C c hend
  obtain ⟨a1, a2⟩ := i_advance_example_rendezvous D C
    (net_stop_to_input (s_net_stop_packet D key s).1 c) hend
  obtain ⟨b1, _, b3⟩ := s_net_stop_packet_rendezvous D key
    (net_stop_to_sum (i_advance_example D C c).1 s)
  have hp : (s_net_stop_packet D key s).1.net_stop_rdy = true := by rw [p1, hs]; rfl
  have hq : (i_advance_example D C c).1.net_stop_rdy = true := by rw [q1, hc]; rfl
  have ha : (net_stop_to_input (s_net_stop_packet D key s).1 c).net_stop_rdy = true := hp
  have ha2 : (net_stop_to_input (s_net_stop_packet D key s).1 c).net_stop
      = key &&& SPINN_STPD_MASK := p2
  have hb : (net_stop_to_sum (i_advance_example D C c).1 s).net_stop_rdy = true := hq
  refine ⟨⟨hp, ?_, ?_, ?_⟩, ⟨hq, ?_, ?_, ?_⟩⟩
  · rw [p3, hs]; simp
  · rw [a1, ha]; rfl
  · rw [a2, ha, ha2]; simp
  · rw [q2, hc]; simp
  · rw [b1, hb]; rfl
  · rw [b3, hb]; simp

/-- C17 (amended) with a packet that carries the decision to stop
(`key = 0x3201`), on `sum0` and `inp0`, the last example of an epoch. -/
theorem C17_net_stop_rendezvous_witness :
    ((s_net_stop_packet D0 0x3201 sum0).1.net_stop_rdy = true
      ∧ (s_net_stop_packet D0 0x3201 sum0).2 = [Event.int_disable, Event.mode_restore]
      ∧ (i_advance_example D0 C0
          (net_stop_to_input (s_net_stop_packet D0 0x3201 sum0).1 inp0)).1.net_stop_rdy
          = false
      ∧ (i_advance_example D0 C0
          (net_stop_to_input (s_net_stop_packet D0 0x3201 sum0).1 inp0)).2
          = Event.int_disable :: Event.mode_restore ::
              (if 0x3201 &&& SPINN_STPD_MASK ≠ 0 then
                [Event.schedule Callback.stage_done SPINN_NO_ERROR 0 D0.SPINN_DONE_P]
              else []))
    ∧ ((i_advance_example D0 C0 inp0).1.net_stop_rdy = true
      ∧ (i_advance_example D0 C0 inp0).2 = [Event.int_disable, Event.mode_restore]
      ∧ (s_net_stop_packet D0 0x3201
          (net_stop_to_sum (i_advance_example D0 C0 inp0).1 sum0)).1.net_stop_rdy = false
      ∧ (s_net_stop_packet D0 0x3201
          (net_stop_to_sum (i_advance_example D0 C0 inp0).1 sum0)).2
          = Event.int_disable :: Event.mode_restore ::
              (if 0x3201 &&& SPINN_STPD_MASK ≠ 0 then
                [Event.schedule Callback.stage_done SPINN_NO_ERROR 0 D0.SPINN_DONE_P]
              else [])) :=
  C17_net_stop_rendezvous D0 C0 0x3201 sum0 inp0 rfl rfl (by decide)

/-! ## Watchdog of the input core -/

/-- C27: `timeout` reports `SPINN_TIMEOUT_EXIT` through `done`, and does
nothing else, if and only if the current `(epoch, example, tick)` equals the
recorded sample `(to_epoch, to_example, to_tick)`: the state handed to `done`
is the state on entry, sample included.  Otherwise it calls nothing and only
copies the current triple into the sample.  So a second call on a state with
the same `epoch`, `example` and `tick` and the sample the first call left
always reports the timeout, when `done` returns with the sample as it was. -/
theorem C27_timeout (env : Outside → InputCore → InputCore) (s : InputCore) :
    ((s.to_epoch = s.epoch ∧ s.to_example = s.i_example ∧ s.to_tick = s.tick) →
      timeout env s
        = (env (Outside.done SPINN_TIMEOUT_EXIT) s,
           [Event.call (Outside.done SPINN_TIMEOUT_EXIT)]))
    ∧ (¬ (s.to_epoch = s.epoch ∧ s.to_example = s.i_example ∧ s.to_tick = s.tick) →
      timeout env s
        = ({ s with to_epoch := s.epoch, to_example := s.i_example, to_tick := s.tick },
           []))
    ∧ ((timeout env s).2.count (Event.call (Outside.done SPINN_TIMEOUT_EXIT)) = 1
        ↔ (s.to_epoch = s.epoch ∧ s.to_example = s.i_example ∧ s.to_tick = s.tick))
    ∧ ((∀ t, (env (Outside.done SPINN_TIMEOUT_EXIT) t).to_epoch = t.to_epoch
            ∧ (env (Outside.done SPINN_TIMEOUT_EXIT) t).to_example = t.to_example
            ∧ (env (Outside.done SPINN_TIMEOUT_EXIT) t).to_tick = t.to_tick) →
        ∀ s2 : InputCore,
          s2.epoch = s.epoch → s2.i_example = s.i_example → s2.tick = s.tick →
          s2.to_epoch = (timeout env s).1.to_epoch →
          s2.to_example = (timeout env s).1.to_example →
          s2.to_tick = (timeout env s).1.to_tick →
          (timeout env s2).2 = [Event.call (Outside.done SPINN_TIMEOUT_EXIT)]) := by
  have hA : (s.to_epoch = s.epoch ∧ s.to_example = s.i_example ∧ s.to_tick = s.tick) →
      timeout env s
        = (env (Outside.done SPINN_TIMEOUT_EXIT) s,
           [Event.call (Outside.done SPINN_TIMEOUT_EXIT)]) := by
    intro h
    unfold timeout call_outside
    rw [if_pos h]
  have hB : ¬ (s.to_epoch = s.epoch ∧ s.to_example = s.i_example ∧ s.to_tick = s.tick) →
      timeout env s
        = ({ s with to_epoch := s.epoch, to_example := s.i_example, to_tick := s.tick },
           []) := by
    intro h
    unfold timeout
    rw [if_neg h]
  refine ⟨hA, hB, ?_, ?_⟩
  · by_cases h : s.to_epoch = s.epoch ∧ s.to_example = s.i_example ∧ s.to_tick = s.tick
    · rw [hA h]
      simp [h]
    · rw [hB h]
      simp [h]
  · intro henv s2 e1 e2 e3 t1 t2 t3
    have hs2 : s2.to_epoch = s2.epoch ∧ s2.to_example = s2.i_example
        ∧ s2.to_tick = s2.tick := by
      by_cases h : s.to_epoch = s.epoch ∧ s.to_example = s.i_example ∧ s.to_tick = s.tick
      · rw [hA h] at t1 t2 t3
        obtain ⟨k1, k2, k3⟩ := henv s
        simp only [] at t1 t2 t3
        rw [t1, t2, t3, k1, k2, k3, e1, e2, e3]
        exact h
      · rw [hB h] at t1 t2 t3
        simp only [] at t1 t2 t3
        rw [t1, t2, t3, e1, e2, e3]
        exact ⟨rfl, rfl, rfl⟩
    unfold timeout call_outside
    rw [if_pos hs2]

/-- C27 on a stalled input core (`inp_stalled`) and on one that has made
progress since the sample (`inp_progress`). -/
theorem C27_timeout_witness :
    timeout env0 inp_stalled
        = (env0 (Outside.done SPINN_TIMEOUT_EXIT) inp_stalled,
           [Event.call (Outside.done SPINN_TIMEOUT_EXIT)])
    ∧ timeout env0 inp_progress
        = ({ inp_progress with to_epoch := inp_progress.epoch,
                               to_example := inp_progress.i_example,
                               to_tick := inp_progress.tick },
           [])
    ∧ (timeout env0 (timeout env0 inp_progress).1).2
        = [Event.call (Outside.done SPINN_TIMEOUT_EXIT)] :=
  ⟨(C27_timeout env0 inp_stalled).1 (by decide),
   (C27_timeout env0 inp_progress).2.1 (by decide),
   (C27_timeout env0 inp_progress).2.2.2 (fun _ => ⟨rfl, rfl, rfl⟩)
     (timeout env0 inp_progress).1 rfl rfl rfl rfl rfl rfl⟩

/-! ## Input integrator -/

/-- After a run of `in_integr (inx)` without deadlock recovery, the value saved
for the recovery is the integrator output that the run started from. -/
theorem in_integr_saves (D : Defines) (C : InputConf) (inx : Nat) (s : InputCore)
    (hd : s.dlrv = false) :
    (in_integr D C inx s).i_last_integr_net_dlrv inx = s.i_last_integr_net inx := by
  simp only [in_integr, hd, if_false, Bool.false_eq_true, Function.update_same]

/-- A run of `in_integr (inx)` under deadlock recovery gives the net and the
integrator output of the run without recovery that started from the saved
integrator output and the same received net, and keeps the saved value. -/
theorem in_integr_replays (D : Defines) (C : InputConf) (inx : Nat) (s t : InputCore)
    (hs : s.dlrv = false) (ht : t.dlrv = true)
    (h1 : t.i_last_integr_net_dlrv inx = s.i_last_integr_net inx)
    (h2 : t.i_nets inx = s.i_nets inx) :
    (in_integr D C inx t).i_nets inx = (in_integr D C inx s).i_nets inx
    ∧ (in_integr D C inx t).i_last_integr_net inx
        = (in_integr D C inx s).i_last_integr_net inx
    ∧ (in_integr D C inx t).i_last_integr_net_dlrv inx
        = t.i_last_integr_net_dlrv inx := by
  simp only [in_integr, hs, ht, h1, h2, if_true, if_false, Bool.false_eq_true,
    Function.update_same, and_self]

/-- C28: a forward tick of the input integrator is an idempotent replay under
deadlock recovery.  For every unit `inx` and state with `dlrv` clear, after a
run of `in_integr (inx)`, any number `k` of replays (`dlrv` set, `i_nets[inx]`
reset to the net `x` that the first run received) leaves `i_nets[inx]` and
`i_last_integr_net[inx]` as the first run left them. -/
theorem C28_in_integr_replay (D : Defines) (C : InputConf) (inx : Nat) (s : InputCore)
    (hd : s.dlrv = false) (k : Nat) :
    ((in_integr_replay D C inx (s.i_nets inx))^[k] (in_integr D C inx s)).i_nets inx
        = (in_integr D C inx s).i_nets inx
    ∧ ((in_integr_replay D C inx (s.i_nets inx))^[k]
          (in_integr D C inx s)).i_last_integr_net inx
        = (in_integr D C inx s).i_last_integr_net inx := by
  have inv : ∀ k,
      ((in_integr_replay D C inx (s.i_nets inx))^[k] (in_integr D C inx s)).i_nets inx
          = (in_integr D C inx s).i_nets inx
      ∧ ((in_integr_replay D C inx (s.i_nets inx))^[k]
            (in_integr D C inx s)).i_last_integr_net inx
          = (in_integr D C inx s).i_last_integr_net inx
      ∧ ((in_integr_replay D C inx (s.i_nets inx))^[k]
            (in_integr D C inx s)).i_last_integr_net_dlrv inx
          = s.i_last_integr_net inx := by
    intro k
    induction k with
    | zero => exact ⟨rfl, rfl, in_integr_saves D C inx s hd⟩
    | succ k ih =>
      rw [Function.iterate_succ_apply']
      obtain ⟨_, _, i3⟩ := ih
      obtain ⟨r1, r2, r3⟩ := in_integr_replays D C inx s
        { (in_integr_replay D C inx (s.i_nets inx))^[k] (in_integr D C inx s) with
            dlrv := true,
            i_nets := Function.update
              ((in_integr_replay D C inx (s.i_nets inx))^[k]
                (in_integr D C inx s)).i_nets inx (s.i_nets inx) }
        hd rfl i3 (Function.update_same _ _ _)
      exact ⟨r1, r2, r3.trans i3⟩
  exact ⟨(inv k).1, (inv k).2.1⟩

/-- C28 on unit 1 of `inp0` (integrator output 5, received net 0), after three
replays. -/
theorem C28_in_integr_replay_witness :
    ((in_integr_replay D0 C0 1 (inp0.i_nets 1))^[3] (in_integr D0 C0 1 inp0)).i_nets 1
        = (in_integr D0 C0 1 inp0).i_nets 1
    ∧ ((in_integr_replay D0 C0 1 (inp0.i_nets 1))^[3]
          (in_integr D0 C0 1 inp0)).i_last_integr_net 1
        = (in_integr D0 C0 1 inp0).i_last_integr_net 1 :=
  C28_in_integr_replay D0 C0 1 inp0 rfl 3

/-! ## Net history round trip -/

theorem store_net_at_history (C : InputConf) (s : InputCore) (x : Nat × Nat × Int) :
    (store_net_at C s x).i_net_history
      = Function.update s.i_net_history (uint (uint (x.1 * C.icfg.num_units) + x.2.1))
          x.2.2 := by
  simp only [store_net_at, store_net, Function.update_same]

/-- Two history indices that fit a `uint` are equal only for the same tick and
the same unit. -/
theorem history_index_inj (n t u t2 u2 : Nat) (hu : u < n) (hu2 : u2 < n)
    (h : t * n + u = t2 * n + u2) : t = t2 ∧ u = u2 := by
  have hn : 0 < n := by omega
  have e1 : (u + t * n) / n = t := by
    rw [Nat.add_mul_div_right _ _ hn, Nat.div_eq_of_lt hu, Nat.zero_add]
  have e2 : (u2 + t2 * n) / n = t2 := by
    rw [Nat.add_mul_div_right _ _ hn, Nat.div_eq_of_lt hu2, Nat.zero_add]
  have ht : t = t2 := by
    rw [← e1, ← e2, Nat.add_comm u, Nat.add_comm u2, h]
  subst ht
  exact ⟨rfl, by omega⟩

theorem store_net_at_keeps (C : InputConf) (t inx : Nat) (hinx : inx < C.icfg.num_units)
    (hfit : t * C.icfg.num_units + inx < 2 ^ 32) (others : List (Nat × Nat × Int)) :
    ∀ s : InputCore,
      (∀ x ∈ others, x.2.1 < C.icfg.num_units ∧ (x.1 ≠ t ∨ x.2.1 ≠ inx)
        ∧ x.1 * C.icfg.num_units + x.2.1 < 2 ^ 32) →
      (others.foldl (store_net_at C) s).i_net_history
          (uint (uint (t * C.icfg.num_units) + inx))
        = s.i_net_history (uint (uint (t * C.icfg.num_units) + inx)) := by
  induction others with
  | nil => intro s _; rfl
  | cons x rest ih =>
    intro s h
    rw [List.foldl_cons, ih _ (fun y hy => h y (List.mem_cons_of_mem _ hy)),
      store_net_at_history]
    obtain ⟨hu, hne, hfit2⟩ := h x (List.mem_cons_self _ _)
    have i1 : uint (uint (t * C.icfg.num_units) + inx) = t * C.icfg.num_units + inx := by
      have h1 : t * C.icfg.num_units < 2 ^ 32 := by omega
      unfold uint
      rw [Nat.mod_eq_of_lt h1, Nat.mod_eq_of_lt hfit]
    have i2 : uint (uint (x.1 * C.icfg.num_units) + x.2.1)
        = x.1 * C.icfg.num_units + x.2.1 := by
      have h2 : x.1 * C.icfg.num_units < 2 ^ 32 := by omega
      unfold uint
      rw [Nat.mod_eq_of_lt h2, Nat.mod_eq_of_lt hfit2]
    rw [i1, i2]
    apply Function.update_noteq
    intro e
    obtain ⟨e1, e2⟩ := history_index_inj _ _ _ _ _ hinx hu e
    rcases hne with hne | hne
    · exact hne e1.symm
    · exact hne e2.symm

/-- C30 (as stated) fails: with 65536 units, the history index of unit 0 at
tick 65536 is `65536 * 65536 + 0 = 2 ^ 32`, which is 0 as a `uint`, the index
of unit 0 at tick 0.  After `store_net (0)` at tick 65536 (net 7) and a later
`store_net (0)` at tick 0 (net 9), `restore_net (0, 65536)` sets `i_nets[0]`
to 9. -/
theorem C30_history_index_wraps :
    inp_wide.tick = 65536
    ∧ (0 : Nat) < C_wide.icfg.num_units
    ∧ inp_wide.i_nets 0 = 7
    ∧ (restore_net C_wide 0 65536
        (store_net_at C_wide (store_net C_wide 0 inp_wide) (0, 0, 9))).i_nets 0 = 9 := by
  decide

/-- C30 (amended): net history round trip on the input core, for history
indices that fit a `uint`.  For every unit `inx < icfg.num_units` and state at
tick `t` with `t * icfg.num_units + inx < 2 ^ 32`: after `store_net (inx)`, and
after any further `store_net` calls for other (tick, unit) pairs with
`unit < icfg.num_units` whose index fits a `uint` as well, `restore_net (inx, t)`
and `restore_nets (t)` both set `i_nets[inx]` to the net that was stored. -/
theorem C30_net_history_round_trip (C : InputConf) (s : InputCore) (inx : Nat)
    (others : List (Nat × Nat × Int))
    (hinx : inx < C.icfg.num_units)
    (hfit : s.tick * C.icfg.num_units + inx < 2 ^ 32)
    (hothers : ∀ x ∈ others, x.2.1 < C.icfg.num_units ∧ (x.1 ≠ s.tick ∨ x.2.1 ≠ inx)
      ∧ x.1 * C.icfg.num_units + x.2.1 < 2 ^ 32) :
    (restore_net C inx s.tick
        (others.foldl (store_net_at C) (store_net C inx s))).i_nets inx = s.i_nets inx
    ∧ (restore_nets C s.tick
        (others.foldl (store_net_at C) (store_net C inx s))).i_nets inx
        = s.i_nets inx := by
  have hk := store_net_at_keeps C s.tick inx hinx hfit others (store_net C inx s) hothers
  have hs : (store_net C inx s).i_net_history
      (uint (uint (s.tick * C.icfg.num_units) + inx)) = s.i_nets inx := by
    simp only [store_net, Function.update_same]
  constructor
  · simp only [restore_net, Function.update_same]
    rw [hk, hs]
  · rw [restore_nets_eq]
    simp only [hinx, if_true]
    rw [hk, hs]

/-- C30 (amended) on unit 1 at tick 9 of `inp0`, with later stores for unit 2
at tick 9 and for unit 1 at tick 8. -/
theorem C30_net_history_round_trip_witness :
    (restore_net C0 1 inp0.tick
        ([(9, 2, 40), (8, 1, 50)].foldl (store_net_at C0) (store_net C0 1 inp0))).i_nets 1
        = inp0.i_nets 1
    ∧ (restore_nets C0 inp0.tick
        ([(9, 2, 40), (8, 1, 50)].foldl (store_net_at C0) (store_net C0 1 inp0))).i_nets 1
        = inp0.i_nets 1 :=
  C30_net_history_round_trip C0 inp0 1 [(9, 2, 40), (8, 1, 50)] (by decide) (by decide)
    (by decide)

/-! ## Deadlock recovery on the sum core -/

/-- The loop of `s_dlrv_packet`, after `n` rounds: the nets and the scoreboard
entries below `n` are zero, nothing else has changed. -/
theorem s_dlrv_loop (s : SumCore) (n : Nat) :
    (List.range n).foldl
      (fun (s : SumCore) (i : Nat) =>
        { s with s_nets := Function.update s.s_nets i 0,
                 sf_arrived := Function.update s.sf_arrived i 0 }) s
      = { s with s_nets := fun j => if j < n then 0 else s.s_nets j,
                 sf_arrived := fun j => if j < n then 0 else s.sf_arrived j } := by
  induction n with
  | zero =>
    cases s
    simp
  | succ n ih =>
    rw [List.range_succ, List.foldl_append, ih]
    simp only [List.foldl_cons, List.foldl_nil, SumCore.mk.injEq, true_and, and_true]
    constructor <;> funext j <;> by_cases hj : j = n
    · subst hj
      simp
    · have : j < n + 1 ↔ j < n := by omega
      simp [Function.update, hj, this]
    · subst hj
      simp
    · have : j < n + 1 ↔ j < n := by omega
      simp [Function.update, hj, this]

/-- C25 (as stated) fails: `s_dlrv_packet` on a sum core in the FORWARD phase
with `s_sync_arrived = 2`, `s_lds_arrived = 1` and one packet in the queue
leaves all three as they were. -/
theorem C25_dlrv_keeps_backprop_scoreboards_and_queue :
    sum_mid.phase = SPINN_FORWARD
    ∧ (s_dlrv_packet D0 env0 scfg0 sum_mid).1.s_sync_arrived = 2
    ∧ (s_dlrv_packet D0 env0 scfg0 sum_mid).1.s_lds_arrived = 1
    ∧ (s_dlrv_packet D0 env0 scfg0 sum_mid).1.s_pkt_queue.head
        ≠ (s_dlrv_packet D0 env0 scfg0 sum_mid).1.s_pkt_queue.tail := by
  decide

/-- C25 (amended): after `s_dlrv_packet` runs on a sum core in the FORWARD
phase, the FORWARD scoreboards are zero (`sf_arrived[i]` for every
`i < scfg.num_units`, and `sf_done`), `s_nets[i]` is zero for every
`i < scfg.num_units` and `sf_thrds_pend == SPINN_SF_THRDS`; nothing is called,
and `s_sync_arrived`, `s_lds_arrived` and the packet queue are as they were. -/
theorem C25_dlrv_forward (D : Defines) (env : Outside → SumCore → SumCore)
    (scfg : s_conf_t) (s : SumCore) (hph : s.phase = SPINN_FORWARD) :
    (s_dlrv_packet D env scfg s).2 = []
    ∧ (s_dlrv_packet D env scfg s).1.sf_thrds_pend = D.SPINN_SF_THRDS
    ∧ (s_dlrv_packet D env scfg s).1.sf_done = 0
    ∧ (∀ i, i < scfg.num_units →
        (s_dlrv_packet D env scfg s).1.s_nets i = 0
        ∧ (s_dlrv_packet D env scfg s).1.sf_arrived i = 0)
    ∧ (s_dlrv_packet D env scfg s).1.s_sync_arrived = s.s_sync_arrived
    ∧ (s_dlrv_packet D env scfg s).1.s_lds_arrived = s.s_lds_arrived
    ∧ (s_dlrv_packet D env scfg s).1.s_pkt_queue = s.s_pkt_queue := by
  have key : ∃ t : SumCore,
      s_dlrv_packet D env scfg s
        = ({ t with sf_thrds_pend := D.SPINN_SF_THRDS,
                    s_nets := fun j => if j < scfg.num_units then 0 else t.s_nets j,
                    sf_arrived := fun j =>
                      if j < scfg.num_units then 0 else t.sf_arrived j,
                    sf_done := 0 }, [])
      ∧ t.s_sync_arrived = s.s_sync_arrived ∧ t.s_lds_arrived = s.s_lds_arrived
      ∧ t.s_pkt_queue = s.s_pkt_queue := by
    cases hD : D.DEBUG
    · refine ⟨s, ?_, rfl, rfl, rfl⟩
      simp only [s_dlrv_packet, hD, hph, if_true, if_false, Bool.false_eq_true,
        s_dlrv_loop]
    · refine ⟨{ s with dlr_recv := uint (s.dlr_recv + 1) }, ?_, rfl, rfl, rfl⟩
      simp only [s_dlrv_packet, hD, hph, if_true, if_false, Bool.false_eq_true,
        s_dlrv_loop]
  obtain ⟨t, e, h1, h2, h3⟩ := key
  rw [e]
  exact ⟨rfl, rfl, rfl, fun i hi => ⟨if_pos hi, if_pos hi⟩, h1, h2, h3⟩

/-- C25 (amended) on `sum_mid`. -/
theorem C25_dlrv_forward_witness :
    (s_dlrv_packet D0 env0 scfg0 sum_mid).2 = []
    ∧ (s_dlrv_packet D0 env0 scfg0 sum_mid).1.sf_thrds_pend = D0.SPINN_SF_THRDS
    ∧ (s_dlrv_packet D0 env0 scfg0 sum_mid).1.sf_done = 0
    ∧ (∀ i, i < scfg0.num_units →
        (s_dlrv_packet D0 env0 scfg0 sum_mid).1.s_nets i = 0
        ∧ (s_dlrv_packet D0 env0 scfg0 sum_mid).1.sf_arrived i = 0)
    ∧ (s_dlrv_packet D0 env0 scfg0 sum_mid).1.s_sync_arrived = sum_mid.s_sync_arrived
    ∧ (s_dlrv_packet D0 env0 scfg0 sum_mid).1.s_lds_arrived = sum_mid.s_lds_arrived
    ∧ (s_dlrv_packet D0 env0 scfg0 sum_mid).1.s_pkt_queue = sum_mid.s_pkt_queue :=
  C25_dlrv_forward D0 env0 scfg0 sum_mid rfl

/-- C26: when `phase != SPINN_FORWARD`, `s_dlrv_packet` calls
`stage_done (SPINN_TIMEOUT_EXIT, 0)` and nothing else, and the state it hands
to `stage_done` is the state on entry (with `dlr_recv` incremented in a `DEBUG`
build): the semaphores, nets, scoreboards, tick, phase and queue are all
unchanged. -/
theorem C26_dlrv_outside_forward (D : Defines) (env : Outside → SumCore → SumCore)
    (scfg : s_conf_t) (s : SumCore) (hph : s.phase ≠ SPINN_FORWARD) :
    (s_dlrv_packet D env scfg s).2 = [Event.call (Outside.stage_done SPINN_TIMEOUT_EXIT 0)]
    ∧ ∃ s0, (s_dlrv_packet D env scfg s).1
          = env (Outside.stage_done SPINN_TIMEOUT_EXIT 0) s0
        ∧ s0 = (if D.DEBUG = true then { s with dlr_recv := uint (s.dlr_recv + 1) } else s)
        ∧ s0.sf_thrds_pend = s.sf_thrds_pend ∧ s0.sb_thrds_pend = s.sb_thrds_pend
        ∧ s0.sb_thrds_init = s.sb_thrds_init
        ∧ s0.s_nets = s.s_nets ∧ s0.sf_arrived = s.sf_arrived ∧ s0.sf_done = s.sf_done
        ∧ s0.s_sync_arrived = s.s_sync_arrived ∧ s0.s_lds_arrived = s.s_lds_arrived
        ∧ s0.s_lds_part = s.s_lds_part
        ∧ s0.tick = s.tick ∧ s0.phase = s.phase ∧ s0.s_pkt_queue = s.s_pkt_queue
        ∧ s0.tick_stop = s.tick_stop ∧ s0.net_stop = s.net_stop
        ∧ s0.net_stop_rdy = s.net_stop_rdy ∧ s0.s_active = s.s_active := by
  cases hD : D.DEBUG
  · have e : s_dlrv_packet D env scfg s
        = (env (Outside.stage_done SPINN_TIMEOUT_EXIT 0) s,
           [Event.call (Outside.stage_done SPINN_TIMEOUT_EXIT 0)]) := by
      simp only [s_dlrv_packet, call_outside, hD, hph, if_false, Bool.false_eq_true]
    rw [e]
    exact ⟨rfl, s, rfl, (if_neg Bool.false_ne_true).symm, rfl, rfl, rfl, rfl, rfl, rfl,
      rfl, rfl, rfl, rfl, rfl, rfl, rfl, rfl, rfl, rfl⟩
  · have e : s_dlrv_packet D env scfg s
        = (env (Outside.stage_done SPINN_TIMEOUT_EXIT 0)
            { s with dlr_recv := uint (s.dlr_recv + 1) },
           [Event.call (Outside.stage_done SPINN_TIMEOUT_EXIT 0)]) := by
      simp only [s_dlrv_packet, call_outside, hD, hph, if_true, if_false]
    rw [e]
    exact ⟨rfl, { s with dlr_recv := uint (s.dlr_recv + 1) }, rfl, (if_pos rfl).symm,
      rfl, rfl, rfl, rfl, rfl, rfl, rfl, rfl, rfl, rfl, rfl, rfl, rfl, rfl, rfl, rfl⟩

/-- C26 on a sum core in the BACKPROP phase (`sum_back`). -/
theorem C26_dlrv_outside_forward_witness :
    (s_dlrv_packet D0 env0 scfg0 sum_back).2
        = [Event.call (Outside.stage_done SPINN_TIMEOUT_EXIT 0)]
    ∧ ∃ s0, (s_dlrv_packet D0 env0 scfg0 sum_back).1
          = env0 (Outside.stage_done SPINN_TIMEOUT_EXIT 0) s0
        ∧ s0 = (if D0.DEBUG = true
            then { sum_back with dlr_recv := uint (sum_back.dlr_recv + 1) } else sum_back)
        ∧ s0.sf_thrds_pend = sum_back.sf_thrds_pend
        ∧ s0.sb_thrds_pend = sum_back.sb_thrds_pend
        ∧ s0.sb_thrds_init = sum_back.sb_thrds_init
        ∧ s0.s_nets = sum_back.s_nets ∧ s0.sf_arrived = sum_back.sf_arrived
        ∧ s0.sf_done = sum_back.sf_done
        ∧ s0.s_sync_arrived = sum_back.s_sync_arrived
        ∧ s0.s_lds_arrived = sum_back.s_lds_arrived
        ∧ s0.s_lds_part = sum_back.s_lds_part
        ∧ s0.tick = sum_back.tick ∧ s0.phase = sum_back.phase
        ∧ s0.s_pkt_queue = sum_back.s_pkt_queue
        ∧ s0.tick_stop = sum_back.tick_stop ∧ s0.net_stop = sum_back.net_stop
        ∧ s0.net_stop_rdy = sum_back.net_stop_rdy ∧ s0.s_active = sum_back.s_active :=
  C26_dlrv_outside_forward D0 env0 scfg0 sum_back (by decide)

/-! ## Partial link delta sums -/

theorem to_signed_add_left (w : Nat) (a b : Int) :
    to_signed w (to_signed w a + b) = to_signed w (a + b) := by
  unfold to_signed
  have h : (a + 2 ^ (w - 1)) % 2 ^ w - 2 ^ (w - 1) + b + 2 ^ (w - 1)
      = (a + 2 ^ (w - 1)) % 2 ^ w + b := by ring
  have h2 : a + 2 ^ (w - 1) + b = a + b + 2 ^ (w - 1) := by ring
  rw [h, Int.emod_add_emod, h2]

theorem to_signed_add_right (w : Nat) (a b : Int) :
    to_signed w (a + to_signed w b) = to_signed w (a + b) := by
  rw [Int.add_comm, to_signed_add_left, Int.add_comm]

/-- Adding a non-empty list of payloads one by one in `lds_t` arithmetic gives
the cast of the exact sum. -/
theorem lds_fold_sum (w : Nat) (l : List Nat) :
    ∀ acc : Int, l ≠ [] →
      l.foldl (fun (acc : Int) (p : Nat) => to_signed w (acc + to_signed w (p : Int))) acc
        = to_signed w (acc + (l.map (fun (p : Nat) => (p : Int))).sum) := by
  induction l with
  | nil => intro acc h; exact absurd rfl h
  | cons a t ih =>
    intro acc _
    cases t with
    | nil =>
      simp only [List.foldl_cons, List.foldl_nil, List.map_cons, List.map_nil,
        List.sum_cons, List.sum_nil, Int.add_zero]
      exact to_signed_add_right w acc a
    | cons b t2 =>
      rw [List.foldl_cons, ih _ (by simp), to_signed_add_left]
      have e : acc + to_signed w (a : Int)
            + (List.map (fun (p : Nat) => (p : Int)) (b :: t2)).sum
          = (acc + (List.map (fun (p : Nat) => (p : Int)) (b :: t2)).sum)
            + to_signed w (a : Int) := by
        ring
      have e2 : acc + (List.map (fun (p : Nat) => (p : Int)) (a :: b :: t2)).sum
          = (acc + (List.map (fun (p : Nat) => (p : Int)) (b :: t2)).sum) + (a : Int) := by
        rw [List.map_cons, List.sum_cons]
        ring
      rw [e, to_signed_add_right, e2]

/-- A call of `s_lds_packet` that does not complete the count only adds the
payload and counts. -/
theorem s_lds_packet_counts (D : Defines) (env : Outside → SumCore → SumCore)
    (scfg : s_conf_t) (p : Nat) (s : SumCore)
    (hne : uint (s.s_lds_arrived + 1) ≠ scfg.lds_expected) :
    (s_lds_packet D env scfg p s).2 = []
    ∧ (s_lds_packet D env scfg p s).1.s_lds_arrived = uint (s.s_lds_arrived + 1)
    ∧ (s_lds_packet D env scfg p s).1.s_lds_part
        = to_signed D.lds_bits (s.s_lds_part + to_signed D.lds_bits (p : Int))
    ∧ (s_lds_packet D env scfg p s).1.ldsKey = s.ldsKey
    ∧ (s_lds_packet D env scfg p s).1.bpsKey = s.bpsKey
    ∧ (s_lds_packet D env scfg p s).1.sb_thrds_pend = s.sb_thrds_pend := by
  cases hD : D.DEBUG <;>
    simp only [s_lds_packet, hD, hne, if_true, if_false, Bool.false_eq_true, and_self]

/-- The call of `s_lds_packet` that completes the count sends the total with
key `ldsKey`, then, when LDSA is the last pending thread on a tree root, the
sync packet; it leaves the accumulator and the count at zero in the state that
it hands to `sb_advance_tick` or returns. -/
theorem s_lds_packet_completes (D : Defines) (env : Outside → SumCore → SumCore)
    (scfg : s_conf_t) (p : Nat) (s : SumCore)
    (hcount : uint (s.s_lds_arrived + 1) = scfg.lds_expected) :
    sent_packets (s_lds_packet D env scfg p s).2
      = (s.ldsKey,
          ((to_signed D.lds_bits (s.s_lds_part + to_signed D.lds_bits (p : Int)))
            % 2 ^ 32).toNat, true)
        :: (if s.sb_thrds_pend = D.SPINN_THRD_LDSA ∧ scfg.is_tree_root = true
              then [(s.bpsKey, 0, false)] else [])
    ∧ ∃ s0, (s_lds_packet D env scfg p s).1
          = (if s.sb_thrds_pend = D.SPINN_THRD_LDSA
              then env Outside.sb_advance_tick s0 else s0)
        ∧ s0.s_lds_part = 0 ∧ s0.s_lds_arrived = 0 := by
  by_cases hp : s.sb_thrds_pend = D.SPINN_THRD_LDSA
  · by_cases hw : D.SPINN_THRD_LDSA &&& D.SPINN_THRD_LDSA = 0 <;>
      cases hD : D.DEBUG <;> cases hT : D.DEBUG_THRDS <;> cases hr : scfg.is_tree_root <;>
      simp only [s_lds_packet, call_outside, hD, hT, hr, hp, hw, hcount, if_true, if_false,
        Bool.false_eq_true, Bool.and_self, Bool.and_false, Bool.false_and,
        Bool.and_true, Bool.true_and, and_self, and_true, and_false] <;>
      exact ⟨rfl, _, rfl, rfl, rfl⟩
  · by_cases hw : s.sb_thrds_pend &&& D.SPINN_THRD_LDSA = 0 <;>
      cases hD : D.DEBUG <;> cases hT : D.DEBUG_THRDS <;>
      simp only [s_lds_packet, call_outside, hD, hT, hp, hw, hcount, if_true, if_false,
        Bool.false_eq_true, Bool.and_self, Bool.and_false, Bool.false_and,
        Bool.and_true, Bool.true_and, false_and] <;>
      exact ⟨rfl, _, rfl, rfl, rfl⟩

/-- While the count of partial sums stays below `scfg.lds_expected`, the calls
of `s_lds_packet` send nothing and call nothing: they add the payloads and
count. -/
theorem s_lds_packets_counting (D : Defines) (env : Outside → SumCore → SumCore)
    (scfg : s_conf_t) (hN32 : scfg.lds_expected < 2 ^ 32) (l : List Nat) :
    ∀ s : SumCore, s.s_lds_arrived + l.length < scfg.lds_expected →
      (s_lds_packets D env scfg l s).2 = []
      ∧ (s_lds_packets D env scfg l s).1.s_lds_arrived = s.s_lds_arrived + l.length
      ∧ (s_lds_packets D env scfg l s).1.s_lds_part
          = l.foldl (fun (acc : Int) (p : Nat) =>
              to_signed D.lds_bits (acc + to_signed D.lds_bits (p : Int))) s.s_lds_part
      ∧ (s_lds_packets D env scfg l s).1.ldsKey = s.ldsKey
      ∧ (s_lds_packets D env scfg l s).1.bpsKey = s.bpsKey
      ∧ (s_lds_packets D env scfg l s).1.sb_thrds_pend = s.sb_thrds_pend := by
  induction l with
  | nil => intro s _; exact ⟨rfl, rfl, rfl, rfl, rfl, rfl⟩
  | cons p rest ih =>
    intro s h
    rw [List.length_cons] at h
    have hu : uint (s.s_lds_arrived + 1) = s.s_lds_arrived + 1 := by unfold uint; omega
    have hne : uint (s.s_lds_arrived + 1) ≠ scfg.lds_expected := by rw [hu]; omega
    obtain ⟨c1, c2, c3, c4, c5, c6⟩ := s_lds_packet_counts D env scfg p s hne
    obtain ⟨d1, d2, d3, d4, d5, d6⟩ := ih (s_lds_packet D env scfg p s).1
      (by rw [c2, hu]; omega)
    rw [s_lds_packets]
    simp only []
    rw [c1, d1, d2, d3, d4, d5, d6, c2, c3, c4, c5, c6, hu, List.length_cons,
      List.foldl_cons]
    exact ⟨rfl, by omega, rfl, rfl, rfl, rfl⟩

/-- The call of `s_lds_packet` that completes the count while another thread of
the semaphore is pending clears the bit of the LDSA thread in `sb_thrds_pend`. -/
theorem s_lds_packet_reports (D : Defines) (env : Outside → SumCore → SumCore)
    (scfg : s_conf_t) (p : Nat) (s : SumCore)
    (hcount : uint (s.s_lds_arrived + 1) = scfg.lds_expected)
    (hp : s.sb_thrds_pend ≠ D.SPINN_THRD_LDSA) :
    (s_lds_packet D env scfg p s).1.sb_thrds_pend
      = s.sb_thrds_pend &&& uint_not D.SPINN_THRD_LDSA := by
  by_cases hw : s.sb_thrds_pend &&& D.SPINN_THRD_LDSA = 0 <;>
    cases hD : D.DEBUG <;> cases hT : D.DEBUG_THRDS <;>
    simp only [s_lds_packet, call_outside, hD, hT, hp, hw, hcount, if_true, if_false,
      Bool.false_eq_true, Bool.and_self, Bool.and_false, Bool.false_and,
      Bool.and_true, Bool.true_and, false_and]

/-- C24 (as stated) fails: on a tree root with the SYNC thread still pending
(`sb_thrds_pend = SYNC | LDSA`), the `s_lds_packet` call that completes the
reduction sends the total and no sync packet. -/
theorem C24_no_sync_while_sync_pending :
    scfg0.is_tree_root = true
    ∧ uint (sum_rdv.s_lds_arrived + 1) = scfg0.lds_expected
    ∧ sent_packets (s_lds_packet D0 env0 scfg0 7 sum_rdv).2 = [(sum_rdv.ldsKey, 7, true)] := by
  decide

/-- C24 (amended): on a tree root (`scfg.is_tree_root`), the `s_lds_packet`
call that completes the reduction sends the partial sum total with key `ldsKey`
and, after it, the sync packet (`bpsKey`, no payload) exactly when LDSA is the
last pending thread (`sb_thrds_pend == SPINN_THRD_LDSA`); while another thread
is pending it sends the total only and clears the LDSA bit of
`sb_thrds_pend`. -/
theorem C24_root_sync (D : Defines) (env : Outside → SumCore → SumCore)
    (scfg : s_conf_t) (p : Nat) (s : SumCore) (hroot : scfg.is_tree_root = true)
    (hcount : uint (s.s_lds_arrived + 1) = scfg.lds_expected) :
    sent_packets (s_lds_packet D env scfg p s).2
      = (s.ldsKey,
          ((to_signed D.lds_bits (s.s_lds_part + to_signed D.lds_bits (p : Int)))
            % 2 ^ 32).toNat, true)
        :: (if s.sb_thrds_pend = D.SPINN_THRD_LDSA then [(s.bpsKey, 0, false)] else [])
    ∧ (s.sb_thrds_pend ≠ D.SPINN_THRD_LDSA →
        (s_lds_packet D env scfg p s).1.sb_thrds_pend
          = s.sb_thrds_pend &&& uint_not D.SPINN_THRD_LDSA) := by
  refine ⟨?_, s_lds_packet_reports D env scfg p s hcount⟩
  rw [(s_lds_packet_completes D env scfg p s hcount).1]
  simp only [hroot, and_true]

/-- C24 (amended) on a tree root where LDSA is the last pending thread. -/
theorem C24_root_sync_witness :
    sent_packets
        (s_lds_packet D0 env0 scfg0 7 { sum_rdv with sb_thrds_pend := 4 }).2
      = [(sum_rdv.ldsKey, 7, true), (sum_rdv.bpsKey, 0, false)] :=
  (C24_root_sync D0 env0 scfg0 7 { sum_rdv with sb_thrds_pend := 4 } rfl (by decide)).1

/-- C23 (as stated) fails: on the tree root `sum_lds_last`, where LDSA is the
last pending thread of the backprop semaphore, with `lds_expected = 2` and the
payloads 3 and 4 delivered from `s_lds_part == 0` and `s_lds_arrived == 0`, the
first call sends nothing and the second call sends two packets, the total 7
with key `ldsKey` and then the sync packet with key `bpsKey`, not exactly
one. -/
theorem C23_root_sends_sync_packet_too :
    scfg0.lds_expected = 2
    ∧ scfg0.is_tree_root = true
    ∧ sum_lds_last.s_lds_part = 0
    ∧ sum_lds_last.s_lds_arrived = 0
    ∧ sum_lds_last.sb_thrds_pend = D0.SPINN_THRD_LDSA
    ∧ (s_lds_packet D0 env0 scfg0 3 sum_lds_last).2 = []
    ∧ sent_packets
        (s_lds_packet D0 env0 scfg0 4 (s_lds_packet D0 env0 scfg0 3 sum_lds_last).1).2
      = [(sum_lds_last.ldsKey, 7, true), (sum_lds_last.bpsKey, 0, false)] := by
  decide

/-- C23 (amended): for `N = scfg.lds_expected >= 1` (a `uint`) and payloads
`p1 .. pN` (the list `pkts` followed by `p`) delivered to `s_lds_packet` from
`s_lds_part == 0` and `s_lds_arrived == 0`: the calls before the `N`-th send
nothing (and call nothing); the `N`-th call sends one packet with key `ldsKey`
and the sum `p1 + ... + pN` in `lds_t` arithmetic as payload, the same for
every order of the payloads, followed, exactly when the core is a tree root and
LDSA is the last pending thread (`sb_thrds_pend == SPINN_THRD_LDSA`), by the
sync packet (`bpsKey`, no payload), and no other packet; and in the state that
this call hands to `sb_advance_tick` or returns, `s_lds_part == 0` and
`s_lds_arrived == 0`. -/
theorem C23_lds_reduction (D : Defines) (env : Outside → SumCore → SumCore)
    (scfg : s_conf_t) (s : SumCore) (pkts : List Nat) (p : Nat)
    (hN32 : scfg.lds_expected < 2 ^ 32) (hlen : pkts.length + 1 = scfg.lds_expected)
    (hpart : s.s_lds_part = 0) (harr : s.s_lds_arrived = 0) :
    (∀ j, j ≤ pkts.length → (s_lds_packets D env scfg (pkts.take j) s).2 = [])
    ∧ sent_packets
          (s_lds_packet D env scfg p (s_lds_packets D env scfg pkts s).1).2
        = (s.ldsKey, lds_total D (pkts ++ [p]), true)
          :: (if s.sb_thrds_pend = D.SPINN_THRD_LDSA ∧ scfg.is_tree_root = true
                then [(s.bpsKey, 0, false)] else [])
    ∧ (∃ s0, (s_lds_packet D env scfg p (s_lds_packets D env scfg pkts s).1).1
          = (if s.sb_thrds_pend = D.SPINN_THRD_LDSA
              then env Outside.sb_advance_tick s0 else s0)
        ∧ s0.s_lds_part = 0 ∧ s0.s_lds_arrived = 0)
    ∧ (∀ l : List Nat, l.Perm (pkts ++ [p]) → lds_total D l = lds_total D (pkts ++ [p])) := by
  obtain ⟨_, t2, t3, t4, t5, t6⟩ := s_lds_packets_counting D env scfg hN32 pkts s
    (by rw [harr]; omega)
  have hcount : uint ((s_lds_packets D env scfg pkts s).1.s_lds_arrived + 1)
      = scfg.lds_expected := by
    rw [t2, harr, Nat.zero_add, hlen]
    unfold uint
    omega
  obtain ⟨e1, s0, e2, e3, e4⟩ := s_lds_packet_completes D env scfg p
    (s_lds_packets D env scfg pkts s).1 hcount
  have hv : to_signed D.lds_bits ((s_lds_packets D env scfg pkts s).1.s_lds_part
        + to_signed D.lds_bits (p : Int))
      = to_signed D.lds_bits ((pkts ++ [p]).map (fun (p : Nat) => (p : Int))).sum := by
    have h := lds_fold_sum D.lds_bits (pkts ++ [p]) 0 (by simp)
    rw [List.foldl_append, List.foldl_cons, List.foldl_nil, Int.zero_add] at h
    rw [t3, hpart]
    exact h
  refine ⟨?_, ?_, ⟨s0, ?_, e3, e4⟩, ?_⟩
  · intro j hj
    exact (s_lds_packets_counting D env scfg hN32 (pkts.take j) s
      (by rw [harr, List.length_take]; omega)).1
  · rw [e1, hv, t4, t5, t6]
    rfl
  · rw [e2, t6]
  · intro l hl
    unfold lds_total
    rw [(hl.map _).sum_eq]

/-- C23 (amended) for `lds_expected = 2` on the tree root `sum_lds_last`, with
payloads 3 and 4: the second call sends the total and the sync packet. -/
theorem C23_lds_reduction_witness :
    (∀ j, j ≤ [3].length → (s_lds_packets D0 env0 scfg0 ([3].take j) sum_lds_last).2 = [])
    ∧ sent_packets
          (s_lds_packet D0 env0 scfg0 4 (s_lds_packets D0 env0 scfg0 [3] sum_lds_last).1).2
        = (sum_lds_last.ldsKey, lds_total D0 ([3] ++ [4]), true)
          :: (if sum_lds_last.sb_thrds_pend = D0.SPINN_THRD_LDSA
                  ∧ scfg0.is_tree_root = true
                then [(sum_lds_last.bpsKey, 0, false)] else [])
    ∧ (∃ s0, (s_lds_packet D0 env0 scfg0 4
            (s_lds_packets D0 env0 scfg0 [3] sum_lds_last).1).1
          = (if sum_lds_last.sb_thrds_pend = D0.SPINN_THRD_LDSA
              then env0 Outside.sb_advance_tick s0 else s0)
        ∧ s0.s_lds_part = 0 ∧ s0.s_lds_arrived = 0)
    ∧ (∀ l : List Nat, l.Perm ([3] ++ [4]) → lds_total D0 l = lds_total D0 ([3] ++ [4])) :=
  C23_lds_reduction D0 env0 scfg0 sum_lds_last [3] 4 (by decide) (by decide) rfl rfl

/-! ## Example advance on the weight core -/

/-- The inner loop of the initialisation of the weight changes in
`w_advance_example`, after `m` rounds on row `i`. -/
theorem w_clear_row (i : Nat) (s : WeightCore) (m : Nat) :
    (List.range m).foldl
      (fun (s : WeightCore) (j : Nat) =>
        { s with
          w_wchanges :=
            Function.update s.w_wchanges i (Function.update (s.w_wchanges i) j 0),
          w_link_deltas :=
            Function.update s.w_link_deltas i
              (Function.update (s.w_link_deltas i) j 0) }) s
      = { s with
          w_wchanges := fun a b => if a = i ∧ b < m then 0 else s.w_wchanges a b,
          w_link_deltas := fun a b => if a = i ∧ b < m then 0 else s.w_link_deltas a b } := by
  induction m with
  | zero =>
    cases s
    simp
  | succ m ih =>
    rw [List.range_succ, List.foldl_append, ih]
    simp only [List.foldl_cons, List.foldl_nil, WeightCore.mk.injEq, true_and, and_true]
    constructor <;> funext a b <;> by_cases ha : a = i <;> by_cases hb : b = m
    all_goals first
      | (subst ha; subst hb; simp)
      | (subst ha
         have : b < m + 1 ↔ b < m := by omega
         simp [Function.update, hb, this])
      | (simp [Function.update, ha])

/-- The loops of the initialisation of the weight changes in
`w_advance_example`, after `n` rows. -/
theorem w_clear_rows (cols : Nat) (s : WeightCore) (n : Nat) :
    (List.range n).foldl
      (fun (s : WeightCore) (i : Nat) =>
        (List.range cols).foldl
          (fun (s : WeightCore) (j : Nat) =>
            { s with
              w_wchanges :=
                Function.update s.w_wchanges i (Function.update (s.w_wchanges i) j 0),
              w_link_deltas :=
                Function.update s.w_link_deltas i
                  (Function.update (s.w_link_deltas i) j 0) }) s) s
      = { s with
          w_wchanges := fun a b => if a < n ∧ b < cols then 0 else s.w_wchanges a b,
          w_link_deltas := fun a b =>
            if a < n ∧ b < cols then 0 else s.w_link_deltas a b } := by
  induction n with
  | zero =>
    cases s
    simp
  | succ n ih =>
    rw [List.range_succ, List.foldl_append, ih]
    simp only [List.foldl_cons, List.foldl_nil, w_clear_row, WeightCore.mk.injEq,
      true_and, and_true]
    constructor <;> funext a b <;> by_cases ha : a = n
    all_goals first
      | (subst ha; simp)
      | (have : a < n + 1 ↔ a < n := by omega
         simp [ha, this])

/-- C22: `w_advance_example` runs `w_update_weights` exactly when the
incremented example counter reaches `mlpc.num_examples` (the increment in
`uint` arithmetic) and `mlpc.training` is set, on the state with the
accumulators as they were (nothing has been cleared).  In every other case the
weights, `w_wchanges` and `w_link_deltas` are as they were.  After the update,
when no further epoch follows, the routine stops with the result of the update
(nothing cleared); when a further epoch follows, `example` is reset to 0 and
every entry of `w_wchanges` and `w_link_deltas` (rows below `wcfg.num_rows`,
columns below `wcfg.num_cols`) is zeroed, the weights being those of the
update. -/
theorem C22_w_advance_example (D : Defines) (wcfg : w_conf_t) (mlpc : global_conf_t)
    (ex_num_events : Nat → Nat) (s : WeightCore) :
    ((¬ uint (s.w_example + 1) ≥ mlpc.num_examples ∨ mlpc.training = false) →
      (w_advance_example D wcfg mlpc ex_num_events s).1.w_weights = s.w_weights
      ∧ (w_advance_example D wcfg mlpc ex_num_events s).1.w_wchanges = s.w_wchanges
      ∧ (w_advance_example D wcfg mlpc ex_num_events s).1.w_link_deltas
          = s.w_link_deltas)
    ∧ (uint (s.w_example + 1) ≥ mlpc.num_examples → mlpc.training = true →
      (uint ((w_update_weights D wcfg mlpc
            { s with w_example := uint (s.w_example + 1) }).epoch + 1)
          ≥ mlpc.num_epochs →
        w_advance_example D wcfg mlpc ex_num_events s
          = ({ w_update_weights D wcfg mlpc
                { s with w_example := uint (s.w_example + 1) } with
               epoch := uint ((w_update_weights D wcfg mlpc
                 { s with w_example := uint (s.w_example + 1) }).epoch + 1) },
             [Event.spin1_stop]))
      ∧ (¬ uint ((w_update_weights D wcfg mlpc
            { s with w_example := uint (s.w_example + 1) }).epoch + 1)
          ≥ mlpc.num_epochs →
        (w_advance_example D wcfg mlpc ex_num_events s).1.w_weights
            = (w_update_weights D wcfg mlpc
                { s with w_example := uint (s.w_example + 1) }).w_weights
        ∧ (w_advance_example D wcfg mlpc ex_num_events s).1.w_example = 0
        ∧ ∀ i j, i < wcfg.num_rows → j < wcfg.num_cols →
            (w_advance_example D wcfg mlpc ex_num_events s).1.w_wchanges i j = 0
            ∧ (w_advance_example D wcfg mlpc ex_num_events s).1.w_link_deltas i j = 0)) := by
  refine ⟨fun h => ?_, fun hc ht => ⟨fun he => ?_, fun he => ?_⟩⟩
  · by_cases hc : uint (s.w_example + 1) ≥ mlpc.num_examples
    · have ht : mlpc.training = false := by
        rcases h with h | h
        · exact absurd hc h
        · exact h
      unfold w_advance_example
      simp only []
      rw [if_pos hc]
      simp only [ht, Bool.false_eq_true, if_false]
      split_ifs <;> exact ⟨rfl, rfl, rfl⟩
    · unfold w_advance_example
      simp only []
      rw [if_neg hc]
      split_ifs <;> exact ⟨rfl, rfl, rfl⟩
  · unfold w_advance_example
    simp only []
    rw [if_pos hc]
    simp only [ht, if_true]
    rw [if_pos he]
  · unfold w_advance_example
    simp only []
    rw [if_pos hc]
    simp only [ht, if_true]
    rw [if_neg he]
    simp only [w_clear_rows]
    split_ifs <;>
      exact ⟨rfl, rfl, fun i j hi hj => ⟨if_pos ⟨hi, hj⟩, if_pos ⟨hi, hj⟩⟩⟩

/-- C22 on the last example of the first of two epochs of a training run
(`wgt_last`), and on the first example (`wgt_with 0 0`). -/
theorem C22_w_advance_example_witness :
    ((w_advance_example D0 wcfg0 mlpc0 ex_events0 (wgt_with 0 0)).1.w_weights
        = (wgt_with 0 0).w_weights
      ∧ (w_advance_example D0 wcfg0 mlpc0 ex_events0 (wgt_with 0 0)).1.w_wchanges
        = (wgt_with 0 0).w_wchanges
      ∧ (w_advance_example D0 wcfg0 mlpc0 ex_events0 (wgt_with 0 0)).1.w_link_deltas
        = (wgt_with 0 0).w_link_deltas)
    ∧ ((w_advance_example D0 wcfg0 mlpc0 ex_events0 wgt_last).1.w_weights
          = (w_update_weights D0 wcfg0 mlpc0
              { wgt_last with w_example := uint (wgt_last.w_example + 1) }).w_weights
      ∧ (w_advance_example D0 wcfg0 mlpc0 ex_events0 wgt_last).1.w_example = 0
      ∧ ∀ i j, i < wcfg0.num_rows → j < wcfg0.num_cols →
          (w_advance_example D0 wcfg0 mlpc0 ex_events0 wgt_last).1.w_wchanges i j = 0
          ∧ (w_advance_example D0 wcfg0 mlpc0 ex_events0 wgt_last).1.w_link_deltas i j
              = 0) :=
  ⟨(C22_w_advance_example D0 wcfg0 mlpc0 ex_events0 (wgt_with 0 0)).1
      (Or.inl (by decide)),
   ((C22_w_advance_example D0 wcfg0 mlpc0 ex_events0 wgt_last).2 (by decide) rfl).2
      (by decide)⟩

/-! ## The second event of the network stop rendezvous -/

/-- C37: when `net_stop_rdy` is already set, `s_net_stop_packet` and the
end-of-epoch branch of `i_advance_example` clear the flag and schedule
`stage_done` with `SPINN_NO_ERROR` exactly when the delivered decision
`net_stop` (`key & SPINN_STPD_MASK` for the packet, the stored `net_stop` for
the example side) is not zero; with a zero decision the record holds the flag
access only, nothing is scheduled, and `i_advance_example` goes on to the next
epoch (`example_cnt` and `evt` are 0, `epoch` is incremented).  In both cases
`net_stop_rdy` is FALSE afterwards. -/
theorem C37_net_stop_decision (D : Defines) (C : InputConf) (key : Nat)
    (s : SumCore) (c : InputCore)
    (hs : s.net_stop_rdy = true) (hc : c.net_stop_rdy = true)
    (hend : uint (c.example_cnt + 1) ≥ C.xcfg.num_examples) :
    ((s_net_stop_packet D key s).1.net_stop_rdy = false
      ∧ (s_net_stop_packet D key s).1.net_stop = key &&& SPINN_STPD_MASK
      ∧ (key &&& SPINN_STPD_MASK ≠ 0 →
          (s_net_stop_packet D key s).2
            = [Event.int_disable, Event.mode_restore,
               Event.schedule Callback.stage_done SPINN_NO_ERROR 0 D.SPINN_DONE_P])
      ∧ (key &&& SPINN_STPD_MASK = 0 →
          (s_net_stop_packet D key s).2 = [Event.int_disable, Event.mode_restore]))
    ∧ ((i_advance_example D C c).1.net_stop_rdy = false
      ∧ (c.net_stop ≠ 0 →
          (i_advance_example D C c).2
            = [Event.int_disable, Event.mode_restore,
               Event.schedule Callback.stage_done SPINN_NO_ERROR 0 D.SPINN_DONE_P])
      ∧ (c.net_stop = 0 →
          (i_advance_example D C c).2 = [Event.int_disable, Event.mode_restore])
      ∧ (i_advance_example D C c).1.example_cnt = 0
      ∧ (i_advance_example D C c).1.epoch = uint (c.epoch + 1)
      ∧ (i_advance_example D C c).1.evt = 0) := by
  obtain ⟨p1, p2, p3⟩ := s_net_stop_packet_rendezvous D key s
  obtain ⟨q1, q2⟩ := i_advance_example_rendezvous D C c hend
  have h2 : uint ((i_next_example C c).example_cnt + 1) ≥ C.xcfg.num_examples := by
    rw [i_next_example_eq]; exact hend
  refine ⟨⟨?_, p2, ?_, ?_⟩, ⟨?_, ?_, ?_, ?_, ?_, ?_⟩⟩
  · rw [p1, hs]; rfl
  · intro hk; rw [p3, hs]; simp [hk]
  · intro hk; rw [p3, hs]; simp [hk]
  · rw [q1, hc]; rfl
  · intro hk; rw [q2, hc]; simp [hk]
  · intro hk; rw [q2, hc]; simp [hk]
  · rw [i_advance_example_frame D C InputCore.example_cnt (fun _ _ _ _ _ _ _ => rfl),
      i_next_epoch_done D C _ h2]
  · rw [i_advance_example_frame D C InputCore.epoch (fun _ _ _ _ _ _ _ => rfl),
      i_next_epoch_done D C _ h2, i_next_example_eq]
  · rw [i_advance_example_parts]
    exact (i_first_event_fields D C _).1

/-- C37 on a sum core and an input core with the flag set: the packet
`0x3200` carries the decision to go on, and the input core holds the decision
to stop. -/
theorem C37_net_stop_decision_witness :
    ((s_net_stop_packet D0 0x3200 { sum0 with net_stop_rdy := true }).1.net_stop_rdy
        = false
      ∧ (s_net_stop_packet D0 0x3200 { sum0 with net_stop_rdy := true }).1.net_stop
        = 0x3200 &&& SPINN_STPD_MASK
      ∧ (0x3200 &&& SPINN_STPD_MASK ≠ 0 →
          (s_net_stop_packet D0 0x3200 { sum0 with net_stop_rdy := true }).2
            = [Event.int_disable, Event.mode_restore,
               Event.schedule Callback.stage_done SPINN_NO_ERROR 0 D0.SPINN_DONE_P])
      ∧ (0x3200 &&& SPINN_STPD_MASK = 0 →
          (s_net_stop_packet D0 0x3200 { sum0 with net_stop_rdy := true }).2
            = [Event.int_disable, Event.mode_restore]))
    ∧ ((i_advance_example D0 C0 { inp0 with net_stop_rdy := true, net_stop := 1 }).1.net_stop_rdy
        = false
      ∧ (({ inp0 with net_stop_rdy := true, net_stop := 1 } : InputCore).net_stop ≠ 0 →
          (i_advance_example D0 C0 { inp0 with net_stop_rdy := true, net_stop := 1 }).2
            = [Event.int_disable, Event.mode_restore,
               Event.schedule Callback.stage_done SPINN_NO_ERROR 0 D0.SPINN_DONE_P])
      ∧ (({ inp0 with net_stop_rdy := true, net_stop := 1 } : InputCore).net_stop = 0 →
          (i_advance_example D0 C0 { inp0 with net_stop_rdy := true, net_stop := 1 }).2
            = [Event.int_disable, Event.mode_restore])
      ∧ (i_advance_example D0 C0 { inp0 with net_stop_rdy := true, net_stop := 1 }).1.example_cnt
        = 0
      ∧ (i_advance_example D0 C0 { inp0 with net_stop_rdy := true, net_stop := 1 }).1.epoch
        = uint (({ inp0 with net_stop_rdy := true, net_stop := 1 } : InputCore).epoch + 1)
      ∧ (i_advance_example D0 C0 { inp0 with net_stop_rdy := true, net_stop := 1 }).1.evt
        = 0) :=
  C37_net_stop_decision D0 C0 0x3200 { sum0 with net_stop_rdy := true }
    { inp0 with net_stop_rdy := true, net_stop := 1 } rfl rfl (by decide)

/-! ## The forward semaphore of the threshold core -/

theorem uint_sub_one (d : Nat) (h0 : 0 < d) (h : d < 2 ^ 32) : uint_sub d 1 = d - 1 := by
  unfold uint_sub
  norm_num at h ⊢
  omega

/-- The semaphore step of `t_stopPacket`: at 0 the counter is set to
`tf_thrds_init` and `tf_advance_tick` is scheduled, otherwise the counter is
decremented and nothing is scheduled. -/
theorem t_stopPacket_semaphore (D : Defines) (key payload : Nat) (s : ThresholdCore) :
    (t_stopPacket D key payload s).1.tf_thrds_done
        = (if s.tf_thrds_done = 0 then s.tf_thrds_init else uint_sub s.tf_thrds_done 1)
    ∧ (t_stopPacket D key payload s).2
        = (if s.tf_thrds_done = 0 then
            [Event.schedule Callback.tf_advance_tick 0 0 SPINN_TF_TICK_P] else [])
    ∧ (t_stopPacket D key payload s).1.tf_thrds_init = s.tf_thrds_init := by
  cases hD : D.DEBUG <;> by_cases h : s.tf_thrds_done = 0 <;>
    simp only [t_stopPacket, hD, h, if_true, if_false, Bool.false_eq_true, and_self]

theorem t_stopPackets_append (D : Defines) (a b : List (Nat × Nat)) :
    ∀ (s : ThresholdCore),
      t_stopPackets D (a ++ b) s
        = ((t_stopPackets D b (t_stopPackets D a s).1).1,
           (t_stopPackets D a s).2 ++ (t_stopPackets D b (t_stopPackets D a s).1).2) := by
  induction a with
  | nil => intro s; simp [t_stopPackets]
  | cons kp rest ih =>
    intro s
    show t_stopPackets D (kp :: (rest ++ b)) s = _
    simp only [t_stopPackets, ih, List.append_assoc]

/-- As long as the counter is at least the number of signals, every signal
decrements it and nothing is scheduled. -/
theorem t_stopPackets_counting (D : Defines) :
    ∀ (l : List (Nat × Nat)) (s : ThresholdCore),
      l.length ≤ s.tf_thrds_done → s.tf_thrds_done < 2 ^ 32 →
      (t_stopPackets D l s).1.tf_thrds_done = s.tf_thrds_done - l.length
      ∧ (t_stopPackets D l s).2 = []
      ∧ (t_stopPackets D l s).1.tf_thrds_init = s.tf_thrds_init := by
  intro l
  induction l with
  | nil => intro s _ _; exact ⟨rfl, rfl, rfl⟩
  | cons kp rest ih =>
    intro s hl hs
    simp only [List.length_cons] at hl
    obtain ⟨e1, e2, e3⟩ := t_stopPacket_semaphore D kp.1 kp.2 s
    have hne : s.tf_thrds_done ≠ 0 := by omega
    rw [if_neg hne, uint_sub_one _ (by omega) hs] at e1
    rw [if_neg hne] at e2
    obtain ⟨i1, i2, i3⟩ := ih (t_stopPacket D kp.1 kp.2 s).1 (by rw [e1]; omega)
      (by rw [e1]; omega)
    refine ⟨?_, ?_, ?_⟩
    · show (t_stopPackets D rest (t_stopPacket D kp.1 kp.2 s).1).1.tf_thrds_done = _
      rw [i1, e1, List.length_cons]; omega
    · show (t_stopPacket D kp.1 kp.2 s).2
        ++ (t_stopPackets D rest (t_stopPacket D kp.1 kp.2 s).1).2 = _
      rw [i2, e2]; rfl
    · show (t_stopPackets D rest (t_stopPacket D kp.1 kp.2 s).1).1.tf_thrds_init = _
      rw [i3, e3]

/-- C32: the forward down-counter semaphore of the threshold core.  Starting
with `tf_thrds_done = tf_thrds_init = k` (a `uint`), in any sequence of `k + 1`
stop packets (`pkts` of length `k`, then `last`) the first `n ≤ k` signals
leave the counter at `k - n` without wrapping and schedule nothing, the last
signal finds the counter at 0, schedules `tf_advance_tick` and sets the counter
to `k` again; in all `tf_advance_tick` is scheduled exactly once, as the last
entry of the record. -/
theorem C32_stop_semaphore (D : Defines) (pkts : List (Nat × Nat)) (last : Nat × Nat)
    (s : ThresholdCore) (k : Nat) (hk : k < 2 ^ 32)
    (hd : s.tf_thrds_done = k) (hi : s.tf_thrds_init = k) (hl : pkts.length = k) :
    (∀ n, n ≤ k →
      (t_stopPackets D (pkts.take n) s).1.tf_thrds_done = k - n
      ∧ (t_stopPackets D (pkts.take n) s).1.tf_thrds_done + n = k
      ∧ (t_stopPackets D (pkts.take n) s).2 = [])
    ∧ (t_stopPackets D pkts s).1.tf_thrds_done = 0
    ∧ (t_stopPacket D last.1 last.2 (t_stopPackets D pkts s).1).2
        = [Event.schedule Callback.tf_advance_tick 0 0 SPINN_TF_TICK_P]
    ∧ (t_stopPackets D (pkts ++ [last]) s).2
        = [Event.schedule Callback.tf_advance_tick 0 0 SPINN_TF_TICK_P]
    ∧ count_scheduled Callback.tf_advance_tick (t_stopPackets D (pkts ++ [last]) s).2 = 1
    ∧ (t_stopPackets D (pkts ++ [last]) s).1.tf_thrds_done = k
    ∧ (t_stopPackets D (pkts ++ [last]) s).1.tf_thrds_init = k := by
  have hpre : ∀ n, n ≤ k →
      (t_stopPackets D (pkts.take n) s).1.tf_thrds_done = k - n
      ∧ (t_stopPackets D (pkts.take n) s).2 = [] := by
    intro n hn
    have hlen : (pkts.take n).length = n := by
      rw [List.length_take]; omega
    obtain ⟨a1, a2, _⟩ := t_stopPackets_counting D (pkts.take n) s
      (by rw [hlen, hd]; exact hn) (by rw [hd]; exact hk)
    rw [hlen, hd] at a1
    exact ⟨a1, a2⟩
  obtain ⟨b1, b2, b3⟩ := t_stopPackets_counting D pkts s (by rw [hl, hd])
    (by rw [hd]; exact hk)
  rw [hl, hd, Nat.sub_self] at b1
  obtain ⟨c1, c2, c3⟩ := t_stopPacket_semaphore D last.1 last.2 (t_stopPackets D pkts s).1
  rw [if_pos b1] at c1 c2
  have hev : (t_stopPackets D (pkts ++ [last]) s).2
      = [Event.schedule Callback.tf_advance_tick 0 0 SPINN_TF_TICK_P] := by
    rw [t_stopPackets_append]
    show (t_stopPackets D pkts s).2
      ++ ((t_stopPacket D last.1 last.2 (t_stopPackets D pkts s).1).2 ++ []) = _
    rw [b2, c2]; rfl
  refine ⟨?_, b1, c2, hev, ?_, ?_, ?_⟩
  · intro n hn
    obtain ⟨a1, a2⟩ := hpre n hn
    exact ⟨a1, by rw [a1]; omega, a2⟩
  · rw [hev]; rfl
  · rw [t_stopPackets_append]
    show (t_stopPacket D last.1 last.2 (t_stopPackets D pkts s).1).1.tf_thrds_done = _
    rw [c1, b3, hi]
  · rw [t_stopPackets_append]
    show (t_stopPacket D last.1 last.2 (t_stopPackets D pkts s).1).1.tf_thrds_init = _
    rw [c3, b3, hi]

/-- C32 on `thr_sem`, whose semaphore waits for three signals (`k = 2`). -/
theorem C32_stop_semaphore_witness :
    (∀ n, n ≤ 2 →
      (t_stopPackets D0 (([(0x3a00, 0), (0x3a01, 0)] : List (Nat × Nat)).take n)
          thr_sem).1.tf_thrds_done = 2 - n
      ∧ (t_stopPackets D0 (([(0x3a00, 0), (0x3a01, 0)] : List (Nat × Nat)).take n)
          thr_sem).1.tf_thrds_done + n = 2
      ∧ (t_stopPackets D0 (([(0x3a00, 0), (0x3a01, 0)] : List (Nat × Nat)).take n)
          thr_sem).2 = [])
    ∧ (t_stopPackets D0 [(0x3a00, 0), (0x3a01, 0)] thr_sem).1.tf_thrds_done = 0
    ∧ (t_stopPacket D0 (0x3a00, 7).1 (0x3a00, 7).2
        (t_stopPackets D0 [(0x3a00, 0), (0x3a01, 0)] thr_sem).1).2
        = [Event.schedule Callback.tf_advance_tick 0 0 SPINN_TF_TICK_P]
    ∧ (t_stopPackets D0 ([(0x3a00, 0), (0x3a01, 0)] ++ [(0x3a00, 7)]) thr_sem).2
        = [Event.schedule Callback.tf_advance_tick 0 0 SPINN_TF_TICK_P]
    ∧ count_scheduled Callback.tf_advance_tick
        (t_stopPackets D0 ([(0x3a00, 0), (0x3a01, 0)] ++ [(0x3a00, 7)]) thr_sem).2 = 1
    ∧ (t_stopPackets D0 ([(0x3a00, 0), (0x3a01, 0)] ++ [(0x3a00, 7)])
        thr_sem).1.tf_thrds_done = 2
    ∧ (t_stopPackets D0 ([(0x3a00, 0), (0x3a01, 0)] ++ [(0x3a00, 7)])
        thr_sem).1.tf_thrds_init = 2 :=
  C32_stop_semaphore D0 [(0x3a00, 0), (0x3a01, 0)] (0x3a00, 7) thr_sem 2 (by norm_num)
    rfl rfl rfl

/-! ## What the weight update and the example advance write -/

/-- The update of one weight writes `w_weights`, `w_wchanges` and
`w_link_deltas` only. -/
theorem w_update_weight_writes (D : Defines) (wcfg : w_conf_t) (mlpc : global_conf_t)
    (i j : Nat) (s : WeightCore) :
    ∃ ww wc wl, w_update_weight D wcfg mlpc i j s
      = { s with w_weights := ww, w_wchanges := wc, w_link_deltas := wl } := by
  unfold w_update_weight
  simp only []
  split_ifs <;> exact ⟨_, _, _, rfl⟩

theorem w_update_rows_writes (D : Defines) (wcfg : w_conf_t) (mlpc : global_conf_t)
    (j : Nat) (l : List Nat) :
    ∀ (s : WeightCore), ∃ ww wc wl,
      l.foldl (fun (s : WeightCore) (i : Nat) => w_update_weight D wcfg mlpc i j s) s
        = { s with w_weights := ww, w_wchanges := wc, w_link_deltas := wl } := by
  induction l with
  | nil => intro s; exact ⟨_, _, _, rfl⟩
  | cons i t ih =>
    intro s
    obtain ⟨a, b, c, e⟩ := w_update_weight_writes D wcfg mlpc i j s
    obtain ⟨a2, b2, c2, e2⟩ := ih { s with w_weights := a, w_wchanges := b, w_link_deltas := c }
    rw [List.foldl_cons, e, e2]
    exact ⟨_, _, _, rfl⟩

theorem w_update_cols_writes (D : Defines) (wcfg : w_conf_t) (mlpc : global_conf_t)
    (l : List Nat) :
    ∀ (s : WeightCore), ∃ ww wc wl,
      l.foldl (fun (s : WeightCore) (j : Nat) =>
          (List.range wcfg.num_rows).foldl
            (fun (s : WeightCore) (i : Nat) => w_update_weight D wcfg mlpc i j s) s) s
        = { s with w_weights := ww, w_wchanges := wc, w_link_deltas := wl } := by
  induction l with
  | nil => intro s; exact ⟨_, _, _, rfl⟩
  | cons j t ih =>
    intro s
    obtain ⟨a, b, c, e⟩ := w_update_rows_writes D wcfg mlpc j (List.range wcfg.num_rows) s
    obtain ⟨a2, b2, c2, e2⟩ := ih { s with w_weights := a, w_wchanges := b, w_link_deltas := c }
    rw [List.foldl_cons, e, e2]
    exact ⟨_, _, _, rfl⟩

/-- The routine `w_update_weights` writes `w_weights`, `w_wchanges` and
`w_link_deltas`, and counts the call in `wght_ups` in a `DEBUG` build. -/
theorem w_update_weights_writes (D : Defines) (wcfg : w_conf_t) (mlpc : global_conf_t)
    (s : WeightCore) :
    ∃ ww wc wl, w_update_weights D wcfg mlpc s
      = { s with w_weights := ww, w_wchanges := wc, w_link_deltas := wl,
                 wght_ups := if D.DEBUG = true then uint (s.wght_ups + 1)
                   else s.wght_ups } := by
  unfold w_update_weights
  simp only []
  cases hD : D.DEBUG
  · obtain ⟨a, b, c, e⟩ := w_update_cols_writes D wcfg mlpc (List.range wcfg.num_cols) s
    simp only [Bool.false_eq_true, if_false]
    rw [e]
    exact ⟨_, _, _, rfl⟩
  · obtain ⟨a, b, c, e⟩ := w_update_cols_writes D wcfg mlpc (List.range wcfg.num_cols)
      { s with wght_ups := uint (s.wght_ups + 1) }
    simp only [if_true]
    rw [e]
    exact ⟨_, _, _, rfl⟩

/-- The routine `w_advance_example`, case by case: what it writes and what it
records. -/
theorem w_advance_example_writes (D : Defines) (wcfg : w_conf_t) (mlpc : global_conf_t)
    (ex_num_events : Nat → Nat) (s : WeightCore) :
    ∃ ww wc wl, w_advance_example D wcfg mlpc ex_num_events s
      = if uint (s.w_example + 1) ≥ mlpc.num_examples then
          if uint (s.epoch + 1) ≥ mlpc.num_epochs then
            ({ s with w_example := uint (s.w_example + 1), epoch := uint (s.epoch + 1),
                      w_weights := ww, w_wchanges := wc, w_link_deltas := wl,
                      wght_ups := if mlpc.training = true ∧ D.DEBUG = true then
                          uint (s.wght_ups + 1) else s.wght_ups },
              [Event.spin1_stop])
          else
            ({ s with w_example := 0, epoch := uint (s.epoch + 1),
                      w_weights := ww, w_wchanges := wc, w_link_deltas := wl,
                      wght_ups := if mlpc.training = true ∧ D.DEBUG = true then
                          uint (s.wght_ups + 1) else s.wght_ups,
                      evt := 0, num_events := ex_num_events 0,
                      spk_sent := if D.DEBUG = true then uint (s.spk_sent + 1)
                        else s.spk_sent },
              [Event.send_mc_packet s.wf_sync_key 0 false])
        else
          ({ s with w_example := uint (s.w_example + 1),
                    evt := 0, num_events := ex_num_events (uint (s.w_example + 1)),
                    spk_sent := if D.DEBUG = true then uint (s.spk_sent + 1)
                      else s.spk_sent },
            [Event.send_mc_packet s.wf_sync_key 0 false]) := by
  by_cases hc : uint (s.w_example + 1) ≥ mlpc.num_examples
  · cases ht : mlpc.training
    · by_cases he : uint (s.epoch + 1) ≥ mlpc.num_epochs
      · refine ⟨s.w_weights, s.w_wchanges, s.w_link_deltas, ?_⟩
        rw [if_pos hc, if_pos he]
        unfold w_advance_example
        simp only []
        rw [if_pos hc]
        simp only [ht, Bool.false_eq_true, if_false, false_and]
        rw [if_pos he]
      · refine ⟨s.w_weights, s.w_wchanges, s.w_link_deltas, ?_⟩
        rw [if_pos hc, if_neg he]
        unfold w_advance_example
        simp only []
        rw [if_pos hc]
        simp only [ht, Bool.false_eq_true, if_false, false_and]
        rw [if_neg he]
        cases hD : D.DEBUG <;> simp only [Bool.false_eq_true, if_true, if_false]
    · obtain ⟨a, b, c, e⟩ := w_update_weights_writes D wcfg mlpc
        { s with w_example := uint (s.w_example + 1) }
      by_cases he : uint (s.epoch + 1) ≥ mlpc.num_epochs
      · refine ⟨a, b, c, ?_⟩
        rw [if_pos hc, if_pos he]
        unfold w_advance_example
        simp only []
        rw [if_pos hc]
        simp only [ht, if_true, true_and]
        rw [e]
        simp only [ge_iff_le, he, if_true]
      · refine ⟨a, fun x y => if x < wcfg.num_rows ∧ y < wcfg.num_cols then 0 else b x y,
          fun x y => if x < wcfg.num_rows ∧ y < wcfg.num_cols then 0 else c x y, ?_⟩
        rw [if_pos hc, if_neg he]
        unfold w_advance_example
        simp only []
        rw [if_pos hc]
        simp only [ht, if_true, true_and]
        rw [e]
        simp only [ge_iff_le, he, if_false, w_clear_rows]
        cases hD : D.DEBUG <;> simp only [Bool.false_eq_true, if_true, if_false]
  · refine ⟨s.w_weights, s.w_wchanges, s.w_link_deltas, ?_⟩
    rw [if_neg hc]
    unfold w_advance_example
    simp only []
    rw [if_neg hc]
    cases hD : D.DEBUG <;> simp only [Bool.false_eq_true, if_true, if_false]

/-! ## The BACKPROP countdown of the weight core -/

/-- A call of `wb_advance_tick` away from the end tick: the colour of `bkpKey`
is flipped, `tick` is decremented and `wb_process` is scheduled. -/
theorem wb_advance_tick_countdown (D : Defines) (wcfg : w_conf_t) (mlpc : global_conf_t)
    (ex_num_events : Nat → Nat) (s : WeightCore) (h : s.tick ≠ SPINN_WB_END_TICK) :
    wb_advance_tick D wcfg mlpc ex_num_events s
      = ({ s with tot_tick := if D.DEBUG = true then uint (s.tot_tick + 1) else s.tot_tick,
                  bkpKey := s.bkpKey ^^^ SPINN_COLOUR_KEY,
                  tick := uint_sub s.tick 1 },
         [Event.schedule Callback.wb_process 0 0 SPINN_WB_PROCESS_P]) := by
  cases hD : D.DEBUG <;>
    simp only [wb_advance_tick, hD, h, if_true, if_false, Bool.false_eq_true]

/-- A call of `wb_advance_tick` at the end tick: the colour of `bkpKey` is
flipped, `tick` is initialised, the phase is FORWARD and `w_advance_example`
is called. -/
theorem wb_advance_tick_end (D : Defines) (wcfg : w_conf_t) (mlpc : global_conf_t)
    (ex_num_events : Nat → Nat) (s : WeightCore) (h : s.tick = SPINN_WB_END_TICK) :
    wb_advance_tick D wcfg mlpc ex_num_events s
      = w_advance_example D wcfg mlpc ex_num_events
          { s with tot_tick := if D.DEBUG = true then uint (s.tot_tick + 1) else s.tot_tick,
                   bkpKey := s.bkpKey ^^^ SPINN_COLOUR_KEY,
                   tick := SPINN_W_INIT_TICK,
                   phase := SPINN_FORWARD } := by
  cases hD : D.DEBUG <;>
    simp only [wb_advance_tick, w_switch_to_fw, hD, h, if_true, if_false,
      Bool.false_eq_true]

/-- The routine `w_advance_example` leaves `tick`, `phase`, the packet keys and
the debug count of ticks alone. -/
theorem w_advance_example_keeps (D : Defines) (wcfg : w_conf_t) (mlpc : global_conf_t)
    (ex_num_events : Nat → Nat) (s : WeightCore) :
    (w_advance_example D wcfg mlpc ex_num_events s).1.tick = s.tick
    ∧ (w_advance_example D wcfg mlpc ex_num_events s).1.phase = s.phase
    ∧ (w_advance_example D wcfg mlpc ex_num_events s).1.fwdKey = s.fwdKey
    ∧ (w_advance_example D wcfg mlpc ex_num_events s).1.bkpKey = s.bkpKey
    ∧ (w_advance_example D wcfg mlpc ex_num_events s).1.wf_sync_key = s.wf_sync_key
    ∧ (w_advance_example D wcfg mlpc ex_num_events s).1.tot_tick = s.tot_tick := by
  obtain ⟨a, b, c, e⟩ := w_advance_example_writes D wcfg mlpc ex_num_events s
  rw [e]
  split_ifs <;> exact ⟨rfl, rfl, rfl, rfl, rfl, rfl⟩

/-- The first `j < n` calls of `wb_advance_tick` from `tick = n`. -/
theorem wb_advance_ticks_countdown (D : Defines) (wcfg : w_conf_t) (mlpc : global_conf_t)
    (ex_num_events : Nat → Nat) (s : WeightCore) (n : Nat) (hn : n < 2 ^ 32)
    (ht : s.tick = n) (j : Nat) (hj : j < n) :
    (wb_advance_ticks D wcfg mlpc ex_num_events j s).1.tick = n - j
    ∧ (wb_advance_ticks D wcfg mlpc ex_num_events j s).1.phase = s.phase
    ∧ (wb_advance_ticks D wcfg mlpc ex_num_events j s).2
        = List.replicate j (Event.schedule Callback.wb_process 0 0 SPINN_WB_PROCESS_P) := by
  induction j with
  | zero => exact ⟨ht, rfl, rfl⟩
  | succ j ih =>
    obtain ⟨i1, i2, i3⟩ := ih (by omega)
    have hne : (wb_advance_ticks D wcfg mlpc ex_num_events j s).1.tick
        ≠ SPINN_WB_END_TICK := by
      rw [i1]; unfold SPINN_WB_END_TICK; omega
    have e := wb_advance_tick_countdown D wcfg mlpc ex_num_events
      (wb_advance_ticks D wcfg mlpc ex_num_events j s).1 hne
    refine ⟨?_, ?_, ?_⟩
    · show (wb_advance_tick D wcfg mlpc ex_num_events
        (wb_advance_ticks D wcfg mlpc ex_num_events j s).1).1.tick = _
      rw [e]
      show uint_sub (wb_advance_ticks D wcfg mlpc ex_num_events j s).1.tick 1 = _
      rw [i1, uint_sub_one _ (by omega) (by omega)]
      omega
    · show (wb_advance_tick D wcfg mlpc ex_num_events
        (wb_advance_ticks D wcfg mlpc ex_num_events j s).1).1.phase = _
      rw [e]
      exact i2
    · show (wb_advance_ticks D wcfg mlpc ex_num_events j s).2
        ++ (wb_advance_tick D wcfg mlpc ex_num_events
            (wb_advance_ticks D wcfg mlpc ex_num_events j s).1).2 = _
      rw [e, i3, List.replicate_succ']

/-- C38: the BACKPROP countdown of the weight core.  Starting in the BACKPROP
phase with `tick = n`, `1 ≤ n` (a `uint`): before each of the first `n` calls
of `wb_advance_tick` the phase is BACKPROP and `tick` is at least
`SPINN_WB_END_TICK`, so that the history index `tick - 1` of `wb_process` does
not wrap; each of the first `n - 1` calls decrements `tick` by one, keeps the
phase and schedules `wb_process` and nothing else; the `n`-th call is the call
of `w_advance_example` on the state with `tick = SPINN_W_INIT_TICK` and the
phase FORWARD, and returns with that tick and phase. -/
theorem C38_backprop_countdown (D : Defines) (wcfg : w_conf_t) (mlpc : global_conf_t)
    (ex_num_events : Nat → Nat) (s : WeightCore) (n : Nat) (hn1 : 1 ≤ n)
    (hn : n < 2 ^ 32) (hp : s.phase = SPINN_BACKPROP) (ht : s.tick = n) :
    (∀ j, j < n →
      (wb_advance_ticks D wcfg mlpc ex_num_events j s).1.phase = SPINN_BACKPROP
      ∧ (wb_advance_ticks D wcfg mlpc ex_num_events j s).1.tick = n - j
      ∧ SPINN_WB_END_TICK ≤ (wb_advance_ticks D wcfg mlpc ex_num_events j s).1.tick
      ∧ uint_sub (wb_advance_ticks D wcfg mlpc ex_num_events j s).1.tick 1 + 1
          = (wb_advance_ticks D wcfg mlpc ex_num_events j s).1.tick)
    ∧ (∀ j, j + 1 < n →
      (wb_advance_tick D wcfg mlpc ex_num_events
          (wb_advance_ticks D wcfg mlpc ex_num_events j s).1).1.tick + 1
        = (wb_advance_ticks D wcfg mlpc ex_num_events j s).1.tick
      ∧ (wb_advance_tick D wcfg mlpc ex_num_events
          (wb_advance_ticks D wcfg mlpc ex_num_events j s).1).1.phase = SPINN_BACKPROP
      ∧ (wb_advance_tick D wcfg mlpc ex_num_events
          (wb_advance_ticks D wcfg mlpc ex_num_events j s).1).2
        = [Event.schedule Callback.wb_process 0 0 SPINN_WB_PROCESS_P])
    ∧ wb_advance_tick D wcfg mlpc ex_num_events
          (wb_advance_ticks D wcfg mlpc ex_num_events (n - 1) s).1
        = w_advance_example D wcfg mlpc ex_num_events
            { (wb_advance_ticks D wcfg mlpc ex_num_events (n - 1) s).1 with
              tot_tick := if D.DEBUG = true then
                  uint ((wb_advance_ticks D wcfg mlpc ex_num_events (n - 1) s).1.tot_tick + 1)
                else (wb_advance_ticks D wcfg mlpc ex_num_events (n - 1) s).1.tot_tick,
              bkpKey := (wb_advance_ticks D wcfg mlpc ex_num_events (n - 1) s).1.bkpKey
                ^^^ SPINN_COLOUR_KEY,
              tick := SPINN_W_INIT_TICK,
              phase := SPINN_FORWARD }
    ∧ (wb_advance_ticks D wcfg mlpc ex_num_events n s).1.tick = SPINN_W_INIT_TICK
    ∧ (wb_advance_ticks D wcfg mlpc ex_num_events n s).1.phase = SPINN_FORWARD
    ∧ (wb_advance_ticks D wcfg mlpc ex_num_events n s).2
        = List.replicate (n - 1)
            (Event.schedule Callback.wb_process 0 0 SPINN_WB_PROCESS_P)
          ++ (w_advance_example D wcfg mlpc ex_num_events
            { (wb_advance_ticks D wcfg mlpc ex_num_events (n - 1) s).1 with
              tot_tick := if D.DEBUG = true then
                  uint ((wb_advance_ticks D wcfg mlpc ex_num_events (n - 1) s).1.tot_tick + 1)
                else (wb_advance_ticks D wcfg mlpc ex_num_events (n - 1) s).1.tot_tick,
              bkpKey := (wb_advance_ticks D wcfg mlpc ex_num_events (n - 1) s).1.bkpKey
                ^^^ SPINN_COLOUR_KEY,
              tick := SPINN_W_INIT_TICK,
              phase := SPINN_FORWARD }).2 := by
  have hrun := wb_advance_ticks_countdown D wcfg mlpc ex_num_events s n hn ht
  obtain ⟨l1, l2, l3⟩ := hrun (n - 1) (by omega)
  have hlast : (wb_advance_ticks D wcfg mlpc ex_num_events (n - 1) s).1.tick
      = SPINN_WB_END_TICK := by
    rw [l1]; unfold SPINN_WB_END_TICK; omega
  have hend := wb_advance_tick_end D wcfg mlpc ex_num_events
    (wb_advance_ticks D wcfg mlpc ex_num_events (n - 1) s).1 hlast
  have hsplit : wb_advance_ticks D wcfg mlpc ex_num_events n s
      = ((wb_advance_tick D wcfg mlpc ex_num_events
            (wb_advance_ticks D wcfg mlpc ex_num_events (n - 1) s).1).1,
         (wb_advance_ticks D wcfg mlpc ex_num_events (n - 1) s).2
          ++ (wb_advance_tick D wcfg mlpc ex_num_events
            (wb_advance_ticks D wcfg mlpc ex_num_events (n - 1) s).1).2) := by
    obtain ⟨m, rfl⟩ : ∃ m, n = m + 1 := ⟨n - 1, by omega⟩
    rfl
  refine ⟨?_, ?_, hend, ?_, ?_, ?_⟩
  · intro j hj
    obtain ⟨i1, i2, _⟩ := hrun j hj
    refine ⟨by rw [i2, hp], i1, by rw [i1]; unfold SPINN_WB_END_TICK; omega, ?_⟩
    rw [i1, uint_sub_one _ (by omega) (by omega)]
    omega
  · intro j hj
    obtain ⟨i1, i2, _⟩ := hrun j (by omega)
    have hne : (wb_advance_ticks D wcfg mlpc ex_num_events j s).1.tick
        ≠ SPINN_WB_END_TICK := by
      rw [i1]; unfold SPINN_WB_END_TICK; omega
    rw [wb_advance_tick_countdown D wcfg mlpc ex_num_events _ hne]
    refine ⟨?_, by rw [← hp, ← i2], rfl⟩
    show uint_sub (wb_advance_ticks D wcfg mlpc ex_num_events j s).1.tick 1 + 1 = _
    rw [i1, uint_sub_one _ (by omega) (by omega)]
    omega
  · rw [hsplit]
    show (wb_advance_tick D wcfg mlpc ex_num_events
      (wb_advance_ticks D wcfg mlpc ex_num_events (n - 1) s).1).1.tick = _
    rw [hend, (w_advance_example_keeps D wcfg mlpc ex_num_events _).1]
  · rw [hsplit]
    show (wb_advance_tick D wcfg mlpc ex_num_events
      (wb_advance_ticks D wcfg mlpc ex_num_events (n - 1) s).1).1.phase = _
    rw [hend, (w_advance_example_keeps D wcfg mlpc ex_num_events _).2.1]
  · rw [hsplit]
    show (wb_advance_ticks D wcfg mlpc ex_num_events (n - 1) s).2
      ++ (wb_advance_tick D wcfg mlpc ex_num_events
        (wb_advance_ticks D wcfg mlpc ex_num_events (n - 1) s).1).2 = _
    rw [hend, l3]

/-- C38 on `wgt_with 0 0`, a weight core in the BACKPROP phase with
`tick = 3`. -/
theorem C38_backprop_countdown_witness :
    (∀ j, j < 3 →
      (wb_advance_ticks D0 wcfg0 mlpc0 ex_events0 j (wgt_with 0 0)).1.phase = SPINN_BACKPROP
      ∧ (wb_advance_ticks D0 wcfg0 mlpc0 ex_events0 j (wgt_with 0 0)).1.tick = 3 - j
      ∧ SPINN_WB_END_TICK ≤ (wb_advance_ticks D0 wcfg0 mlpc0 ex_events0 j (wgt_with 0 0)).1.tick
      ∧ uint_sub (wb_advance_ticks D0 wcfg0 mlpc0 ex_events0 j (wgt_with 0 0)).1.tick 1 + 1
          = (wb_advance_ticks D0 wcfg0 mlpc0 ex_events0 j (wgt_with 0 0)).1.tick)
    ∧ (wb_advance_ticks D0 wcfg0 mlpc0 ex_events0 3 (wgt_with 0 0)).1.tick
        = SPINN_W_INIT_TICK
    ∧ (wb_advance_ticks D0 wcfg0 mlpc0 ex_events0 3 (wgt_with 0 0)).1.phase
        = SPINN_FORWARD :=
  ⟨(C38_backprop_countdown D0 wcfg0 mlpc0 ex_events0 (wgt_with 0 0) 3 (by decide)
      (by decide) rfl rfl).1,
   (C38_backprop_countdown D0 wcfg0 mlpc0 ex_events0 (wgt_with 0 0) 3 (by decide)
      (by decide) rfl rfl).2.2.2.1,
   (C38_backprop_countdown D0 wcfg0 mlpc0 ex_events0 (wgt_with 0 0) 3 (by decide)
      (by decide) rfl rfl).2.2.2.2.1⟩

/-! ## The colour of the packet keys of the weight core -/

/-- The XOR with `SPINN_COLOUR_KEY` flips bit `SPINN_COLOUR_SHIFT` and leaves
every other bit as it was. -/
theorem colour_flip_testBit (k i : Nat) :
    (k ^^^ SPINN_COLOUR_KEY).testBit i
      = (if i = SPINN_COLOUR_SHIFT then !k.testBit i else k.testBit i) := by
  have h : SPINN_COLOUR_KEY = 2 ^ 10 := by decide
  rw [Nat.testBit_xor, h, Nat.testBit_two_pow]
  unfold SPINN_COLOUR_SHIFT
  by_cases hi : i = 10
  · subst hi; simp
  · have h2 : ¬ 10 = i := fun e => hi e.symm
    simp [hi, h2]

/-- The routine `wf_advance_event`, case by case. -/
theorem wf_advance_event_cases (D : Defines) (wcfg : w_conf_t) (mlpc : global_conf_t)
    (ex_num_events : Nat → Nat) (s : WeightCore) :
    (¬ uint (s.evt + 1) ≥ s.num_events →
      wf_advance_event D wcfg mlpc ex_num_events s
        = ({ s with evt := uint (s.evt + 1), tick := uint (s.tick + 1),
                    tot_tick := if D.DEBUG = true then uint (s.tot_tick + 1)
                      else s.tot_tick,
                    fwdKey := s.fwdKey ^^^ SPINN_COLOUR_KEY },
           [Event.schedule Callback.wf_process 0 0 SPINN_WF_PROCESS_P]))
    ∧ (uint (s.evt + 1) ≥ s.num_events → mlpc.training = true →
      wf_advance_event D wcfg mlpc ex_num_events s
        = ({ s with evt := uint (s.evt + 1), wf_thrds_done := 0, tick_stop := 0,
                    num_ticks := s.tick, phase := SPINN_BACKPROP },
           [Event.int_disable, Event.mode_restore,
            Event.schedule Callback.wb_process 0 0 SPINN_WB_PROCESS_P]))
    ∧ (uint (s.evt + 1) ≥ s.num_events → mlpc.training = false →
      wf_advance_event D wcfg mlpc ex_num_events s
        = ((w_advance_example D wcfg mlpc ex_num_events
              { s with evt := uint (s.evt + 1), wf_thrds_done := 0, tick_stop := 0,
                       tick := SPINN_W_INIT_TICK }).1,
           [Event.int_disable, Event.mode_restore]
            ++ (w_advance_example D wcfg mlpc ex_num_events
              { s with evt := uint (s.evt + 1), wf_thrds_done := 0, tick_stop := 0,
                       tick := SPINN_W_INIT_TICK }).2)) := by
  refine ⟨fun h => ?_, fun h ht => ?_, fun h ht => ?_⟩
  · unfold wf_advance_event
    simp only []
    rw [if_neg h]
    cases hD : D.DEBUG <;> simp only [Bool.false_eq_true, if_true, if_false]
  · unfold wf_advance_event w_switch_to_bp
    simp only []
    rw [if_pos h]
    simp only [ht, if_true]
    rfl
  · unfold wf_advance_event
    simp only []
    rw [if_pos h]
    simp only [ht, Bool.false_eq_true, if_false]

/-- What `wf_advance_event` does to `tick` and `fwdKey`. -/
theorem wf_advance_event_key (D : Defines) (wcfg : w_conf_t) (mlpc : global_conf_t)
    (ex_num_events : Nat → Nat) (s : WeightCore) :
    (wf_advance_event D wcfg mlpc ex_num_events s).1.tick
        = (if uint (s.evt + 1) ≥ s.num_events then
            (if mlpc.training = true then s.tick else SPINN_W_INIT_TICK)
          else uint (s.tick + 1))
    ∧ (wf_advance_event D wcfg mlpc ex_num_events s).1.fwdKey
        = (if uint (s.evt + 1) ≥ s.num_events then s.fwdKey
          else s.fwdKey ^^^ SPINN_COLOUR_KEY) := by
  obtain ⟨c1, c2, c3⟩ := wf_advance_event_cases D wcfg mlpc ex_num_events s
  by_cases h : uint (s.evt + 1) ≥ s.num_events
  · rw [if_pos h, if_pos h]
    cases ht : mlpc.training
    · rw [c3 h ht]
      obtain ⟨k1, _, k3, _⟩ := w_advance_example_keeps D wcfg mlpc ex_num_events
        { s with evt := uint (s.evt + 1), wf_thrds_done := 0, tick_stop := 0,
                 tick := SPINN_W_INIT_TICK }
      exact ⟨by rw [k1]; rfl, by rw [k3]⟩
    · rw [c2 h ht]
      exact ⟨rfl, rfl⟩
  · rw [if_neg h, if_neg h, c1 h]
    exact ⟨rfl, rfl⟩

/-- What `wf_advance_tick` does to `tick` and `fwdKey`. -/
theorem wf_advance_tick_key (D : Defines) (wcfg : w_conf_t) (mlpc : global_conf_t)
    (ex_num_events : Nat → Nat) (s : WeightCore) :
    (wf_advance_tick D wcfg mlpc ex_num_events s).1.tick
        = (if s.tick_stop ≠ 0 ∧ uint (s.evt + 1) ≥ s.num_events then
            (if mlpc.training = true then s.tick else SPINN_W_INIT_TICK)
          else uint (s.tick + 1))
    ∧ (wf_advance_tick D wcfg mlpc ex_num_events s).1.fwdKey
        = (if s.tick_stop ≠ 0 ∧ uint (s.evt + 1) ≥ s.num_events then s.fwdKey
          else s.fwdKey ^^^ SPINN_COLOUR_KEY) := by
  by_cases hs : s.tick_stop = 0
  · have e : wf_advance_tick D wcfg mlpc ex_num_events s
        = ({ s with wf_procs := uint_sub 1 s.wf_procs, tick := uint (s.tick + 1),
                    tot_tick := if D.DEBUG = true then uint (s.tot_tick + 1)
                      else s.tot_tick,
                    fwdKey := s.fwdKey ^^^ SPINN_COLOUR_KEY },
           [Event.schedule Callback.wf_process 0 0 SPINN_WF_PROCESS_P]) := by
      cases hD : D.DEBUG <;>
        simp only [wf_advance_tick, hD, hs, ne_eq, not_true_eq_false, if_true, if_false,
          Bool.false_eq_true]
    have hc : ¬ (s.tick_stop ≠ 0 ∧ uint (s.evt + 1) ≥ s.num_events) := fun h => h.1 hs
    rw [if_neg hc, if_neg hc, e]
    exact ⟨rfl, rfl⟩
  · have e : wf_advance_tick D wcfg mlpc ex_num_events s
        = wf_advance_event D wcfg mlpc ex_num_events
            { s with wf_procs := uint_sub 1 s.wf_procs } := by
      unfold wf_advance_tick
      simp only []
      rw [if_pos hs]
    obtain ⟨k1, k2⟩ := wf_advance_event_key D wcfg mlpc ex_num_events
      { s with wf_procs := uint_sub 1 s.wf_procs }
    rw [e, k1, k2]
    by_cases h : uint (s.evt + 1) ≥ s.num_events
    · have hc : s.tick_stop ≠ 0 ∧ uint (s.evt + 1) ≥ s.num_events := ⟨hs, h⟩
      rw [if_pos hc, if_pos hc]
      exact ⟨if_pos h, if_pos h⟩
    · have hc : ¬ (s.tick_stop ≠ 0 ∧ uint (s.evt + 1) ≥ s.num_events) := fun c => h c.2
      rw [if_neg hc, if_neg hc]
      exact ⟨if_neg h, if_neg h⟩

/-- Every call of `wb_advance_tick` flips the colour of `bkpKey` and leaves
`fwdKey` alone. -/
theorem wb_advance_tick_key (D : Defines) (wcfg : w_conf_t) (mlpc : global_conf_t)
    (ex_num_events : Nat → Nat) (s : WeightCore) :
    (wb_advance_tick D wcfg mlpc ex_num_events s).1.bkpKey
        = s.bkpKey ^^^ SPINN_COLOUR_KEY
    ∧ (wb_advance_tick D wcfg mlpc ex_num_events s).1.fwdKey = s.fwdKey := by
  by_cases h : s.tick = SPINN_WB_END_TICK
  · rw [wb_advance_tick_end D wcfg mlpc ex_num_events s h]
    obtain ⟨_, _, k3, k4, _⟩ := w_advance_example_keeps D wcfg mlpc ex_num_events
      { s with tot_tick := if D.DEBUG = true then uint (s.tot_tick + 1) else s.tot_tick,
               bkpKey := s.bkpKey ^^^ SPINN_COLOUR_KEY,
               tick := SPINN_W_INIT_TICK,
               phase := SPINN_FORWARD }
    exact ⟨by rw [k4], by rw [k3]⟩
  · rw [wb_advance_tick_countdown D wcfg mlpc ex_num_events s h]
    exact ⟨rfl, rfl⟩

/-- C31: the colour alternates every tick on the weight core.  The routines
`wf_advance_tick` and `wf_advance_event` increment `tick` exactly in the
branch in which they flip the colour of `fwdKey` (for `wf_advance_tick`: no
tick stop, or further events in the example; for `wf_advance_event`: further
events in the example), and in the other branch `fwdKey` is as it was; every
call of `wb_advance_tick` flips the colour of `bkpKey`.  A flip changes bit
`SPINN_COLOUR_SHIFT` (bit 10, the bit of `SPINN_COLOUR_MASK`) and no other bit,
so the keys of two consecutive ticks differ in exactly that bit. -/
theorem C31_colour_alternates (D : Defines) (wcfg : w_conf_t) (mlpc : global_conf_t)
    (ex_num_events : Nat → Nat) (s : WeightCore) :
    ((wf_advance_tick D wcfg mlpc ex_num_events s).1.tick
        = (if s.tick_stop ≠ 0 ∧ uint (s.evt + 1) ≥ s.num_events then
            (if mlpc.training = true then s.tick else SPINN_W_INIT_TICK)
          else uint (s.tick + 1))
      ∧ ∀ i, (wf_advance_tick D wcfg mlpc ex_num_events s).1.fwdKey.testBit i
        = (if s.tick_stop ≠ 0 ∧ uint (s.evt + 1) ≥ s.num_events then s.fwdKey.testBit i
          else if i = SPINN_COLOUR_SHIFT then !s.fwdKey.testBit i
          else s.fwdKey.testBit i))
    ∧ ((wf_advance_event D wcfg mlpc ex_num_events s).1.tick
        = (if uint (s.evt + 1) ≥ s.num_events then
            (if mlpc.training = true then s.tick else SPINN_W_INIT_TICK)
          else uint (s.tick + 1))
      ∧ ∀ i, (wf_advance_event D wcfg mlpc ex_num_events s).1.fwdKey.testBit i
        = (if uint (s.evt + 1) ≥ s.num_events then s.fwdKey.testBit i
          else if i = SPINN_COLOUR_SHIFT then !s.fwdKey.testBit i
          else s.fwdKey.testBit i))
    ∧ (∀ i, (wb_advance_tick D wcfg mlpc ex_num_events s).1.bkpKey.testBit i
        = (if i = SPINN_COLOUR_SHIFT then !s.bkpKey.testBit i else s.bkpKey.testBit i))
    ∧ SPINN_COLOUR_MASK = 1 <<< SPINN_COLOUR_SHIFT
    ∧ SPINN_COLOUR_SHIFT = 10 := by
  obtain ⟨a1, a2⟩ := wf_advance_tick_key D wcfg mlpc ex_num_events s
  obtain ⟨b1, b2⟩ := wf_advance_event_key D wcfg mlpc ex_num_events s
  obtain ⟨c1, _⟩ := wb_advance_tick_key D wcfg mlpc ex_num_events s
  refine ⟨⟨a1, fun i => ?_⟩, ⟨b1, fun i => ?_⟩, fun i => ?_, rfl, rfl⟩
  · rw [a2]
    by_cases hc : s.tick_stop ≠ 0 ∧ uint (s.evt + 1) ≥ s.num_events
    · rw [if_pos hc, if_pos hc]
    · rw [if_neg hc, if_neg hc, colour_flip_testBit]
  · rw [b2]
    by_cases hc : uint (s.evt + 1) ≥ s.num_events
    · rw [if_pos hc, if_pos hc]
    · rw [if_neg hc, if_neg hc, colour_flip_testBit]
  · rw [c1, colour_flip_testBit]

/-! ## The FORWARD packet queue of the threshold core -/

theorem uint_mod_thld_len (n : Nat) : uint n % 256 = n % 256 := by
  unfold uint
  exact Nat.mod_mod_of_dvd n (by norm_num)

/-- The routine `t_forwardPacket` on a full queue: the packet is counted
(`DEBUG`) and the program exits. -/
theorem t_forwardPacket_full (D : Defines) (key payload : Nat) (s : ThresholdCore)
    (hfull : (s.t_net_pkt_q.tail + 1) % SPINN_THLD_PQ_LEN = s.t_net_pkt_q.head) :
    t_forwardPacket D key payload s
      = ({ s with
            pkt_recv := if D.DEBUG = true then uint (s.pkt_recv + 1) else s.pkt_recv,
            recv_fwd := if D.DEBUG = true then uint (s.recv_fwd + 1) else s.recv_fwd,
            wrng_phs := if D.DEBUG = true ∧ s.phase = SPINN_BACKPROP then
                uint (s.wrng_phs + 1) else s.wrng_phs },
         [Event.spin1_exit SPINN_QUEUE_FULL]) := by
  have e : uint (s.t_net_pkt_q.tail + 1) % SPINN_THLD_PQ_LEN
      = (s.t_net_pkt_q.tail + 1) % SPINN_THLD_PQ_LEN := uint_mod_thld_len _
  unfold t_forwardPacket
  cases hD : D.DEBUG
  · simp only [Bool.false_eq_true, if_false, false_and]
    rw [e, if_pos hfull]
  · simp only [if_true, true_and]
    rw [e, if_pos hfull]

/-- The routine `t_forwardPacket` on a queue that is not full: the packet is
counted (`DEBUG`) and stored at `tail`, `tail` advances, and the processing
thread is scheduled if the phase is FORWARD and the thread is not active. -/
theorem t_forwardPacket_room (D : Defines) (key payload : Nat) (s : ThresholdCore)
    (hroom : (s.t_net_pkt_q.tail + 1) % SPINN_THLD_PQ_LEN ≠ s.t_net_pkt_q.head) :
    t_forwardPacket D key payload s
      = ({ s with
            pkt_recv := if D.DEBUG = true then uint (s.pkt_recv + 1) else s.pkt_recv,
            recv_fwd := if D.DEBUG = true then uint (s.recv_fwd + 1) else s.recv_fwd,
            wrng_phs := if D.DEBUG = true ∧ s.phase = SPINN_BACKPROP then
                uint (s.wrng_phs + 1) else s.wrng_phs,
            t_net_pkt_q :=
              { s.t_net_pkt_q with
                queue := Function.update s.t_net_pkt_q.queue s.t_net_pkt_q.tail
                  ⟨key, payload⟩,
                tail := (s.t_net_pkt_q.tail + 1) % SPINN_THLD_PQ_LEN },
            t_active := if s.phase = SPINN_FORWARD ∧ s.t_active = false then true
              else s.t_active },
         Event.enqueued key payload ::
           (if s.phase = SPINN_FORWARD ∧ s.t_active = false then
             [Event.schedule Callback.tf_process 0 0 SPINN_TF_PROCESS_P] else [])) := by
  have e : uint (s.t_net_pkt_q.tail + 1) % SPINN_THLD_PQ_LEN
      = (s.t_net_pkt_q.tail + 1) % SPINN_THLD_PQ_LEN := uint_mod_thld_len _
  unfold t_forwardPacket
  cases hD : D.DEBUG
  · simp only [Bool.false_eq_true, if_false, false_and]
    rw [e, if_neg hroom]
    by_cases hc : s.phase = SPINN_FORWARD ∧ s.t_active = false
    · rw [if_pos hc, if_pos hc, if_pos hc]
    · rw [if_neg hc, if_neg hc, if_neg hc]
  · simp only [if_true, true_and]
    rw [e, if_neg hroom]
    by_cases hc : s.phase = SPINN_FORWARD ∧ s.t_active = false
    · rw [if_pos hc, if_pos hc, if_pos hc]
    · rw [if_neg hc, if_neg hc, if_neg hc]

/-- C34: `t_forwardPacket` on a threshold core queue that is not full
(`(tail + 1) mod SPINN_THLD_PQ_LEN ≠ head`) stores the packet at the old tail,
leaves every other entry and `head` alone and advances `tail` by one modulo
`SPINN_THLD_PQ_LEN` (256); it sets `t_active` and schedules `tf_process` with
priority `SPINN_TF_PROCESS_P` if and only if the phase is `SPINN_FORWARD` and
`t_active` is FALSE, and otherwise (in particular in the BACKPROP phase) leaves
`t_active` alone and schedules nothing.  On a full queue it calls
`spin1_exit (SPINN_QUEUE_FULL)` and nothing else, with the queue and `t_active`
as they were. -/
theorem C34_t_forwardPacket (D : Defines) (key payload : Nat) (s : ThresholdCore) :
    ((s.t_net_pkt_q.tail + 1) % SPINN_THLD_PQ_LEN ≠ s.t_net_pkt_q.head →
      (t_forwardPacket D key payload s).1.t_net_pkt_q.queue s.t_net_pkt_q.tail
          = ⟨key, payload⟩
      ∧ (∀ i, i ≠ s.t_net_pkt_q.tail →
          (t_forwardPacket D key payload s).1.t_net_pkt_q.queue i
            = s.t_net_pkt_q.queue i)
      ∧ (t_forwardPacket D key payload s).1.t_net_pkt_q.tail
          = (s.t_net_pkt_q.tail + 1) % SPINN_THLD_PQ_LEN
      ∧ (t_forwardPacket D key payload s).1.t_net_pkt_q.head = s.t_net_pkt_q.head
      ∧ ((s.phase = SPINN_FORWARD ∧ s.t_active = false) →
          (t_forwardPacket D key payload s).1.t_active = true
          ∧ (t_forwardPacket D key payload s).2
              = [Event.enqueued key payload,
                 Event.schedule Callback.tf_process 0 0 SPINN_TF_PROCESS_P])
      ∧ (¬ (s.phase = SPINN_FORWARD ∧ s.t_active = false) →
          (t_forwardPacket D key payload s).1.t_active = s.t_active
          ∧ (t_forwardPacket D key payload s).2 = [Event.enqueued key payload])
      ∧ (s.phase = SPINN_BACKPROP →
          (t_forwardPacket D key payload s).1.t_active = s.t_active
          ∧ (t_forwardPacket D key payload s).2 = [Event.enqueued key payload]))
    ∧ ((s.t_net_pkt_q.tail + 1) % SPINN_THLD_PQ_LEN = s.t_net_pkt_q.head →
      (t_forwardPacket D key payload s).2 = [Event.spin1_exit SPINN_QUEUE_FULL]
      ∧ (t_forwardPacket D key payload s).1.t_net_pkt_q = s.t_net_pkt_q
      ∧ (t_forwardPacket D key payload s).1.t_active = s.t_active)
    ∧ SPINN_THLD_PQ_LEN = 256 := by
  refine ⟨fun hroom => ?_, fun hfull => ?_, rfl⟩
  · rw [t_forwardPacket_room D key payload s hroom]
    have hnot : ∀ (h : ¬ (s.phase = SPINN_FORWARD ∧ s.t_active = false)),
        (if s.phase = SPINN_FORWARD ∧ s.t_active = false then true else s.t_active)
            = s.t_active
        ∧ Event.enqueued key payload ::
            (if s.phase = SPINN_FORWARD ∧ s.t_active = false then
              [Event.schedule Callback.tf_process 0 0 SPINN_TF_PROCESS_P] else [])
          = [Event.enqueued key payload] := by
      intro h
      rw [if_neg h, if_neg h]
      exact ⟨rfl, rfl⟩
    refine ⟨?_, ?_, rfl, rfl, ?_, hnot, ?_⟩
    · exact Function.update_same _ _ _
    · intro i hi
      exact Function.update_noteq hi _ _
    · intro h
      show (if s.phase = SPINN_FORWARD ∧ s.t_active = false then true else s.t_active)
            = true
        ∧ Event.enqueued key payload ::
            (if s.phase = SPINN_FORWARD ∧ s.t_active = false then
              [Event.schedule Callback.tf_process 0 0 SPINN_TF_PROCESS_P] else [])
          = _
      rw [if_pos h, if_pos h]
      exact ⟨rfl, rfl⟩
    · intro hb
      apply hnot
      intro h
      rw [h.1] at hb
      exact absurd hb (by decide)
  · rw [t_forwardPacket_full D key payload s hfull]
    exact ⟨rfl, rfl, rfl⟩

/-- C34 on `thr_fwd` (FORWARD phase, thread not active, empty queue) and on
`thr_full` (BACKPROP phase, `head = 0`, `tail = 255`). -/
theorem C34_t_forwardPacket_witness :
    ((t_forwardPacket D0 0x105 9 thr_fwd).1.t_net_pkt_q.queue thr_fwd.t_net_pkt_q.tail
        = ⟨0x105, 9⟩
      ∧ (t_forwardPacket D0 0x105 9 thr_fwd).1.t_net_pkt_q.tail
          = (thr_fwd.t_net_pkt_q.tail + 1) % SPINN_THLD_PQ_LEN
      ∧ (t_forwardPacket D0 0x105 9 thr_fwd).1.t_active = true
      ∧ (t_forwardPacket D0 0x105 9 thr_fwd).2
          = [Event.enqueued 0x105 9,
             Event.schedule Callback.tf_process 0 0 SPINN_TF_PROCESS_P])
    ∧ ((t_forwardPacket D0 0x105 9 thr_back_room).1.t_active = thr_back_room.t_active
      ∧ (t_forwardPacket D0 0x105 9 thr_back_room).2 = [Event.enqueued 0x105 9])
    ∧ ((t_forwardPacket D0 0x105 9 thr_full).2 = [Event.spin1_exit SPINN_QUEUE_FULL]
      ∧ (t_forwardPacket D0 0x105 9 thr_full).1.t_net_pkt_q = thr_full.t_net_pkt_q
      ∧ (t_forwardPacket D0 0x105 9 thr_full).1.t_active = thr_full.t_active) :=
  ⟨⟨((C34_t_forwardPacket D0 0x105 9 thr_fwd).1 (by decide)).1,
    ((C34_t_forwardPacket D0 0x105 9 thr_fwd).1 (by decide)).2.2.1,
    (((C34_t_forwardPacket D0 0x105 9 thr_fwd).1 (by decide)).2.2.2.2.1
      ⟨rfl, rfl⟩).1,
    (((C34_t_forwardPacket D0 0x105 9 thr_fwd).1 (by decide)).2.2.2.2.1
      ⟨rfl, rfl⟩).2⟩,
   ((C34_t_forwardPacket D0 0x105 9 thr_back_room).1 (by decide)).2.2.2.2.2.2 rfl,
   (C34_t_forwardPacket D0 0x105 9 thr_full).2.1 (by decide)⟩

/-! ## The error dot products of `wb_process` -/

/-- The work of `wb_process` on one row while the scoreboard is incomplete: the
error term is added to `w_errors[i]`, nothing is sent. -/
theorem wb_process_row_pending (D : Defines) (wcfg : w_conf_t) (key payload : Nat)
    (r : WeightCore × List Event) (i : Nat)
    (h : r.1.wb_arrived ≠ wcfg.b_all_arrived) :
    ∃ wo wl, wb_process_row D wcfg (key &&& SPINN_DELTA_MASK)
        (to_signed D.delta_bits payload) r i
      = ({ r.1 with w_outputs := wo, w_link_deltas := wl,
                    w_errors := Function.update r.1.w_errors i
                      (to_signed D.error_bits
                        (r.1.w_errors i + wb_error_term D r.1.w_weights i (key, payload))) },
         r.2) := by
  unfold wb_process_row restore_outputs wb_error_term
  simp only []
  rw [if_neg h]
  exact ⟨_, _, rfl⟩

/-- The work of `wb_process` on one row when the scoreboard is complete: the
error dot product is sent with key `bkpKey | i`, and `w_errors[i]` is cleared. -/
theorem wb_process_row_complete (D : Defines) (wcfg : w_conf_t) (key payload : Nat)
    (r : WeightCore × List Event) (i : Nat)
    (h : r.1.wb_arrived = wcfg.b_all_arrived) :
    ∃ wo wl ps sb, wb_process_row D wcfg (key &&& SPINN_DELTA_MASK)
        (to_signed D.delta_bits payload) r i
      = ({ r.1 with w_outputs := wo, w_link_deltas := wl, pkt_sent := ps, sent_bkp := sb,
                    w_errors := Function.update r.1.w_errors i 0 },
         r.2 ++ [Event.send_mc_packet (r.1.bkpKey ||| i)
           ((to_signed D.error_bits
              (r.1.w_errors i + wb_error_term D r.1.w_weights i (key, payload))
              % 2 ^ 32).toNat) true]) := by
  unfold wb_process_row restore_outputs wb_error_term
  simp only []
  rw [if_pos h]
  cases hD : D.DEBUG
  · simp only [Bool.false_eq_true, if_false, Function.update_same, Function.update_idem]
    exact ⟨_, _, _, _, rfl⟩
  · simp only [if_true, Function.update_same, Function.update_idem]
    exact ⟨_, _, _, _, rfl⟩

theorem wb_process_rows_pending (D : Defines) (wcfg : w_conf_t) (key payload : Nat)
    (r : WeightCore × List Event) (h : r.1.wb_arrived ≠ wcfg.b_all_arrived) (n : Nat) :
    ∃ wo wl, (List.range n).foldl (wb_process_row D wcfg (key &&& SPINN_DELTA_MASK)
        (to_signed D.delta_bits payload)) r
      = ({ r.1 with w_outputs := wo, w_link_deltas := wl,
                    w_errors := fun i => if i < n then
                        to_signed D.error_bits
                          (r.1.w_errors i + wb_error_term D r.1.w_weights i (key, payload))
                      else r.1.w_errors i },
         r.2) := by
  induction n with
  | zero =>
    refine ⟨r.1.w_outputs, r.1.w_link_deltas, ?_⟩
    simp only [List.range_zero, List.foldl_nil, Nat.not_lt_zero, if_false]
  | succ n ih =>
    obtain ⟨wo, wl, e⟩ := ih
    rw [List.range_succ, List.foldl_append, e, List.foldl_cons, List.foldl_nil]
    obtain ⟨wo2, wl2, e2⟩ := wb_process_row_pending D wcfg key payload
      ({ r.1 with w_outputs := wo, w_link_deltas := wl,
                  w_errors := fun i => if i < n then
                      to_signed D.error_bits
                        (r.1.w_errors i + wb_error_term D r.1.w_weights i (key, payload))
                    else r.1.w_errors i }, r.2) n h
    rw [e2]
    refine ⟨wo2, wl2, ?_⟩
    simp only [Prod.mk.injEq, WeightCore.mk.injEq, true_and, and_true]
    funext a
    by_cases ha : a = n
    · subst ha
      simp
    · have h1 : a < n + 1 ↔ a < n := by omega
      simp [Function.update_noteq ha, h1]

theorem wb_process_rows_complete (D : Defines) (wcfg : w_conf_t) (key payload : Nat)
    (r : WeightCore × List Event) (h : r.1.wb_arrived = wcfg.b_all_arrived) (n : Nat) :
    ∃ wo wl ps sb, (List.range n).foldl (wb_process_row D wcfg (key &&& SPINN_DELTA_MASK)
        (to_signed D.delta_bits payload)) r
      = ({ r.1 with w_outputs := wo, w_link_deltas := wl, pkt_sent := ps, sent_bkp := sb,
                    w_errors := fun i => if i < n then 0 else r.1.w_errors i },
         r.2 ++ (List.range n).map (fun i =>
           Event.send_mc_packet (r.1.bkpKey ||| i)
             ((to_signed D.error_bits
                (r.1.w_errors i + wb_error_term D r.1.w_weights i (key, payload))
                % 2 ^ 32).toNat) true)) := by
  induction n with
  | zero =>
    refine ⟨r.1.w_outputs, r.1.w_link_deltas, r.1.pkt_sent, r.1.sent_bkp, ?_⟩
    simp only [List.range_zero, List.foldl_nil, Nat.not_lt_zero, if_false, List.map_nil,
      List.append_nil]
  | succ n ih =>
    obtain ⟨wo, wl, ps, sb, e⟩ := ih
    rw [List.range_succ, List.foldl_append, e, List.foldl_cons, List.foldl_nil]
    obtain ⟨wo2, wl2, ps2, sb2, e2⟩ := wb_process_row_complete D wcfg key payload
      ({ r.1 with w_outputs := wo, w_link_deltas := wl, pkt_sent := ps, sent_bkp := sb,
                  w_errors := fun i => if i < n then 0 else r.1.w_errors i },
        r.2 ++ (List.range n).map (fun i =>
           Event.send_mc_packet (r.1.bkpKey ||| i)
             ((to_signed D.error_bits
                (r.1.w_errors i + wb_error_term D r.1.w_weights i (key, payload))
                % 2 ^ 32).toNat) true)) n h
    rw [e2]
    refine ⟨wo2, wl2, ps2, sb2, ?_⟩
    simp only [Prod.mk.injEq, WeightCore.mk.injEq, true_and, and_true, List.map_append,
      List.map_cons, List.map_nil, List.append_assoc, Nat.lt_irrefl, if_false]
    funext a
    by_cases ha : a = n
    · subst ha
      simp
    · have h1 : a < n + 1 ↔ a < n := by omega
      simp [Function.update_noteq ha, h1]

/-- The routine `wb_process` on one packet: mark the scoreboard, work on every
row, advance the tick if the scoreboard is complete. -/
theorem wb_process_packet_eq (D : Defines) (wcfg : w_conf_t) (mlpc : global_conf_t)
    (ex_num_events : Nat → Nat) (key payload : Nat) (s : WeightCore) :
    wb_process_packet D wcfg mlpc ex_num_events key payload s
      = (((if ((List.range wcfg.num_rows).foldl
              (wb_process_row D wcfg (key &&& SPINN_DELTA_MASK)
                (to_signed D.delta_bits payload))
              ({ s with wb_arrived := wb_mark D s.wb_arrived (key &&& SPINN_DELTA_MASK) },
                [])).1.wb_arrived = wcfg.b_all_arrived then
            wb_advance_tick D wcfg mlpc ex_num_events
              { ((List.range wcfg.num_rows).foldl
                  (wb_process_row D wcfg (key &&& SPINN_DELTA_MASK)
                    (to_signed D.delta_bits payload))
                  ({ s with wb_arrived :=
                      wb_mark D s.wb_arrived (key &&& SPINN_DELTA_MASK) }, [])).1 with
                wb_arrived := 0 }
          else (((List.range wcfg.num_rows).foldl
              (wb_process_row D wcfg (key &&& SPINN_DELTA_MASK)
                (to_signed D.delta_bits payload))
              ({ s with wb_arrived := wb_mark D s.wb_arrived (key &&& SPINN_DELTA_MASK) },
                [])).1, [])) : WeightCore × List Event).1,
         ((List.range wcfg.num_rows).foldl
              (wb_process_row D wcfg (key &&& SPINN_DELTA_MASK)
                (to_signed D.delta_bits payload))
              ({ s with wb_arrived := wb_mark D s.wb_arrived (key &&& SPINN_DELTA_MASK) },
                [])).2
          ++ ((if ((List.range wcfg.num_rows).foldl
              (wb_process_row D wcfg (key &&& SPINN_DELTA_MASK)
                (to_signed D.delta_bits payload))
              ({ s with wb_arrived := wb_mark D s.wb_arrived (key &&& SPINN_DELTA_MASK) },
                [])).1.wb_arrived = wcfg.b_all_arrived then
            wb_advance_tick D wcfg mlpc ex_num_events
              { ((List.range wcfg.num_rows).foldl
                  (wb_process_row D wcfg (key &&& SPINN_DELTA_MASK)
                    (to_signed D.delta_bits payload))
                  ({ s with wb_arrived :=
                      wb_mark D s.wb_arrived (key &&& SPINN_DELTA_MASK) }, [])).1 with
                wb_arrived := 0 }
          else (((List.range wcfg.num_rows).foldl
              (wb_process_row D wcfg (key &&& SPINN_DELTA_MASK)
                (to_signed D.delta_bits payload))
              ({ s with wb_arrived := wb_mark D s.wb_arrived (key &&& SPINN_DELTA_MASK) },
                [])).1, [])) : WeightCore × List Event).2) := by
  cases hsb : D.SPINN_USE_COUNTER_SB <;>
    simp only [wb_process_packet, wb_mark, hsb, if_true, if_false, Bool.true_eq_false]

/-- A delta packet that leaves the scoreboard incomplete adds its error terms
to `w_errors`; nothing is sent or scheduled. -/
theorem wb_process_packet_pending (D : Defines) (wcfg : w_conf_t) (mlpc : global_conf_t)
    (ex_num_events : Nat → Nat) (key payload : Nat) (s : WeightCore)
    (h : wb_mark D s.wb_arrived (key &&& SPINN_DELTA_MASK) ≠ wcfg.b_all_arrived) :
    ∃ wo wl, wb_process_packet D wcfg mlpc ex_num_events key payload s
      = ({ s with wb_arrived := wb_mark D s.wb_arrived (key &&& SPINN_DELTA_MASK),
                  w_outputs := wo, w_link_deltas := wl,
                  w_errors := fun i => if i < wcfg.num_rows then
                      to_signed D.error_bits
                        (s.w_errors i + wb_error_term D s.w_weights i (key, payload))
                    else s.w_errors i },
         []) := by
  obtain ⟨wo, wl, e⟩ := wb_process_rows_pending D wcfg key payload
    ({ s with wb_arrived := wb_mark D s.wb_arrived (key &&& SPINN_DELTA_MASK) }, [])
    h wcfg.num_rows
  rw [wb_process_packet_eq, e]
  simp only []
  rw [if_neg h]
  exact ⟨wo, wl, rfl⟩

/-- The delta packet that completes the scoreboard: one error packet is sent
for each row, `w_errors` and the scoreboard are cleared, and `wb_advance_tick`
is called. -/
theorem wb_process_packet_complete (D : Defines) (wcfg : w_conf_t) (mlpc : global_conf_t)
    (ex_num_events : Nat → Nat) (key payload : Nat) (s : WeightCore)
    (h : wb_mark D s.wb_arrived (key &&& SPINN_DELTA_MASK) = wcfg.b_all_arrived) :
    ∃ wo wl ps sb, wb_process_packet D wcfg mlpc ex_num_events key payload s
      = ((wb_advance_tick D wcfg mlpc ex_num_events
            { s with wb_arrived := 0, w_outputs := wo, w_link_deltas := wl,
                     pkt_sent := ps, sent_bkp := sb,
                     w_errors := fun i => if i < wcfg.num_rows then 0
                       else s.w_errors i }).1,
         (List.range wcfg.num_rows).map (fun i =>
             Event.send_mc_packet (s.bkpKey ||| i)
               ((to_signed D.error_bits
                  (s.w_errors i + wb_error_term D s.w_weights i (key, payload))
                  % 2 ^ 32).toNat) true)
          ++ (wb_advance_tick D wcfg mlpc ex_num_events
            { s with wb_arrived := 0, w_outputs := wo, w_link_deltas := wl,
                     pkt_sent := ps, sent_bkp := sb,
                     w_errors := fun i => if i < wcfg.num_rows then 0
                       else s.w_errors i }).2) := by
  obtain ⟨wo, wl, ps, sb, e⟩ := wb_process_rows_complete D wcfg key payload
    ({ s with wb_arrived := wb_mark D s.wb_arrived (key &&& SPINN_DELTA_MASK) }, [])
    h wcfg.num_rows
  rw [wb_process_packet_eq, e]
  simp only []
  rw [if_pos h]
  exact ⟨wo, wl, ps, sb, rfl⟩

theorem wb_process_packets_append (D : Defines) (wcfg : w_conf_t) (mlpc : global_conf_t)
    (ex_num_events : Nat → Nat) (a b : List (Nat × Nat)) :
    ∀ (s : WeightCore),
      wb_process_packets D wcfg mlpc ex_num_events (a ++ b) s
        = ((wb_process_packets D wcfg mlpc ex_num_events b
              (wb_process_packets D wcfg mlpc ex_num_events a s).1).1,
           (wb_process_packets D wcfg mlpc ex_num_events a s).2
            ++ (wb_process_packets D wcfg mlpc ex_num_events b
              (wb_process_packets D wcfg mlpc ex_num_events a s).1).2) := by
  induction a with
  | nil => intro s; simp [wb_process_packets]
  | cons kp rest ih =>
    intro s
    show wb_process_packets D wcfg mlpc ex_num_events (kp :: (rest ++ b)) s = _
    simp only [wb_process_packets, ih, List.append_assoc]

/-- While every scoreboard value on the way differs from `wcfg.b_all_arrived`,
the deltas are only accumulated: nothing is sent or scheduled, and the tick
does not advance. -/
theorem wb_process_packets_pending (D : Defines) (wcfg : w_conf_t) (mlpc : global_conf_t)
    (ex_num_events : Nat → Nat) (l : List (Nat × Nat)) :
    ∀ (s : WeightCore),
      (∀ k, 0 < k → k ≤ l.length →
        wb_marks D (l.take k) s.wb_arrived ≠ wcfg.b_all_arrived) →
      ∃ wo wl, wb_process_packets D wcfg mlpc ex_num_events l s
        = ({ s with wb_arrived := wb_marks D l s.wb_arrived,
                    w_outputs := wo, w_link_deltas := wl,
                    w_errors := fun i => if i < wcfg.num_rows then
                        wb_error_acc D s.w_weights i l (s.w_errors i)
                      else s.w_errors i },
           []) := by
  induction l with
  | nil =>
    intro s _
    refine ⟨s.w_outputs, s.w_link_deltas, ?_⟩
    simp only [wb_process_packets, wb_marks, wb_error_acc, List.foldl_nil, ite_self]
  | cons kp rest ih =>
    intro s hp
    have h1 : wb_mark D s.wb_arrived (kp.1 &&& SPINN_DELTA_MASK) ≠ wcfg.b_all_arrived :=
      hp 1 (by norm_num) (by simp)
    obtain ⟨wo, wl, e⟩ := wb_process_packet_pending D wcfg mlpc ex_num_events kp.1 kp.2 s h1
    obtain ⟨wo2, wl2, e2⟩ := ih
      { s with wb_arrived := wb_mark D s.wb_arrived (kp.1 &&& SPINN_DELTA_MASK),
               w_outputs := wo, w_link_deltas := wl,
               w_errors := fun i => if i < wcfg.num_rows then
                   to_signed D.error_bits
                     (s.w_errors i + wb_error_term D s.w_weights i (kp.1, kp.2))
                 else s.w_errors i }
      (fun k hk hkl => hp (k + 1) (by omega) (by simp only [List.length_cons]; omega))
    refine ⟨wo2, wl2, ?_⟩
    simp only [wb_process_packets, e, e2, List.append_nil, Prod.mk.injEq,
      WeightCore.mk.injEq, true_and, and_true]
    refine ⟨?_, rfl⟩
    funext i
    by_cases hi : i < wcfg.num_rows
    · simp only [hi, if_true]
      rfl
    · simp only [hi, if_false]

/-- Adding the error terms of a non-empty list of deltas one by one in
`error_t` arithmetic gives the cast of the exact sum. -/
theorem wb_error_acc_sum (D : Defines) (w : Nat → Nat → Int) (i : Nat)
    (l : List (Nat × Nat)) :
    ∀ acc : Int, l ≠ [] →
      wb_error_acc D w i l acc
        = to_signed D.error_bits (acc + (l.map (wb_error_term D w i)).sum) := by
  induction l with
  | nil => intro acc h; exact absurd rfl h
  | cons a t ih =>
    intro acc _
    cases t with
    | nil =>
      simp only [wb_error_acc, List.foldl_cons, List.foldl_nil, List.map_cons, List.map_nil,
        List.sum_cons, List.sum_nil, Int.add_zero]
    | cons b t2 =>
      have e := ih (to_signed D.error_bits (acc + wb_error_term D w i a)) (by simp)
      have e2 : wb_error_acc D w i (a :: b :: t2) acc
          = wb_error_acc D w i (b :: t2)
              (to_signed D.error_bits (acc + wb_error_term D w i a)) := rfl
      rw [e2, e, to_signed_add_left]
      congr 1
      simp only [List.map_cons, List.sum_cons]
      ring

theorem uint_add_uint (x y : Nat) : uint (uint x + y) = uint (x + y) := by
  unfold uint
  exact Nat.mod_add_mod x (2 ^ 32) y

theorem testBit_delta_index_mask (l : List (Nat × Nat)) (i : Nat) :
    (delta_index_mask l).testBit i
      = decide (i ∈ l.map (fun kp => kp.1 &&& SPINN_DELTA_MASK)) := by
  induction l with
  | nil => simp [delta_index_mask]
  | cons kp rest ih =>
    simp only [delta_index_mask, Nat.testBit_or, ih, Nat.one_shiftLeft, Nat.testBit_two_pow,
      List.map_cons, List.mem_cons]
    by_cases h1 : kp.1 &&& SPINN_DELTA_MASK = i
    · simp [h1]
    · have h2 : ¬ (i = kp.1 &&& SPINN_DELTA_MASK) := fun h => h1 h.symm
      simp [h1, h2]

/-- With the bitmask scoreboard and unit indices below 32, the scoreboard after
a list of deltas has the bits of their indices set. -/
theorem wb_marks_bitmask (D : Defines) (hsb : D.SPINN_USE_COUNTER_SB = false)
    (l : List (Nat × Nat)) :
    ∀ a : Nat, (∀ kp ∈ l, kp.1 &&& SPINN_DELTA_MASK < 32) →
      wb_marks D l a = a ||| delta_index_mask l := by
  induction l with
  | nil => intro a _; simp [wb_marks, delta_index_mask]
  | cons kp rest ih =>
    intro a hlt
    have e : wb_marks D (kp :: rest) a
        = wb_marks D rest (wb_mark D a (kp.1 &&& SPINN_DELTA_MASK)) := rfl
    have e1 : wb_mark D a (kp.1 &&& SPINN_DELTA_MASK)
        = a ||| (1 <<< (kp.1 &&& SPINN_DELTA_MASK)) := by
      unfold wb_mark
      rw [if_pos hsb, uint_one_shiftLeft _ (hlt kp (List.mem_cons_self _ _))]
    rw [e, ih _ (fun x hx => hlt x (List.mem_cons_of_mem _ hx)), e1]
    simp only [delta_index_mask, Nat.or_assoc]

/-- With the counter scoreboard, the scoreboard after a list of deltas is the
count of the deltas. -/
theorem wb_marks_counter (D : Defines) (hsb : D.SPINN_USE_COUNTER_SB = true)
    (l : List (Nat × Nat)) :
    ∀ a : Nat, a < 2 ^ 32 → wb_marks D l a = uint (a + l.length) := by
  induction l with
  | nil =>
    intro a ha
    show a = uint (a + 0)
    unfold uint
    rw [Nat.add_zero, Nat.mod_eq_of_lt ha]
  | cons kp rest ih =>
    intro a _
    have e : wb_marks D (kp :: rest) a
        = wb_marks D rest (wb_mark D a (kp.1 &&& SPINN_DELTA_MASK)) := rfl
    have e1 : wb_mark D a (kp.1 &&& SPINN_DELTA_MASK) = uint (a + 1) := by
      unfold wb_mark
      rw [if_neg (by rw [hsb]; exact Bool.noConfusion)]
    have hlt : uint (a + 1) < 2 ^ 32 := Nat.mod_lt _ (by norm_num)
    rw [e, e1, ih _ hlt, uint_add_uint, List.length_cons]
    congr 1
    omega

/-- The scoreboard of `wb_process` over a tick whose deltas arrive one per
index (bitmask scoreboard, indices below 32, `b_all_arrived` the mask of the
indices), or whose count is `b_all_arrived` (counter scoreboard): it differs
from `wcfg.b_all_arrived` until the last delta, and equals it then. -/
theorem wb_scoreboard (D : Defines) (wcfg : w_conf_t) (pre : List (Nat × Nat))
    (last : Nat × Nat)
    (hsb : (D.SPINN_USE_COUNTER_SB = false
        ∧ (∀ kp ∈ pre ++ [last], kp.1 &&& SPINN_DELTA_MASK < 32)
        ∧ ((pre ++ [last]).map (fun kp => kp.1 &&& SPINN_DELTA_MASK)).Nodup
        ∧ wcfg.b_all_arrived = delta_index_mask (pre ++ [last]))
      ∨ (D.SPINN_USE_COUNTER_SB = true
        ∧ wcfg.b_all_arrived = (pre ++ [last]).length
        ∧ (pre ++ [last]).length < 2 ^ 32)) :
    (∀ k, k ≤ pre.length → wb_marks D (pre.take k) 0 ≠ wcfg.b_all_arrived)
    ∧ wb_mark D (wb_marks D pre 0) (last.1 &&& SPINN_DELTA_MASK) = wcfg.b_all_arrived := by
  have hlast : wb_mark D (wb_marks D pre 0) (last.1 &&& SPINN_DELTA_MASK)
      = wb_marks D (pre ++ [last]) 0 := by
    simp only [wb_marks, List.foldl_append, List.foldl_cons, List.foldl_nil]
  rcases hsb with ⟨hb, hlt, hnd, hall⟩ | ⟨hc, hall, hlen⟩
  · constructor
    · intro k _ he
      have hlt2 : ∀ kp ∈ pre.take k, kp.1 &&& SPINN_DELTA_MASK < 32 := fun kp hkp =>
        hlt kp (List.mem_append_left _ (List.mem_of_mem_take hkp))
      rw [wb_marks_bitmask D hb _ 0 hlt2, Nat.zero_or, hall] at he
      rw [List.map_append, List.nodup_append] at hnd
      have hin : last.1 &&& SPINN_DELTA_MASK
          ∈ List.map (fun kp => kp.1 &&& SPINN_DELTA_MASK) [last] := by simp
      have hnot : last.1 &&& SPINN_DELTA_MASK
          ∉ List.map (fun kp => kp.1 &&& SPINN_DELTA_MASK) (pre.take k) := by
        intro hm
        have hm2 : last.1 &&& SPINN_DELTA_MASK
            ∈ List.map (fun kp => kp.1 &&& SPINN_DELTA_MASK) pre := by
          rw [List.mem_map] at hm ⊢
          obtain ⟨x, hx, hxe⟩ := hm
          exact ⟨x, List.mem_of_mem_take hx, hxe⟩
        exact hnd.2.2 hm2 hin
      have hyes : last.1 &&& SPINN_DELTA_MASK
          ∈ List.map (fun kp => kp.1 &&& SPINN_DELTA_MASK) (pre ++ [last]) := by
        rw [List.map_append]
        exact List.mem_append_right _ hin
      have hbit : (delta_index_mask (pre.take k)).testBit (last.1 &&& SPINN_DELTA_MASK)
          = (delta_index_mask (pre ++ [last])).testBit (last.1 &&& SPINN_DELTA_MASK) := by
        rw [he]
      rw [testBit_delta_index_mask, testBit_delta_index_mask, decide_eq_false hnot,
        decide_eq_true hyes] at hbit
      exact Bool.noConfusion hbit
    · rw [hlast, wb_marks_bitmask D hb _ 0 hlt, Nat.zero_or, hall]
  · constructor
    · intro k hk he
      rw [wb_marks_counter D hc _ 0 (by norm_num), hall] at he
      have hl : (pre.take k).length = k := by rw [List.length_take]; omega
      simp only [List.length_append, List.length_cons, List.length_nil] at he hlen
      rw [hl] at he
      unfold uint at he
      rw [Nat.mod_eq_of_lt (by omega)] at he
      omega
    · rw [hlast, wb_marks_counter D hc _ 0 (by norm_num), hall]
      unfold uint
      rw [Nat.zero_add, Nat.mod_eq_of_lt hlen]

theorem sent_packets_append (a b : List Event) :
    sent_packets (a ++ b) = sent_packets a ++ sent_packets b := by
  induction a with
  | nil => rfl
  | cons e t ih => cases e <;> simp [sent_packets, ih]

/-- The routine `wb_advance_tick` leaves `w_errors` and the scoreboard alone and
sends no packet with a payload. -/
theorem wb_advance_tick_errors (D : Defines) (wcfg : w_conf_t) (mlpc : global_conf_t)
    (ex_num_events : Nat → Nat) (s : WeightCore) :
    (wb_advance_tick D wcfg mlpc ex_num_events s).1.w_errors = s.w_errors
    ∧ (wb_advance_tick D wcfg mlpc ex_num_events s).1.wb_arrived = s.wb_arrived
    ∧ (wb_advance_tick D wcfg mlpc ex_num_events s).1.w_delta_pkt_q = s.w_delta_pkt_q
    ∧ (sent_packets (wb_advance_tick D wcfg mlpc ex_num_events s).2).filter
        (fun p => p.2.2) = [] := by
  by_cases h : s.tick = SPINN_WB_END_TICK
  · rw [wb_advance_tick_end D wcfg mlpc ex_num_events s h]
    obtain ⟨a, b, c, e⟩ := w_advance_example_writes D wcfg mlpc ex_num_events
      { s with tot_tick := if D.DEBUG = true then uint (s.tot_tick + 1) else s.tot_tick,
               bkpKey := s.bkpKey ^^^ SPINN_COLOUR_KEY,
               tick := SPINN_W_INIT_TICK,
               phase := SPINN_FORWARD }
    rw [e]
    split_ifs <;> exact ⟨rfl, rfl, rfl, rfl⟩
  · rw [wb_advance_tick_countdown D wcfg mlpc ex_num_events s h]
    exact ⟨rfl, rfl, rfl, rfl⟩

/-- C33: the error packets of `wb_process` over one tick.  The deltas of the
tick are the packets `pre` followed by `last`; they arrive one per unit index
(bitmask scoreboard: indices below 32, `wcfg.b_all_arrived` the mask of the
indices) or, with the counter scoreboard, `wcfg.b_all_arrived` is their count.
Starting with `wb_arrived = 0` and `w_errors` all zero: after every number of
deltas short of the whole list nothing has been sent or scheduled, the
scoreboard differs from `wcfg.b_all_arrived`, and `bkpKey` and `tick` are as
they were.  The last delta sends one packet with a payload for each row
`i < wcfg.num_rows`, in the order of the rows, with key `bkpKey | i` (the key on
entry, before the colour flip) and payload the sum over all the deltas of
`(w_weights[i][inx] * delta) >> (SPINN_WEIGHT_SHIFT + SPINN_DELTA_SHIFT -
SPINN_ERROR_SHIFT)` in `error_t` arithmetic; then it calls `wb_advance_tick`,
once, on a state with `wb_arrived = 0`, every `w_errors[i] = 0` and the key and
tick of the entry, and what follows in the record is the record of that call.
On return `wb_arrived` is 0, every `w_errors[i]` is 0, and the colour of
`bkpKey` has been flipped once. -/
theorem C33_backprop_error_packets (D : Defines) (wcfg : w_conf_t) (mlpc : global_conf_t)
    (ex_num_events : Nat → Nat) (pre : List (Nat × Nat)) (last : Nat × Nat)
    (s : WeightCore)
    (hsb : (D.SPINN_USE_COUNTER_SB = false
        ∧ (∀ kp ∈ pre ++ [last], kp.1 &&& SPINN_DELTA_MASK < 32)
        ∧ ((pre ++ [last]).map (fun kp => kp.1 &&& SPINN_DELTA_MASK)).Nodup
        ∧ wcfg.b_all_arrived = delta_index_mask (pre ++ [last]))
      ∨ (D.SPINN_USE_COUNTER_SB = true
        ∧ wcfg.b_all_arrived = (pre ++ [last]).length
        ∧ (pre ++ [last]).length < 2 ^ 32))
    (h0 : s.wb_arrived = 0) (he : ∀ i, s.w_errors i = 0) :
    (∀ k, k ≤ pre.length →
      (wb_process_packets D wcfg mlpc ex_num_events (pre.take k) s).2 = []
      ∧ (wb_process_packets D wcfg mlpc ex_num_events (pre.take k) s).1.wb_arrived
          ≠ wcfg.b_all_arrived
      ∧ (wb_process_packets D wcfg mlpc ex_num_events (pre.take k) s).1.bkpKey = s.bkpKey
      ∧ (wb_process_packets D wcfg mlpc ex_num_events (pre.take k) s).1.tick = s.tick)
    ∧ (∃ s2 : WeightCore,
        s2.wb_arrived = 0 ∧ (∀ i, s2.w_errors i = 0) ∧ s2.bkpKey = s.bkpKey
        ∧ s2.tick = s.tick ∧ s2.phase = s.phase ∧ s2.w_weights = s.w_weights
        ∧ wb_process_packets D wcfg mlpc ex_num_events (pre ++ [last]) s
          = ((wb_advance_tick D wcfg mlpc ex_num_events s2).1,
             (List.range wcfg.num_rows).map (fun i =>
                 Event.send_mc_packet (s.bkpKey ||| i)
                   (wb_error_total D s.w_weights i (pre ++ [last])) true)
              ++ (wb_advance_tick D wcfg mlpc ex_num_events s2).2))
    ∧ (sent_packets (wb_process_packets D wcfg mlpc ex_num_events (pre ++ [last]) s).2).filter
          (fun p => p.2.2)
        = (List.range wcfg.num_rows).map (fun i =>
            (s.bkpKey ||| i, wb_error_total D s.w_weights i (pre ++ [last]), true))
    ∧ (wb_process_packets D wcfg mlpc ex_num_events (pre ++ [last]) s).1.wb_arrived = 0
    ∧ (∀ i, (wb_process_packets D wcfg mlpc ex_num_events (pre ++ [last]) s).1.w_errors i
        = 0)
    ∧ (wb_process_packets D wcfg mlpc ex_num_events (pre ++ [last]) s).1.bkpKey
        = s.bkpKey ^^^ SPINN_COLOUR_KEY := by
  obtain ⟨hpend, hdone⟩ := wb_scoreboard D wcfg pre last hsb
  rw [← h0] at hpend hdone
  -- the deltas before the last one
  have hpre : ∀ k, k ≤ pre.length → ∃ wo wl,
      wb_process_packets D wcfg mlpc ex_num_events (pre.take k) s
        = ({ s with wb_arrived := wb_marks D (pre.take k) s.wb_arrived,
                    w_outputs := wo, w_link_deltas := wl,
                    w_errors := fun i => if i < wcfg.num_rows then
                        wb_error_acc D s.w_weights i (pre.take k) (s.w_errors i)
                      else s.w_errors i },
           []) := by
    intro k hk
    apply wb_process_packets_pending
    intro j _ hj
    rw [List.take_take]
    exact hpend _ (le_trans (min_le_right _ _) hk)
  obtain ⟨wo, wl, e1⟩ := hpre pre.length (le_refl _)
  rw [List.take_length] at e1
  -- the last delta
  obtain ⟨wo2, wl2, ps, sb, e2⟩ := wb_process_packet_complete D wcfg mlpc ex_num_events
    last.1 last.2
    { s with wb_arrived := wb_marks D pre s.wb_arrived,
             w_outputs := wo, w_link_deltas := wl,
             w_errors := fun i => if i < wcfg.num_rows then
                 wb_error_acc D s.w_weights i pre (s.w_errors i)
               else s.w_errors i }
    hdone
  have hpay : ∀ i, i < wcfg.num_rows →
      (to_signed D.error_bits
          ((if i < wcfg.num_rows then wb_error_acc D s.w_weights i pre (s.w_errors i)
            else s.w_errors i) + wb_error_term D s.w_weights i (last.1, last.2))
          % 2 ^ 32).toNat
        = wb_error_total D s.w_weights i (pre ++ [last]) := by
    intro i hi
    have hacc : to_signed D.error_bits
        (wb_error_acc D s.w_weights i pre (s.w_errors i)
          + wb_error_term D s.w_weights i (last.1, last.2))
        = wb_error_acc D s.w_weights i (pre ++ [last]) (s.w_errors i) := by
      simp only [wb_error_acc, List.foldl_append, List.foldl_cons, List.foldl_nil]
    rw [if_pos hi, hacc, wb_error_acc_sum D s.w_weights i (pre ++ [last]) _ (by simp),
      he i, Int.zero_add]
    rfl
  have hsends : (List.range wcfg.num_rows).map (fun i =>
        Event.send_mc_packet (s.bkpKey ||| i)
          ((to_signed D.error_bits
            ((if i < wcfg.num_rows then wb_error_acc D s.w_weights i pre (s.w_errors i)
              else s.w_errors i) + wb_error_term D s.w_weights i (last.1, last.2))
            % 2 ^ 32).toNat) true)
      = (List.range wcfg.num_rows).map (fun i =>
        Event.send_mc_packet (s.bkpKey ||| i)
          (wb_error_total D s.w_weights i (pre ++ [last])) true) := by
    apply List.map_congr_left
    intro i hi
    rw [hpay i (List.mem_range.mp hi)]
  have hall : wb_process_packets D wcfg mlpc ex_num_events (pre ++ [last]) s
      = ((wb_advance_tick D wcfg mlpc ex_num_events
            { s with wb_arrived := 0, w_outputs := wo2, w_link_deltas := wl2,
                     pkt_sent := ps, sent_bkp := sb,
                     w_errors := fun i => if i < wcfg.num_rows then 0
                       else (if i < wcfg.num_rows then
                           wb_error_acc D s.w_weights i pre (s.w_errors i)
                         else s.w_errors i) }).1,
         (List.range wcfg.num_rows).map (fun i =>
             Event.send_mc_packet (s.bkpKey ||| i)
               (wb_error_total D s.w_weights i (pre ++ [last])) true)
          ++ (wb_advance_tick D wcfg mlpc ex_num_events
            { s with wb_arrived := 0, w_outputs := wo2, w_link_deltas := wl2,
                     pkt_sent := ps, sent_bkp := sb,
                     w_errors := fun i => if i < wcfg.num_rows then 0
                       else (if i < wcfg.num_rows then
                           wb_error_acc D s.w_weights i pre (s.w_errors i)
                         else s.w_errors i) }).2) := by
    rw [wb_process_packets_append, e1]
    show ((wb_process_packet D wcfg mlpc ex_num_events last.1 last.2 _).1,
      [] ++ ((wb_process_packet D wcfg mlpc ex_num_events last.1 last.2 _).2 ++ [])) = _
    rw [e2, List.nil_append, List.append_nil]
    simp only []
    rw [hsends]
  have hz : ∀ i, (fun i => if i < wcfg.num_rows then (0 : Int)
      else (if i < wcfg.num_rows then wb_error_acc D s.w_weights i pre (s.w_errors i)
        else s.w_errors i)) i = 0 := by
    intro i
    by_cases hi : i < wcfg.num_rows
    · simp only [hi, if_true]
    · simp only [hi, if_false]
      exact he i
  obtain ⟨t1, t2, _, t4⟩ := wb_advance_tick_errors D wcfg mlpc ex_num_events
    { s with wb_arrived := 0, w_outputs := wo2, w_link_deltas := wl2,
             pkt_sent := ps, sent_bkp := sb,
             w_errors := fun i => if i < wcfg.num_rows then 0
               else (if i < wcfg.num_rows then
                   wb_error_acc D s.w_weights i pre (s.w_errors i)
                 else s.w_errors i) }
  obtain ⟨t5, _⟩ := wb_advance_tick_key D wcfg mlpc ex_num_events
    { s with wb_arrived := 0, w_outputs := wo2, w_link_deltas := wl2,
             pkt_sent := ps, sent_bkp := sb,
             w_errors := fun i => if i < wcfg.num_rows then 0
               else (if i < wcfg.num_rows then
                   wb_error_acc D s.w_weights i pre (s.w_errors i)
                 else s.w_errors i) }
  refine ⟨?_,
    ⟨{ s with wb_arrived := 0, w_outputs := wo2, w_link_deltas := wl2,
              pkt_sent := ps, sent_bkp := sb,
              w_errors := fun i => if i < wcfg.num_rows then 0
                else (if i < wcfg.num_rows then
                    wb_error_acc D s.w_weights i pre (s.w_errors i)
                  else s.w_errors i) }, rfl, hz, rfl, rfl, rfl, rfl, hall⟩, ?_, ?_, ?_, ?_⟩
  · intro k hk
    obtain ⟨wo3, wl3, e3⟩ := hpre k hk
    rw [e3]
    exact ⟨rfl, hpend k hk, rfl, rfl⟩
  · rw [hall]
    show (sent_packets _).filter _ = _
    rw [sent_packets_append, List.filter_append, t4, List.append_nil]
    generalize wcfg.num_rows = n
    induction n with
    | zero => rfl
    | succ n ih =>
      rw [List.range_succ, List.map_append, List.map_append, sent_packets_append,
        List.filter_append, ih]
      rfl
  · rw [hall]
    exact t2
  · intro i
    rw [hall]
    show (wb_advance_tick D wcfg mlpc ex_num_events _).1.w_errors i = 0
    rw [t1]
    exact hz i
  · rw [hall]
    exact t5

/-- C33 with the bitmask scoreboard of `D0` on `wgt_with 0 0`: two rows, and
the deltas of units 0, 1 and 3 (`wcfg0.b_all_arrived = 0xb`) arriving in that
order. -/
theorem C33_backprop_error_packets_witness :
    (sent_packets (wb_process_packets D0 wcfg0 mlpc0 ex_events0
          ([(0x800, 5), (0x801, 6)] ++ [(0x803, 7)]) (wgt_with 0 0)).2).filter
          (fun p => p.2.2)
        = (List.range wcfg0.num_rows).map (fun i =>
            ((wgt_with 0 0).bkpKey ||| i,
             wb_error_total D0 (wgt_with 0 0).w_weights i
               ([(0x800, 5), (0x801, 6)] ++ [(0x803, 7)]), true))
    ∧ (wb_process_packets D0 wcfg0 mlpc0 ex_events0
          ([(0x800, 5), (0x801, 6)] ++ [(0x803, 7)]) (wgt_with 0 0)).1.wb_arrived = 0
    ∧ (∀ i, (wb_process_packets D0 wcfg0 mlpc0 ex_events0
          ([(0x800, 5), (0x801, 6)] ++ [(0x803, 7)]) (wgt_with 0 0)).1.w_errors i = 0)
    ∧ (wb_process_packets D0 wcfg0 mlpc0 ex_events0
          ([(0x800, 5), (0x801, 6)] ++ [(0x803, 7)]) (wgt_with 0 0)).1.bkpKey
        = (wgt_with 0 0).bkpKey ^^^ SPINN_COLOUR_KEY :=
  (C33_backprop_error_packets D0 wcfg0 mlpc0 ex_events0 [(0x800, 5), (0x801, 6)]
    (0x803, 7) (wgt_with 0 0)
    (Or.inl ⟨rfl, by decide, by decide, by decide⟩) rfl (fun _ => rfl)).2.2

/-! ## The length of a run of the weight core -/

theorem succ_mod_div (N j : Nat) (hN : 0 < N) :
    (j % N + 1 = N → (j + 1) % N = 0 ∧ (j + 1) / N = j / N + 1)
    ∧ (j % N + 1 ≠ N → (j + 1) % N = j % N + 1 ∧ (j + 1) / N = j / N) := by
  have hd := Nat.div_add_mod j N
  have hlt := Nat.mod_lt j hN
  constructor
  · intro h
    have e : j + 1 = N * (j / N + 1) := by
      rw [Nat.mul_succ]; omega
    rw [e]
    exact ⟨Nat.mul_mod_right _ _, Nat.mul_div_cancel_left _ hN⟩
  · intro h
    have h2 : j % N + 1 < N := by omega
    have e : j + 1 = N * (j / N) + (j % N + 1) := by omega
    constructor
    · rw [e, Nat.mul_add_mod]
      exact Nat.mod_eq_of_lt h2
    · rw [e, Nat.mul_add_div hN, Nat.div_eq_of_lt h2]
      rfl

theorem pred_mul_mod_div (N E : Nat) (hN : 0 < N) (hE : 0 < E) :
    (N * E - 1) % N = N - 1 ∧ (N * E - 1) / N = E - 1 := by
  obtain ⟨e, rfl⟩ : ∃ e, E = e + 1 := ⟨E - 1, by omega⟩
  have h : N * (e + 1) - 1 = N * e + (N - 1) := by
    rw [Nat.mul_succ]; omega
  rw [h, Nat.mul_add_mod, Nat.mul_add_div hN, Nat.mod_eq_of_lt (by omega),
    Nat.div_eq_of_lt (by omega)]
  exact ⟨rfl, rfl⟩

theorem uint_of_lt (n : Nat) (h : n < 2 ^ 32) : uint n = n := by
  unfold uint
  exact Nat.mod_eq_of_lt h

/-- The calls of a run before the call that stops it: after `j` calls the
example counter is `j mod num_examples`, the epoch is `j / num_examples`, and
every call has sent the forward sync packet and nothing else. -/
theorem w_advance_examples_run (D : Defines) (wcfg : w_conf_t) (mlpc : global_conf_t)
    (ex_num_events : Nat → Nat) (s : WeightCore)
    (hN : 1 ≤ mlpc.num_examples) (hN32 : mlpc.num_examples < 2 ^ 32)
    (hE32 : mlpc.num_epochs < 2 ^ 32)
    (hx : s.w_example = 0) (he : s.epoch = 0) (j : Nat)
    (hj : j < mlpc.num_examples * mlpc.num_epochs) :
    (w_advance_examples D wcfg mlpc ex_num_events j s).1.w_example = j % mlpc.num_examples
    ∧ (w_advance_examples D wcfg mlpc ex_num_events j s).1.epoch = j / mlpc.num_examples
    ∧ (w_advance_examples D wcfg mlpc ex_num_events j s).2
        = List.replicate j (Event.send_mc_packet s.wf_sync_key 0 false)
    ∧ (w_advance_examples D wcfg mlpc ex_num_events j s).1.wf_sync_key = s.wf_sync_key
    ∧ (w_advance_examples D wcfg mlpc ex_num_events j s).1.wght_ups
        = (if (mlpc.training = true ∧ D.DEBUG = true) ∧ 0 < j / mlpc.num_examples then
            uint (s.wght_ups + j / mlpc.num_examples) else s.wght_ups) := by
  induction j with
  | zero =>
    refine ⟨?_, ?_, rfl, rfl, ?_⟩
    · rw [Nat.zero_mod]; exact hx
    · rw [Nat.zero_div]; exact he
    · rw [Nat.zero_div, if_neg (fun h => Nat.lt_irrefl 0 h.2)]
      rfl
  | succ j ih =>
    obtain ⟨i1, i2, i3, i4, i5⟩ := ih (by omega)
    have hmod := Nat.mod_lt j (show 0 < mlpc.num_examples by omega)
    have hdiv : j / mlpc.num_examples < mlpc.num_epochs :=
      Nat.div_lt_of_lt_mul (by omega)
    have hdiv2 : (j + 1) / mlpc.num_examples < mlpc.num_epochs :=
      Nat.div_lt_of_lt_mul hj
    obtain ⟨m1, m2⟩ := succ_mod_div mlpc.num_examples j (by omega)
    have ux : uint ((w_advance_examples D wcfg mlpc ex_num_events j s).1.w_example + 1)
        = j % mlpc.num_examples + 1 := by
      rw [i1]; exact uint_of_lt _ (by omega)
    have ue : uint ((w_advance_examples D wcfg mlpc ex_num_events j s).1.epoch + 1)
        = j / mlpc.num_examples + 1 := by
      rw [i2]; exact uint_of_lt _ (by omega)
    obtain ⟨ww, wc, wl, e⟩ := w_advance_example_writes D wcfg mlpc ex_num_events
      (w_advance_examples D wcfg mlpc ex_num_events j s).1
    have hstep : w_advance_examples D wcfg mlpc ex_num_events (j + 1) s
        = ((w_advance_example D wcfg mlpc ex_num_events
              (w_advance_examples D wcfg mlpc ex_num_events j s).1).1,
           (w_advance_examples D wcfg mlpc ex_num_events j s).2
            ++ (w_advance_example D wcfg mlpc ex_num_events
              (w_advance_examples D wcfg mlpc ex_num_events j s).1).2) := rfl
    by_cases hc : j % mlpc.num_examples + 1 = mlpc.num_examples
    · obtain ⟨n1, n2⟩ := m1 hc
      have c1 : uint ((w_advance_examples D wcfg mlpc ex_num_events j s).1.w_example + 1)
          ≥ mlpc.num_examples := by rw [ux, hc]
      have c2 : ¬ uint ((w_advance_examples D wcfg mlpc ex_num_events j s).1.epoch + 1)
          ≥ mlpc.num_epochs := by rw [ue]; omega
      rw [if_pos c1, if_neg c2] at e
      rw [hstep, e]
      refine ⟨?_, ?_, ?_, ?_, ?_⟩
      · exact n1.symm
      · show uint ((w_advance_examples D wcfg mlpc ex_num_events j s).1.epoch + 1) = _
        rw [ue, n2]
      · show (w_advance_examples D wcfg mlpc ex_num_events j s).2
          ++ [Event.send_mc_packet
            (w_advance_examples D wcfg mlpc ex_num_events j s).1.wf_sync_key 0 false] = _
        rw [i3, i4, List.replicate_succ']
      · exact i4
      · show (if mlpc.training = true ∧ D.DEBUG = true then
            uint ((w_advance_examples D wcfg mlpc ex_num_events j s).1.wght_ups + 1)
          else (w_advance_examples D wcfg mlpc ex_num_events j s).1.wght_ups) = _
        rw [i5, n2]
        by_cases ht : mlpc.training = true ∧ D.DEBUG = true
        · have hpos : (mlpc.training = true ∧ D.DEBUG = true)
              ∧ 0 < j / mlpc.num_examples + 1 := ⟨ht, Nat.succ_pos _⟩
          rw [if_pos ht, if_pos hpos]
          by_cases h0 : 0 < j / mlpc.num_examples
          · have hp0 : (mlpc.training = true ∧ D.DEBUG = true)
                ∧ 0 < j / mlpc.num_examples := ⟨ht, h0⟩
            rw [if_pos hp0, uint_add_uint, Nat.add_assoc]
          · have hn0 : ¬ ((mlpc.training = true ∧ D.DEBUG = true)
                ∧ 0 < j / mlpc.num_examples) := fun h => h0 h.2
            have hz : j / mlpc.num_examples = 0 := by omega
            rw [if_neg hn0, hz]
        · have hn1 : ¬ ((mlpc.training = true ∧ D.DEBUG = true)
              ∧ 0 < j / mlpc.num_examples) := fun h => ht h.1
          have hn2 : ¬ ((mlpc.training = true ∧ D.DEBUG = true)
              ∧ 0 < j / mlpc.num_examples + 1) := fun h => ht h.1
          rw [if_neg ht, if_neg hn1, if_neg hn2]
    · obtain ⟨n1, n2⟩ := m2 hc
      have c1 : ¬ uint ((w_advance_examples D wcfg mlpc ex_num_events j s).1.w_example + 1)
          ≥ mlpc.num_examples := by rw [ux]; omega
      rw [if_neg c1] at e
      rw [hstep, e]
      refine ⟨?_, ?_, ?_, ?_, ?_⟩
      · show uint ((w_advance_examples D wcfg mlpc ex_num_events j s).1.w_example + 1) = _
        rw [ux, n1]
      · show (w_advance_examples D wcfg mlpc ex_num_events j s).1.epoch = _
        rw [i2, n2]
      · show (w_advance_examples D wcfg mlpc ex_num_events j s).2
          ++ [Event.send_mc_packet
            (w_advance_examples D wcfg mlpc ex_num_events j s).1.wf_sync_key 0 false] = _
        rw [i3, i4, List.replicate_succ']
      · exact i4
      · show (w_advance_examples D wcfg mlpc ex_num_events j s).1.wght_ups = _
        rw [i5, n2]

/-- In a row of `N` calls the example counter reaches `N` once. -/
theorem filter_last_of_range (N : Nat) (hN : 0 < N) :
    (List.range N).filter (fun k => decide (k + 1 = N)) = [N - 1] := by
  obtain ⟨m, rfl⟩ : ∃ m, N = m + 1 := ⟨N - 1, by omega⟩
  rw [List.range_succ, List.filter_append]
  have h1 : (List.range m).filter (fun k => decide (k + 1 = m + 1)) = [] := by
    rw [List.filter_eq_nil_iff]
    intro a ha
    have := List.mem_range.mp ha
    simp only [decide_eq_true_eq]
    omega
  rw [h1]
  simp

/-- In `E` rows of `N` calls the example counter reaches `N` exactly `E`
times. -/
theorem count_row_ends (N : Nat) (hN : 0 < N) (E : Nat) :
    ((List.range (N * E)).filter (fun k => decide (k % N + 1 = N))).length = E := by
  induction E with
  | zero => simp
  | succ E ih =>
    rw [Nat.mul_succ, List.range_add, List.filter_append, List.length_append, ih,
      List.filter_map, List.length_map]
    have h : (List.range N).filter
        ((fun k => decide (k % N + 1 = N)) ∘ fun x => N * E + x)
        = (List.range N).filter (fun k => decide (k + 1 = N)) := by
      apply List.filter_congr
      intro k hk
      have hk2 := List.mem_range.mp hk
      simp only [Function.comp, Nat.mul_add_mod, Nat.mod_eq_of_lt hk2]
    rw [h, filter_last_of_range N hN]
    rfl

theorem count_stops_append (a b : List Event) :
    count_stops (a ++ b) = count_stops a + count_stops b := by
  induction a with
  | nil => simp [count_stops]
  | cons e t ih => cases e <;> simp [count_stops, ih, Nat.add_assoc]

theorem count_stops_replicate_send (n k p : Nat) (w : Bool) :
    count_stops (List.replicate n (Event.send_mc_packet k p w)) = 0 := by
  induction n with
  | zero => rfl
  | succ n ih => rw [List.replicate_succ]; exact ih

/-- C39: the length of a run of the weight core.  For `mlpc.num_examples ≥ 1`
and `mlpc.num_epochs ≥ 1` (both `uint`), starting from `example = 0` and
`epoch = 0`: each of the first `num_examples * num_epochs - 1` calls of
`w_advance_example` sends the forward sync packet and nothing else, so no record
before the last call holds a `spin1_stop`; the call number
`num_examples * num_epochs` calls `spin1_stop` and nothing else (no forward
sync packet).  In training mode the calls of the run that reach
`w_update_weights` number exactly `num_epochs`, and in a `DEBUG` build
`wght_ups` has grown by `num_epochs`; outside training mode none does. -/
theorem C39_run_length (D : Defines) (wcfg : w_conf_t) (mlpc : global_conf_t)
    (ex_num_events : Nat → Nat) (s : WeightCore)
    (hN : 1 ≤ mlpc.num_examples) (hE : 1 ≤ mlpc.num_epochs)
    (hN32 : mlpc.num_examples < 2 ^ 32) (hE32 : mlpc.num_epochs < 2 ^ 32)
    (hx : s.w_example = 0) (he : s.epoch = 0) :
    (∀ j, j + 1 < mlpc.num_examples * mlpc.num_epochs →
      (w_advance_example D wcfg mlpc ex_num_events
          (w_advance_examples D wcfg mlpc ex_num_events j s).1).2
        = [Event.send_mc_packet s.wf_sync_key 0 false])
    ∧ (w_advance_example D wcfg mlpc ex_num_events
          (w_advance_examples D wcfg mlpc ex_num_events
            (mlpc.num_examples * mlpc.num_epochs - 1) s).1).2
        = [Event.spin1_stop]
    ∧ (∀ j, j < mlpc.num_examples * mlpc.num_epochs →
        count_stops (w_advance_examples D wcfg mlpc ex_num_events j s).2 = 0)
    ∧ (w_advance_examples D wcfg mlpc ex_num_events
          (mlpc.num_examples * mlpc.num_epochs) s).2
        = List.replicate (mlpc.num_examples * mlpc.num_epochs - 1)
            (Event.send_mc_packet s.wf_sync_key 0 false) ++ [Event.spin1_stop]
    ∧ count_stops (w_advance_examples D wcfg mlpc ex_num_events
          (mlpc.num_examples * mlpc.num_epochs) s).2 = 1
    ∧ (mlpc.training = true →
        w_update_calls D wcfg mlpc ex_num_events
          (mlpc.num_examples * mlpc.num_epochs) s = mlpc.num_epochs)
    ∧ (mlpc.training = false →
        w_update_calls D wcfg mlpc ex_num_events
          (mlpc.num_examples * mlpc.num_epochs) s = 0)
    ∧ (mlpc.training = true → D.DEBUG = true →
        (w_advance_examples D wcfg mlpc ex_num_events
          (mlpc.num_examples * mlpc.num_epochs) s).1.wght_ups
          = uint (s.wght_ups + mlpc.num_epochs)) := by
  have hrun := w_advance_examples_run D wcfg mlpc ex_num_events s hN hN32 hE32 hx he
  have hpos : 0 < mlpc.num_examples * mlpc.num_epochs := Nat.mul_pos hN hE
  have hstep : ∀ j, w_advance_examples D wcfg mlpc ex_num_events (j + 1) s
      = ((w_advance_example D wcfg mlpc ex_num_events
            (w_advance_examples D wcfg mlpc ex_num_events j s).1).1,
         (w_advance_examples D wcfg mlpc ex_num_events j s).2
          ++ (w_advance_example D wcfg mlpc ex_num_events
            (w_advance_examples D wcfg mlpc ex_num_events j s).1).2) := fun _ => rfl
  -- the last call
  obtain ⟨l1, l2, l3, l4, l5⟩ := hrun (mlpc.num_examples * mlpc.num_epochs - 1) (by omega)
  obtain ⟨q1, q2⟩ := pred_mul_mod_div mlpc.num_examples mlpc.num_epochs hN hE
  rw [q1] at l1
  rw [q2] at l2 l5
  obtain ⟨ww, wc, wl, e⟩ := w_advance_example_writes D wcfg mlpc ex_num_events
    (w_advance_examples D wcfg mlpc ex_num_events
      (mlpc.num_examples * mlpc.num_epochs - 1) s).1
  have c1 : uint ((w_advance_examples D wcfg mlpc ex_num_events
      (mlpc.num_examples * mlpc.num_epochs - 1) s).1.w_example + 1)
      ≥ mlpc.num_examples := by
    rw [l1, uint_of_lt _ (by omega)]; omega
  have c2 : uint ((w_advance_examples D wcfg mlpc ex_num_events
      (mlpc.num_examples * mlpc.num_epochs - 1) s).1.epoch + 1)
      ≥ mlpc.num_epochs := by
    rw [l2, uint_of_lt _ (by omega)]; omega
  rw [if_pos c1, if_pos c2] at e
  have hlast : (w_advance_example D wcfg mlpc ex_num_events
      (w_advance_examples D wcfg mlpc ex_num_events
        (mlpc.num_examples * mlpc.num_epochs - 1) s).1).2 = [Event.spin1_stop] := by
    rw [e]
  have hfull : w_advance_examples D wcfg mlpc ex_num_events
      (mlpc.num_examples * mlpc.num_epochs) s
      = w_advance_examples D wcfg mlpc ex_num_events
          (mlpc.num_examples * mlpc.num_epochs - 1 + 1) s := by
    rw [Nat.sub_add_cancel hpos]
  have hev : (w_advance_examples D wcfg mlpc ex_num_events
      (mlpc.num_examples * mlpc.num_epochs) s).2
      = List.replicate (mlpc.num_examples * mlpc.num_epochs - 1)
          (Event.send_mc_packet s.wf_sync_key 0 false) ++ [Event.spin1_stop] := by
    rw [hfull, hstep]
    show (w_advance_examples D wcfg mlpc ex_num_events
        (mlpc.num_examples * mlpc.num_epochs - 1) s).2
      ++ (w_advance_example D wcfg mlpc ex_num_events
        (w_advance_examples D wcfg mlpc ex_num_events
          (mlpc.num_examples * mlpc.num_epochs - 1) s).1).2 = _
    rw [hlast, l3]
  have hcond : ∀ k, k < mlpc.num_examples * mlpc.num_epochs →
      (uint ((w_advance_examples D wcfg mlpc ex_num_events k s).1.w_example + 1)
          ≥ mlpc.num_examples
        ↔ k % mlpc.num_examples + 1 = mlpc.num_examples) := by
    intro k hk
    obtain ⟨i1, _⟩ := hrun k hk
    have hmod := Nat.mod_lt k (show 0 < mlpc.num_examples by omega)
    rw [i1, uint_of_lt _ (by omega)]
    omega
  refine ⟨?_, hlast, ?_, hev, ?_, ?_, ?_, ?_⟩
  · intro j hj
    obtain ⟨_, _, a3, _⟩ := hrun j (by omega)
    obtain ⟨_, _, b3, _⟩ := hrun (j + 1) hj
    rw [hstep] at b3
    have b4 : (w_advance_examples D wcfg mlpc ex_num_events j s).2
        ++ (w_advance_example D wcfg mlpc ex_num_events
          (w_advance_examples D wcfg mlpc ex_num_events j s).1).2
        = List.replicate j (Event.send_mc_packet s.wf_sync_key 0 false)
          ++ [Event.send_mc_packet s.wf_sync_key 0 false] := by
      rw [← List.replicate_succ']; exact b3
    rw [a3] at b4
    exact List.append_cancel_left b4
  · intro j hj
    obtain ⟨_, _, a3, _⟩ := hrun j hj
    rw [a3]
    exact count_stops_replicate_send _ _ _ _
  · rw [hev, count_stops_append, count_stops_replicate_send]
    rfl
  · intro ht
    unfold w_update_calls
    have hf : (List.range (mlpc.num_examples * mlpc.num_epochs)).filter (fun k =>
          w_updates_weights mlpc (w_advance_examples D wcfg mlpc ex_num_events k s).1)
        = (List.range (mlpc.num_examples * mlpc.num_epochs)).filter (fun k =>
          decide (k % mlpc.num_examples + 1 = mlpc.num_examples)) := by
      apply List.filter_congr
      intro k hk
      unfold w_updates_weights
      rw [ht, Bool.true_and]
      exact decide_eq_decide.mpr (hcond k (List.mem_range.mp hk))
    rw [hf]
    exact count_row_ends mlpc.num_examples (by omega) mlpc.num_epochs
  · intro ht
    unfold w_update_calls
    have hf : (List.range (mlpc.num_examples * mlpc.num_epochs)).filter (fun k =>
          w_updates_weights mlpc (w_advance_examples D wcfg mlpc ex_num_events k s).1)
        = [] := by
      rw [List.filter_eq_nil_iff]
      intro k _
      unfold w_updates_weights
      rw [ht, Bool.false_and]
      exact Bool.false_ne_true
    rw [hf]
    rfl
  · intro ht hD
    rw [hfull, hstep]
    show (w_advance_example D wcfg mlpc ex_num_events
      (w_advance_examples D wcfg mlpc ex_num_events
        (mlpc.num_examples * mlpc.num_epochs - 1) s).1).1.wght_ups = _
    rw [e]
    show (if mlpc.training = true ∧ D.DEBUG = true then
        uint ((w_advance_examples D wcfg mlpc ex_num_events
          (mlpc.num_examples * mlpc.num_epochs - 1) s).1.wght_ups + 1)
      else (w_advance_examples D wcfg mlpc ex_num_events
          (mlpc.num_examples * mlpc.num_epochs - 1) s).1.wght_ups) = _
    have hb : mlpc.training = true ∧ D.DEBUG = true := ⟨ht, hD⟩
    rw [if_pos hb, l5]
    by_cases h0 : 0 < mlpc.num_epochs - 1
    · have hp0 : (mlpc.training = true ∧ D.DEBUG = true) ∧ 0 < mlpc.num_epochs - 1 :=
        ⟨hb, h0⟩
      rw [if_pos hp0, uint_add_uint]
      congr 1
      omega
    · have hn0 : ¬ ((mlpc.training = true ∧ D.DEBUG = true) ∧ 0 < mlpc.num_epochs - 1) :=
        fun h => h0 h.2
      rw [if_neg hn0]
      congr 1
      omega

/-- C39 on a training run of two epochs of two examples (`mlpc0`), from
`wgt_start`: the fourth call stops the run. -/
theorem C39_run_length_witness :
    (w_advance_example D0 wcfg0 mlpc0 ex_events0
          (w_advance_examples D0 wcfg0 mlpc0 ex_events0
            (mlpc0.num_examples * mlpc0.num_epochs - 1) wgt_start).1).2
        = [Event.spin1_stop]
    ∧ (w_advance_examples D0 wcfg0 mlpc0 ex_events0
          (mlpc0.num_examples * mlpc0.num_epochs) wgt_start).2
        = List.replicate (mlpc0.num_examples * mlpc0.num_epochs - 1)
            (Event.send_mc_packet wgt_start.wf_sync_key 0 false) ++ [Event.spin1_stop]
    ∧ count_stops (w_advance_examples D0 wcfg0 mlpc0 ex_events0
          (mlpc0.num_examples * mlpc0.num_epochs) wgt_start).2 = 1
    ∧ w_update_calls D0 wcfg0 mlpc0 ex_events0
          (mlpc0.num_examples * mlpc0.num_epochs) wgt_start = mlpc0.num_epochs :=
  ⟨(C39_run_length D0 wcfg0 mlpc0 ex_events0 wgt_start (by decide) (by decide)
      (by decide) (by decide) rfl rfl).2.1,
   (C39_run_length D0 wcfg0 mlpc0 ex_events0 wgt_start (by decide) (by decide)
      (by decide) (by decide) rfl rfl).2.2.2.1,
   (C39_run_length D0 wcfg0 mlpc0 ex_events0 wgt_start (by decide) (by decide)
      (by decide) (by decide) rfl rfl).2.2.2.2.1,
   (C39_run_length D0 wcfg0 mlpc0 ex_events0 wgt_start (by decide) (by decide)
      (by decide) (by decide) rfl rfl).2.2.2.2.2.1 rfl⟩

/-! ## The weight update keeps the connectivity pattern -/

/-- The update of one weight writes the weight of row `i` and column `j` only:
a zero weight stays, any other becomes the saturated sum of the weight and its
new change. -/
theorem w_update_weight_value (D : Defines) (wcfg : w_conf_t) (mlpc : global_conf_t)
    (i j : Nat) (s : WeightCore) :
    (w_update_weight D wcfg mlpc i j s).w_weights
      = Function.update s.w_weights i (Function.update (s.w_weights i) j
          (if s.w_weights i j = 0 then 0
           else w_saturate D (s.w_weights i j) (w_update_temp D wcfg mlpc i j s))) := by
  by_cases h0 : s.w_weights i j = 0
  · rw [if_pos h0]
    unfold w_update_weight
    simp only []
    rw [if_neg (fun h => h h0), ← h0, Function.update_eq_self, Function.update_eq_self]
  · rw [if_neg h0]
    unfold w_update_weight w_saturate w_update_temp
    simp only []
    rw [if_pos h0]
    by_cases hn : mlpc.net_type = SPINN_NET_CONT
    · simp only [hn, if_true, Function.update_same]
      split_ifs <;> rfl
    · simp only [hn, if_false, Function.update_same]
      split_ifs <;> rfl

theorem to_signed_of_fits (w : Nat) (hw : 0 < w) (x : Int)
    (h1 : -(2 ^ (w - 1)) ≤ x) (h2 : x < 2 ^ (w - 1)) : to_signed w x = x := by
  unfold to_signed
  have e : (2 : Int) ^ w = 2 * 2 ^ (w - 1) := by
    obtain ⟨k, rfl⟩ : ∃ k, w = k + 1 := ⟨w - 1, by omega⟩
    rw [Nat.add_sub_cancel, pow_succ]
    ring
  rw [Int.emod_eq_of_lt (by linarith) (by rw [e]; linarith)]
  ring

/-- The saturation of the new weight of a connection gives a non-zero weight
between `SPINN_SHORT_WEIGHT_MIN` and `SPINN_SHORT_WEIGHT_MAX`, when these fit
`short_weight_t` and the two deltas lie between them, off zero. -/
theorem w_saturate_range (D : Defines) (old temp : Int)
    (hsw : 0 < D.short_weight_bits) (hle : D.short_weight_bits ≤ D.weight_bits)
    (hmin : -(2 ^ (D.short_weight_bits - 1)) ≤ D.SPINN_SHORT_WEIGHT_MIN)
    (hmax : D.SPINN_SHORT_WEIGHT_MAX < 2 ^ (D.short_weight_bits - 1))
    (hneg : D.SPINN_SHORT_WEIGHT_MIN ≤ D.SPINN_SHORT_WEIGHT_NEG_DELTA
      ∧ D.SPINN_SHORT_WEIGHT_NEG_DELTA < 0)
    (hpos : 0 < D.SPINN_SHORT_WEIGHT_POS_DELTA
      ∧ D.SPINN_SHORT_WEIGHT_POS_DELTA ≤ D.SPINN_SHORT_WEIGHT_MAX) :
    w_saturate D old temp ≠ 0
    ∧ D.SPINN_SHORT_WEIGHT_MIN ≤ w_saturate D old temp
    ∧ w_saturate D old temp ≤ D.SPINN_SHORT_WEIGHT_MAX
    ∧ (temp = 0 → 0 < old → w_saturate D old temp = D.SPINN_SHORT_WEIGHT_POS_DELTA)
    ∧ (temp = 0 → ¬ 0 < old → w_saturate D old temp = D.SPINN_SHORT_WEIGHT_NEG_DELTA) := by
  have hpw : (2 : Int) ^ (D.short_weight_bits - 1) ≤ 2 ^ (D.weight_bits - 1) :=
    pow_le_pow_right₀ (by norm_num) (by omega)
  have hww : 0 < D.weight_bits := by omega
  have fits : ∀ x : Int, D.SPINN_SHORT_WEIGHT_MIN ≤ x → x ≤ D.SPINN_SHORT_WEIGHT_MAX →
      to_signed D.short_weight_bits x = x ∧ to_signed D.weight_bits x = x := fun x h1 h2 =>
    ⟨to_signed_of_fits _ hsw x (by linarith) (by linarith),
     to_signed_of_fits _ hww x (by linarith) (by linarith)⟩
  have hMAX := fits D.SPINN_SHORT_WEIGHT_MAX (by linarith [hneg.1, hneg.2, hpos.1, hpos.2])
    (le_refl _)
  have hMIN := fits D.SPINN_SHORT_WEIGHT_MIN (le_refl _)
    (by linarith [hneg.1, hneg.2, hpos.1, hpos.2])
  have hPOS := fits D.SPINN_SHORT_WEIGHT_POS_DELTA
    (by linarith [hneg.1, hneg.2, hpos.1, hpos.2]) hpos.2
  have hNEG := fits D.SPINN_SHORT_WEIGHT_NEG_DELTA hneg.1
    (by linarith [hneg.1, hneg.2, hpos.1, hpos.2])
  unfold w_saturate
  rw [hMAX.1, hMAX.2, hMIN.1, hMIN.2, hPOS.1, hNEG.1]
  obtain ⟨n1, n2⟩ := hneg
  obtain ⟨p1, p2⟩ := hpos
  by_cases c1 : temp ≥ D.SPINN_SHORT_WEIGHT_MAX
  · rw [if_pos c1]
    refine ⟨by linarith, by linarith, le_refl _, fun h => ?_, fun h => ?_⟩ <;>
      (exfalso; rw [h] at c1; linarith)
  · rw [if_neg c1]
    by_cases c2 : temp ≤ D.SPINN_SHORT_WEIGHT_MIN
    · rw [if_pos c2]
      refine ⟨by linarith, le_refl _, by linarith, fun h => ?_, fun h => ?_⟩ <;>
        (exfalso; rw [h] at c2; linarith)
    · rw [if_neg c2]
      by_cases c3 : temp = 0
      · rw [if_pos c3]
        by_cases c4 : old > 0
        · rw [if_pos c4]
          exact ⟨by linarith, by linarith, p2, fun _ _ => rfl, fun _ h => absurd c4 h⟩
        · rw [if_neg c4]
          exact ⟨by linarith, n1, by linarith, fun _ h => absurd h c4, fun _ _ => rfl⟩
      · rw [if_neg c3]
        have hfit := (fits temp (by linarith [not_le.mp c2]) (by linarith [not_le.mp c1])).1
        rw [hfit]
        exact ⟨c3, by linarith [not_le.mp c2], by linarith [not_le.mp c1],
          fun h => absurd h c3, fun h => absurd h c3⟩

/-- One step of the weight update, when the saturation gives non-zero weights
in range: zero entries stay zero and non-zero entries stay non-zero, the entry
of row `i` and column `j` is in range if it is connected, and no other entry
changes. -/
theorem w_update_weight_pattern (D : Defines) (wcfg : w_conf_t) (mlpc : global_conf_t)
    (hsat : ∀ old temp, w_saturate D old temp ≠ 0
      ∧ D.SPINN_SHORT_WEIGHT_MIN ≤ w_saturate D old temp
      ∧ w_saturate D old temp ≤ D.SPINN_SHORT_WEIGHT_MAX)
    (i j : Nat) (s : WeightCore) :
    (∀ a b, ((w_update_weight D wcfg mlpc i j s).w_weights a b = 0 ↔ s.w_weights a b = 0))
    ∧ (s.w_weights i j ≠ 0 →
        D.SPINN_SHORT_WEIGHT_MIN ≤ (w_update_weight D wcfg mlpc i j s).w_weights i j
        ∧ (w_update_weight D wcfg mlpc i j s).w_weights i j ≤ D.SPINN_SHORT_WEIGHT_MAX)
    ∧ (∀ a b, ¬ (a = i ∧ b = j) →
        (w_update_weight D wcfg mlpc i j s).w_weights a b = s.w_weights a b) := by
  have hij : (w_update_weight D wcfg mlpc i j s).w_weights i j
      = (if s.w_weights i j = 0 then 0
         else w_saturate D (s.w_weights i j) (w_update_temp D wcfg mlpc i j s)) := by
    rw [w_update_weight_value, Function.update_same, Function.update_same]
  have hother : ∀ a b, ¬ (a = i ∧ b = j) →
      (w_update_weight D wcfg mlpc i j s).w_weights a b = s.w_weights a b := by
    intro a b hab
    rw [w_update_weight_value]
    by_cases ha : a = i
    · subst ha
      have hb : b ≠ j := fun h => hab ⟨rfl, h⟩
      rw [Function.update_same, Function.update_noteq hb]
    · rw [Function.update_noteq ha]
  refine ⟨fun a b => ?_, fun h => ?_, hother⟩
  · by_cases hab : a = i ∧ b = j
    · obtain ⟨rfl, rfl⟩ := hab
      rw [hij]
      by_cases h0 : s.w_weights a b = 0
      · rw [if_pos h0]; exact ⟨fun _ => h0, fun _ => rfl⟩
      · rw [if_neg h0]
        exact ⟨fun h => absurd h (hsat _ _).1, fun h => absurd h h0⟩
    · rw [hother a b hab]
  · rw [hij, if_neg h]
    exact ⟨(hsat _ _).2.1, (hsat _ _).2.2⟩

/-- The inner loop of the weight update, over the first `n` rows of column
`j`. -/
theorem w_update_rows_pattern (D : Defines) (wcfg : w_conf_t) (mlpc : global_conf_t)
    (hsat : ∀ old temp, w_saturate D old temp ≠ 0
      ∧ D.SPINN_SHORT_WEIGHT_MIN ≤ w_saturate D old temp
      ∧ w_saturate D old temp ≤ D.SPINN_SHORT_WEIGHT_MAX)
    (j : Nat) (s : WeightCore) (n : Nat) :
    (∀ a b, (((List.range n).foldl
        (fun (s : WeightCore) (i : Nat) => w_update_weight D wcfg mlpc i j s) s).w_weights a b
          = 0 ↔ s.w_weights a b = 0))
    ∧ (∀ i, i < n → s.w_weights i j ≠ 0 →
        D.SPINN_SHORT_WEIGHT_MIN ≤ ((List.range n).foldl
          (fun (s : WeightCore) (i : Nat) => w_update_weight D wcfg mlpc i j s) s).w_weights i j
        ∧ ((List.range n).foldl
          (fun (s : WeightCore) (i : Nat) => w_update_weight D wcfg mlpc i j s) s).w_weights i j
            ≤ D.SPINN_SHORT_WEIGHT_MAX)
    ∧ (∀ a b, ¬ (a < n ∧ b = j) →
        ((List.range n).foldl
          (fun (s : WeightCore) (i : Nat) => w_update_weight D wcfg mlpc i j s) s).w_weights a b
          = s.w_weights a b) := by
  induction n with
  | zero =>
    refine ⟨fun a b => Iff.rfl, fun i hi => absurd hi (Nat.not_lt_zero _), fun a b _ => rfl⟩
  | succ n ih =>
    obtain ⟨i1, i2, i3⟩ := ih
    rw [List.range_succ, List.foldl_append, List.foldl_cons, List.foldl_nil]
    obtain ⟨p1, p2, p3⟩ := w_update_weight_pattern D wcfg mlpc hsat n j
      ((List.range n).foldl
        (fun (s : WeightCore) (i : Nat) => w_update_weight D wcfg mlpc i j s) s)
    refine ⟨fun a b => (p1 a b).trans (i1 a b), fun i hi hne => ?_, fun a b hab => ?_⟩
    · by_cases hin : i = n
      · subst hin
        exact p2 (fun h => hne ((i1 i j).mp h))
      · rw [p3 i j (fun h => hin h.1)]
        exact i2 i (by omega) hne
    · rw [p3 a b (fun h => hab ⟨by omega, h.2⟩)]
      exact i3 a b (fun h => hab ⟨by omega, h.2⟩)

/-- The outer loop of the weight update, over the first `m` columns. -/
theorem w_update_cols_pattern (D : Defines) (wcfg : w_conf_t) (mlpc : global_conf_t)
    (hsat : ∀ old temp, w_saturate D old temp ≠ 0
      ∧ D.SPINN_SHORT_WEIGHT_MIN ≤ w_saturate D old temp
      ∧ w_saturate D old temp ≤ D.SPINN_SHORT_WEIGHT_MAX)
    (s : WeightCore) (m : Nat) :
    (∀ a b, (((List.range m).foldl (fun (s : WeightCore) (j : Nat) =>
          (List.range wcfg.num_rows).foldl
            (fun (s : WeightCore) (i : Nat) => w_update_weight D wcfg mlpc i j s) s)
        s).w_weights a b = 0 ↔ s.w_weights a b = 0))
    ∧ (∀ i j, i < wcfg.num_rows → j < m → s.w_weights i j ≠ 0 →
        D.SPINN_SHORT_WEIGHT_MIN ≤ ((List.range m).foldl (fun (s : WeightCore) (j : Nat) =>
          (List.range wcfg.num_rows).foldl
            (fun (s : WeightCore) (i : Nat) => w_update_weight D wcfg mlpc i j s) s)
          s).w_weights i j
        ∧ ((List.range m).foldl (fun (s : WeightCore) (j : Nat) =>
          (List.range wcfg.num_rows).foldl
            (fun (s : WeightCore) (i : Nat) => w_update_weight D wcfg mlpc i j s) s)
          s).w_weights i j ≤ D.SPINN_SHORT_WEIGHT_MAX)
    ∧ (∀ a b, ¬ (a < wcfg.num_rows ∧ b < m) →
        ((List.range m).foldl (fun (s : WeightCore) (j : Nat) =>
          (List.range wcfg.num_rows).foldl
            (fun (s : WeightCore) (i : Nat) => w_update_weight D wcfg mlpc i j s) s)
          s).w_weights a b = s.w_weights a b) := by
  induction m with
  | zero =>
    refine ⟨fun a b => Iff.rfl, fun i j _ hj => absurd hj (Nat.not_lt_zero _),
      fun a b _ => rfl⟩
  | succ m ih =>
    obtain ⟨i1, i2, i3⟩ := ih
    rw [List.range_succ, List.foldl_append, List.foldl_cons, List.foldl_nil]
    obtain ⟨p1, p2, p3⟩ := w_update_rows_pattern D wcfg mlpc hsat m
      ((List.range m).foldl (fun (s : WeightCore) (j : Nat) =>
          (List.range wcfg.num_rows).foldl
            (fun (s : WeightCore) (i : Nat) => w_update_weight D wcfg mlpc i j s) s) s)
      wcfg.num_rows
    refine ⟨fun a b => (p1 a b).trans (i1 a b), fun i j hi hj hne => ?_, fun a b hab => ?_⟩
    · by_cases hjm : j = m
      · subst hjm
        exact p2 i hi (fun h => hne ((i1 i j).mp h))
      · rw [p3 i j (fun h => hjm h.2)]
        exact i2 i j hi (by omega) hne
    · rw [p3 a b (fun h => hab ⟨h.1, by omega⟩)]
      exact i3 a b (fun h => hab ⟨h.1, by omega⟩)

/-- C35: `w_update_weights` preserves the connectivity pattern.  The macros
`SPINN_SHORT_WEIGHT_MIN`, `_MAX`, `_POS_DELTA` and `_NEG_DELTA` are taken to
satisfy `MIN ≤ NEG_DELTA < 0 < POS_DELTA ≤ MAX` and to fit `short_weight_t`,
which is not wider than `weight_t`.  Then for every state (weights, link
deltas, weight changes) and every configuration (learning rate, network type),
and every `(i, j)`: `w_weights[i][j]` is 0 after the update if and only if it
was 0 before; every non-zero weight with `i < wcfg.num_rows` and
`j < wcfg.num_cols` lies in `[SPINN_SHORT_WEIGHT_MIN, SPINN_SHORT_WEIGHT_MAX]`
afterwards, and no other entry changes.  In the update of one weight a zero
weight is not modified, and a non-zero weight becomes the saturation of `temp`,
which is `SPINN_SHORT_WEIGHT_POS_DELTA` or `SPINN_SHORT_WEIGHT_NEG_DELTA`,
by the sign of the old weight, when `temp` is 0. -/
theorem C35_connectivity_preserved (D : Defines) (wcfg : w_conf_t) (mlpc : global_conf_t)
    (s : WeightCore)
    (hsw : 0 < D.short_weight_bits) (hle : D.short_weight_bits ≤ D.weight_bits)
    (hmin : -(2 ^ (D.short_weight_bits - 1)) ≤ D.SPINN_SHORT_WEIGHT_MIN)
    (hmax : D.SPINN_SHORT_WEIGHT_MAX < 2 ^ (D.short_weight_bits - 1))
    (hneg : D.SPINN_SHORT_WEIGHT_MIN ≤ D.SPINN_SHORT_WEIGHT_NEG_DELTA
      ∧ D.SPINN_SHORT_WEIGHT_NEG_DELTA < 0)
    (hpos : 0 < D.SPINN_SHORT_WEIGHT_POS_DELTA
      ∧ D.SPINN_SHORT_WEIGHT_POS_DELTA ≤ D.SPINN_SHORT_WEIGHT_MAX) :
    (∀ i j, (w_update_weights D wcfg mlpc s).w_weights i j = 0 ↔ s.w_weights i j = 0)
    ∧ (∀ i j, i < wcfg.num_rows → j < wcfg.num_cols → s.w_weights i j ≠ 0 →
        D.SPINN_SHORT_WEIGHT_MIN ≤ (w_update_weights D wcfg mlpc s).w_weights i j
        ∧ (w_update_weights D wcfg mlpc s).w_weights i j ≤ D.SPINN_SHORT_WEIGHT_MAX)
    ∧ (∀ i j, ¬ (i < wcfg.num_rows ∧ j < wcfg.num_cols) →
        (w_update_weights D wcfg mlpc s).w_weights i j = s.w_weights i j)
    ∧ (∀ i j, s.w_weights i j = 0 →
        (w_update_weight D wcfg mlpc i j s).w_weights = s.w_weights)
    ∧ (∀ i j, s.w_weights i j ≠ 0 →
        (w_update_weight D wcfg mlpc i j s).w_weights i j
          = w_saturate D (s.w_weights i j) (w_update_temp D wcfg mlpc i j s))
    ∧ (∀ i j, s.w_weights i j ≠ 0 → w_update_temp D wcfg mlpc i j s = 0 →
        (w_update_weight D wcfg mlpc i j s).w_weights i j
          = (if s.w_weights i j > 0 then D.SPINN_SHORT_WEIGHT_POS_DELTA
             else D.SPINN_SHORT_WEIGHT_NEG_DELTA)) := by
  have hsat : ∀ old temp, w_saturate D old temp ≠ 0
      ∧ D.SPINN_SHORT_WEIGHT_MIN ≤ w_saturate D old temp
      ∧ w_saturate D old temp ≤ D.SPINN_SHORT_WEIGHT_MAX := fun old temp =>
    ⟨(w_saturate_range D old temp hsw hle hmin hmax hneg hpos).1,
     (w_saturate_range D old temp hsw hle hmin hmax hneg hpos).2.1,
     (w_saturate_range D old temp hsw hle hmin hmax hneg hpos).2.2.1⟩
  have hw : ∃ s0 : WeightCore, s0.w_weights = s.w_weights
      ∧ w_update_weights D wcfg mlpc s
        = (List.range wcfg.num_cols).foldl (fun (s : WeightCore) (j : Nat) =>
          (List.range wcfg.num_rows).foldl
            (fun (s : WeightCore) (i : Nat) => w_update_weight D wcfg mlpc i j s) s)
          s0 := by
    unfold w_update_weights
    cases hD : D.DEBUG
    · exact ⟨s, rfl, by simp only [Bool.false_eq_true, if_false]⟩
    · exact ⟨{ s with wght_ups := uint (s.wght_ups + 1) }, rfl, by simp only [if_true]⟩
  obtain ⟨s0, hs0, e0⟩ := hw
  obtain ⟨q1, q2, q3⟩ := w_update_cols_pattern D wcfg mlpc hsat s0 wcfg.num_cols
  rw [hs0] at q1 q2 q3
  rw [e0]
  refine ⟨q1, q2, q3, fun i j h0 => ?_, fun i j hne => ?_, fun i j hne ht => ?_⟩
  · rw [w_update_weight_value, if_pos h0, ← h0, Function.update_eq_self,
      Function.update_eq_self]
  · rw [w_update_weight_value, Function.update_same, Function.update_same, if_neg hne]
  · rw [w_update_weight_value, Function.update_same, Function.update_same, if_neg hne]
    obtain ⟨_, _, _, r4, r5⟩ :=
      w_saturate_range D (s.w_weights i j) (w_update_temp D wcfg mlpc i j s)
        hsw hle hmin hmax hneg hpos
    by_cases hp : s.w_weights i j > 0
    · rw [if_pos hp]; exact r4 ht hp
    · rw [if_neg hp]; exact r5 ht hp

/-- C35 with the macro values `D0` (16-bit `short_weight_t`, 32-bit `weight_t`,
limits `±32767`, deltas `±1`) on `wgt_mixed`, whose column 1 is not connected. -/
theorem C35_connectivity_preserved_witness :
    (∀ i j, (w_update_weights D0 wcfg0 mlpc0 wgt_mixed).w_weights i j = 0
        ↔ wgt_mixed.w_weights i j = 0)
    ∧ (∀ i j, i < wcfg0.num_rows → j < wcfg0.num_cols → wgt_mixed.w_weights i j ≠ 0 →
        D0.SPINN_SHORT_WEIGHT_MIN ≤ (w_update_weights D0 wcfg0 mlpc0 wgt_mixed).w_weights i j
        ∧ (w_update_weights D0 wcfg0 mlpc0 wgt_mixed).w_weights i j
            ≤ D0.SPINN_SHORT_WEIGHT_MAX) :=
  ⟨(C35_connectivity_preserved D0 wcfg0 mlpc0 wgt_mixed (by decide) (by decide)
      (by decide) (by decide) (by decide) (by decide)).1,
   (C35_connectivity_preserved D0 wcfg0 mlpc0 wgt_mixed (by decide) (by decide)
      (by decide) (by decide) (by decide) (by decide)).2.1⟩

/-! ## The critical section of `s_processQueue` -/

/-- The handling of a delta packet leaves the delta packet queue alone. -/
theorem wb_process_packet_queue (D : Defines) (wcfg : w_conf_t) (mlpc : global_conf_t)
    (ex_num_events : Nat → Nat) (key payload : Nat) (s : WeightCore) :
    (wb_process_packet D wcfg mlpc ex_num_events key payload s).1.w_delta_pkt_q
      = s.w_delta_pkt_q := by
  by_cases h : wb_mark D s.wb_arrived (key &&& SPINN_DELTA_MASK) = wcfg.b_all_arrived
  · obtain ⟨wo, wl, ps, sb, e⟩ :=
      wb_process_packet_complete D wcfg mlpc ex_num_events key payload s h
    rw [e]
    exact (wb_advance_tick_errors D wcfg mlpc ex_num_events _).2.2.1
  · obtain ⟨wo, wl, e⟩ :=
      wb_process_packet_pending D wcfg mlpc ex_num_events key payload s h
    rw [e]

/-- A pass of the loop of `s_processQueue` advances `head` by one modulo the
queue length and leaves `tail` alone. -/
theorem s_processQueue_step_queue (D : Defines) (env : Outside → SumCore → SumCore)
    (scfg : s_conf_t) (xcfg : stage_conf_t) (s : SumCore) (henv : keeps_queue env) :
    (s_processQueue_step D env scfg xcfg s).1.s_pkt_queue
      = { s.s_pkt_queue with head := (s.s_pkt_queue.head + 1) % SPINN_SUM_PQ_LEN } := by
  show (s_processQueue_route D env scfg xcfg _ _ _).1.s_pkt_queue = _
  rw [s_processQueue_route_queue D env scfg xcfg _ _ _ henv]
  show ({ s.s_pkt_queue with head := uint (s.s_pkt_queue.head + 1) % 512 } : pkt_queue_t) = _
  rw [uint_mod_queue_len]
  rfl

/-- A pass of the loop of `wb_process` advances `head` by one modulo the queue
length and leaves `tail` alone. -/
theorem wb_process_step_queue (D : Defines) (wcfg : w_conf_t) (mlpc : global_conf_t)
    (ex_num_events : Nat → Nat) (s : WeightCore) :
    (wb_process_step D wcfg mlpc ex_num_events s).1.w_delta_pkt_q
      = { s.w_delta_pkt_q with
          head := (s.w_delta_pkt_q.head + 1) % SPINN_WEIGHT_PQ_LEN } := by
  show (wb_process_packet D wcfg mlpc ex_num_events _ _ _).1.w_delta_pkt_q = _
  rw [wb_process_packet_queue]
  show ({ s.w_delta_pkt_q with head := uint (s.w_delta_pkt_q.head + 1) % 512 }
    : pkt_queue_t) = _
  rw [uint_mod_queue_len]
  rfl

theorem s_processQueue_loop_indices (D : Defines) (env : Outside → SumCore → SumCore)
    (scfg : s_conf_t) (xcfg : stage_conf_t) (henv : keeps_queue env) (fuel : Nat) :
    ∀ (s : SumCore) (r : SumCore × List Event),
      s.s_pkt_queue.head < SPINN_SUM_PQ_LEN → s.s_pkt_queue.tail < SPINN_SUM_PQ_LEN →
      s_processQueue_loop D env scfg xcfg fuel s = some r →
      r.1.s_pkt_queue.head < SPINN_SUM_PQ_LEN ∧ r.1.s_pkt_queue.tail < SPINN_SUM_PQ_LEN := by
  induction fuel with
  | zero =>
    intro s r hh ht h
    by_cases hne : s.s_pkt_queue.head = s.s_pkt_queue.tail
    · simp only [s_processQueue_loop, ne_eq, hne, not_true_eq_false, if_false,
        Option.some.injEq] at h
      subst h
      exact ⟨hh, ht⟩
    · simp only [s_processQueue_loop, ne_eq, hne, not_false_eq_true, if_true] at h
      exact Option.noConfusion h
  | succ fuel ih =>
    intro s r hh ht h
    by_cases hne : s.s_pkt_queue.head = s.s_pkt_queue.tail
    · simp only [s_processQueue_loop, ne_eq, hne, not_true_eq_false, if_false,
        Option.some.injEq] at h
      subst h
      exact ⟨hh, ht⟩
    · simp only [s_processQueue_loop, ne_eq, hne, not_false_eq_true, if_true] at h
      cases hl : s_processQueue_loop D env scfg xcfg fuel
          (s_processQueue_step D env scfg xcfg s).1 with
      | none => rw [hl] at h; exact Option.noConfusion h
      | some r2 =>
        rw [hl] at h
        simp only [Option.some.injEq] at h
        subst h
        have hq := s_processQueue_step_queue D env scfg xcfg s henv
        exact ih _ r2 (by rw [hq]; exact Nat.mod_lt _ (by decide)) (by rw [hq]; exact ht) hl

theorem wb_process_loop_indices (D : Defines) (wcfg : w_conf_t) (mlpc : global_conf_t)
    (ex_num_events : Nat → Nat) (fuel : Nat) :
    ∀ (s : WeightCore) (r : WeightCore × List Event),
      s.w_delta_pkt_q.head < SPINN_WEIGHT_PQ_LEN →
      s.w_delta_pkt_q.tail < SPINN_WEIGHT_PQ_LEN →
      wb_process_loop D wcfg mlpc ex_num_events fuel s = some r →
      r.1.w_delta_pkt_q.head < SPINN_WEIGHT_PQ_LEN
      ∧ r.1.w_delta_pkt_q.tail < SPINN_WEIGHT_PQ_LEN := by
  induction fuel with
  | zero =>
    intro s r hh ht h
    by_cases hne : s.w_delta_pkt_q.head = s.w_delta_pkt_q.tail
    · simp only [wb_process_loop, ne_eq, hne, not_true_eq_false, if_false,
        Option.some.injEq] at h
      subst h
      exact ⟨hh, ht⟩
    · simp only [wb_process_loop, ne_eq, hne, not_false_eq_true, if_true] at h
      exact Option.noConfusion h
  | succ fuel ih =>
    intro s r hh ht h
    by_cases hne : s.w_delta_pkt_q.head = s.w_delta_pkt_q.tail
    · simp only [wb_process_loop, ne_eq, hne, not_true_eq_false, if_false,
        Option.some.injEq] at h
      subst h
      exact ⟨hh, ht⟩
    · simp only [wb_process_loop, ne_eq, hne, not_false_eq_true, if_true] at h
      cases hl : wb_process_loop D wcfg mlpc ex_num_events fuel
          (wb_process_step D wcfg mlpc ex_num_events s).1 with
      | none => rw [hl] at h; exact Option.noConfusion h
      | some r2 =>
        rw [hl] at h
        simp only [Option.some.injEq] at h
        subst h
        have hq := wb_process_step_queue D wcfg mlpc ex_num_events s
        exact ih _ r2 (by rw [hq]; exact Nat.mod_lt _ (by decide)) (by rw [hq]; exact ht) hl

/-- C40: queue indices stay in range.  If `head` and `tail` are below the
queue length before an enqueue (`s_receivePacket` on the sum core queue of
length 512, `t_forwardPacket` on the threshold core queue of length 256) or
before a pass of a dequeue loop (`s_processQueue` on the sum core,
`wb_process` on the weight core queue of length 512), they are below it
afterwards; so are they when `s_processQueue` and `wb_process` return.  The
entry written by an enqueue is `queue[tail]` and the entry read by a pass is
`queue[head]`, with the `tail` and `head` of the entry, so every access is in
bounds.  The routines outside these sources that the sum core calls are taken
to leave its queue alone. -/
theorem C40_queue_indices (D : Defines) (env : Outside → SumCore → SumCore)
    (scfg : s_conf_t) (xcfg : stage_conf_t) (wcfg : w_conf_t) (mlpc : global_conf_t)
    (ex_num_events : Nat → Nat) (key payload : Nat)
    (s : SumCore) (t : ThresholdCore) (w : WeightCore) (henv : keeps_queue env)
    (hs : s.s_pkt_queue.head < SPINN_SUM_PQ_LEN ∧ s.s_pkt_queue.tail < SPINN_SUM_PQ_LEN)
    (ht : t.t_net_pkt_q.head < SPINN_THLD_PQ_LEN ∧ t.t_net_pkt_q.tail < SPINN_THLD_PQ_LEN)
    (hw : w.w_delta_pkt_q.head < SPINN_WEIGHT_PQ_LEN
      ∧ w.w_delta_pkt_q.tail < SPINN_WEIGHT_PQ_LEN) :
    ((s_receivePacket D env key payload s).1.s_pkt_queue.head < SPINN_SUM_PQ_LEN
      ∧ (s_receivePacket D env key payload s).1.s_pkt_queue.tail < SPINN_SUM_PQ_LEN)
    ∧ ((s_processQueue_step D env scfg xcfg s).1.s_pkt_queue.head < SPINN_SUM_PQ_LEN
      ∧ (s_processQueue_step D env scfg xcfg s).1.s_pkt_queue.tail < SPINN_SUM_PQ_LEN
      ∧ (s_processQueue_step D env scfg xcfg s).2.head?
          = some (Event.dequeued (s.s_pkt_queue.queue s.s_pkt_queue.head).key
              (s.s_pkt_queue.queue s.s_pkt_queue.head).payload))
    ∧ (∀ fuel r, s_processQueue D env scfg xcfg fuel s = some r →
        r.1.s_pkt_queue.head < SPINN_SUM_PQ_LEN ∧ r.1.s_pkt_queue.tail < SPINN_SUM_PQ_LEN)
    ∧ ((t_forwardPacket D key payload t).1.t_net_pkt_q.head < SPINN_THLD_PQ_LEN
      ∧ (t_forwardPacket D key payload t).1.t_net_pkt_q.tail < SPINN_THLD_PQ_LEN
      ∧ ∀ i, i ≠ t.t_net_pkt_q.tail →
          (t_forwardPacket D key payload t).1.t_net_pkt_q.queue i = t.t_net_pkt_q.queue i)
    ∧ ((wb_process_step D wcfg mlpc ex_num_events w).1.w_delta_pkt_q.head
          < SPINN_WEIGHT_PQ_LEN
      ∧ (wb_process_step D wcfg mlpc ex_num_events w).1.w_delta_pkt_q.tail
          < SPINN_WEIGHT_PQ_LEN
      ∧ (wb_process_step D wcfg mlpc ex_num_events w).2.head?
          = some (Event.dequeued (w.w_delta_pkt_q.queue w.w_delta_pkt_q.head).key
              (w.w_delta_pkt_q.queue w.w_delta_pkt_q.head).payload))
    ∧ (∀ fuel r, wb_process D wcfg mlpc ex_num_events fuel w = some r →
        r.1.w_delta_pkt_q.head < SPINN_WEIGHT_PQ_LEN
        ∧ r.1.w_delta_pkt_q.tail < SPINN_WEIGHT_PQ_LEN)
    ∧ SPINN_SUM_PQ_LEN = 512 ∧ SPINN_THLD_PQ_LEN = 256 ∧ SPINN_WEIGHT_PQ_LEN = 512 := by
  obtain ⟨_, _, r3, r4⟩ := s_receivePacket_pending D env key payload s henv hs.1 hs.2
  have hq := s_processQueue_step_queue D env scfg xcfg s henv
  have hwq := wb_process_step_queue D wcfg mlpc ex_num_events w
  refine ⟨⟨r3, r4⟩, ⟨?_, ?_, rfl⟩, ?_, ⟨?_, ?_, ?_⟩, ⟨?_, ?_, rfl⟩, ?_, rfl, rfl, rfl⟩
  · rw [hq]; exact Nat.mod_lt _ (by decide)
  · rw [hq]; exact hs.2
  · intro fuel r h
    unfold s_processQueue at h
    cases hl : s_processQueue_loop D env scfg xcfg fuel s with
    | none => rw [hl] at h; exact Option.noConfusion h
    | some r2 =>
      rw [hl] at h
      simp only [Option.some.injEq] at h
      subst h
      exact s_processQueue_loop_indices D env scfg xcfg henv fuel s r2 hs.1 hs.2 hl
  · by_cases hfull : (t.t_net_pkt_q.tail + 1) % SPINN_THLD_PQ_LEN = t.t_net_pkt_q.head
    · rw [t_forwardPacket_full D key payload t hfull]; exact ht.1
    · rw [t_forwardPacket_room D key payload t hfull]; exact ht.1
  · by_cases hfull : (t.t_net_pkt_q.tail + 1) % SPINN_THLD_PQ_LEN = t.t_net_pkt_q.head
    · rw [t_forwardPacket_full D key payload t hfull]; exact ht.2
    · rw [t_forwardPacket_room D key payload t hfull]
      exact Nat.mod_lt _ (by decide)
  · intro i hi
    by_cases hfull : (t.t_net_pkt_q.tail + 1) % SPINN_THLD_PQ_LEN = t.t_net_pkt_q.head
    · rw [t_forwardPacket_full D key payload t hfull]
    · rw [t_forwardPacket_room D key payload t hfull]
      exact Function.update_noteq hi _ _
  · rw [hwq]; exact Nat.mod_lt _ (by decide)
  · rw [hwq]; exact hw.2
  · intro fuel r h
    unfold wb_process at h
    cases hl : wb_process_loop D wcfg mlpc ex_num_events fuel w with
    | none => rw [hl] at h; exact Option.noConfusion h
    | some r2 =>
      rw [hl] at h
      simp only [Option.some.injEq] at h
      subst h
      exact wb_process_loop_indices D wcfg mlpc ex_num_events fuel w r2 hw.1 hw.2 hl

/-- C40 on the full sum core queue (`tail = 511`), the threshold core queue
with one free entry (`tail = 254`), and a weight core queue with one packet. -/
theorem C40_queue_indices_witness :
    ((s_receivePacket D0 env0 7 9 sum_full).1.s_pkt_queue.head < SPINN_SUM_PQ_LEN
      ∧ (s_receivePacket D0 env0 7 9 sum_full).1.s_pkt_queue.tail < SPINN_SUM_PQ_LEN)
    ∧ ((s_processQueue_step D0 env0 scfg0 xcfg0 sum_full).1.s_pkt_queue.head
          < SPINN_SUM_PQ_LEN
      ∧ (s_processQueue_step D0 env0 scfg0 xcfg0 sum_full).1.s_pkt_queue.tail
          < SPINN_SUM_PQ_LEN)
    ∧ ((t_forwardPacket D0 7 9 thr_back_room).1.t_net_pkt_q.head < SPINN_THLD_PQ_LEN
      ∧ (t_forwardPacket D0 7 9 thr_back_room).1.t_net_pkt_q.tail < SPINN_THLD_PQ_LEN)
    ∧ ((wb_process_step D0 wcfg0 mlpc0 ex_events0 (wgt_with 0x803 7)).1.w_delta_pkt_q.head
          < SPINN_WEIGHT_PQ_LEN
      ∧ (wb_process_step D0 wcfg0 mlpc0 ex_events0 (wgt_with 0x803 7)).1.w_delta_pkt_q.tail
          < SPINN_WEIGHT_PQ_LEN) :=
  ⟨(C40_queue_indices D0 env0 scfg0 xcfg0 wcfg0 mlpc0 ex_events0 7 9 sum_full
      thr_back_room (wgt_with 0x803 7) (fun _ _ => rfl) (by decide) (by decide)
      (by decide)).1,
   ⟨(C40_queue_indices D0 env0 scfg0 xcfg0 wcfg0 mlpc0 ex_events0 7 9 sum_full
      thr_back_room (wgt_with 0x803 7) (fun _ _ => rfl) (by decide) (by decide)
      (by decide)).2.1.1,
    (C40_queue_indices D0 env0 scfg0 xcfg0 wcfg0 mlpc0 ex_events0 7 9 sum_full
      thr_back_room (wgt_with 0x803 7) (fun _ _ => rfl) (by decide) (by decide)
      (by decide)).2.1.2.1⟩,
   ⟨(C40_queue_indices D0 env0 scfg0 xcfg0 wcfg0 mlpc0 ex_events0 7 9 sum_full
      thr_back_room (wgt_with 0x803 7) (fun _ _ => rfl) (by decide) (by decide)
      (by decide)).2.2.2.1.1,
    (C40_queue_indices D0 env0 scfg0 xcfg0 wcfg0 mlpc0 ex_events0 7 9 sum_full
      thr_back_room (wgt_with 0x803 7) (fun _ _ => rfl) (by decide) (by decide)
      (by decide)).2.2.2.1.2.1⟩,
   ⟨(C40_queue_indices D0 env0 scfg0 xcfg0 wcfg0 mlpc0 ex_events0 7 9 sum_full
      thr_back_room (wgt_with 0x803 7) (fun _ _ => rfl) (by decide) (by decide)
      (by decide)).2.2.2.2.1.1,
    (C40_queue_indices D0 env0 scfg0 xcfg0 wcfg0 mlpc0 ex_events0 7 9 sum_full
      thr_back_room (wgt_with 0x803 7) (fun _ _ => rfl) (by decide) (by decide)
      (by decide)).2.2.2.2.1.2.1⟩⟩

/-! ## The colour bit on the receive side -/

/-- The handling of row `i` for a delta of unit `inx` adds the link term of the
row to `w_link_deltas[i][inx]` and leaves the other link deltas, the output
history and the tick alone. -/
theorem wb_process_row_link_deltas (D : Defines) (wcfg : w_conf_t) (inx payload : Nat)
    (r : WeightCore × List Event) (i : Nat) :
    (wb_process_row D wcfg inx (to_signed D.delta_bits payload) r i).1.w_link_deltas
        = Function.update r.1.w_link_deltas i
            (Function.update (r.1.w_link_deltas i) inx
              (to_signed D.long_delta_bits
                (r.1.w_link_deltas i inx + wb_link_term D wcfg r.1 i payload)))
    ∧ (wb_process_row D wcfg inx (to_signed D.delta_bits payload) r i).1.w_output_history
        = r.1.w_output_history
    ∧ (wb_process_row D wcfg inx (to_signed D.delta_bits payload) r i).1.tick
        = r.1.tick := by
  cases hD : D.DEBUG <;>
    simp only [wb_process_row, restore_outputs, wb_link_term, hD, if_true, if_false,
      Bool.false_eq_true, Function.update_same] <;>
    split_ifs <;> exact ⟨rfl, rfl, rfl⟩

theorem wb_process_rows_link_deltas (D : Defines) (wcfg : w_conf_t) (inx payload : Nat)
    (r : WeightCore × List Event) (n : Nat) :
    ((List.range n).foldl
        (wb_process_row D wcfg inx (to_signed D.delta_bits payload)) r).1.w_link_deltas
        = (fun a b => if a < n ∧ b = inx then
              to_signed D.long_delta_bits
                (r.1.w_link_deltas a inx + wb_link_term D wcfg r.1 a payload)
            else r.1.w_link_deltas a b)
    ∧ ((List.range n).foldl
        (wb_process_row D wcfg inx (to_signed D.delta_bits payload)) r).1.w_output_history
        = r.1.w_output_history
    ∧ ((List.range n).foldl
        (wb_process_row D wcfg inx (to_signed D.delta_bits payload)) r).1.tick
        = r.1.tick := by
  induction n with
  | zero =>
    refine ⟨?_, rfl, rfl⟩
    funext a b
    simp
  | succ n ih =>
    obtain ⟨i1, i2, i3⟩ := ih
    rw [List.range_succ, List.foldl_append, List.foldl_cons, List.foldl_nil]
    obtain ⟨j1, j2, j3⟩ := wb_process_row_link_deltas D wcfg inx payload
      ((List.range n).foldl
        (wb_process_row D wcfg inx (to_signed D.delta_bits payload)) r) n
    refine ⟨?_, by rw [j2, i2], by rw [j3, i3]⟩
    rw [j1, i1]
    have ht : wb_link_term D wcfg ((List.range n).foldl
        (wb_process_row D wcfg inx (to_signed D.delta_bits payload)) r).1 n payload
        = wb_link_term D wcfg r.1 n payload := by
      unfold wb_link_term
      rw [i2, i3]
    rw [ht]
    funext a b
    by_cases ha : a = n
    · subst ha
      by_cases hb : b = inx
      · subst hb
        simp
      · simp [Function.update_noteq hb, hb]
    · have h1 : a < n + 1 ↔ a < n := by omega
      simp [Function.update_noteq ha, h1]

/-- A delta that does not complete the scoreboard is accumulated under the
index `key & SPINN_DELTA_MASK`: the error term of each row is added to
`w_errors[i]` and the link term to `w_link_deltas[i][inx]`. -/
theorem wb_process_packet_accumulates (D : Defines) (wcfg : w_conf_t)
    (mlpc : global_conf_t) (ex_num_events : Nat → Nat) (key payload : Nat)
    (s : WeightCore)
    (h : wb_mark D s.wb_arrived (key &&& SPINN_DELTA_MASK) ≠ wcfg.b_all_arrived) :
    (wb_process_packet D wcfg mlpc ex_num_events key payload s).1.w_errors
        = (fun i => if i < wcfg.num_rows then
              to_signed D.error_bits
                (s.w_errors i + wb_error_term D s.w_weights i (key, payload))
            else s.w_errors i)
    ∧ (wb_process_packet D wcfg mlpc ex_num_events key payload s).1.w_link_deltas
        = (fun a b => if a < wcfg.num_rows ∧ b = key &&& SPINN_DELTA_MASK then
              to_signed D.long_delta_bits
                (s.w_link_deltas a (key &&& SPINN_DELTA_MASK)
                  + wb_link_term D wcfg s a payload)
            else s.w_link_deltas a b) := by
  obtain ⟨wo, wl, e⟩ := wb_process_packet_pending D wcfg mlpc ex_num_events key payload s h
  refine ⟨by rw [e], ?_⟩
  have hl := (wb_process_rows_link_deltas D wcfg (key &&& SPINN_DELTA_MASK) payload
    ({ s with wb_arrived := wb_mark D s.wb_arrived (key &&& SPINN_DELTA_MASK) }, [])
    wcfg.num_rows).1
  have ha := wb_process_rows_arrived D wcfg (key &&& SPINN_DELTA_MASK)
    (to_signed D.delta_bits payload) (List.range wcfg.num_rows)
    ({ s with wb_arrived := wb_mark D s.wb_arrived (key &&& SPINN_DELTA_MASK) }, [])
  rw [wb_process_packet_eq]
  simp only []
  rw [if_neg (by rw [ha]; exact h)]
  exact hl
/-- C9 (as stated) fails: neither handler discards a packet for its colour.
On the threshold core a BACKPROP packet for unit 3 marks `tb_arrived` and
overwrites the stored error whether its colour bit is set (key `0x403`) or
clear (key `0x003`); on a weight core whose `bkpKey` has the colour bit clear,
the dequeued delta with key `0x403` (colour bit set) marks `wb_arrived` and is
accumulated into `w_errors` and `w_link_deltas`. -/
theorem C9_stale_packet_processed :
    (t_backpropPacket D0 tcfg0 0x403 5 thr0).1.tb_arrived ≠ thr0.tb_arrived
    ∧ (t_backpropPacket D0 tcfg0 0x403 5 thr0).1.t_errors 0 3 ≠ thr0.t_errors 0 3
    ∧ (t_backpropPacket D0 tcfg0 0x003 5 thr0).1.tb_arrived ≠ thr0.tb_arrived
    ∧ (t_backpropPacket D0 tcfg0 0x003 5 thr0).1.t_errors 0 3 ≠ thr0.t_errors 0 3
    ∧ 0x403 &&& SPINN_COLOUR_MASK ≠ (wgt_with 0x403 0x800000).bkpKey &&& SPINN_COLOUR_MASK
    ∧ (wb_process_step D0 wcfg0 mlpc0 (fun _ => 1) (wgt_with 0x403 0x800000)).1.wb_arrived
        ≠ (wgt_with 0x403 0x800000).wb_arrived
    ∧ (wb_process_step D0 wcfg0 mlpc0 (fun _ => 1) (wgt_with 0x403 0x800000)).1.w_errors 0
        ≠ (wgt_with 0x403 0x800000).w_errors 0
    ∧ (wb_process_step D0 wcfg0 mlpc0 (fun _ => 1)
          (wgt_with 0x403 0x800000)).1.w_link_deltas 0 3
        ≠ (wgt_with 0x403 0x800000).w_link_deltas 0 3 := by
  decide

/-- C9 (amended): `t_backpropPacket` and the handling of a dequeued delta in
`wb_process` do not look at the colour bit: a key and the same key with the
colour bit flipped give the same state and the same calls.  Whatever its
colour, the packet is stored (threshold core: `t_errors[tb_comms][inx]`) or
accumulated (weight core) under the index `inx = key & 0xff` and marks the
arrival scoreboard (`tb_arrived`, `wb_arrived`), which is reset to 0 when the
mark completes it.  On the weight core a delta that does not complete the
scoreboard adds the error term of column `inx` of the weights to `w_errors[i]`
and the link term to `w_link_deltas[i][inx]` for every row `i`, leaving the
other link deltas alone; the delta that completes the scoreboard sends, for
every row, the error sum with its term added, before the tick advances. -/
theorem C9_colour_bit_ignored (D : Defines) (tcfg : t_conf_t) (wcfg : w_conf_t)
    (mlpc : global_conf_t) (ex_num_events : Nat → Nat) (key payload : Nat)
    (s : ThresholdCore) (w : WeightCore) :
    t_backpropPacket D tcfg (key ^^^ SPINN_COLOUR_MASK) payload s
        = t_backpropPacket D tcfg key payload s
    ∧ (t_backpropPacket D tcfg key payload s).1.tb_arrived
        = (if (if D.SPINN_USE_COUNTER_SB = false
                then s.tb_arrived ||| uint (1 <<< (key &&& SPINN_ERROR_MASK))
                else uint (s.tb_arrived + 1)) = tcfg.b_all_arrived
            then 0
            else (if D.SPINN_USE_COUNTER_SB = false
                then s.tb_arrived ||| uint (1 <<< (key &&& SPINN_ERROR_MASK))
                else uint (s.tb_arrived + 1)))
    ∧ (t_backpropPacket D tcfg key payload s).1.t_errors s.tb_comms
          (key &&& SPINN_ERROR_MASK)
        = to_signed D.error_bits payload
    ∧ wb_process_packet D wcfg mlpc ex_num_events (key ^^^ SPINN_COLOUR_MASK) payload w
        = wb_process_packet D wcfg mlpc ex_num_events key payload w
    ∧ (wb_process_packet D wcfg mlpc ex_num_events key payload w).1.wb_arrived
        = (if (if D.SPINN_USE_COUNTER_SB = false
                then w.wb_arrived ||| uint (1 <<< (key &&& SPINN_DELTA_MASK))
                else uint (w.wb_arrived + 1)) = wcfg.b_all_arrived
            then 0
            else (if D.SPINN_USE_COUNTER_SB = false
                then w.wb_arrived ||| uint (1 <<< (key &&& SPINN_DELTA_MASK))
                else uint (w.wb_arrived + 1)))
    ∧ ((if D.SPINN_USE_COUNTER_SB = false
            then w.wb_arrived ||| uint (1 <<< (key &&& SPINN_DELTA_MASK))
            else uint (w.wb_arrived + 1)) ≠ wcfg.b_all_arrived →
        (wb_process_packet D wcfg mlpc ex_num_events key payload w).2 = []
        ∧ ∀ i, i < wcfg.num_rows →
          (wb_process_packet D wcfg mlpc ex_num_events key payload w).1.w_errors i
            = to_signed D.error_bits
                (w.w_errors i + wb_error_term D w.w_weights i (key, payload))
          ∧ (wb_process_packet D wcfg mlpc ex_num_events key payload w).1.w_link_deltas
                i (key &&& SPINN_DELTA_MASK)
            = to_signed D.long_delta_bits
                (w.w_link_deltas i (key &&& SPINN_DELTA_MASK)
                  + wb_link_term D wcfg w i payload)
          ∧ ∀ j, j ≠ key &&& SPINN_DELTA_MASK →
              (wb_process_packet D wcfg mlpc ex_num_events key payload w).1.w_link_deltas
                i j = w.w_link_deltas i j)
    ∧ ((if D.SPINN_USE_COUNTER_SB = false
            then w.wb_arrived ||| uint (1 <<< (key &&& SPINN_DELTA_MASK))
            else uint (w.wb_arrived + 1)) = wcfg.b_all_arrived →
        ∃ tr, (wb_process_packet D wcfg mlpc ex_num_events key payload w).2
          = (List.range wcfg.num_rows).map (fun i =>
                Event.send_mc_packet (w.bkpKey ||| i)
                  ((to_signed D.error_bits
                    (w.w_errors i + wb_error_term D w.w_weights i (key, payload))
                    % 2 ^ 32).toNat) true)
              ++ tr) := by
  have hE : (key ^^^ SPINN_COLOUR_MASK) &&& SPINN_ERROR_MASK = key &&& SPINN_ERROR_MASK :=
    xor_and_of_disjoint key _ _ (by decide)
  have hDm : (key ^^^ SPINN_COLOUR_MASK) &&& SPINN_DELTA_MASK = key &&& SPINN_DELTA_MASK :=
    xor_and_of_disjoint key _ _ (by decide)
  refine ⟨?_, ?_, ?_, ?_, ?_, ?_, ?_⟩
  · unfold t_backpropPacket
    simp only [hE]
  · exact t_backpropPacket_arrived D tcfg key payload s
  · exact t_backpropPacket_stored D tcfg key payload s
  · unfold wb_process_packet
    simp only [hDm]
  · unfold wb_process_packet
    simp only []
    cases hC : D.SPINN_USE_COUNTER_SB <;>
      simp only [wb_process_rows_arrived] <;> split_ifs <;>
      simp_all [wb_advance_tick_arrived, wb_process_rows_arrived]
  · intro h
    have h2 : wb_mark D w.wb_arrived (key &&& SPINN_DELTA_MASK) ≠ wcfg.b_all_arrived := h
    obtain ⟨a1, a2⟩ := wb_process_packet_accumulates D wcfg mlpc ex_num_events key payload
      w h2
    obtain ⟨wo, wl, e⟩ := wb_process_packet_pending D wcfg mlpc ex_num_events key payload
      w h2
    refine ⟨by rw [e], fun i hi => ⟨?_, ?_, fun j hj => ?_⟩⟩
    · rw [a1]
      simp only [hi, if_true]
    · rw [a2]
      simp only [hi, and_self, if_true]
    · rw [a2]
      simp only [hj, and_false, if_false]
  · intro h
    have h2 : wb_mark D w.wb_arrived (key &&& SPINN_DELTA_MASK) = wcfg.b_all_arrived := h
    obtain ⟨wo, wl, ps, sb, e⟩ := wb_process_packet_complete D wcfg mlpc ex_num_events key
      payload w h2
    exact ⟨_, by rw [e]⟩

end PDP2
